import Mathlib

/-!
# IQRF SPI support library: transport and programmer

A shallow embedding of `src/src/IQRF.c`, `src/src/IQRFPgm.c` and
`src/src/IQRFPort.cpp`.

* Bytes (`uint8_t`) and words (`uint16_t`, `uint32_t`) are natural numbers;
  a reduction `% 256`, `% 65536` or `% 4294967296` is written wherever the C
  arithmetic can leave the range of its type.
* Byte arrays are lists; `a[i] = v` is `List.set`, a read `a[i]` is
  `List.getD a i 0`.
* The global variables of the three translation units are gathered in one
  record `World`, passed through every operation.
* The bus, the clock and the code file are the environment: the byte that the
  module returns on a transfer is an argument of the driver step, the code
  file is the list of bytes not yet read, the clock is a counter advanced by
  the delays.
* `World.trace` is a ghost record of the calls made to the ports and of the
  packets handed to `iqrfSendPacket`; no operation reads it.
* An operation that may not return (a busy-wait on the driver, a loop whose
  fuel ran out) has a result in `Option`.
-/

namespace IQRF

/-! ## Constants of `IQRF.h`, `IQRF.c`, `IQRFPgm.h`, `IQRFPgm.c`, `IQRFPort.h` -/

def IQRF_PKT_SIZE : Nat := 68
def SPI_STATUS_POOLING_TIME : Nat := 10

def IQRF_SM_PREPARE_REQUEST : Nat := 0
def IQRF_SM_SEND_REQUEST : Nat := 1
def IQRF_SM_PROCESS_REQUEST : Nat := 2
def IQRF_SM_REQUEST_OK : Nat := 3
def IQRF_SM_REQUEST_ERR : Nat := 4

def IQRF_READY : Nat := 0x00
def IQRF_READ : Nat := 0x01
def IQRF_WRITE : Nat := 0x02

def IQRF_OPERATION_OK : Nat := 0
def IQRF_OPERATION_IN_PROGRESS : Nat := 1
def IQRF_TR_MODULE_WRITE_ERR : Nat := 2
def IQRF_TR_MODULE_NOT_READY : Nat := 3
def IQRF_WRONG_DATA_SIZE : Nat := 4

def NO_MODULE : Nat := 0xFF
def SPI_DATA_TRANSFER : Nat := 0xFD
def SPI_DISABLED : Nat := 0x00
def SPI_CRCM_OK : Nat := 0x3F
def SPI_CRCM_ERR : Nat := 0x3E
def COMMUNICATION_MODE : Nat := 0x80
def PROGRAMMING_MODE : Nat := 0x81
def DEBUG_MODE : Nat := 0x82
def SPI_SLOW_MODE : Nat := 0x83
def SPI_USER_STOP : Nat := 0x07

def SPI_CHECK : Nat := 0x00
def SPI_WR_RD : Nat := 0xF0
def SPI_RAM_READ : Nat := 0xF1
def SPI_EEPROM_READ : Nat := 0xF2
def SPI_EEPROM_PGM : Nat := 0xF3
def SPI_MODULE_INFO : Nat := 0xF5
def SPI_FLASH_PGM : Nat := 0xF6
def SPI_PLUGIN_PGM : Nat := 0xF9

def IQRF_BUFFER_FREE : Nat := 0x00
def IQRF_BUFFER_BUSY : Nat := 0x01

def IQRF_PGM_SUCCESS : Nat := 200
def IQRF_PGM_FLASH_BLOCK_READY : Nat := 220
def IQRF_PGM_EEPROM_BLOCK_READY : Nat := 221
def IQRF_PGM_ERROR : Nat := 222

def IQRF_PGM_FILE_DATA_READY : Nat := 0
def IQRF_PGM_FILE_DATA_ERROR : Nat := 1
def IQRF_PGM_END_OF_FILE : Nat := 2

def IQRF_PGM_HEX_FILE_TYPE : Nat := 1
def IQRF_PGM_PLUGIN_FILE_TYPE : Nat := 2
def IQRF_PGM_CFG_FILE_TYPE : Nat := 3
def IQRF_PGM_KEY_FILE_TYPE : Nat := 5

def SERIAL_EEPROM_MIN_ADR : Nat := 0x0200
def SERIAL_EEPROM_MAX_ADR : Nat := 0x09FF
def IQRF_LICENCED_MEM_MIN_ADR : Nat := 0x2C00
def IQRF_LICENCED_MEM_MAX_ADR : Nat := 0x37FF
def IQRF_CONFIG_MEM_L_ADR : Nat := 0x37C0
def IQRF_CONFIG_MEM_H_ADR : Nat := 0x37D0
def IQRF_MAIN_MEM_MIN_ADR : Nat := 0x3A00
def IQRF_MAIN_MEM_MAX_ADR : Nat := 0x3FFF
def PIC16LF1938_EEPROM_MIN : Nat := 0xf000
def PIC16LF1938_EEPROM_MAX : Nat := 0xf0ff
def RFPGM_CFG_ADR : Nat := 0xC1

def ACCESS_PASSWORD_CFG_ADR : Nat := 0xD0
def USER_KEY_CFG_ADR : Nat := 0xD1

def MCU_UNKNOWN : Nat := 0

def SIZE_OF_CODE_LINE_BUFFER : Nat := 32
def TICKS_IN_SECOND : Nat := 1000

/-! ## Data model -/

/-- The objects a `uint8_t *` handed to `iqrfSendPacket` can point into: a
buffer of the caller (its bytes), or one of the library's own arrays, read
when the driver copies the payload. -/
inductive BufPtr where
  | user (bytes : List Nat)
  | memoryBlock (offset : Nat)
  | codeLineBuffer
  | dataToModule
deriving DecidableEq, Repr

/-- The function a `T_IQRF_RX_HANDLER` variable designates. -/
inductive RxHandler where
  | null
  | trInfoProcess
  | user
deriving DecidableEq, Repr

/-- Ghost record of one call to a port or to `iqrfSendPacket`. -/
inductive Event where
  | select
  | transfer (tx rx : Nat)
  | deselect
  | rxHandler (h : RxHandler) (data : List Nat) (size : Nat)
  | sendPacket (cmd : Nat) (data : List Nat) (len : Nat)
  | powerOff
  | powerOn
  | delay (ms : Nat)
  | enterPgmMode
deriving DecidableEq, Repr

/-- The struct `T_IQRF_SPI_CONTROL` of `IQRF.c`. -/
structure T_IQRF_SPI_CONTROL where
  SpiStat : Nat := 0
  DLEN : Nat := 0
  CMD : Nat := 0
  PTYPE : Nat := 0
  CRCM : Nat := 0
  MyCRCS : Nat := 0
  CRCS : Nat := 0
  PacketLen : Nat := 0
  PacketCnt : Nat := 0
  PacketRpt : Nat := 0
  PacketTxBuffer : List Nat := List.replicate 68 0
  PacketRxBuffer : List Nat := List.replicate 68 0
deriving DecidableEq, Repr

/-- The struct `T_IQRF_PACKET` of `IQRF.c`: the single-slot mailbox. -/
structure T_IQRF_PACKET where
  BufferFlag : Nat := 0
  SpiCmd : Nat := 0
  DataBuffer : BufPtr := BufPtr.user []
  DataLength : Nat := 0
deriving DecidableEq, Repr

/-- The struct `T_IQRF_CONTROL` of `IQRFPort.h`. -/
structure T_IQRF_CONTROL where
  Status : Nat := 0
  SuspendFlag : Bool := false
  TRmoduleSelected : Bool := false
  FastSPI : Bool := false
  TimeCnt : Nat := 0
  IqrfRxHandler : RxHandler := RxHandler.null
deriving DecidableEq, Repr

/-- The struct `IQRF_PGM_FILE_INFO` of `IQRFPort.h`. -/
structure IQRF_PGM_FILE_INFO where
  FileByteCnt : Nat := 0
  FileSize : Nat := 0
  FileType : Nat := 0
deriving DecidableEq, Repr

/-- The struct `PREPARE_MEM_BLOCK` of `IQRFPgm.c`. -/
structure PREPARE_MEM_BLOCK where
  HiAddress : Nat := 0
  Address : Nat := 0
  MemoryBlockNumber : Nat := 0
  MemoryBlockProcessState : Nat := 0
  DataInBufferReady : Nat := 0
  DataOverflow : Nat := 0
  MemoryBlock : List Nat := List.replicate 68 0
deriving DecidableEq, Repr

/-- The struct `T_TR_INFO_STRUCT` of `IQRF.h`, with the array `Ibk` that
`IQRF.c` writes (its declaration is not in the header at hand). -/
structure T_TR_INFO_STRUCT where
  OsVersion : Nat := 0
  OsBuild : Nat := 0
  ModuleId : Nat := 0
  McuType : Nat := 0
  ModuleType : Nat := 0
  Fcc : Nat := 0
  ModuleInfoRawData : List Nat := List.replicate 8 0
  Ibk : List Nat := List.replicate 16 0
deriving DecidableEq, Repr

/-- The static state enum of `iqrfPgmCheckCodeFile`. -/
inductive CheckCodeTask where
  | INIT_TASK
  | CHECK_PLUGIN_CODE
  | CHECK_HEX_CODE
  | CHECK_CFG_CODE
deriving DecidableEq, Repr

/-- The static state enum of `iqrfPgmWriteCodeFile`. -/
inductive WriteCodeTask where
  | INIT_TASK
  | ENTER_PROG_MODE
  | WAIT_PROG_MODE
  | WRITE_PLUGIN
  | WRITE_HEX
  | WAIT_PROG_END
  | PROG_END
deriving DecidableEq, Repr

/-- The static variables of `iqrfPgmWriteCodeFile`. -/
structure WriteCodeStatics where
  WriteCodeTaskSM : WriteCodeTask := WriteCodeTask.INIT_TASK
  Attempts : Nat := 0
  OperationResult : Nat := 0
  SysTickTime : Nat := 0
deriving DecidableEq, Repr

/-- The static state enum of `iqrfTrInfoTask`. -/
inductive TrInfoTaskState where
  | INIT_TASK
  | ENTER_PROG_MODE
  | SEND_REQUEST
  | WAIT_INFO
  | DONE
deriving DecidableEq, Repr

/-- The static variables of `iqrfTrInfoTask`. -/
structure TrInfoStatics where
  DataToModule : List Nat := List.replicate 32 0
  Attempts : Nat := 0
  SysTickTime : Nat := 0
  TrInfoTaskSM : TrInfoTaskState := TrInfoTaskState.INIT_TASK
deriving DecidableEq, Repr

/-- The static state enum of `iqrfPgmWriteKeyOrPass`. -/
inductive KeyOrPassTask where
  | INIT_TASK
  | ENTER_PROG_MODE
  | WAIT_PROG_MODE
  | WAIT_PROG_END
  | PROG_END
deriving DecidableEq, Repr

/-- The static variables of `iqrfPgmWriteKeyOrPass`. -/
structure KeyOrPassStatics where
  WriteCodeTaskSM : KeyOrPassTask := KeyOrPassTask.INIT_TASK
  Attempts : Nat := 0
  OperationResult : Nat := 0
  SysTickTime : Nat := 0
deriving DecidableEq, Repr

/-- All global and static variables of the library, the environment (code
file, clock) and the ghost trace. The default value is the state at program
start: C zero-initialises objects of static storage duration. -/
structure World where
  IqrfControl : T_IQRF_CONTROL := {}
  IqrfSpiControl : T_IQRF_SPI_CONTROL := {}
  IqrfPacket : T_IQRF_PACKET := {}
  IqrfDataSenderSM : Nat := IQRF_SM_PREPARE_REQUEST
  IqrfTrInfoStruct : T_TR_INFO_STRUCT := {}
  IqrfTrInfoReading : Nat := 0
  CodeFileInfo : IQRF_PGM_FILE_INFO := {}
  IqrfPgmCodeLineBuffer : List Nat := List.replicate 32 0
  PrepareMemBlock : PREPARE_MEM_BLOCK := {}
  CheckCodeTaskSM : CheckCodeTask := CheckCodeTask.INIT_TASK
  WriteCode : WriteCodeStatics := {}
  KeyOrPass : KeyOrPassStatics := {}
  TrInfoTask : TrInfoStatics := {}
  CodeFile : List Nat := []
  SysTick : Nat := 0
  trace : List Event := []
deriving DecidableEq, Repr

/-! ## Memory helpers -/

/-- The `n` bytes starting at `src[off]`. -/
def readBytes (src : List Nat) (off n : Nat) : List Nat :=
  (List.range n).map (fun i => src.getD (off + i) 0)

/-- The C `memcpy(&dst[off], src, src.length)`. -/
def memcpy (dst : List Nat) (off : Nat) : List Nat → List Nat
  | [] => dst
  | b :: bs => memcpy (dst.set off b) (off + 1) bs

/-- The C `memset(&dst[off], v, n)`. -/
def memset (dst : List Nat) (off v : Nat) : Nat → List Nat
  | 0 => dst
  | n + 1 => memset (dst.set off v) (off + 1) v n

/-- The `n` bytes a `BufPtr` designates, read now. -/
def deref (w : World) (p : BufPtr) (n : Nat) : List Nat :=
  match p with
  | BufPtr.user bytes => readBytes bytes 0 n
  | BufPtr.memoryBlock off => readBytes w.PrepareMemBlock.MemoryBlock off n
  | BufPtr.codeLineBuffer => readBytes w.IqrfPgmCodeLineBuffer 0 n
  | BufPtr.dataToModule => readBytes w.TrInfoTask.DataToModule 0 n

/-! ## Ports (`IQRFPort.cpp`) -/

/-- The port `iqrfDeselectTRmodule`. -/
def iqrfDeselectTRmodule (w : World) : World :=
  { w with
    IqrfControl := { w.IqrfControl with TRmoduleSelected := false }
    trace := w.trace ++ [Event.deselect] }

/-- The port `iqrfSendSpiByte`; `rx` is the byte the module shifts out during
this transfer. -/
def iqrfSendSpiByte (w : World) (Tx_Byte rx : Nat) : World × Nat :=
  let w1 : World :=
    if w.IqrfControl.TRmoduleSelected = false then
      { w with
        IqrfControl := { w.IqrfControl with TRmoduleSelected := true }
        trace := w.trace ++ [Event.select] }
    else w
  let w2 : World := { w1 with trace := w1.trace ++ [Event.transfer Tx_Byte (rx % 256)] }
  let w3 : World := if w2.IqrfControl.FastSPI = false then iqrfDeselectTRmodule w2 else w2
  (w3, rx % 256)

/-- The port `iqrfReadByteFromFile`: the next byte of the code file, or 0 at
the end of the file. -/
def iqrfReadByteFromFile (w : World) : World × Nat :=
  match w.CodeFile with
  | [] => (w, 0)
  | b :: rest =>
    ({ w with
       CodeFile := rest
       CodeFileInfo := { w.CodeFileInfo with
         FileByteCnt := (w.CodeFileInfo.FileByteCnt + 1) % 65536 } },
     b % 256)

/-! ## Checksums (`IQRF.c`) -/

/-- The loop `for (I = lo; I < hi; I++) Crc ^= Buffer[I]`, `cnt = hi - lo`. -/
def xorLoop (Buffer : List Nat) (Crc I : Nat) : Nat → Nat
  | 0 => Crc
  | cnt + 1 => xorLoop Buffer (Crc ^^^ Buffer.getD I 0) (I + 1) cnt

/-- The function `iqrfCrcCalculate` (for `DataLength <= 253`; the `uint8_t`
loop counter of the source cannot reach a larger bound). -/
def iqrfCrcCalculate (Buffer : List Nat) (DataLength : Nat) : Nat :=
  xorLoop Buffer 0x5F 0 (DataLength + 2)

/-- The function `iqrfCrcCheck` (for `DataLength <= 253`, as above). -/
def iqrfCrcCheck (Buffer : List Nat) (DataLength Ptype : Nat) : Bool :=
  let Crc := xorLoop Buffer (0x5F ^^^ Ptype) 2 DataLength
  if Buffer.getD (DataLength + 2) 0 = Crc then true else false

/-! ## Packet transport (`IQRF.c`) -/

/-- The function `iqrfSendPacket`. -/
def iqrfSendPacket (w : World) (SpiCmd : Nat) (UserDataBuffer : BufPtr)
    (UserDataLength : Nat) : World :=
  { w with
    IqrfPacket :=
      { BufferFlag := IQRF_BUFFER_BUSY
        SpiCmd := SpiCmd
        DataBuffer := UserDataBuffer
        DataLength := UserDataLength }
    trace := w.trace ++
      [Event.sendPacket SpiCmd (deref w UserDataBuffer UserDataLength) UserDataLength] }

/-- The function `iqrfSendData`. The result is `none` when the source returns
the uninitialised `OperationResult` (a state variable outside the five
defined states). -/
def iqrfSendData (w : World) (DataBuffer : BufPtr) (DataLength : Nat) :
    World × Option Nat :=
  let TempSize := DataLength
  if w.IqrfDataSenderSM = IQRF_SM_PREPARE_REQUEST then
    if w.IqrfSpiControl.SpiStat = SPI_DATA_TRANSFER then
      (w, some IQRF_OPERATION_IN_PROGRESS)
    else if w.IqrfSpiControl.SpiStat ≠ COMMUNICATION_MODE then
      (w, some IQRF_TR_MODULE_NOT_READY)
    else if DataLength = 0 ∨ DataLength > 64 then
      (w, some IQRF_WRONG_DATA_SIZE)
    else
      ({ w with IqrfDataSenderSM := IQRF_SM_SEND_REQUEST }, some IQRF_OPERATION_IN_PROGRESS)
  else if w.IqrfDataSenderSM = IQRF_SM_SEND_REQUEST then
    let w1 := iqrfSendPacket w SPI_WR_RD DataBuffer TempSize
    ({ w1 with IqrfDataSenderSM := IQRF_SM_PROCESS_REQUEST }, some IQRF_OPERATION_IN_PROGRESS)
  else if w.IqrfDataSenderSM = IQRF_SM_PROCESS_REQUEST then
    (w, some IQRF_OPERATION_IN_PROGRESS)
  else if w.IqrfDataSenderSM = IQRF_SM_REQUEST_OK then
    ({ w with IqrfDataSenderSM := IQRF_SM_PREPARE_REQUEST }, some IQRF_OPERATION_OK)
  else if w.IqrfDataSenderSM = IQRF_SM_REQUEST_ERR then
    ({ w with IqrfDataSenderSM := IQRF_SM_PREPARE_REQUEST }, some IQRF_TR_MODULE_WRITE_ERR)
  else
    ({ w with IqrfDataSenderSM := IQRF_SM_PREPARE_REQUEST }, none)

/-- The function `iqrfSuspendDriver`. The source spins while an exchange is
in flight, waiting for the timer interrupt to finish it; no interrupt runs
inside a call of the model, so there the call does not return. -/
def iqrfSuspendDriver (w : World) : Option World :=
  if w.IqrfControl.Status = IQRF_READ ∨ w.IqrfControl.Status = IQRF_WRITE then none
  else some
    { w with
      IqrfControl := { w.IqrfControl with SuspendFlag := true }
      IqrfSpiControl := { w.IqrfSpiControl with SpiStat := SPI_DISABLED } }

/-- The function `iqrfRunDriver`. -/
def iqrfRunDriver (w : World) : World :=
  { w with IqrfControl := { w.IqrfControl with SuspendFlag := false } }

/-- The function `iqrfGetSpiStatus`. -/
def iqrfGetSpiStatus (w : World) : Nat := w.IqrfSpiControl.SpiStat

/-- The function `iqrfGetLibraryStatus`. -/
def iqrfGetLibraryStatus (w : World) : Nat := w.IqrfControl.Status

/-- The function `iqrfGetTxBufferStatus`. -/
def iqrfGetTxBufferStatus (w : World) : Nat := w.IqrfPacket.BufferFlag

/-- The function `iqrfTrInfoProcess`; `DataBuffer` holds the bytes from the
address passed on. -/
def iqrfTrInfoProcess (w : World) (DataBuffer : List Nat) : World :=
  let D := fun i => DataBuffer.getD i 0
  if w.IqrfTrInfoReading = 4 then
    let OsVersion := (((D 4 / 16) <<< 8) % 65536) ||| (D 4 % 16)
    let info : T_TR_INFO_STRUCT :=
      { w.IqrfTrInfoStruct with
        ModuleInfoRawData := memcpy w.IqrfTrInfoStruct.ModuleInfoRawData 0 (readBytes DataBuffer 0 8)
        ModuleId := (((D 0 <<< 24) % 4294967296) ||| ((D 1 <<< 16) % 4294967296)
          ||| ((D 2 <<< 8) % 4294967296) ||| D 3)
        OsVersion := OsVersion
        McuType := D 5 &&& 0x07
        Fcc := (D 5 &&& 0x08) >>> 3
        ModuleType := D 5 >>> 4
        OsBuild := ((D 7 <<< 8) % 65536) ||| D 6 }
    if (OsVersion >>> 8) > 4 ∨ ((OsVersion >>> 8) = 4 ∧ (OsVersion &&& 0x00FF) ≥ 3) then
      { w with IqrfTrInfoStruct := info, IqrfTrInfoReading := 2 }
    else
      { w with IqrfTrInfoStruct := info, IqrfTrInfoReading := 1 }
  else
    { w with
      IqrfTrInfoStruct := { w.IqrfTrInfoStruct with
        Ibk := memcpy w.IqrfTrInfoStruct.Ibk 0 (readBytes DataBuffer 16 16) }
      IqrfTrInfoReading := 1 }

/-- The call `IqrfControl.IqrfRxHandler(&PacketRxBuffer[2], DLEN)`, for a
handler that is registered. The call is recorded in the trace; the library's
own handler is run, the handler of the user leaves the library's variables
alone. (With no handler registered the source calls through a null pointer,
which is undefined: the value the definition has there, the record of a call
and nothing else, is not the source's, and what is proved of a handler call
takes a handler registered.) -/
def callRxHandler (w : World) : World :=
  let w1 : World :=
    { w with trace := w.trace ++
        [Event.rxHandler w.IqrfControl.IqrfRxHandler
          (readBytes w.IqrfSpiControl.PacketRxBuffer 2 w.IqrfSpiControl.DLEN)
          w.IqrfSpiControl.DLEN] }
  match w.IqrfControl.IqrfRxHandler with
  | RxHandler.trInfoProcess =>
    iqrfTrInfoProcess w1 (readBytes w.IqrfSpiControl.PacketRxBuffer 2 66)
  | _ => w1

/-- The branch of `iqrfSpiDriver` taken when the exchanged frame validates. -/
def frameAccepted (w : World) : World :=
  let w1 := if w.IqrfControl.Status = IQRF_READ then callRxHandler w else w
  let w2 : World :=
    if w1.IqrfControl.Status = IQRF_WRITE ∧ w1.IqrfDataSenderSM = IQRF_SM_PROCESS_REQUEST then
      { w1 with IqrfDataSenderSM := IQRF_SM_REQUEST_OK }
    else w1
  { w2 with IqrfControl := { w2.IqrfControl with Status := IQRF_READY } }

/-- The branch of `iqrfSpiDriver` taken when the exchanged frame is rejected. -/
def frameRejected (w : World) : World :=
  let rpt := (w.IqrfSpiControl.PacketRpt + 255) % 256
  let w1 : World := { w with IqrfSpiControl := { w.IqrfSpiControl with PacketRpt := rpt } }
  if rpt ≠ 0 then
    { w1 with IqrfSpiControl := { w1.IqrfSpiControl with PacketCnt := 0 } }
  else
    let w2 : World :=
      if w1.IqrfControl.Status = IQRF_WRITE ∧ w1.IqrfDataSenderSM = IQRF_SM_PROCESS_REQUEST then
        { w1 with IqrfDataSenderSM := IQRF_SM_REQUEST_ERR }
      else w1
    { w2 with IqrfControl := { w2.IqrfControl with Status := IQRF_READY } }

/-- The test `PacketRxBuffer[DLEN + 3] == SPI_CRCM_OK && iqrfCrcCheck(...)` of
`iqrfSpiDriver`. -/
def frameValid (w : World) : Bool :=
  (w.IqrfSpiControl.PacketRxBuffer.getD (w.IqrfSpiControl.DLEN + 3) 0 == SPI_CRCM_OK)
    && iqrfCrcCheck w.IqrfSpiControl.PacketRxBuffer w.IqrfSpiControl.DLEN w.IqrfSpiControl.PTYPE

/-- The statements `PacketRxBuffer[PacketCnt] = iqrfSendSpiByte(
PacketTxBuffer[PacketCnt]); PacketCnt++;` of `iqrfSpiDriver`. -/
def receiveByte (w : World) (rx : Nat) : World :=
  let r := iqrfSendSpiByte w (w.IqrfSpiControl.PacketTxBuffer.getD w.IqrfSpiControl.PacketCnt 0) rx
  let w1 := r.1
  { w1 with IqrfSpiControl := { w1.IqrfSpiControl with
      PacketRxBuffer := w1.IqrfSpiControl.PacketRxBuffer.set w1.IqrfSpiControl.PacketCnt r.2
      PacketCnt := (w1.IqrfSpiControl.PacketCnt + 1) % 256 } }

/-- The body of `if (PacketCnt == PacketLen || PacketCnt == IQRF_PKT_SIZE)` in
`iqrfSpiDriver`: deselect, validate, accept or reject. -/
def completeFrame (w : World) : World :=
  let w3 := iqrfDeselectTRmodule w
  if frameValid w3 then frameAccepted w3 else frameRejected w3

/-- The first branch of `iqrfSpiDriver`: one byte of the exchange in flight. -/
def exchangeByte (w : World) (rx : Nat) : World :=
  let w2 := receiveByte w rx
  if w2.IqrfSpiControl.PacketCnt = w2.IqrfSpiControl.PacketLen
      ∨ w2.IqrfSpiControl.PacketCnt = IQRF_PKT_SIZE then
    completeFrame w2
  else w2

/-- The read request `iqrfSpiDriver` builds when the status says data ready. -/
def startRead (w : World) : World :=
  let tx0 := List.replicate 68 0
  let DLEN := if w.IqrfSpiControl.SpiStat = 0x40 then 64 else w.IqrfSpiControl.SpiStat &&& 0x3F
  let PTYPE := DLEN
  let tx1 := (tx0.set 0 SPI_WR_RD).set 1 PTYPE
  let tx2 := tx1.set (DLEN + 2) (iqrfCrcCalculate tx1 DLEN)
  { w with
    IqrfSpiControl := { w.IqrfSpiControl with
      PacketTxBuffer := tx2
      DLEN := DLEN
      PTYPE := PTYPE
      PacketLen := (DLEN + 4) % 256
      PacketCnt := 0
      PacketRpt := 1
      SpiStat := SPI_DATA_TRANSFER }
    IqrfControl := { w.IqrfControl with Status := IQRF_READ } }

/-- The frame `iqrfSpiDriver` builds from the mailbox (for `DataLength <= 64`:
a longer payload leaves the 68-byte buffer in the source). -/
def startWrite (w : World) : World :=
  let tx0 := List.replicate 68 0
  let DLEN := w.IqrfPacket.DataLength
  let info := decide (w.IqrfPacket.SpiCmd = SPI_MODULE_INFO ∧ (DLEN = 16 ∨ DLEN = 32))
  let PTYPE := if info then (DLEN ||| 0x80) &&& 0x7F else DLEN ||| 0x80
  let Status := if info then IQRF_READ else IQRF_WRITE
  let tx1 := (tx0.set 0 w.IqrfPacket.SpiCmd).set 1 PTYPE
  let tx2 := memcpy tx1 2 (deref w w.IqrfPacket.DataBuffer DLEN)
  let tx3 := tx2.set (DLEN + 2) (iqrfCrcCalculate tx2 DLEN)
  { w with
    IqrfSpiControl := { w.IqrfSpiControl with
      PacketTxBuffer := tx3
      DLEN := DLEN
      PTYPE := PTYPE
      PacketLen := (DLEN + 4) % 256
      PacketCnt := 0
      PacketRpt := 3
      SpiStat := SPI_DATA_TRANSFER }
    IqrfControl := { w.IqrfControl with Status := Status }
    IqrfPacket := { w.IqrfPacket with BufferFlag := IQRF_BUFFER_FREE } }

/-- The second branch of `iqrfSpiDriver`: the status poll. -/
def statusPoll (w : World) (rx : Nat) : World :=
  let r := iqrfSendSpiByte w SPI_CHECK rx
  let w1 : World := { r.1 with IqrfSpiControl := { r.1.IqrfSpiControl with SpiStat := r.2 } }
  let w2 := iqrfDeselectTRmodule w1
  if w2.IqrfSpiControl.SpiStat &&& 0xC0 = 0x40 then startRead w2
  else if w2.IqrfPacket.BufferFlag = IQRF_BUFFER_BUSY then startWrite w2
  else w2

/-- The function `iqrfSpiDriver`; `rx` is the byte the module returns on the
one transfer the call makes. -/
def iqrfSpiDriver (w : World) (rx : Nat) : World :=
  if w.IqrfControl.Status ≠ IQRF_READY then exchangeByte w rx else statusPoll w rx

/-- The function `iqrfDriver`, the timer callback. -/
def iqrfDriver (w : World) (rx : Nat) : World :=
  if w.IqrfControl.SuspendFlag then w
  else
    let w1 : World :=
      if w.IqrfControl.Status = IQRF_READ ∨ w.IqrfControl.Status = IQRF_WRITE
          ∨ w.IqrfControl.TimeCnt = 0 then
        let w2 := iqrfSpiDriver w rx
        { w2 with IqrfControl := { w2.IqrfControl with
            TimeCnt := if w2.IqrfControl.FastSPI = true then SPI_STATUS_POOLING_TIME * 5 + 1
                       else SPI_STATUS_POOLING_TIME + 1 } }
      else w
    { w1 with IqrfControl := { w1.IqrfControl with
        TimeCnt := (w1.IqrfControl.TimeCnt + 255) % 256 } }

/-! ## File line parsers (`IQRFPgm.c`) -/

/-- Modelled from the C standard library: `tolower` in the C locale (the
function is not part of the repository). -/
def tolower (c : Nat) : Nat := if 65 ≤ c ∧ c ≤ 90 then c + 32 else c

/-- The function `iqrfPgmConvertToNum`. -/
def iqrfPgmConvertToNum (dataByteHi dataByteLo : Nat) : Nat :=
  let result0 : Nat := 0
  let result1 :=
    if dataByteHi ≥ 48 ∧ dataByteHi ≤ 57 then ((dataByteHi - 48) <<< 4) % 256
    else if dataByteHi ≥ 97 ∧ dataByteHi ≤ 102 then ((dataByteHi - 87) <<< 4) % 256
    else result0
  if dataByteLo ≥ 48 ∧ dataByteLo ≤ 57 then result1 ||| (dataByteLo - 48)
  else if dataByteLo ≥ 97 ∧ dataByteLo ≤ 102 then result1 ||| (dataByteLo - 87)
  else result1

/-- The loop `while (((Sign = iqrfReadByteFromFile()) != 0) && (Sign != ':'))`
of `iqrfPgmReadHEXFileLine`; the result is the state and `Sign`. -/
def findStartOfLine : Nat → World → Option (World × Nat)
  | 0, _ => none
  | fuel + 1, w =>
    let r := iqrfReadByteFromFile w
    if r.2 ≠ 0 ∧ r.2 ≠ 0x3A then findStartOfLine fuel r.1 else some r

/-- The `for ( ; ; )` loop of `iqrfPgmReadHEXFileLine`. -/
def readHexPairs : Nat → World → Nat → Nat → Option (World × Nat)
  | 0, _, _, _ => none
  | fuel + 1, w, CodeLineBufferPtr, CodeLineBufferCrc =>
    let r1 := iqrfReadByteFromFile w
    let DataByteHi := tolower r1.2
    if DataByteHi = 0x0A ∨ DataByteHi = 0x0D then
      if CodeLineBufferCrc ≠ 0 then some (r1.1, IQRF_PGM_FILE_DATA_ERROR)
      else some (r1.1, IQRF_PGM_FILE_DATA_READY)
    else
      let r2 := iqrfReadByteFromFile r1.1
      let DataByteLo := tolower r2.2
      let DataByte := iqrfPgmConvertToNum DataByteHi DataByteLo
      let crc := (CodeLineBufferCrc + DataByte) % 256
      let w3 : World :=
        { r2.1 with IqrfPgmCodeLineBuffer := r2.1.IqrfPgmCodeLineBuffer.set CodeLineBufferPtr DataByte }
      let ptr := (CodeLineBufferPtr + 1) % 256
      if ptr ≥ SIZE_OF_CODE_LINE_BUFFER then some (w3, IQRF_PGM_FILE_DATA_ERROR)
      else readHexPairs fuel w3 ptr crc

/-- The function `iqrfPgmReadHEXFileLine`. The first loop ends at the latest
when the file is exhausted, the second after 32 stored bytes: the fuel given
to them is never used up. -/
def iqrfPgmReadHEXFileLine (w : World) : Option (World × Nat) :=
  match findStartOfLine (w.CodeFile.length + 1) w with
  | none => none
  | some (w1, Sign) =>
    if Sign = 0 then some (w1, IQRF_PGM_END_OF_FILE)
    else readHexPairs SIZE_OF_CODE_LINE_BUFFER w1 0 0

/-- The loop `while (((FirstChar = iqrfReadByteFromFile()) != 0) &&
(FirstChar != 0x0D))` of `iqrfPgmReadIQRFFileLine`. -/
def skipComment : Nat → World → Option (World × Nat)
  | 0, _ => none
  | fuel + 1, w =>
    let r := iqrfReadByteFromFile w
    if r.2 ≠ 0 ∧ r.2 ≠ 0x0D then skipComment fuel r.1 else some r

/-- The body of `iqrfPgmReadIQRFFileLine` from the label `repeat_read`. -/
def readIQRFLoop : Nat → World → Nat → Option (World × Nat)
  | 0, _, _ => none
  | fuel + 1, w, CodeLineBufferPtr =>
    let r1 := iqrfReadByteFromFile w
    match (if tolower r1.2 = 0x23 then skipComment (r1.1.CodeFile.length + 1) r1.1
           else some (r1.1, tolower r1.2)) with
    | none => none
    | some (w1, FirstChar) =>
      if FirstChar = 0x0D then
        let w2 := (iqrfReadByteFromFile w1).1
        if CodeLineBufferPtr = 0 then readIQRFLoop fuel w2 CodeLineBufferPtr
        else if CodeLineBufferPtr = 20 then some (w2, IQRF_PGM_FILE_DATA_READY)
        else some (w2, IQRF_PGM_FILE_DATA_ERROR)
      else if FirstChar = 0 then some (w1, IQRF_PGM_END_OF_FILE)
      else
        let r2 := iqrfReadByteFromFile w1
        let SecondChar := tolower r2.2
        if CodeLineBufferPtr ≥ 20 then some (r2.1, IQRF_PGM_FILE_DATA_ERROR)
        else
          let DataByte := iqrfPgmConvertToNum FirstChar SecondChar
          let w3 : World :=
            { r2.1 with IqrfPgmCodeLineBuffer := r2.1.IqrfPgmCodeLineBuffer.set CodeLineBufferPtr DataByte }
          readIQRFLoop fuel w3 (CodeLineBufferPtr + 1)

/-- The function `iqrfPgmReadIQRFFileLine`. Every pass through `repeat_read`
that does not return consumes a byte of the file. -/
def iqrfPgmReadIQRFFileLine (w : World) : Option (World × Nat) :=
  readIQRFLoop (w.CodeFile.length + 1) w 0

/-! ## Memory block assembler (`IQRFPgm.c`) -/

/-- The function `iqrfPgmMoveOverflowedData`. -/
def iqrfPgmMoveOverflowedData (w : World) : World :=
  let mb0 := w.PrepareMemBlock.MemoryBlock
  let mb1 := memcpy mb0 34 (readBytes mb0 0 34)
  let mb2 := memset mb1 0 0 34
  let MemBlock := (((mb2.getD 35 0) <<< 8) % 65536) ||| mb2.getD 34 0
  let MemoryBlockNumber := (MemBlock + 0x10) % 65536
  let MemBlock1 := (MemBlock + 1) % 65536
  let mb3 := (mb2.set 0 (MemBlock1 &&& 0x00FF)).set 1 ((MemBlock1 >>> 8) % 256)
  { w with PrepareMemBlock := { w.PrepareMemBlock with
      MemoryBlock := mb3
      MemoryBlockNumber := MemoryBlockNumber
      DataOverflow := 0
      MemoryBlockProcessState := 1 } }

/-- The image `FF 3F FF 3F ...` written by the first loop of
`iqrfPgmPrepareMemBlock`. -/
def erasedMemoryBlock : List Nat := (List.replicate 34 [0xFF, 0x3F]).flatten

/-- The copy loop of the serial-memory branch: `DataCounter` bytes from the
even data positions of the line buffer, the destination index wrapping from
68 to 2. The arguments are the bytes left to copy, `Cnt`, `DestinationIndex`
and the image. -/
def copySerial (line : List Nat) : Nat → Nat → Nat → List Nat → List Nat
  | 0, _, _, mb => mb
  | left + 1, Cnt, DestinationIndex, mb =>
    let mb1 := mb.set DestinationIndex (line.getD (2 * Cnt + 4) 0)
    let d1 := (DestinationIndex + 1) % 256
    copySerial line left (Cnt + 1) (if d1 = 68 then 2 else d1) mb1

/-- The serial-memory branch of `iqrfPgmPrepareMemBlock`. The result is the
state and, when the function returns from here, its return value. -/
def prepareSerial (w : World) : World × Option Nat :=
  let Address := w.PrepareMemBlock.Address
  let line := w.IqrfPgmCodeLineBuffer
  let w1 : World :=
    if w.PrepareMemBlock.MemoryBlockNumber = 0 then
      let MemBlock := ((Address - 0x200) / 32) % 65536
      let mb0 := memset w.PrepareMemBlock.MemoryBlock 0 0 68
      let mb1 := (mb0.set 34 (MemBlock &&& 0x00FF)).set 35 ((MemBlock >>> 8) % 256)
      let MemBlock1 := (MemBlock + 1) % 65536
      let mb2 := (mb1.set 0 (MemBlock1 &&& 0x00FF)).set 1 ((MemBlock1 >>> 8) % 256)
      { w with PrepareMemBlock := { w.PrepareMemBlock with
          MemoryBlock := mb2
          MemoryBlockNumber := Address / 32
          MemoryBlockProcessState := 1 } }
    else w
  let MemBlock := Address / 32
  let DestinationIndex := (Address % 32) + 36
  let DataCounter := line.getD 0 0 / 2
  if w1.PrepareMemBlock.MemoryBlockNumber ≠ MemBlock then
    (w1, some IQRF_PGM_FLASH_BLOCK_READY)
  else
    let w2 : World :=
      if DestinationIndex + DataCounter > 68 then
        { w1 with PrepareMemBlock := { w1.PrepareMemBlock with DataOverflow := 1 } }
      else w1
    let w3 : World :=
      { w2 with PrepareMemBlock := { w2.PrepareMemBlock with
          MemoryBlock := copySerial line DataCounter 0 DestinationIndex
            w2.PrepareMemBlock.MemoryBlock } }
    if w3.PrepareMemBlock.DataOverflow ≠ 0 then
      ({ w3 with PrepareMemBlock := { w3.PrepareMemBlock with DataInBufferReady := 0 } },
        some IQRF_PGM_FLASH_BLOCK_READY)
    else (w3, none)

/-- The part of the flash branches shared by the main and the licensed
area, for the area's upper bound `maxAdr`: truncation, image overflow test,
block change test. The result is the data counter, or the value returned. -/
def flashChecks (w : World) (maxAdr DestinationIndex DataCounter MemBlock : Nat) : Nat ⊕ Nat :=
  let DataCounter1 :=
    if w.PrepareMemBlock.Address + DataCounter / 2 > maxAdr then
      ((maxAdr - w.PrepareMemBlock.Address) * 2) % 256
    else DataCounter
  if DestinationIndex + DataCounter1 > 68 then Sum.inr IQRF_PGM_ERROR
  else if w.PrepareMemBlock.MemoryBlockNumber ≠ 0
      ∧ w.PrepareMemBlock.MemoryBlockNumber ≠ MemBlock then Sum.inr IQRF_PGM_FLASH_BLOCK_READY
  else Sum.inl DataCounter1

/-- The statements under `if (ValidAddress)`: the record is copied into the
image of its flash page. -/
def storeFlash (w : World) (DestinationIndex DataCounter MemBlock : Nat) : World :=
  let MemBlock1 := (MemBlock * 32) % 65536
  let mb1 := (w.PrepareMemBlock.MemoryBlock.set 0 (MemBlock1 &&& 0x00FF)).set 1
    ((MemBlock1 >>> 8) % 256)
  let MemBlock2 := (MemBlock1 + 0x0010) % 65536
  let mb2 := (mb1.set 34 (MemBlock2 &&& 0x00FF)).set 35 ((MemBlock2 >>> 8) % 256)
  let mb3 := memcpy mb2 DestinationIndex (readBytes w.IqrfPgmCodeLineBuffer 4 DataCounter)
  { w with PrepareMemBlock := { w.PrepareMemBlock with
      MemoryBlockNumber := MemBlock
      MemoryBlockProcessState := 2
      MemoryBlock := mb3 } }

/-- The branch of `iqrfPgmPrepareMemBlock` for the internal EEPROM. -/
def prepareEeprom (w : World) (DataCounter : Nat) : World × Option Nat :=
  if w.PrepareMemBlock.MemoryBlockNumber ≠ 0 then (w, some IQRF_PGM_FLASH_BLOCK_READY)
  else
    let mb1 := (w.PrepareMemBlock.MemoryBlock.set 0 (w.PrepareMemBlock.Address &&& 0x00FF)).set 1
      (DataCounter / 2)
    let w1 : World := { w with PrepareMemBlock := { w.PrepareMemBlock with MemoryBlock := mb1 } }
    if w1.PrepareMemBlock.Address + mb1.getD 1 0 > PIC16LF1938_EEPROM_MAX ∨ mb1.getD 1 0 > 32 then
      (w1, some IQRF_PGM_ERROR)
    else
      let mb2 := (List.range (mb1.getD 1 0)).foldl
        (fun mb Cnt => mb.set (Cnt + 2) (w.IqrfPgmCodeLineBuffer.getD (2 * Cnt + 4) 0)) mb1
      ({ w1 with PrepareMemBlock := { w1.PrepareMemBlock with
          MemoryBlock := mb2
          DataInBufferReady := 0
          MemoryBlockProcessState := 1 } }, some IQRF_PGM_EEPROM_BLOCK_READY)

/-- The branch of `iqrfPgmPrepareMemBlock` for the memory areas other than
the serial memory. -/
def prepareOther (w : World) : World × Option Nat :=
  let Address := w.PrepareMemBlock.Address
  let MemBlock := Address / 32
  let d0 := ((Address % 32) * 2) % 256
  let DestinationIndex := if d0 < 32 then d0 + 2 else d0 + 4
  let DataCounter := w.IqrfPgmCodeLineBuffer.getD 0 0
  if Address ≥ IQRF_MAIN_MEM_MIN_ADR ∧ Address ≤ IQRF_MAIN_MEM_MAX_ADR then
    match flashChecks w IQRF_MAIN_MEM_MAX_ADR DestinationIndex DataCounter MemBlock with
    | Sum.inr r => (w, some r)
    | Sum.inl DataCounter1 => (storeFlash w DestinationIndex DataCounter1 MemBlock, none)
  else if Address ≥ IQRF_LICENCED_MEM_MIN_ADR ∧ Address ≤ IQRF_LICENCED_MEM_MAX_ADR then
    match flashChecks w IQRF_LICENCED_MEM_MAX_ADR DestinationIndex DataCounter MemBlock with
    | Sum.inr r => (w, some r)
    | Sum.inl DataCounter1 => (storeFlash w DestinationIndex DataCounter1 MemBlock, none)
  else if Address ≥ PIC16LF1938_EEPROM_MIN ∧ Address ≤ PIC16LF1938_EEPROM_MAX then
    prepareEeprom w DataCounter
  else (w, none)

/-- The body of the `while(1)` loop of `iqrfPgmPrepareMemBlock` after the
line has been read: the record in the line buffer is processed. The result
is the state and, when the function returns from here, its return value. -/
def processLine (w : World) : World × Option Nat :=
  let line := w.IqrfPgmCodeLineBuffer
  if line.getD 3 0 = 0 then
    let Address := (((w.PrepareMemBlock.HiAddress + ((line.getD 1 0 <<< 8) % 65536)
      + line.getD 2 0) % 4294967296) / 2) % 65536
    let w1 : World := { w with PrepareMemBlock := { w.PrepareMemBlock with Address := Address } }
    let w2 := if w1.PrepareMemBlock.DataOverflow ≠ 0 then iqrfPgmMoveOverflowedData w1 else w1
    if Address ≥ SERIAL_EEPROM_MIN_ADR ∧ Address ≤ SERIAL_EEPROM_MAX_ADR then prepareSerial w2
    else prepareOther w2
  else if line.getD 3 0 = 4 then
    ({ w with PrepareMemBlock := { w.PrepareMemBlock with
        HiAddress := (((line.getD 4 0 <<< 24) % 4294967296)
          + ((line.getD 5 0 <<< 16) % 4294967296)) % 4294967296 } }, none)
  else (w, none)

/-- The first part of the loop body of `iqrfPgmPrepareMemBlock`: when no line
is pending, one is read with the driver suspended. The result is the state
and, when the function returns from here, its return value. -/
def fetchLine (w : World) : Option (World × Option Nat) :=
  if w.PrepareMemBlock.DataInBufferReady = 0 then
    match iqrfSuspendDriver w with
    | none => none
    | some w1 =>
      match iqrfPgmReadHEXFileLine w1 with
      | none => none
      | some (w2, OperationResult) =>
        let w3 := iqrfRunDriver w2
        if OperationResult = IQRF_PGM_FILE_DATA_ERROR then some (w3, some IQRF_PGM_ERROR)
        else if OperationResult = IQRF_PGM_END_OF_FILE then
          if w3.PrepareMemBlock.MemoryBlockNumber ≠ 0 then
            some (w3, some IQRF_PGM_FLASH_BLOCK_READY)
          else if w3.PrepareMemBlock.DataOverflow ≠ 0 then
            some (iqrfPgmMoveOverflowedData w3, some IQRF_PGM_FLASH_BLOCK_READY)
          else some (w3, some IQRF_PGM_SUCCESS)
        else
          some ({ w3 with PrepareMemBlock := { w3.PrepareMemBlock with DataInBufferReady := 1 } },
            none)
  else some (w, none)

/-- The `while(1)` loop of `iqrfPgmPrepareMemBlock`. -/
def prepareLoop : Nat → World → Option (World × Nat)
  | 0, _ => none
  | fuel + 1, w =>
    match fetchLine w with
    | none => none
    | some (w1, some r) => some (w1, r)
    | some (w1, none) =>
      match processLine w1 with
      | (w2, some r) => some (w2, r)
      | (w2, none) =>
        prepareLoop fuel
          { w2 with PrepareMemBlock := { w2.PrepareMemBlock with DataInBufferReady := 0 } }

/-- The function `iqrfPgmPrepareMemBlock`. A pass through the loop that does
not return consumes a line of the file, the first pass apart: the fuel is
never used up. -/
def iqrfPgmPrepareMemBlock (w : World) : Option (World × Nat) :=
  let w1 : World :=
    if w.PrepareMemBlock.DataOverflow = 0 then
      { w with PrepareMemBlock := { w.PrepareMemBlock with MemoryBlock := erasedMemoryBlock } }
    else w
  let w2 : World := { w1 with PrepareMemBlock := { w1.PrepareMemBlock with MemoryBlockNumber := 0 } }
  prepareLoop (w.CodeFile.length + 2) w2

/-- The body of the loop `for (Cnt = 0; Cnt < 32; Cnt++)` of
`iqrfPgmProcessCfgFile`: a byte of the file is stored at index `Cnt * 2 + 2`
(first half of the image) or `Cnt * 2 + 4` (second half), the opcode `0x34`
after it. -/
def cfgReadStep (v : World) (Cnt : Nat) : World :=
  let r := iqrfReadByteFromFile v
  let i := if Cnt < 16 then Cnt * 2 + 2 else Cnt * 2 + 4
  { r.1 with PrepareMemBlock := { r.1.PrepareMemBlock with
      MemoryBlock := (r.1.PrepareMemBlock.MemoryBlock.set i r.2).set (i + 1) 0x34 } }

/-- The function `iqrfPgmProcessCfgFile`. -/
def iqrfPgmProcessCfgFile (w : World) : Option (World × Nat) :=
  if w.PrepareMemBlock.DataInBufferReady = 0 then
    let mb0 := w.PrepareMemBlock.MemoryBlock
    let mb1 := (((mb0.set 0 (IQRF_CONFIG_MEM_L_ADR &&& 0x00FF)).set 1 (IQRF_CONFIG_MEM_L_ADR >>> 8)).set
      34 (IQRF_CONFIG_MEM_H_ADR &&& 0x00FF)).set 35 (IQRF_CONFIG_MEM_H_ADR >>> 8)
    let w1 : World := { w with PrepareMemBlock := { w.PrepareMemBlock with
        MemoryBlock := mb1
        MemoryBlockProcessState := 2 } }
    match iqrfSuspendDriver w1 with
    | none => none
    | some w2 =>
      let w3 := (List.range 32).foldl cfgReadStep w2
      let r := iqrfReadByteFromFile w3
      let w4 : World := { r.1 with PrepareMemBlock := { r.1.PrepareMemBlock with
          MemoryBlockNumber := r.2 } }
      let w5 := iqrfRunDriver w4
      some ({ w5 with PrepareMemBlock := { w5.PrepareMemBlock with DataInBufferReady := 1 } },
        IQRF_PGM_FLASH_BLOCK_READY)
  else if w.PrepareMemBlock.DataInBufferReady = 1 then
    let mb1 := ((w.PrepareMemBlock.MemoryBlock.set 0 RFPGM_CFG_ADR).set 1 0x01).set 2
      (w.PrepareMemBlock.MemoryBlockNumber % 256)
    some ({ w with PrepareMemBlock := { w.PrepareMemBlock with
        MemoryBlock := mb1
        MemoryBlockProcessState := 1
        DataInBufferReady := 2 } }, IQRF_PGM_EEPROM_BLOCK_READY)
  else
    some ({ w with PrepareMemBlock := { w.PrepareMemBlock with DataInBufferReady := 0 } },
      IQRF_PGM_SUCCESS)

/-! ## Power and mode ports (`IQRFPort.cpp`, `IQRF.c`) -/

/-- The macro `iqrfDelayMs`: the clock advances, modulo `2^32`. -/
def iqrfDelayMs (w : World) (T : Nat) : World :=
  { w with SysTick := (w.SysTick + T) % 4294967296, trace := w.trace ++ [Event.delay T] }

/-- The macro `iqrfGetSysTick`. -/
def iqrfGetSysTick (w : World) : Nat := w.SysTick

/-- The unsigned difference `iqrfGetSysTick() - SysTickTime` of two `uint32_t`. -/
def ticksSince (w : World) (SysTickTime : Nat) : Nat :=
  (iqrfGetSysTick w + 4294967296 - SysTickTime % 4294967296) % 4294967296

/-- The port `iqrfTrPowerOff`. -/
def iqrfTrPowerOff (w : World) : World := { w with trace := w.trace ++ [Event.powerOff] }

/-- The port `iqrfTrPowerOn`. -/
def iqrfTrPowerOn (w : World) : World := { w with trace := w.trace ++ [Event.powerOn] }

/-- The function `iqrfTrReset`. -/
def iqrfTrReset (w : World) : World :=
  iqrfDelayMs (iqrfTrPowerOn (iqrfDelayMs (iqrfTrPowerOff w) 100)) 1

/-- The function `iqrfTrEndPgmMode`. -/
def iqrfTrEndPgmMode (w : World) : World := iqrfDelayMs (iqrfTrReset w) 200

/-- The port `iqrfTrEnterPgmMode`: the handshake that copies MISO to MOSI
lasts until `TICKS_IN_SECOND / 2` ticks have passed. -/
def iqrfTrEnterPgmMode (w : World) : Option World :=
  match iqrfSuspendDriver (iqrfDelayMs w 200) with
  | none => none
  | some w1 =>
    let w2 := iqrfTrReset w1
    let w3 : World :=
      { w2 with
        SysTick := (w2.SysTick + TICKS_IN_SECOND / 2) % 4294967296
        trace := w2.trace ++ [Event.enterPgmMode] }
    some (iqrfRunDriver w3)

/-! ## Module identification (`IQRF.c`) -/

/-- The function `iqrfTrInfoTask`. -/
def iqrfTrInfoTask (w : World) : Option World :=
  match w.TrInfoTask.TrInfoTaskSM with
  | TrInfoTaskState.INIT_TASK =>
    some { w with
      IqrfTrInfoStruct := { w.IqrfTrInfoStruct with McuType := MCU_UNKNOWN }
      TrInfoTask := { w.TrInfoTask with
        Attempts := 1
        DataToModule := memset w.TrInfoTask.DataToModule 0 0 32
        TrInfoTaskSM := TrInfoTaskState.ENTER_PROG_MODE } }
  | TrInfoTaskState.ENTER_PROG_MODE =>
    match iqrfTrEnterPgmMode w with
    | none => none
    | some w1 =>
      some { w1 with TrInfoTask := { w1.TrInfoTask with
        SysTickTime := iqrfGetSysTick w1
        TrInfoTaskSM := TrInfoTaskState.SEND_REQUEST } }
  | TrInfoTaskState.SEND_REQUEST =>
    if iqrfGetSpiStatus w = PROGRAMMING_MODE ∧ iqrfGetLibraryStatus w = IQRF_READY then
      let w1 :=
        if w.IqrfTrInfoReading = 4 then iqrfSendPacket w SPI_MODULE_INFO BufPtr.dataToModule 1
        else iqrfSendPacket w SPI_MODULE_INFO BufPtr.dataToModule 32
      some { w1 with TrInfoTask := { w1.TrInfoTask with
        SysTickTime := iqrfGetSysTick w1
        TrInfoTaskSM := TrInfoTaskState.WAIT_INFO } }
    else if ticksSince w w.TrInfoTask.SysTickTime ≥ TICKS_IN_SECOND / 2 then
      if w.TrInfoTask.Attempts ≠ 0 then
        some { w with TrInfoTask := { w.TrInfoTask with
          Attempts := (w.TrInfoTask.Attempts + 255) % 256
          TrInfoTaskSM := TrInfoTaskState.ENTER_PROG_MODE } }
      else
        some { w with TrInfoTask := { w.TrInfoTask with TrInfoTaskSM := TrInfoTaskState.DONE } }
    else some w
  | TrInfoTaskState.WAIT_INFO =>
    if w.IqrfTrInfoReading = 2 ∨ w.IqrfTrInfoReading = 1
        ∨ ticksSince w w.TrInfoTask.SysTickTime ≥ TICKS_IN_SECOND / 2 then
      if w.IqrfTrInfoReading = 2 then
        some { w with
          IqrfTrInfoReading := 3
          TrInfoTask := { w.TrInfoTask with
            SysTickTime := iqrfGetSysTick w
            TrInfoTaskSM := TrInfoTaskState.SEND_REQUEST } }
      else
        let w1 := iqrfTrEndPgmMode w
        some { w1 with TrInfoTask := { w1.TrInfoTask with TrInfoTaskSM := TrInfoTaskState.DONE } }
    else some w
  | TrInfoTaskState.DONE =>
    if iqrfGetTxBufferStatus w = IQRF_BUFFER_FREE ∧ iqrfGetLibraryStatus w = IQRF_READY then
      some { w with IqrfTrInfoReading := 0 }
    else some w

/-! ## Programming state machines (`IQRFPgm.c`) -/

/-- The final `return` of `iqrfPgmCheckCodeFile` and `iqrfPgmWriteCodeFile`:
the progress in percent, cut to `uint8_t`. (For `FileSize = 0` the source
divides by zero; the model then gives 0.) -/
def progressPercent (w : World) : Nat :=
  (((w.CodeFileInfo.FileByteCnt * 100) % 4294967296) / w.CodeFileInfo.FileSize) % 256

/-- The function `iqrfPgmCheckCodeFile`. -/
def iqrfPgmCheckCodeFile (w : World) : Option (World × Nat) :=
  match w.CheckCodeTaskSM with
  | CheckCodeTask.INIT_TASK =>
    let w1 : World := { w with CodeFileInfo := { w.CodeFileInfo with FileByteCnt := 0 } }
    if w1.CodeFileInfo.FileType = IQRF_PGM_PLUGIN_FILE_TYPE then
      let w2 : World := { w1 with CheckCodeTaskSM := CheckCodeTask.CHECK_PLUGIN_CODE }
      some (w2, progressPercent w2)
    else
      let w2 : World := { w1 with PrepareMemBlock := { w1.PrepareMemBlock with
          DataInBufferReady := 0
          DataOverflow := 0 } }
      if w2.CodeFileInfo.FileType = IQRF_PGM_HEX_FILE_TYPE then
        let w3 : World := { w2 with CheckCodeTaskSM := CheckCodeTask.CHECK_HEX_CODE }
        some (w3, progressPercent w3)
      else if w2.CodeFileInfo.FileSize < 33 then some (w2, IQRF_PGM_ERROR)
      else
        let w3 : World := { w2 with CheckCodeTaskSM := CheckCodeTask.CHECK_CFG_CODE }
        some (w3, progressPercent w3)
  | CheckCodeTask.CHECK_PLUGIN_CODE =>
    match iqrfSuspendDriver w with
    | none => none
    | some w1 =>
      match iqrfPgmReadIQRFFileLine w1 with
      | none => none
      | some (w2, OperationResult) =>
        let w3 := iqrfRunDriver w2
        if OperationResult = IQRF_PGM_FILE_DATA_ERROR then
          some ({ w3 with CheckCodeTaskSM := CheckCodeTask.INIT_TASK }, IQRF_PGM_ERROR)
        else if OperationResult = IQRF_PGM_END_OF_FILE then
          some ({ w3 with CheckCodeTaskSM := CheckCodeTask.INIT_TASK }, IQRF_PGM_SUCCESS)
        else some (w3, progressPercent w3)
  | _ =>
    match (if w.CodeFileInfo.FileType = IQRF_PGM_HEX_FILE_TYPE then iqrfPgmPrepareMemBlock w
           else iqrfPgmProcessCfgFile w) with
    | none => none
    | some (w1, OperationResult) =>
      if OperationResult ≠ IQRF_PGM_FLASH_BLOCK_READY
          ∧ OperationResult ≠ IQRF_PGM_EEPROM_BLOCK_READY then
        some ({ w1 with CheckCodeTaskSM := CheckCodeTask.INIT_TASK }, OperationResult)
      else some (w1, progressPercent w1)

/-- The state `WAIT_PROG_MODE` of `iqrfPgmWriteCodeFile`. -/
def writeWaitProgMode (w : World) : World :=
  if iqrfGetSpiStatus w = PROGRAMMING_MODE ∧ iqrfGetLibraryStatus w = IQRF_READY then
    let w1 : World := { w with WriteCode := { w.WriteCode with SysTickTime := iqrfGetSysTick w } }
    if w1.CodeFileInfo.FileType = IQRF_PGM_PLUGIN_FILE_TYPE then
      { w1 with WriteCode := { w1.WriteCode with WriteCodeTaskSM := WriteCodeTask.WRITE_PLUGIN } }
    else
      { w1 with
        PrepareMemBlock := { w1.PrepareMemBlock with
          DataInBufferReady := 0
          DataOverflow := 0
          MemoryBlockProcessState := 0 }
        WriteCode := { w1.WriteCode with WriteCodeTaskSM := WriteCodeTask.WRITE_HEX } }
  else if ticksSince w w.WriteCode.SysTickTime ≥ TICKS_IN_SECOND / 2 then
    if w.WriteCode.Attempts ≠ 0 then
      { w with WriteCode := { w.WriteCode with
          Attempts := (w.WriteCode.Attempts + 255) % 256
          WriteCodeTaskSM := WriteCodeTask.ENTER_PROG_MODE } }
    else
      { w with WriteCode := { w.WriteCode with
          OperationResult := IQRF_PGM_ERROR
          WriteCodeTaskSM := WriteCodeTask.PROG_END } }
  else w

/-- The `else` branch of the states `WRITE_PLUGIN` and `WRITE_HEX`: the
module is reset when it has not been ready for half a second. -/
def writeTimeout (w : World) : World :=
  if ticksSince w w.WriteCode.SysTickTime ≥ TICKS_IN_SECOND / 2 then
    let w1 := iqrfTrReset w
    { w1 with WriteCode := { w1.WriteCode with
        OperationResult := IQRF_PGM_ERROR
        WriteCodeTaskSM := WriteCodeTask.PROG_END } }
  else w

/-- The test that opens the states `WRITE_PLUGIN` and `WRITE_HEX`. -/
def writeReady (w : World) : Bool :=
  decide (iqrfGetTxBufferStatus w = IQRF_BUFFER_FREE ∧ iqrfGetSpiStatus w = PROGRAMMING_MODE
    ∧ iqrfGetLibraryStatus w = IQRF_READY)

/-- The state `WRITE_PLUGIN` of `iqrfPgmWriteCodeFile`. -/
def writePlugin (w : World) : Option World :=
  if writeReady w then
    match iqrfSuspendDriver w with
    | none => none
    | some w1 =>
      match iqrfPgmReadIQRFFileLine w1 with
      | none => none
      | some (w2, r) =>
        let w3 := iqrfRunDriver w2
        let w4 : World := { w3 with WriteCode := { w3.WriteCode with Attempts := r } }
        if r = IQRF_PGM_FILE_DATA_ERROR then
          some { w4 with WriteCode := { w4.WriteCode with
            OperationResult := IQRF_PGM_ERROR
            WriteCodeTaskSM := WriteCodeTask.WAIT_PROG_END } }
        else if r = IQRF_PGM_END_OF_FILE then
          some { w4 with WriteCode := { w4.WriteCode with
            OperationResult := IQRF_PGM_SUCCESS
            WriteCodeTaskSM := WriteCodeTask.WAIT_PROG_END } }
        else
          let w5 := iqrfSendPacket w4 SPI_PLUGIN_PGM BufPtr.codeLineBuffer 20
          some { w5 with WriteCode := { w5.WriteCode with SysTickTime := iqrfGetSysTick w5 } }
  else some (writeTimeout w)

/-- The state `WRITE_HEX` of `iqrfPgmWriteCodeFile`. -/
def writeHex (w : World) : Option World :=
  if writeReady w then
    if w.PrepareMemBlock.MemoryBlockProcessState = 0 then
      match (if w.CodeFileInfo.FileType = IQRF_PGM_HEX_FILE_TYPE then iqrfPgmPrepareMemBlock w
             else iqrfPgmProcessCfgFile w) with
      | none => none
      | some (w1, r) =>
        let w2 : World := { w1 with WriteCode := { w1.WriteCode with OperationResult := r } }
        if r ≠ IQRF_PGM_FLASH_BLOCK_READY ∧ r ≠ IQRF_PGM_EEPROM_BLOCK_READY then
          some { w2 with WriteCode := { w2.WriteCode with
            WriteCodeTaskSM := WriteCodeTask.WAIT_PROG_END } }
        else some w2
    else
      let w1 :=
        if w.WriteCode.OperationResult = IQRF_PGM_FLASH_BLOCK_READY then
          if w.PrepareMemBlock.MemoryBlockProcessState = 2 then
            iqrfSendPacket w SPI_FLASH_PGM (BufPtr.memoryBlock 0) (32 + 2)
          else iqrfSendPacket w SPI_FLASH_PGM (BufPtr.memoryBlock 34) (32 + 2)
        else
          iqrfSendPacket w SPI_EEPROM_PGM (BufPtr.memoryBlock 0)
            ((w.PrepareMemBlock.MemoryBlock.getD 1 0 + 2) % 256)
      some { w1 with
        WriteCode := { w1.WriteCode with SysTickTime := iqrfGetSysTick w1 }
        PrepareMemBlock := { w1.PrepareMemBlock with
          MemoryBlockProcessState := (w1.PrepareMemBlock.MemoryBlockProcessState + 255) % 256 } }
  else some (writeTimeout w)

/-- The function `iqrfPgmWriteCodeFile`. -/
def iqrfPgmWriteCodeFile (w : World) : Option (World × Nat) :=
  match w.WriteCode.WriteCodeTaskSM with
  | WriteCodeTask.INIT_TASK =>
    let w1 : World :=
      { w with
        WriteCode := { w.WriteCode with
          Attempts := 1
          WriteCodeTaskSM := WriteCodeTask.ENTER_PROG_MODE }
        CodeFileInfo := { w.CodeFileInfo with FileByteCnt := 0 } }
    some (w1, progressPercent w1)
  | WriteCodeTask.ENTER_PROG_MODE =>
    match iqrfTrEnterPgmMode w with
    | none => none
    | some w1 =>
      let w2 : World := { w1 with WriteCode := { w1.WriteCode with
          SysTickTime := iqrfGetSysTick w1
          WriteCodeTaskSM := WriteCodeTask.WAIT_PROG_MODE } }
      some (w2, progressPercent w2)
  | WriteCodeTask.WAIT_PROG_MODE =>
    let w1 := writeWaitProgMode w
    some (w1, progressPercent w1)
  | WriteCodeTask.WRITE_PLUGIN =>
    match writePlugin w with
    | none => none
    | some w1 => some (w1, progressPercent w1)
  | WriteCodeTask.WRITE_HEX =>
    match writeHex w with
    | none => none
    | some w1 => some (w1, progressPercent w1)
  | WriteCodeTask.WAIT_PROG_END =>
    let w1 : World :=
      if iqrfGetSpiStatus w = PROGRAMMING_MODE ∧ iqrfGetLibraryStatus w = IQRF_READY then
        let w2 := iqrfTrEndPgmMode w
        { w2 with WriteCode := { w2.WriteCode with WriteCodeTaskSM := WriteCodeTask.PROG_END } }
      else w
    some (w1, progressPercent w1)
  | WriteCodeTask.PROG_END =>
    if iqrfGetTxBufferStatus w = IQRF_BUFFER_FREE ∧ iqrfGetLibraryStatus w = IQRF_READY then
      some ({ w with WriteCode := { w.WriteCode with WriteCodeTaskSM := WriteCodeTask.INIT_TASK } },
        w.WriteCode.OperationResult)
    else some (w, progressPercent w)

/-- The module of the scenario: in programming mode, every exchange
succeeding. The byte it returns on the transfer the driver makes in state
`w`: the status `PROGRAMMING_MODE` on a status poll; during an exchange the
status `SPI_CRCM_OK` as last byte, before it the checksum of an all-zero
payload, and zero elsewhere. -/
def moduleReply (w : World) : Nat :=
  if w.IqrfControl.Status = IQRF_READY then PROGRAMMING_MODE
  else if w.IqrfSpiControl.PacketCnt = w.IqrfSpiControl.DLEN + 3 then SPI_CRCM_OK
  else if w.IqrfSpiControl.PacketCnt = w.IqrfSpiControl.DLEN + 2 then
    0x5F ^^^ w.IqrfSpiControl.PTYPE
  else 0

/-- The timer callback called `k` times against the module of the scenario. -/
def moduleTicks : Nat → World → World
  | 0, w => w
  | k + 1, w => moduleTicks k (iqrfDriver w (moduleReply w))

/-- A polled operation run to completion: the operation is called again and
again, `gap` calls of the timer callback passing after each call, until it
returns a value above 100 (a result code, not a percentage). The result is the
final state and the values returned, in order. -/
def pollToCompletion (op : World → Option (World × Nat)) (gap : Nat) :
    Nat → World → Option (World × List Nat)
  | 0, _ => none
  | fuel + 1, w =>
    match op w with
    | none => none
    | some (w1, r) =>
      if r > 100 then some (w1, [r])
      else
        match pollToCompletion op gap fuel (moduleTicks gap w1) with
        | none => none
        | some (w2, rs) => some (w2, r :: rs)

/-! ## Runs of the driver -/

/-- The driver called once per element of `rxs`, the bytes the module returns
on the successive calls (a byte is left unused when the call makes no
transfer). -/
def ticks (w : World) (rxs : List Nat) : World := rxs.foldl iqrfDriver w

/-- The byte transfers `(tx, rx)` recorded in a trace, in order. -/
def transfers : List Event → List (Nat × Nat)
  | [] => []
  | Event.transfer tx rx :: es => (tx, rx) :: transfers es
  | _ :: es => transfers es

/-- The packets `(cmd, data, len)` handed to `iqrfSendPacket` recorded in a
trace, in order. -/
def sentPackets : List Event → List (Nat × List Nat × Nat)
  | [] => []
  | Event.sendPacket cmd data len :: es => (cmd, data, len) :: sentPackets es
  | _ :: es => sentPackets es

/-- The validation `iqrfSpiDriver` applies to a complete inbound frame `f` of
an exchange with payload length `DLEN` and type `PTYPE`. -/
def inboundValid (DLEN PTYPE : Nat) (f : List Nat) : Bool :=
  (f.getD (DLEN + 3) 0 == SPI_CRCM_OK) && iqrfCrcCheck f DLEN PTYPE

/-- The inbound frame the module of the scenario returns in an exchange with
payload length `DLEN` and type `PTYPE`. -/
def moduleFrame (DLEN PTYPE : Nat) : List Nat :=
  List.replicate (DLEN + 2) 0 ++ [0x5F ^^^ PTYPE, SPI_CRCM_OK]

/-- What the programmer owns and what it has handed to `iqrfSendPacket`: the
part of the state the driver leaves alone. -/
def pgmView (w : World) :
    WriteCodeStatics × PREPARE_MEM_BLOCK × IQRF_PGM_FILE_INFO × List Nat × List Nat
      × CheckCodeTask × Nat × List (Nat × List Nat × Nat) :=
  (w.WriteCode, w.PrepareMemBlock, w.CodeFileInfo, w.CodeFile, w.IqrfPgmCodeLineBuffer,
    w.CheckCodeTaskSM, w.SysTick, sentPackets w.trace)

/-- The transport at rest: driver running, no exchange in flight, the timer
within its period, no send session open. -/
def AtRest (w : World) : Prop :=
  w.IqrfControl.Status = IQRF_READY ∧ w.IqrfControl.SuspendFlag = false
    ∧ w.IqrfControl.TimeCnt ≤ 50 ∧ w.IqrfSpiControl.PacketRxBuffer.length = 68
    ∧ w.IqrfDataSenderSM = IQRF_SM_PREPARE_REQUEST

/-- The transport at rest with a mailbox the driver can serve: free, or
holding a request of at most 64 bytes that is not the module-info read. -/
def Quiet (w : World) : Prop :=
  AtRest w ∧ (w.IqrfPacket.BufferFlag = IQRF_BUFFER_FREE
    ∨ (w.IqrfPacket.BufferFlag = IQRF_BUFFER_BUSY ∧ w.IqrfPacket.DataLength ≤ 64
        ∧ w.IqrfPacket.SpiCmd ≠ SPI_MODULE_INFO))

/-- The transport as the programmer wants to find it: at rest, the mailbox
free, the module last seen in programming mode. -/
def Settled (w : World) : Prop :=
  AtRest w ∧ w.IqrfPacket.BufferFlag = IQRF_BUFFER_FREE
    ∧ w.IqrfSpiControl.SpiStat = PROGRAMMING_MODE

/-! ## Definitions that follow the words of the specification -/

/-- The XOR of all bytes of a list. -/
def xorAll (l : List Nat) : Nat := l.foldl (fun a b => a ^^^ b) 0

/-- The `n` payload bytes `Buffer[2..n+1]` of a frame. -/
def payloadOf (Buffer : List Nat) (n : Nat) : List Nat := (Buffer.drop 2).take n

/-- The checksum of an inbound frame in the words of the specification:
the seed `0x5F`, XORed with the type byte and with every payload byte. -/
def specInboundChecksum (Ptype : Nat) (payload : List Nat) : Nat :=
  0x5F ^^^ Ptype ^^^ xorAll payload

/-- The ASCII code of the hex digit `d`, upper or lower case. -/
def hexDigit (upper : Bool) (d : Nat) : Nat :=
  if d < 10 then 48 + d else if upper then 55 + d else 87 + d

/-- The two-digit hex text of the bytes `bs`; `up k` tells whether the `k`-th
digit of the line is written in upper case. -/
def encodeHex (up : Nat → Bool) : Nat → List Nat → List Nat
  | _, [] => []
  | k, b :: bs => hexDigit (up k) (b / 16) :: hexDigit (up (k + 1)) (b % 16)
      :: encodeHex up (k + 2) bs

/-- The bytes of a hex record before its checksum: count, address (high byte,
low byte), record type, data. -/
def recordBytes (addr type : Nat) (data : List Nat) : List Nat :=
  [data.length, addr / 256, addr % 256, type] ++ data

/-- The checksum of a hex record: `(256 - sum of the preceding bytes) mod 256`. -/
def recordChecksum (bytes : List Nat) : Nat := (256 - bytes.sum % 256) % 256

/-- The text of one hex line whose bytes are `bytes`: the start marker `:`,
the hex digits, the terminator `eol`. -/
def hexLine (up : Nat → Bool) (bytes : List Nat) (eol : Nat) : List Nat :=
  0x3A :: (encodeHex up 0 bytes ++ [eol])

/-- The 2-line hex file of the end-to-end scenario: the record `:10000000`
with the 16 data bytes `data` and its checksum, then the end-of-file record
`:00000001FF`, each line ended by CR LF. -/
def twoLineHexFile (up : Nat → Bool) (data : List Nat) : List Nat :=
  hexLine up (recordBytes 0 0 data ++ [recordChecksum (recordBytes 0 0 data)]) 0x0D ++ [0x0A]
    ++ hexLine (fun _ => true) [0, 0, 0, 1, 0xFF] 0x0D ++ [0x0A]

/-- The state in which a programming session starts: the program has just
started, the application has opened the code file and stored its size and
type in `CodeFileInfo`. -/
def sessionStart (file : List Nat) (FileType : Nat) : World :=
  { CodeFile := file
    CodeFileInfo := { FileSize := file.length % 65536, FileType := FileType } }

/-- The instruction words that carry configuration bytes: each byte `b` is
followed by the opcode byte `0x34`. -/
def cfgWords (bs : List Nat) : List Nat := bs.flatMap (fun b => [b, 0x34])

/-! ## Records and page images -/

/-- The word address of the data record held in the line buffer `line`, for
the extended address `HiAddress` (the assignment to `PrepareMemBlock.Address`
in `iqrfPgmPrepareMemBlock`). -/
def recordAddress (HiAddress : Nat) (line : List Nat) : Nat :=
  (((HiAddress + ((line.getD 1 0 <<< 8) % 65536) + line.getD 2 0) % 4294967296) / 2) % 65536

/-- The word address lies in the serial memory. -/
def inSerial (A : Nat) : Prop := A ≥ SERIAL_EEPROM_MIN_ADR ∧ A ≤ SERIAL_EEPROM_MAX_ADR

instance (A : Nat) : Decidable (inSerial A) := by unfold inSerial; infer_instance

/-- The word address lies in the main flash area. -/
def inMainFlash (A : Nat) : Prop := A ≥ IQRF_MAIN_MEM_MIN_ADR ∧ A ≤ IQRF_MAIN_MEM_MAX_ADR

instance (A : Nat) : Decidable (inMainFlash A) := by unfold inMainFlash; infer_instance

/-- The word address lies in the licensed flash area. -/
def inLicencedFlash (A : Nat) : Prop :=
  A ≥ IQRF_LICENCED_MEM_MIN_ADR ∧ A ≤ IQRF_LICENCED_MEM_MAX_ADR

instance (A : Nat) : Decidable (inLicencedFlash A) := by unfold inLicencedFlash; infer_instance

/-- The upper bound of the flash area of the word address `A`. -/
def flashMaxAdr (A : Nat) : Nat :=
  if inMainFlash A then IQRF_MAIN_MEM_MAX_ADR else IQRF_LICENCED_MEM_MAX_ADR

/-- The `DestinationIndex` of a flash record at word address `A`. -/
def flashDestinationIndex (A : Nat) : Nat :=
  if ((A % 32) * 2) % 256 < 32 then ((A % 32) * 2) % 256 + 2 else ((A % 32) * 2) % 256 + 4

/-- The `DataCounter` of a flash record of `DataCounter` bytes at word address
`A`, cut at the end of its area. -/
def flashDataCounter (A DataCounter : Nat) : Nat :=
  if A + DataCounter / 2 > flashMaxAdr A then ((flashMaxAdr A - A) * 2) % 256 else DataCounter

/-- The record in `line`, at word address `A`, does not reach beyond the image
of its page: the tests `DestinationIndex + DataCounter > sizeof(MemoryBlock)` of
`iqrfPgmPrepareMemBlock` are false. -/
def FitsPage (A : Nat) (line : List Nat) : Prop :=
  if inSerial A then (A % 32) + 36 + line.getD 0 0 / 2 ≤ 68
  else flashDestinationIndex A + flashDataCounter A (line.getD 0 0) ≤ 68

/-- The image `iqrfPgmPrepareMemBlock` makes of `mb` when it stores the record
in `line`, at word address `A`, as the first record of a block. -/
def recordImage (A : Nat) (line mb : List Nat) : List Nat :=
  if inSerial A then
    let MemBlock := ((A - 0x200) / 32) % 65536
    let mb0 := memset mb 0 0 68
    let mb1 := (mb0.set 34 (MemBlock &&& 0x00FF)).set 35 ((MemBlock >>> 8) % 256)
    let MemBlock1 := (MemBlock + 1) % 65536
    let mb2 := (mb1.set 0 (MemBlock1 &&& 0x00FF)).set 1 ((MemBlock1 >>> 8) % 256)
    copySerial line (line.getD 0 0 / 2) 0 ((A % 32) + 36) mb2
  else
    let MemBlock1 := ((A / 32) * 32) % 65536
    let mb1 := (mb.set 0 (MemBlock1 &&& 0x00FF)).set 1 ((MemBlock1 >>> 8) % 256)
    let MemBlock2 := (MemBlock1 + 0x0010) % 65536
    let mb2 := (mb1.set 34 (MemBlock2 &&& 0x00FF)).set 35 ((MemBlock2 >>> 8) % 256)
    memcpy mb2 (flashDestinationIndex A) (readBytes line 4 (flashDataCounter A (line.getD 0 0)))

instance (A : Nat) (line : List Nat) : Decidable (FitsPage A line) := by
  unfold FitsPage; infer_instance

/-- The bytes of a data record (type 0) at byte address `addr`, with its
checksum. -/
def dataRecord (addr : Nat) (data : List Nat) : List Nat :=
  recordBytes addr 0 data ++ [recordChecksum (recordBytes addr 0 data)]

/-- The five values of `IqrfDataSenderSM` the source defines. -/
def SenderState (s : Nat) : Prop :=
  s = IQRF_SM_PREPARE_REQUEST ∨ s = IQRF_SM_SEND_REQUEST ∨ s = IQRF_SM_PROCESS_REQUEST
    ∨ s = IQRF_SM_REQUEST_OK ∨ s = IQRF_SM_REQUEST_ERR

instance (s : Nat) : Decidable (SenderState s) := by unfold SenderState; infer_instance

/-! ## Plugin files -/

/-- A line the plugin reader passes over: a blank line (`none`) or a comment
line, the marker `#` and its text, each ended by CR LF. -/
def skippedLine : Option (List Nat) → List Nat
  | none => [0x0D, 0x0A]
  | some body => 0x23 :: (body ++ [0x0D, 0x0A])

/-- The text before a data line of a plugin file: blank and comment lines. -/
def skippedLines (pre : List (Option (List Nat))) : List Nat := (pre.map skippedLine).flatten

/-- The bytes of a comment text: no end-of-file mark and no CR inside. -/
def CommentText (body : List Nat) : Prop := ∀ b ∈ body, b % 256 ≠ 0 ∧ b % 256 ≠ 0x0D

instance (body : List Nat) : Decidable (CommentText body) := by
  unfold CommentText; infer_instance

/-- The word address lies in the internal EEPROM of the module. -/
def inEeprom (A : Nat) : Prop := A ≥ PIC16LF1938_EEPROM_MIN ∧ A ≤ PIC16LF1938_EEPROM_MAX

instance (A : Nat) : Decidable (inEeprom A) := by unfold inEeprom; infer_instance

/-- The calls `(handler, data, size)` of the receive handler recorded in a
trace, in order. -/
def rxCalls : List Event → List (RxHandler × List Nat × Nat)
  | [] => []
  | Event.rxHandler h d n :: es => (h, d, n) :: rxCalls es
  | _ :: es => rxCalls es

/-! ## Runs against the clock -/

/-- One tick of the clock: the timer callback runs once, `reply w` being the
byte the module returns should the call make a transfer, and the value of
`iqrfGetSysTick` advances by one. -/
def clockTick (reply : World → Nat) (w : World) : World :=
  let v := iqrfDriver w (reply w)
  { v with SysTick := (v.SysTick + 1) % 4294967296 }

/-- The clock ticking `k` times. -/
def clockTicks (reply : World → Nat) : Nat → World → World
  | 0, w => w
  | k + 1, w => clockTicks reply k (clockTick reply w)

/-- The loop `while(IqrfTrInfoReading) iqrfTrInfoTask();` of `iqrfInit`, with
`gap` ticks of the clock passing after each call of the task: the state in
which the loop is left and the number of calls made. -/
def infoLoop (reply : World → Nat) (gap : Nat) : Nat → World → Option (World × Nat)
  | 0, _ => none
  | fuel + 1, w =>
    if w.IqrfTrInfoReading = 0 then some (w, 0)
    else
      match iqrfTrInfoTask w with
      | none => none
      | some w1 =>
        match infoLoop reply gap fuel (clockTicks reply gap w1) with
        | none => none
        | some (w2, n) => some (w2, n + 1)

/-- The number of calls of `iqrfTrEnterPgmMode` recorded in a trace. -/
def pgmEntries : List Event → Nat
  | [] => 0
  | Event.enterPgmMode :: es => pgmEntries es + 1
  | _ :: es => pgmEntries es

/-- The number of polls, `gap` ticks apart, after which `TICKS_IN_SECOND / 2`
ticks have passed. -/
def waitPolls (gap : Nat) : Nat := (TICKS_IN_SECOND / 2 - 1 + gap) / gap

/-- The state in which `iqrfInit` enters its identification loop: the
library's own handler registered, `IqrfTrInfoReading = 4`. -/
def identStart : World :=
  { IqrfControl := { IqrfRxHandler := RxHandler.trInfoProcess }, IqrfTrInfoReading := 4 }

/-- A module that never enters programming mode and has one packet of 8
bytes `04` for the host: it reports data ready (`0x48`) until the packet has
been delivered, and `0x00` afterwards. -/
def talkativeReply (w : World) : Nat :=
  if w.IqrfControl.Status = IQRF_READY then
    (if rxCalls w.trace = [] then 0x48 else 0)
  else if w.IqrfSpiControl.PacketCnt = 11 then SPI_CRCM_OK
  else if w.IqrfSpiControl.PacketCnt = 10 then 0x57
  else 0x04

/-- The silent module: its answer to a status poll is never
`PROGRAMMING_MODE` and never announces data. -/
def Silent (reply : World → Nat) : Prop :=
  ∀ v, (reply v % 256) &&& 0xC0 ≠ 0x40 ∧ reply v % 256 ≠ PROGRAMMING_MODE

/-- The start of the identification done by hand: `iqrfTrInfoTask` is called
in `INIT_TASK` and in `ENTER_PROG_MODE`, the driver polls the status and
reads `PROGRAMMING_MODE`, the task is called in `SEND_REQUEST` and queues the
basic-identity request; the status timer runs down (10 calls of the driver),
the next poll picks the request up, and the module answers the 5 bytes of
the exchange with a valid frame: payload `0x12`, checksum
`0x5F xor 0x81 xor 0x12 = 0xCC`, status `SPI_CRCM_OK`. -/
def basicRequestRun : Option World :=
  (iqrfTrInfoTask identStart).bind fun a =>
    (iqrfTrInfoTask a).bind fun b =>
      (iqrfTrInfoTask (iqrfDriver b PROGRAMMING_MODE)).map fun c =>
        ticks c (List.replicate 10 0 ++ [PROGRAMMING_MODE, 0, 0, 0x12, 0xCC, SPI_CRCM_OK])

/-- The clock `T` ticks later. -/
def later (T : Nat) (w : World) : World := { w with SysTick := (w.SysTick + T) % 4294967296 }

/-- The transport idle in front of a module that is not in programming
mode: driver running, no exchange in flight, mailbox free. -/
def Idle (w : World) : Prop :=
  w.IqrfControl.Status = IQRF_READY ∧ w.IqrfControl.SuspendFlag = false
    ∧ w.IqrfPacket.BufferFlag = IQRF_BUFFER_FREE
    ∧ w.IqrfSpiControl.SpiStat ≠ PROGRAMMING_MODE

instance (w : World) : Decidable (Idle w) := by
  unfold Idle
  infer_instance

/-- What the identification task and the key writer own, and what has been
handed to `iqrfSendPacket` and to `iqrfTrEnterPgmMode`: the part of the state
the driver leaves alone in front of a silent module. -/
def taskView (w : World) :
    TrInfoStatics × KeyOrPassStatics × Nat × T_TR_INFO_STRUCT × PREPARE_MEM_BLOCK
      × List (Nat × List Nat × Nat) × Nat :=
  (w.TrInfoTask, w.KeyOrPass, w.IqrfTrInfoReading, w.IqrfTrInfoStruct, w.PrepareMemBlock,
    sentPackets w.trace, pgmEntries w.trace)

/-- The value of a character in the words of the specification: the digit
value of `0`..`9` and `a`..`f`, and 0 for every other character. -/
def specDigit (c : Nat) : Nat :=
  if 48 ≤ c ∧ c ≤ 57 then c - 48 else if 97 ≤ c ∧ c ≤ 102 then c - 87 else 0

/-- The byte `iqrfPgmReadHEXFileLine` stores for a pair of characters of the
file: both go through `tolower`, then through `iqrfPgmConvertToNum`. -/
def convertPair (p : Nat × Nat) : Nat :=
  iqrfPgmConvertToNum (tolower (p.1 % 256)) (tolower (p.2 % 256))

/-- The characters of a list of pairs, in file order. -/
def pairChars (ps : List (Nat × Nat)) : List Nat := ps.flatMap (fun p => [p.1, p.2])

/-- What the file readers leave alone: all of the state but the file, the
byte counter and the line buffer (of the variables the assembler and the
writer look at). -/
def fileFrame (w : World) :
    T_IQRF_CONTROL × T_IQRF_SPI_CONTROL × T_IQRF_PACKET × PREPARE_MEM_BLOCK × WriteCodeStatics
      × Nat × List Event :=
  (w.IqrfControl, w.IqrfSpiControl, w.IqrfPacket, w.PrepareMemBlock, w.WriteCode, w.SysTick,
    w.trace)

/-- What the assembler leaves alone, of the variables the writer looks at. -/
def asmFrame (w : World) : Nat × T_IQRF_PACKET × WriteCodeStatics × Nat × List Event :=
  (w.IqrfControl.Status, w.IqrfPacket, w.WriteCode, w.SysTick, w.trace)

/-- What the processing of a record leaves alone: all of the state but the
assembler's variables. -/
def lineFrame (w : World) :
    List Nat × IQRF_PGM_FILE_INFO × List Nat × T_IQRF_CONTROL × T_IQRF_SPI_CONTROL
      × T_IQRF_PACKET × WriteCodeStatics × Nat × List Event :=
  (w.CodeFile, w.CodeFileInfo, w.IqrfPgmCodeLineBuffer, w.IqrfControl, w.IqrfSpiControl,
    w.IqrfPacket, w.WriteCode, w.SysTick, w.trace)

/-- The state in which `iqrfPgmPrepareMemBlock` enters its loop. -/
def loopEntry (w : World) : World :=
  let w1 : World :=
    if w.PrepareMemBlock.DataOverflow = 0 then
      { w with PrepareMemBlock := { w.PrepareMemBlock with MemoryBlock := erasedMemoryBlock } }
    else w
  { w1 with PrepareMemBlock := { w1.PrepareMemBlock with MemoryBlockNumber := 0 } }

/-- One pass of the loop of `iqrfPgmPrepareMemBlock` that does not return:
the state at the head of the next pass. -/
def loopPass (v : World) : Option World :=
  match fetchLine v with
  | some (v1, none) =>
    match processLine v1 with
    | (v2, none) =>
      some { v2 with PrepareMemBlock := { v2.PrepareMemBlock with DataInBufferReady := 0 } }
    | (_, some _) => none
  | _ => none

/-- The state at the head of the pass number `n` of the loop, in a call of
`iqrfPgmPrepareMemBlock` made in the state `w`. -/
def loopHead (w : World) : Nat → Option World
  | 0 => some (loopEntry w)
  | n + 1 => (loopHead w n).bind loopPass

/-- The file holds no further line: no `:` and no zero byte. -/
def NoLine (file : List Nat) : Prop := ∀ b ∈ file, b % 256 ≠ 0 ∧ b % 256 ≠ 0x3A

/-- The state in which `iqrfPgmPrepareMemBlock` hands a data record to the
branch of its memory area: `Address` is set and a pending overflow has been
relocated. -/
def recordEntry (w : World) : World :=
  let w1 : World := { w with PrepareMemBlock := { w.PrepareMemBlock with
    Address := recordAddress w.PrepareMemBlock.HiAddress w.IqrfPgmCodeLineBuffer } }
  if w1.PrepareMemBlock.DataOverflow ≠ 0 then iqrfPgmMoveOverflowedData w1 else w1

/-- The variables of the transport that bound its buffer accesses. -/
def transportVars (w : World) : Nat × Nat × Nat × Nat :=
  (w.IqrfControl.Status, w.IqrfSpiControl.DLEN, w.IqrfSpiControl.PacketLen,
    w.IqrfSpiControl.PacketCnt)

/-- The transport states that can be reached from the program start: by the
timer callback `iqrfDriver`, whatever the module returns, and by code that
leaves the variables of the transport alone and places requests of at most 64
bytes in the mailbox (`iqrfSendPacket`, `iqrfSuspendDriver`, `iqrfRunDriver`
and the rest of the library). -/
inductive Reachable : World → Prop
  | start : Reachable {}
  | driver (w : World) (rx : Nat) : Reachable w → Reachable (iqrfDriver w rx)
  | host (w w1 : World) : Reachable w → transportVars w1 = transportVars w →
      w1.IqrfPacket.DataLength ≤ 64 → Reachable w1

/-- The bounds of the transport: the mailbox holds at most 64 bytes; either no
exchange has been started since the program start, or `PacketLen = DLEN + 4`,
at most 68, and during an exchange `PacketCnt < PacketLen`. -/
def TransportInv (w : World) : Prop :=
  w.IqrfPacket.DataLength ≤ 64
  ∧ ((w.IqrfControl.Status = IQRF_READY ∧ w.IqrfSpiControl.PacketLen = 0
        ∧ w.IqrfSpiControl.DLEN = 0)
    ∨ (w.IqrfSpiControl.PacketLen = w.IqrfSpiControl.DLEN + 4
        ∧ w.IqrfSpiControl.DLEN ≤ 64
        ∧ (w.IqrfControl.Status ≠ IQRF_READY →
            w.IqrfSpiControl.PacketCnt < w.IqrfSpiControl.PacketLen)))

/-- The block number in the first two bytes of an image, little-endian. -/
def imageHeader (mb : List Nat) : Nat := mb.getD 0 0 + 256 * mb.getD 1 0

/-- The image is that of a flash page: its first two bytes hold a word
address of the licensed area (in which the configuration page lies) or of the
main area. -/
def flashPage (mb : List Nat) : Prop :=
  inLicencedFlash (imageHeader mb) ∨ inMainFlash (imageHeader mb)

instance (mb : List Nat) : Decidable (flashPage mb) := by unfold flashPage; infer_instance

/-- A block has been begun in the image: a block of the serial memory, with
the counter at 1, the block index in the header and `MemoryBlockNumber` 15
above it; or a flash page, with the counter at 2. -/
def BlockBegun (p : PREPARE_MEM_BLOCK) : Prop :=
  (p.MemoryBlockProcessState = 1 ∧ imageHeader p.MemoryBlock + 15 = p.MemoryBlockNumber
      ∧ imageHeader p.MemoryBlock ≤ 65)
  ∨ (p.MemoryBlockProcessState = 2 ∧ flashPage p.MemoryBlock ∧ 352 ≤ p.MemoryBlockNumber)

/-- What holds of the assembler's variables at the head of every pass of the
loop of `iqrfPgmPrepareMemBlock`. -/
def AsmInv (p : PREPARE_MEM_BLOCK) : Prop :=
  p.MemoryBlock.length = 68
  ∧ (p.MemoryBlockNumber ≠ 0 → p.DataOverflow = 0 ∧ BlockBegun p)
  ∧ (p.DataOverflow ≠ 0 → imageHeader p.MemoryBlock ≤ 64)

/-- What holds of the assembler's variables when `iqrfPgmPrepareMemBlock`
returns `r`: the image has its 68 bytes, an overflow left pending is that of
a block of the serial memory, and a block handed out has the counter at 1 or
2, at 2 exactly for a flash page. -/
def AsmPost (p : PREPARE_MEM_BLOCK) (r : Nat) : Prop :=
  p.MemoryBlock.length = 68
  ∧ (p.DataOverflow ≠ 0 → imageHeader p.MemoryBlock ≤ 64)
  ∧ (r = IQRF_PGM_FLASH_BLOCK_READY ∨ r = IQRF_PGM_EEPROM_BLOCK_READY →
      (p.MemoryBlockProcessState = 1 ∨ p.MemoryBlockProcessState = 2)
      ∧ (p.MemoryBlockProcessState = 2 ↔ flashPage p.MemoryBlock))

/-- The first statement of the serial branch of `iqrfPgmPrepareMemBlock`:
when no block is begun, one is. -/
def serialInit (w : World) : World :=
  if w.PrepareMemBlock.MemoryBlockNumber = 0 then
    let MemBlock := ((w.PrepareMemBlock.Address - 0x200) / 32) % 65536
    let mb0 := memset w.PrepareMemBlock.MemoryBlock 0 0 68
    let mb1 := (mb0.set 34 (MemBlock &&& 0x00FF)).set 35 ((MemBlock >>> 8) % 256)
    let MemBlock1 := (MemBlock + 1) % 65536
    let mb2 := (mb1.set 0 (MemBlock1 &&& 0x00FF)).set 1 ((MemBlock1 >>> 8) % 256)
    { w with PrepareMemBlock := { w.PrepareMemBlock with
        MemoryBlock := mb2
        MemoryBlockNumber := w.PrepareMemBlock.Address / 32
        MemoryBlockProcessState := 1 } }
  else w

/-! # Theorems -/

/-! ## Lists as byte arrays -/

theorem getD_set_eq (l : List Nat) (i j v d : Nat) :
    (l.set i v).getD j d = if i = j ∧ i < l.length then v else l.getD j d := by
  simp only [List.getD_eq_getElem?_getD, List.getElem?_set]
  by_cases h : i = j
  · subst h
    by_cases h2 : i < l.length
    · simp only [h2, if_true, and_self, Option.getD_some]
    · simp only [h2, if_false, and_false, if_true, Option.getD_none]
      rw [List.getElem?_eq_none (by omega : l.length ≤ i)]
      rfl
  · simp only [h, if_false, false_and]

theorem getD_set_ne (l : List Nat) (i j v d : Nat) (h : i ≠ j) :
    (l.set i v).getD j d = l.getD j d := by
  rw [getD_set_eq]; simp [h]

theorem getD_set_self (l : List Nat) (i v d : Nat) (h : i < l.length) :
    (l.set i v).getD i d = v := by
  rw [getD_set_eq]; simp [h]

theorem length_memcpy (src : List Nat) : ∀ (dst : List Nat) (off : Nat),
    (memcpy dst off src).length = dst.length := by
  induction src with
  | nil => intro dst off; rfl
  | cons b bs ih => intro dst off; simp [memcpy, ih]

theorem getD_memcpy (src : List Nat) : ∀ (dst : List Nat) (off j : Nat),
    (memcpy dst off src).getD j 0 =
      if off ≤ j ∧ j < off + src.length ∧ j < dst.length then src.getD (j - off) 0
      else dst.getD j 0 := by
  induction src with
  | nil =>
    intro dst off j
    have h : ¬ (off ≤ j ∧ j < off + ([] : List Nat).length ∧ j < dst.length) := by
      simp only [List.length_nil]; omega
    simp only [memcpy, h, if_false]
  | cons b bs ih =>
    intro dst off j
    simp only [memcpy, ih, List.length_set, List.length_cons, getD_set_eq]
    by_cases h1 : off = j
    · subst h1
      by_cases h2 : off < dst.length
      · simp [h2]
      · simp [h2]
    · by_cases h2 : off + 1 ≤ j
      · have h3 : j - off = (j - (off + 1)) + 1 := by omega
        have h4 : off ≤ j := by omega
        by_cases h5 : j < off + 1 + bs.length ∧ j < dst.length
        · have h6 : j < off + (bs.length + 1) := by omega
          simp [h2, h4, h5, h6, h3, h1]
        · have h6 : ¬ (j < off + (bs.length + 1) ∧ j < dst.length) := by omega
          have h7 : ¬ (off + 1 ≤ j ∧ j < off + 1 + bs.length ∧ j < dst.length) := by tauto
          have h8 : ¬ (off ≤ j ∧ j < off + (bs.length + 1) ∧ j < dst.length) := by tauto
          simp only [h7, h8, if_false]
          simp [h1]
      · have h4 : ¬ off ≤ j := by omega
        simp [h2, h4, h1]

theorem length_readBytes (src : List Nat) (off n : Nat) : (readBytes src off n).length = n := by
  simp [readBytes]

theorem getD_readBytes (src : List Nat) (off n i : Nat) (h : i < n) :
    (readBytes src off n).getD i 0 = src.getD (off + i) 0 := by
  simp [readBytes, List.getD_eq_getElem?_getD, List.getElem?_map, List.getElem?_range h]

theorem readBytes_congr (a b : List Nat) (offa offb n : Nat)
    (h : ∀ i, i < n → a.getD (offa + i) 0 = b.getD (offb + i) 0) :
    readBytes a offa n = readBytes b offb n := by
  unfold readBytes
  apply List.map_congr_left
  intro i hi
  exact h i (List.mem_range.mp hi)

theorem readBytes_self (l : List Nat) : readBytes l 0 l.length = l := by
  apply List.ext_getElem
  · simp [length_readBytes]
  · intro n h1 h2
    have h3 := getD_readBytes l 0 l.length n h2
    rw [List.getD_eq_getElem _ _ h1] at h3
    rw [h3, Nat.zero_add, List.getD_eq_getElem _ _ h2]

/-! ## The checksum loop -/

theorem xorLoop_seed (B : List Nat) (cnt : Nat) : ∀ (c x I : Nat),
    xorLoop B (c ^^^ x) I cnt = xorLoop B c I cnt ^^^ x := by
  induction cnt with
  | zero => intro c x I; rfl
  | succ k ih =>
    intro c x I
    simp only [xorLoop]
    rw [← ih]
    congr 1
    ac_rfl

theorem xorLoop_set_outside (B : List Nat) (i v : Nat) (cnt : Nat) : ∀ (c I : Nat),
    (i < I ∨ I + cnt ≤ i) → xorLoop (B.set i v) c I cnt = xorLoop B c I cnt := by
  induction cnt with
  | zero => intro c I _; rfl
  | succ k ih =>
    intro c I h
    simp only [xorLoop]
    rw [getD_set_ne B i I v 0 (by omega), ih _ _ (by omega)]

theorem xorLoop_set_inside (B : List Nat) (i v : Nat) (hi : i < B.length) (cnt : Nat) :
    ∀ (c I : Nat), I ≤ i → i < I + cnt →
      xorLoop (B.set i v) c I cnt = xorLoop B c I cnt ^^^ (B.getD i 0 ^^^ v) := by
  induction cnt with
  | zero => intro c I h1 h2; omega
  | succ k ih =>
    intro c I h1 h2
    simp only [xorLoop]
    by_cases h : I = i
    · subst h
      rw [getD_set_self B I v 0 hi, xorLoop_set_outside B I v k _ _ (by omega)]
      rw [xorLoop_seed, xorLoop_seed]
      rw [Nat.xor_assoc, ← Nat.xor_assoc (B.getD I 0), Nat.xor_self, Nat.zero_xor]
    · rw [getD_set_ne B i I v 0 (by omega), ih _ _ (by omega) (by omega)]

theorem xorLoop_eq_xorAll (cnt : Nat) : ∀ (B : List Nat) (c I : Nat), I + cnt ≤ B.length →
    xorLoop B c I cnt = c ^^^ xorAll ((B.drop I).take cnt) := by
  induction cnt with
  | zero => intro B c I _; simp [xorLoop, xorAll]
  | succ k ih =>
    intro B c I h
    have hI : I < B.length := by omega
    have hd : B.drop I = B.getD I 0 :: B.drop (I + 1) := by
      rw [List.getD_eq_getElem _ _ hI]
      exact List.drop_eq_getElem_cons hI
    simp only [xorLoop]
    rw [ih B _ (I + 1) (by omega), hd, List.take_succ_cons]
    simp only [xorAll, List.foldl_cons, Nat.zero_xor]
    have hf : ∀ (l : List Nat) (a : Nat),
        List.foldl (fun a b => a ^^^ b) a l = a ^^^ List.foldl (fun a b => a ^^^ b) 0 l := by
      intro l
      induction l with
      | nil => intro a; simp
      | cons y ys ihy =>
        intro a
        simp only [List.foldl_cons, Nat.zero_xor]
        rw [ihy (a ^^^ y), ihy y, Nat.xor_assoc]
    rw [hf _ (B.getD I 0), Nat.xor_assoc]

/-! ## Checksum validation (`iqrfCrcCheck`) -/

/-- C4, as stated, fails: in the frame `[0x3F, 0x00, 0xAA, 0x11, cs, 0x3F]` of
type `0x82` with a correct checksum `cs`, byte 0 is changed from `0x3F` to
`0x3E` and byte 1 from `0x00` to `0x01`, and `iqrfCrcCheck` still returns
true: the function never reads the bytes at index 0 and 1. -/
theorem iqrfCrcCheck_ignores_header_counterexample :
    ([0x3F, 0x00, 0xAA, 0x11, 0x66, 0x3F] : List Nat).getD 4 0
        = specInboundChecksum 0x82 (payloadOf [0x3F, 0x00, 0xAA, 0x11, 0x66, 0x3F] 2)
    ∧ (0x3E : Nat) ≠ ([0x3F, 0x00, 0xAA, 0x11, 0x66, 0x3F] : List Nat).getD 0 0
    ∧ iqrfCrcCheck (([0x3F, 0x00, 0xAA, 0x11, 0x66, 0x3F] : List Nat).set 0 0x3E) 2 0x82 = true
    ∧ (0x01 : Nat) ≠ ([0x3F, 0x00, 0xAA, 0x11, 0x66, 0x3F] : List Nat).getD 1 0
    ∧ iqrfCrcCheck (([0x3F, 0x00, 0xAA, 0x11, 0x66, 0x3F] : List Nat).set 1 0x01) 2 0x82 = true := by
  decide

/-- C4, amended: for every type byte, payload length `n <= 64` and inbound
frame whose checksum byte `Buffer[n+2]` equals `0x5F XOR type XOR` (XOR of
the payload bytes `Buffer[2..n+1]`), `iqrfCrcCheck` returns true; changing
any single byte at an index `2..n+2` (a payload byte or the checksum byte)
to a different value makes it return false; the bytes at index 0 and 1 are
not covered: whatever is written there, the result stays true. -/
theorem iqrfCrcCheck_single_byte_change (Ptype n : Nat) (B : List Nat) (_hn : n ≤ 64)
    (hlen : n + 3 ≤ B.length)
    (hck : B.getD (n + 2) 0 = specInboundChecksum Ptype (payloadOf B n)) :
    iqrfCrcCheck B n Ptype = true
    ∧ (∀ i v, 2 ≤ i → i ≤ n + 2 → v ≠ B.getD i 0 → iqrfCrcCheck (B.set i v) n Ptype = false)
    ∧ (∀ i v, i < 2 → iqrfCrcCheck (B.set i v) n Ptype = true) := by
  have hspec : xorLoop B (0x5F ^^^ Ptype) 2 n = specInboundChecksum Ptype (payloadOf B n) := by
    rw [xorLoop_eq_xorAll n B _ 2 (by omega)]
    rfl
  refine ⟨?_, ?_, ?_⟩
  · simp only [iqrfCrcCheck, hspec, hck, if_true]
  · intro i v h2 hi hv
    by_cases hcs : i = n + 2
    · subst hcs
      have h1 : xorLoop (B.set (n + 2) v) (0x5F ^^^ Ptype) 2 n = xorLoop B (0x5F ^^^ Ptype) 2 n :=
        xorLoop_set_outside B (n + 2) v n _ 2 (by omega)
      simp only [iqrfCrcCheck, h1, getD_set_self B (n + 2) v 0 (by omega), hspec, ← hck]
      exact if_neg hv
    · have h1 := xorLoop_set_inside B i v (by omega) n (0x5F ^^^ Ptype) 2 h2 (by omega)
      simp only [iqrfCrcCheck, h1, getD_set_ne B i (n + 2) v 0 hcs, hspec, ← hck]
      have h3 : B.getD i 0 ^^^ v ≠ 0 := by
        intro h0
        exact hv (Nat.xor_eq_zero.mp h0).symm
      have h4 : B.getD (n + 2) 0 ≠ B.getD (n + 2) 0 ^^^ (B.getD i 0 ^^^ v) := by
        intro h5
        apply h3
        have h6 : B.getD (n + 2) 0 ^^^ 0 = B.getD (n + 2) 0 ^^^ (B.getD i 0 ^^^ v) := by
          rw [Nat.xor_zero]; exact h5
        exact (Nat.xor_right_inj.mp h6).symm
      exact if_neg h4
  · intro i v hi
    have h1 : xorLoop (B.set i v) (0x5F ^^^ Ptype) 2 n = xorLoop B (0x5F ^^^ Ptype) 2 n :=
      xorLoop_set_outside B i v n _ 2 (by omega)
    simp only [iqrfCrcCheck, h1, getD_set_ne B i (n + 2) v 0 (by omega), hspec, hck, if_true]

/-- Witness of `iqrfCrcCheck_single_byte_change`: the frame of type `0x82`
with payload `AA 11`. -/
theorem iqrfCrcCheck_single_byte_change_witness :
    iqrfCrcCheck [0x3F, 0x00, 0xAA, 0x11, 0x66, 0x3F] 2 0x82 = true
    ∧ (∀ i v, 2 ≤ i → i ≤ 2 + 2 → v ≠ ([0x3F, 0x00, 0xAA, 0x11, 0x66, 0x3F] : List Nat).getD i 0 →
        iqrfCrcCheck (([0x3F, 0x00, 0xAA, 0x11, 0x66, 0x3F] : List Nat).set i v) 2 0x82 = false)
    ∧ (∀ i v, i < 2 →
        iqrfCrcCheck (([0x3F, 0x00, 0xAA, 0x11, 0x66, 0x3F] : List Nat).set i v) 2 0x82 = true) :=
  iqrfCrcCheck_single_byte_change 0x82 2 [0x3F, 0x00, 0xAA, 0x11, 0x66, 0x3F]
    (by decide) (by decide) (by decide)

/-! ## The send session (`iqrfSendData`) and the mailbox (`iqrfSendPacket`) -/

/-- C9, as stated, fails: in the state `IQRF_SM_SEND_REQUEST` a call of
`iqrfSendData` with `DataLength = 0`, and one with `DataLength = 200`, puts
a request of that length in the mailbox. -/
theorem iqrfSendData_bad_length_counterexample :
    (iqrfSendData { IqrfDataSenderSM := IQRF_SM_SEND_REQUEST } (BufPtr.user []) 0).1.IqrfPacket
      = { BufferFlag := IQRF_BUFFER_BUSY, SpiCmd := SPI_WR_RD,
          DataBuffer := BufPtr.user [], DataLength := 0 }
    ∧ (iqrfSendData { IqrfDataSenderSM := IQRF_SM_SEND_REQUEST } (BufPtr.user []) 0).1.IqrfPacket
      ≠ ({ IqrfDataSenderSM := IQRF_SM_SEND_REQUEST } : World).IqrfPacket
    ∧ (iqrfSendData { IqrfDataSenderSM := IQRF_SM_SEND_REQUEST } (BufPtr.user []) 200).1.IqrfPacket
      ≠ ({ IqrfDataSenderSM := IQRF_SM_SEND_REQUEST } : World).IqrfPacket := by
  decide

/-- C9, amended: a call of `iqrfSendData` with `DataLength = 0` or
`DataLength > 64` leaves `IqrfPacket` unchanged in every session state other
than `IQRF_SM_SEND_REQUEST`, for every transport status; made in the Idle
state it leaves the session Idle, so that it does not lead to
`IQRF_SM_SEND_REQUEST`. The length is checked in the Idle state only. -/
theorem iqrfSendData_bad_length (w : World) (buf : BufPtr) (len : Nat)
    (hlen : len = 0 ∨ len > 64) :
    (w.IqrfDataSenderSM ≠ IQRF_SM_SEND_REQUEST →
      (iqrfSendData w buf len).1.IqrfPacket = w.IqrfPacket)
    ∧ (w.IqrfDataSenderSM = IQRF_SM_PREPARE_REQUEST →
      (iqrfSendData w buf len).1.IqrfDataSenderSM = IQRF_SM_PREPARE_REQUEST) := by
  constructor
  · intro hsm
    unfold iqrfSendData
    simp only [hsm, if_false]
    split_ifs <;> rfl
  · intro hsm
    unfold iqrfSendData
    simp only [hsm, if_true, hlen]
    split_ifs <;> first | rfl | exact hsm

/-- Witness of `iqrfSendData_bad_length`: length 65 at program start. -/
theorem iqrfSendData_bad_length_witness :
    (({} : World).IqrfDataSenderSM ≠ IQRF_SM_SEND_REQUEST →
      (iqrfSendData {} (BufPtr.user []) 65).1.IqrfPacket = ({} : World).IqrfPacket)
    ∧ (({} : World).IqrfDataSenderSM = IQRF_SM_PREPARE_REQUEST →
      (iqrfSendData {} (BufPtr.user []) 65).1.IqrfDataSenderSM = IQRF_SM_PREPARE_REQUEST) :=
  iqrfSendData_bad_length {} (BufPtr.user []) 65 (by decide)

/-- C10, as stated, fails: in the Idle state with the transport status
`SPI_DATA_TRANSFER` (not `COMMUNICATION_MODE`: the bus is busy) the call
returns `IQRF_OPERATION_IN_PROGRESS`, not `IQRF_TR_MODULE_NOT_READY`. -/
theorem iqrfSendData_idle_busy_counterexample :
    ({ IqrfSpiControl := { SpiStat := SPI_DATA_TRANSFER } } : World).IqrfDataSenderSM
      = IQRF_SM_PREPARE_REQUEST
    ∧ ({ IqrfSpiControl := { SpiStat := SPI_DATA_TRANSFER } } : World).IqrfSpiControl.SpiStat
      ≠ COMMUNICATION_MODE
    ∧ (iqrfSendData { IqrfSpiControl := { SpiStat := SPI_DATA_TRANSFER } } (BufPtr.user [7]) 1).2
      = some IQRF_OPERATION_IN_PROGRESS
    ∧ (iqrfSendData { IqrfSpiControl := { SpiStat := SPI_DATA_TRANSFER } } (BufPtr.user [7]) 1).2
      ≠ some IQRF_TR_MODULE_NOT_READY := by
  decide

/-- C10, amended: in the Idle state the call returns
`IQRF_OPERATION_IN_PROGRESS` when the transport status is `SPI_DATA_TRANSFER`,
`IQRF_TR_MODULE_NOT_READY` when the status is neither `SPI_DATA_TRANSFER` nor
`COMMUNICATION_MODE`, and `IQRF_WRONG_DATA_SIZE` when the status is
`COMMUNICATION_MODE` and the length is outside `1..64`; in each of these
cases nothing changes: the session stays Idle and the mailbox is untouched. -/
theorem iqrfSendData_idle_errors (w : World) (buf : BufPtr) (len : Nat)
    (hsm : w.IqrfDataSenderSM = IQRF_SM_PREPARE_REQUEST) :
    (w.IqrfSpiControl.SpiStat = SPI_DATA_TRANSFER →
      iqrfSendData w buf len = (w, some IQRF_OPERATION_IN_PROGRESS))
    ∧ (w.IqrfSpiControl.SpiStat ≠ SPI_DATA_TRANSFER →
        w.IqrfSpiControl.SpiStat ≠ COMMUNICATION_MODE →
      iqrfSendData w buf len = (w, some IQRF_TR_MODULE_NOT_READY))
    ∧ (w.IqrfSpiControl.SpiStat = COMMUNICATION_MODE → (len = 0 ∨ len > 64) →
      iqrfSendData w buf len = (w, some IQRF_WRONG_DATA_SIZE)) := by
  refine ⟨?_, ?_, ?_⟩
  · intro h
    simp only [iqrfSendData, hsm, h, if_true]
  · intro h1 h2
    simp only [iqrfSendData, hsm, h1, h2, if_true, if_false, ne_eq, not_false_eq_true]
  · intro h1 h2
    have h3 : COMMUNICATION_MODE ≠ SPI_DATA_TRANSFER := by decide
    simp only [iqrfSendData, hsm, h1, h2, h3, if_true, if_false, ne_eq, not_true_eq_false]

/-- Witness of `iqrfSendData_idle_errors`: the state at program start. -/
theorem iqrfSendData_idle_errors_witness :
    (({} : World).IqrfSpiControl.SpiStat = SPI_DATA_TRANSFER →
      iqrfSendData {} (BufPtr.user [7]) 1 = ({}, some IQRF_OPERATION_IN_PROGRESS))
    ∧ (({} : World).IqrfSpiControl.SpiStat ≠ SPI_DATA_TRANSFER →
        ({} : World).IqrfSpiControl.SpiStat ≠ COMMUNICATION_MODE →
      iqrfSendData {} (BufPtr.user [7]) 1 = ({}, some IQRF_TR_MODULE_NOT_READY))
    ∧ (({} : World).IqrfSpiControl.SpiStat = COMMUNICATION_MODE → ((1 : Nat) = 0 ∨ 1 > 64) →
      iqrfSendData {} (BufPtr.user [7]) 1 = ({}, some IQRF_WRONG_DATA_SIZE)) :=
  iqrfSendData_idle_errors {} (BufPtr.user [7]) 1 (by decide)

/-- The port `iqrfSendSpiByte` in closed form: it changes the select flag
and the trace only. -/
theorem iqrfSendSpiByte_eq (w : World) (tx rx : Nat) :
    iqrfSendSpiByte w tx rx =
      ({ w with
         IqrfControl := { w.IqrfControl with TRmoduleSelected := w.IqrfControl.FastSPI }
         trace := w.trace ++ (if w.IqrfControl.TRmoduleSelected then [] else [Event.select])
           ++ [Event.transfer tx (rx % 256)]
           ++ (if w.IqrfControl.FastSPI then [] else [Event.deselect]) }, rx % 256) := by
  rcases w with ⟨⟨st, sf, sel, fast, tc, h⟩, spi, pkt, sm, ti, tr, fi, lb, mb, cc, wc, cf, tk, trc⟩
  cases sel <;> cases fast <;> simp [iqrfSendSpiByte, iqrfDeselectTRmodule]

/-- The status poll, once the returned status is not "data ready" and a
request is pending, is `startWrite` on the polled state. -/
theorem statusPoll_busy (w : World) (rx : Nat) (hrx : (rx % 256) &&& 0xC0 ≠ 0x40)
    (hbusy : w.IqrfPacket.BufferFlag = IQRF_BUFFER_BUSY) :
    statusPoll w rx = startWrite (iqrfDeselectTRmodule
      { (iqrfSendSpiByte w SPI_CHECK rx).1 with
        IqrfSpiControl := { (iqrfSendSpiByte w SPI_CHECK rx).1.IqrfSpiControl with
          SpiStat := rx % 256 } }) := by
  unfold statusPoll
  simp only [iqrfSendSpiByte_eq]
  rw [if_neg (by simpa [iqrfDeselectTRmodule] using hrx)]
  rw [if_pos (by simpa [iqrfDeselectTRmodule] using hbusy)]

/-- The payload bytes of the frame `startWrite` builds are the bytes the
mailbox designates. -/
theorem startWrite_frame (w : World) (hlen : w.IqrfPacket.DataLength ≤ 64) :
    (startWrite w).IqrfSpiControl.PacketTxBuffer.getD 0 0 = w.IqrfPacket.SpiCmd
    ∧ readBytes (startWrite w).IqrfSpiControl.PacketTxBuffer 2 w.IqrfPacket.DataLength
        = deref w w.IqrfPacket.DataBuffer w.IqrfPacket.DataLength
    ∧ (startWrite w).IqrfPacket.BufferFlag = IQRF_BUFFER_FREE := by
  have hd : (deref w w.IqrfPacket.DataBuffer w.IqrfPacket.DataLength).length
      = w.IqrfPacket.DataLength := by
    unfold deref; split <;> exact length_readBytes _ _ _
  refine ⟨?_, ?_, rfl⟩
  · simp only [startWrite]
    rw [getD_set_ne _ _ _ _ _ (by omega), getD_memcpy, if_neg (by omega),
      getD_set_ne _ _ _ _ _ (by omega), getD_set_self _ _ _ _ (by simp)]
  · simp only [startWrite]
    have e := readBytes_self (deref w w.IqrfPacket.DataBuffer w.IqrfPacket.DataLength)
    rw [hd] at e
    conv_rhs => rw [← e]
    apply readBytes_congr
    intro i hi
    rw [getD_set_ne _ _ _ _ _ (by omega), getD_memcpy,
      if_pos ⟨by omega, by omega, by simp; omega⟩]
    congr 1
    omega

/-- C2, as stated, fails: with a request `(SPI_FLASH_PGM, [1, 2, 3], 3)`
pending (`BufferFlag = IQRF_BUFFER_BUSY`), `iqrfSendPacket(SPI_EEPROM_PGM,
[9, 9], 2)` replaces command, buffer and length, and the frame the transport
builds at the next status poll carries the second request. -/
theorem iqrfSendPacket_busy_counterexample :
    (iqrfSendPacket
        { IqrfPacket := { BufferFlag := IQRF_BUFFER_BUSY, SpiCmd := SPI_FLASH_PGM,
                          DataBuffer := BufPtr.user [1, 2, 3], DataLength := 3 } }
        SPI_EEPROM_PGM (BufPtr.user [9, 9]) 2).IqrfPacket
      = { BufferFlag := IQRF_BUFFER_BUSY, SpiCmd := SPI_EEPROM_PGM,
          DataBuffer := BufPtr.user [9, 9], DataLength := 2 }
    ∧ (iqrfSpiDriver
        (iqrfSendPacket
          { IqrfPacket := { BufferFlag := IQRF_BUFFER_BUSY, SpiCmd := SPI_FLASH_PGM,
                            DataBuffer := BufPtr.user [1, 2, 3], DataLength := 3 } }
          SPI_EEPROM_PGM (BufPtr.user [9, 9]) 2)
        PROGRAMMING_MODE).IqrfSpiControl.PacketTxBuffer.take 6
      = [SPI_EEPROM_PGM, 0x82, 9, 9, 0x2E, 0] := by
  decide

/-- C2, amended: `iqrfSendPacket` does not test `BufferFlag`. For every
mailbox state, busy or free, the call stores the new command, buffer and
length and marks the mailbox busy; the frame the transport builds from the
mailbox at its next status poll (status not "data ready", length at most 64)
carries the command and payload of this last request, and frees the mailbox.
A pending request survives only if the caller tests
`iqrfGetTxBufferStatus` before the call. -/
theorem iqrfSendPacket_overwrites (w : World) (cmd2 : Nat) (buf2 : BufPtr) (len2 rx : Nat)
    (hlen : len2 ≤ 64) (hready : w.IqrfControl.Status = IQRF_READY)
    (hrx : (rx % 256) &&& 0xC0 ≠ 0x40) :
    (iqrfSendPacket w cmd2 buf2 len2).IqrfPacket
      = { BufferFlag := IQRF_BUFFER_BUSY, SpiCmd := cmd2, DataBuffer := buf2, DataLength := len2 }
    ∧ (iqrfSpiDriver (iqrfSendPacket w cmd2 buf2 len2) rx).IqrfSpiControl.PacketTxBuffer.getD 0 0
      = cmd2
    ∧ readBytes (iqrfSpiDriver (iqrfSendPacket w cmd2 buf2 len2) rx).IqrfSpiControl.PacketTxBuffer
        2 len2 = deref w buf2 len2
    ∧ (iqrfSpiDriver (iqrfSendPacket w cmd2 buf2 len2) rx).IqrfPacket.BufferFlag
      = IQRF_BUFFER_FREE := by
  have hs : (iqrfSendPacket w cmd2 buf2 len2).IqrfControl.Status = IQRF_READY := hready
  have hp : (iqrfSendPacket w cmd2 buf2 len2).IqrfPacket
      = { BufferFlag := IQRF_BUFFER_BUSY, SpiCmd := cmd2, DataBuffer := buf2,
          DataLength := len2 } := rfl
  have hdrv : iqrfSpiDriver (iqrfSendPacket w cmd2 buf2 len2) rx
      = statusPoll (iqrfSendPacket w cmd2 buf2 len2) rx := by
    unfold iqrfSpiDriver
    rw [if_neg (by simp [hs])]
  rw [hdrv, statusPoll_busy _ rx hrx (by rw [hp])]
  generalize hq : (iqrfDeselectTRmodule
      { (iqrfSendSpiByte (iqrfSendPacket w cmd2 buf2 len2) SPI_CHECK rx).1 with
        IqrfSpiControl :=
          { (iqrfSendSpiByte (iqrfSendPacket w cmd2 buf2 len2) SPI_CHECK rx).1.IqrfSpiControl with
            SpiStat := rx % 256 } }) = q
  have hqp : q.IqrfPacket
      = { BufferFlag := IQRF_BUFFER_BUSY, SpiCmd := cmd2, DataBuffer := buf2,
          DataLength := len2 } := by
    rw [← hq, iqrfSendSpiByte_eq]
    rfl
  have hqd : deref q buf2 len2 = deref w buf2 len2 := by
    rw [← hq, iqrfSendSpiByte_eq]
    rfl
  have hf := startWrite_frame q (by rw [hqp]; exact hlen)
  rw [hqp] at hf
  exact ⟨rfl, hf.1, by rw [← hqd]; exact hf.2.1, hf.2.2⟩

/-- Witness of `iqrfSendPacket_overwrites`: a second request given to a busy
mailbox. -/
theorem iqrfSendPacket_overwrites_witness :
    (iqrfSendPacket
        { IqrfPacket := { BufferFlag := IQRF_BUFFER_BUSY, SpiCmd := SPI_FLASH_PGM,
                          DataBuffer := BufPtr.user [1, 2, 3], DataLength := 3 } }
        SPI_EEPROM_PGM (BufPtr.user [9, 9]) 2).IqrfPacket
      = { BufferFlag := IQRF_BUFFER_BUSY, SpiCmd := SPI_EEPROM_PGM,
          DataBuffer := BufPtr.user [9, 9], DataLength := 2 }
    ∧ (iqrfSpiDriver (iqrfSendPacket
        { IqrfPacket := { BufferFlag := IQRF_BUFFER_BUSY, SpiCmd := SPI_FLASH_PGM,
                          DataBuffer := BufPtr.user [1, 2, 3], DataLength := 3 } }
        SPI_EEPROM_PGM (BufPtr.user [9, 9]) 2) PROGRAMMING_MODE).IqrfSpiControl.PacketTxBuffer.getD 0 0
      = SPI_EEPROM_PGM
    ∧ readBytes (iqrfSpiDriver (iqrfSendPacket
        { IqrfPacket := { BufferFlag := IQRF_BUFFER_BUSY, SpiCmd := SPI_FLASH_PGM,
                          DataBuffer := BufPtr.user [1, 2, 3], DataLength := 3 } }
        SPI_EEPROM_PGM (BufPtr.user [9, 9]) 2) PROGRAMMING_MODE).IqrfSpiControl.PacketTxBuffer
        2 2 = deref
        { IqrfPacket := { BufferFlag := IQRF_BUFFER_BUSY, SpiCmd := SPI_FLASH_PGM,
                          DataBuffer := BufPtr.user [1, 2, 3], DataLength := 3 } }
        (BufPtr.user [9, 9]) 2
    ∧ (iqrfSpiDriver (iqrfSendPacket
        { IqrfPacket := { BufferFlag := IQRF_BUFFER_BUSY, SpiCmd := SPI_FLASH_PGM,
                          DataBuffer := BufPtr.user [1, 2, 3], DataLength := 3 } }
        SPI_EEPROM_PGM (BufPtr.user [9, 9]) 2) PROGRAMMING_MODE).IqrfPacket.BufferFlag
      = IQRF_BUFFER_FREE :=
  iqrfSendPacket_overwrites
    { IqrfPacket := { BufferFlag := IQRF_BUFFER_BUSY, SpiCmd := SPI_FLASH_PGM,
                      DataBuffer := BufPtr.user [1, 2, 3], DataLength := 3 } }
    SPI_EEPROM_PGM (BufPtr.user [9, 9]) 2 PROGRAMMING_MODE (by decide) (by decide) (by decide)

/-! ## One exchange, byte by byte -/

theorem transfers_append (a b : List Event) : transfers (a ++ b) = transfers a ++ transfers b := by
  induction a with
  | nil => rfl
  | cons e es ih => cases e <;> simp [transfers, ih]

theorem sentPackets_append (a b : List Event) :
    sentPackets (a ++ b) = sentPackets a ++ sentPackets b := by
  induction a with
  | nil => rfl
  | cons e es ih => cases e <;> simp [sentPackets, ih]

/-- The events of one transfer contain exactly that transfer and no packet. -/
theorem transfers_step (t : List Event) (sel fast : Bool) (tx rx : Nat) :
    transfers (t ++ (if sel then [] else [Event.select]) ++ [Event.transfer tx rx]
        ++ (if fast then [] else [Event.deselect])) = transfers t ++ [(tx, rx)]
    ∧ sentPackets (t ++ (if sel then [] else [Event.select]) ++ [Event.transfer tx rx]
        ++ (if fast then [] else [Event.deselect])) = sentPackets t := by
  cases sel <;> cases fast <;> simp [transfers_append, sentPackets_append, transfers, sentPackets]

/-- A driver call while a write exchange is in flight is one exchange step. -/
theorem iqrfDriver_exchange (w : World) (rx : Nat) (hs : w.IqrfControl.SuspendFlag = false)
    (hst : w.IqrfControl.Status = IQRF_WRITE ∨ w.IqrfControl.Status = IQRF_READ) :
    iqrfDriver w rx =
      { exchangeByte w rx with
        IqrfControl := { (exchangeByte w rx).IqrfControl with
          TimeCnt := ((if (exchangeByte w rx).IqrfControl.FastSPI = true
            then SPI_STATUS_POOLING_TIME * 5 + 1 else SPI_STATUS_POOLING_TIME + 1) + 255) % 256 } } := by
  have h1 : w.IqrfControl.Status ≠ IQRF_READY := by
    rcases hst with h | h <;> rw [h] <;> decide
  have h2 : (w.IqrfControl.Status = IQRF_READ ∨ w.IqrfControl.Status = IQRF_WRITE
      ∨ w.IqrfControl.TimeCnt = 0) := by
    rcases hst with h | h
    · exact Or.inr (Or.inl h)
    · exact Or.inl h
  unfold iqrfDriver iqrfSpiDriver
  simp only [hs, h1, h2, if_true, ne_eq, not_false_eq_true, Bool.false_eq_true, if_false]

/-- The transfer of one byte of a frame in closed form. -/
theorem receiveByte_eq (w : World) (rx : Nat) :
    receiveByte w rx =
      { w with
        IqrfSpiControl := { w.IqrfSpiControl with
          PacketRxBuffer := w.IqrfSpiControl.PacketRxBuffer.set w.IqrfSpiControl.PacketCnt (rx % 256)
          PacketCnt := (w.IqrfSpiControl.PacketCnt + 1) % 256 }
        IqrfControl := { w.IqrfControl with TRmoduleSelected := w.IqrfControl.FastSPI }
        trace := w.trace ++ (if w.IqrfControl.TRmoduleSelected then [] else [Event.select])
          ++ [Event.transfer (w.IqrfSpiControl.PacketTxBuffer.getD w.IqrfSpiControl.PacketCnt 0)
                (rx % 256)]
          ++ (if w.IqrfControl.FastSPI then [] else [Event.deselect]) } := by
  unfold receiveByte
  simp only [iqrfSendSpiByte_eq]

/-- An exchange step that does not complete the frame stores the received
byte and advances the counter. -/
theorem exchangeByte_mid (w : World) (rx : Nat)
    (h1 : (w.IqrfSpiControl.PacketCnt + 1) % 256 ≠ w.IqrfSpiControl.PacketLen)
    (h2 : (w.IqrfSpiControl.PacketCnt + 1) % 256 ≠ IQRF_PKT_SIZE) :
    exchangeByte w rx = receiveByte w rx := by
  unfold exchangeByte
  simp only [receiveByte_eq]
  rw [if_neg (by
    intro h
    rcases h with h | h
    · exact h1 h
    · exact h2 h)]

/-- The exchange step that completes the frame validates it. -/
theorem exchangeByte_last (w : World) (rx : Nat)
    (h1 : (w.IqrfSpiControl.PacketCnt + 1) % 256 = w.IqrfSpiControl.PacketLen) :
    exchangeByte w rx = completeFrame (receiveByte w rx) := by
  unfold exchangeByte
  simp only [receiveByte_eq]
  rw [if_pos (Or.inl h1)]

/-- A driver call in the middle of an exchange, in closed form. -/
theorem iqrfDriver_mid (w : World) (b : Nat) (hs : w.IqrfControl.SuspendFlag = false)
    (hst : w.IqrfControl.Status = IQRF_WRITE ∨ w.IqrfControl.Status = IQRF_READ)
    (hcnt : w.IqrfSpiControl.PacketCnt + 1 < w.IqrfSpiControl.PacketLen)
    (hlen : w.IqrfSpiControl.PacketLen ≤ 68) :
    iqrfDriver w b =
      { w with
        IqrfSpiControl := { w.IqrfSpiControl with
          PacketRxBuffer := w.IqrfSpiControl.PacketRxBuffer.set w.IqrfSpiControl.PacketCnt (b % 256)
          PacketCnt := w.IqrfSpiControl.PacketCnt + 1 }
        IqrfControl := { w.IqrfControl with
          TRmoduleSelected := w.IqrfControl.FastSPI
          TimeCnt := ((if w.IqrfControl.FastSPI = true
            then SPI_STATUS_POOLING_TIME * 5 + 1 else SPI_STATUS_POOLING_TIME + 1) + 255) % 256 }
        trace := w.trace ++ ((if w.IqrfControl.TRmoduleSelected then [] else [Event.select])
          ++ [Event.transfer (w.IqrfSpiControl.PacketTxBuffer.getD w.IqrfSpiControl.PacketCnt 0)
                (b % 256)]
          ++ (if w.IqrfControl.FastSPI then [] else [Event.deselect])) } := by
  have hm : (w.IqrfSpiControl.PacketCnt + 1) % 256 = w.IqrfSpiControl.PacketCnt + 1 :=
    Nat.mod_eq_of_lt (by omega)
  rw [iqrfDriver_exchange w b hs hst,
    exchangeByte_mid w b (by rw [hm]; omega) (by rw [hm]; unfold IQRF_PKT_SIZE; omega),
    receiveByte_eq, hm]
  simp only [List.append_assoc]

/-- Bytes of an exchange that do not complete the frame: they are stored in
the receive buffer one after the other, one transfer each, and nothing else
changes but the select flag, the timer and the trace. -/
theorem ticks_partial (bytes : List Nat) : ∀ (w : World),
    w.IqrfControl.SuspendFlag = false →
    (w.IqrfControl.Status = IQRF_WRITE ∨ w.IqrfControl.Status = IQRF_READ) →
    w.IqrfSpiControl.PacketCnt + bytes.length < w.IqrfSpiControl.PacketLen →
    w.IqrfSpiControl.PacketLen ≤ 68 →
    ∃ (sel : Bool) (tc : Nat) (X : List Event),
      ticks w bytes =
        { w with
          IqrfSpiControl := { w.IqrfSpiControl with
            PacketRxBuffer := memcpy w.IqrfSpiControl.PacketRxBuffer w.IqrfSpiControl.PacketCnt
              (bytes.map (fun b => b % 256))
            PacketCnt := w.IqrfSpiControl.PacketCnt + bytes.length }
          IqrfControl := { w.IqrfControl with TRmoduleSelected := sel, TimeCnt := tc }
          trace := w.trace ++ X }
      ∧ transfers X = (readBytes w.IqrfSpiControl.PacketTxBuffer w.IqrfSpiControl.PacketCnt
            bytes.length).zip (bytes.map (fun b => b % 256))
      ∧ sentPackets X = [] := by
  induction bytes with
  | nil =>
    intro w _ _ _ _
    exact ⟨w.IqrfControl.TRmoduleSelected, w.IqrfControl.TimeCnt, [], by simp [ticks, memcpy],
      by simp [transfers, readBytes], rfl⟩
  | cons b bs ih =>
    intro w hs hst hcnt hlen
    simp only [List.length_cons] at hcnt
    have hstep := iqrfDriver_mid w b hs hst (by omega) hlen
    have hticks : ticks w (b :: bs) = ticks (iqrfDriver w b) bs := rfl
    obtain ⟨sel, tc, X, h1, h2, h3⟩ := ih (iqrfDriver w b) (by rw [hstep]; exact hs)
      (by rw [hstep]; exact hst)
      (by rw [hstep]; show w.IqrfSpiControl.PacketCnt + 1 + bs.length < w.IqrfSpiControl.PacketLen
          omega)
      (by rw [hstep]; exact hlen)
    rw [hticks, h1]
    rw [hstep] at h2 ⊢
    refine ⟨sel, tc, ((if w.IqrfControl.TRmoduleSelected then [] else [Event.select])
          ++ [Event.transfer (w.IqrfSpiControl.PacketTxBuffer.getD w.IqrfSpiControl.PacketCnt 0)
                (b % 256)]
          ++ (if w.IqrfControl.FastSPI then [] else [Event.deselect])) ++ X, ?_, ?_, ?_⟩
    · simp only [List.map_cons, memcpy, List.length_cons, List.append_assoc, Nat.add_assoc,
        Nat.add_comm 1]
    · rw [transfers_append, h2]
      have ht := (transfers_step [] w.IqrfControl.TRmoduleSelected w.IqrfControl.FastSPI
        (w.IqrfSpiControl.PacketTxBuffer.getD w.IqrfSpiControl.PacketCnt 0) (b % 256)).1
      simp only [List.nil_append, transfers] at ht
      rw [ht]
      simp only [readBytes, List.length_cons, List.range_succ_eq_map, List.map_cons, List.map_map,
        Nat.add_zero, List.zip_cons_cons, List.singleton_append, List.cons.injEq, true_and]
      congr 1
      apply List.map_congr_left
      intro i _
      simp only [Function.comp]
      congr 1
      omega
    · rw [sentPackets_append, h3]
      have ht := (transfers_step [] w.IqrfControl.TRmoduleSelected w.IqrfControl.FastSPI
        (w.IqrfSpiControl.PacketTxBuffer.getD w.IqrfSpiControl.PacketCnt 0) (b % 256)).2
      simp only [List.nil_append, sentPackets] at ht
      rw [ht]
      rfl

theorem memcpy_append (a : List Nat) : ∀ (dst : List Nat) (off : Nat) (b : List Nat),
    memcpy dst off (a ++ b) = memcpy (memcpy dst off a) (off + a.length) b := by
  induction a with
  | nil => intro dst off b; rfl
  | cons x xs ih =>
    intro dst off b
    have e : off + 1 + xs.length = off + (xs.length + 1) := by omega
    show memcpy (dst.set off x) (off + 1) (xs ++ b)
      = memcpy (memcpy (dst.set off x) (off + 1) xs) (off + (xs.length + 1)) b
    rw [ih, e]

theorem ticks_append (w : World) (a b : List Nat) : ticks w (a ++ b) = ticks (ticks w a) b := by
  simp [ticks, List.foldl_append]

theorem map_mod_of_lt (f : List Nat) (h : ∀ b ∈ f, b < 256) : f.map (fun b => b % 256) = f := by
  induction f with
  | nil => rfl
  | cons x xs ih =>
    simp only [List.map_cons, List.cons.injEq]
    exact ⟨Nat.mod_eq_of_lt (h x (List.mem_cons_self x xs)),
      ih (fun b hb => h b (List.mem_cons_of_mem x hb))⟩

theorem xorLoop_congr (A B : List Nat) (cnt : Nat) : ∀ (c I : Nat),
    (∀ i, I ≤ i → i < I + cnt → A.getD i 0 = B.getD i 0) →
    xorLoop A c I cnt = xorLoop B c I cnt := by
  induction cnt with
  | zero => intro c I _; rfl
  | succ k ih =>
    intro c I h
    simp only [xorLoop]
    rw [h I (Nat.le_refl I) (by omega), ih _ _ (fun i h1 h2 => h i (by omega) (by omega))]

/-- The validation reads the receive buffer at the indices `2 .. DLEN + 3`
only. -/
theorem inboundValid_congr (A B : List Nat) (n p : Nat)
    (h : ∀ i, 2 ≤ i → i ≤ n + 3 → A.getD i 0 = B.getD i 0) :
    inboundValid n p A = inboundValid n p B := by
  unfold inboundValid iqrfCrcCheck
  rw [h (n + 3) (by omega) (Nat.le_refl _), h (n + 2) (by omega) (by omega),
    xorLoop_congr A B n _ 2 (fun i h1 h2 => h i h1 (by omega))]

theorem getD_memcpy_zero (dst f : List Nat) (i : Nat) (hi : i < f.length)
    (hlen : f.length ≤ dst.length) : (memcpy dst 0 f).getD i 0 = f.getD i 0 := by
  rw [getD_memcpy, if_pos ⟨Nat.zero_le i, by omega, by omega⟩, Nat.sub_zero]

/-- The events of the last transfer of a frame, followed by the deselect. -/
theorem transfers_last (X : List Event) (sel fast : Bool) (tx rx : Nat) :
    transfers (X ++ ((if sel then [] else [Event.select]) ++ [Event.transfer tx rx]
        ++ (if fast then [] else [Event.deselect])) ++ [Event.deselect])
      = transfers X ++ [(tx, rx)]
    ∧ sentPackets (X ++ ((if sel then [] else [Event.select]) ++ [Event.transfer tx rx]
        ++ (if fast then [] else [Event.deselect])) ++ [Event.deselect]) = sentPackets X := by
  cases sel <;> cases fast <;> simp [transfers_append, sentPackets_append, transfers, sentPackets]

/-- One complete inbound frame of a write exchange: the frame is received in
`DLEN + 4` transfers and validated; an accepted frame ends the exchange and
completes the pending send session; a rejected frame restarts the exchange
while attempts remain and otherwise ends it, failing the session. -/
theorem ticks_frame_write (w : World) (f : List Nat)
    (hs : w.IqrfControl.SuspendFlag = false) (hst : w.IqrfControl.Status = IQRF_WRITE)
    (hcnt : w.IqrfSpiControl.PacketCnt = 0)
    (hlen : w.IqrfSpiControl.PacketLen = w.IqrfSpiControl.DLEN + 4)
    (hd : w.IqrfSpiControl.DLEN ≤ 64) (hrx : w.IqrfSpiControl.PacketRxBuffer.length = 68)
    (hf : f.length = w.IqrfSpiControl.DLEN + 4) (hb : ∀ b ∈ f, b < 256) :
    ∃ (tc : Nat) (X : List Event),
      transfers X = (readBytes w.IqrfSpiControl.PacketTxBuffer 0 (w.IqrfSpiControl.DLEN + 4)).zip f
      ∧ sentPackets X = [] ∧ tc ≤ 50
      ∧ ticks w f =
        if inboundValid w.IqrfSpiControl.DLEN w.IqrfSpiControl.PTYPE f then
          { w with
            IqrfSpiControl := { w.IqrfSpiControl with
              PacketRxBuffer := memcpy w.IqrfSpiControl.PacketRxBuffer 0 f
              PacketCnt := w.IqrfSpiControl.DLEN + 4 }
            IqrfControl := { w.IqrfControl with
              Status := IQRF_READY, TRmoduleSelected := false, TimeCnt := tc }
            IqrfDataSenderSM :=
              if w.IqrfDataSenderSM = IQRF_SM_PROCESS_REQUEST then IQRF_SM_REQUEST_OK
              else w.IqrfDataSenderSM
            trace := w.trace ++ X }
        else if (w.IqrfSpiControl.PacketRpt + 255) % 256 ≠ 0 then
          { w with
            IqrfSpiControl := { w.IqrfSpiControl with
              PacketRxBuffer := memcpy w.IqrfSpiControl.PacketRxBuffer 0 f
              PacketCnt := 0
              PacketRpt := (w.IqrfSpiControl.PacketRpt + 255) % 256 }
            IqrfControl := { w.IqrfControl with TRmoduleSelected := false, TimeCnt := tc }
            trace := w.trace ++ X }
        else
          { w with
            IqrfSpiControl := { w.IqrfSpiControl with
              PacketRxBuffer := memcpy w.IqrfSpiControl.PacketRxBuffer 0 f
              PacketCnt := w.IqrfSpiControl.DLEN + 4
              PacketRpt := (w.IqrfSpiControl.PacketRpt + 255) % 256 }
            IqrfControl := { w.IqrfControl with
              Status := IQRF_READY, TRmoduleSelected := false, TimeCnt := tc }
            IqrfDataSenderSM :=
              if w.IqrfDataSenderSM = IQRF_SM_PROCESS_REQUEST then IQRF_SM_REQUEST_ERR
              else w.IqrfDataSenderSM
            trace := w.trace ++ X } := by
  rcases List.eq_nil_or_concat f with h | ⟨init, l, h⟩
  · subst h; simp at hf
  rw [List.concat_eq_append] at h
  subst h
  have hinit : init.length = w.IqrfSpiControl.DLEN + 3 := by
    simp only [List.length_append, List.length_singleton] at hf; omega
  have hbi : ∀ b ∈ init, b < 256 := fun b hb1 => hb b (List.mem_append_left _ hb1)
  have hl : l % 256 = l := Nat.mod_eq_of_lt (hb l (by simp))
  obtain ⟨sel, tc, X, h1, h2, h3⟩ := ticks_partial init w hs (Or.inl hst)
    (by rw [hcnt, hlen, hinit]; omega) (by rw [hlen]; omega)
  rw [map_mod_of_lt init hbi, hcnt] at h1 h2
  rw [ticks_append, h1]
  have hlast : ∀ v : World, ticks v [l] = iqrfDriver v l := fun _ => rfl
  rw [hlast, iqrfDriver_exchange _ l (by exact hs) (Or.inl (by exact hst)),
    exchangeByte_last _ l (by
      show (0 + init.length + 1) % 256 = w.IqrfSpiControl.PacketLen
      rw [hlen, hinit]; omega),
    receiveByte_eq]
  have hmem : (memcpy w.IqrfSpiControl.PacketRxBuffer 0 init).set (0 + init.length) (l % 256)
      = memcpy w.IqrfSpiControl.PacketRxBuffer 0 (init ++ [l]) := by
    rw [memcpy_append, hl]; rfl
  have hc : (0 + init.length + 1) % 256 = w.IqrfSpiControl.DLEN + 4 := by
    rw [hinit]; omega
  simp only [hmem, hc]
  have hvalid : ∀ (c : T_IQRF_CONTROL) (t : List Event), frameValid (iqrfDeselectTRmodule
      { w with
        IqrfSpiControl := { w.IqrfSpiControl with
          PacketRxBuffer := memcpy w.IqrfSpiControl.PacketRxBuffer 0 (init ++ [l])
          PacketCnt := w.IqrfSpiControl.DLEN + 4 }
        IqrfControl := c
        trace := t })
      = inboundValid w.IqrfSpiControl.DLEN w.IqrfSpiControl.PTYPE (init ++ [l]) := by
    intro c t
    show inboundValid w.IqrfSpiControl.DLEN w.IqrfSpiControl.PTYPE
      (memcpy w.IqrfSpiControl.PacketRxBuffer 0 (init ++ [l])) = _
    apply inboundValid_congr
    intro i _ hi
    exact getD_memcpy_zero _ _ i (by rw [hf]; omega) (by rw [hf, hrx]; omega)
  unfold completeFrame
  simp only [hvalid]
  refine ⟨((if w.IqrfControl.FastSPI = true then SPI_STATUS_POOLING_TIME * 5 + 1
      else SPI_STATUS_POOLING_TIME + 1) + 255) % 256,
    X ++ ((if sel then [] else [Event.select])
      ++ [Event.transfer (w.IqrfSpiControl.PacketTxBuffer.getD (0 + init.length) 0) (l % 256)]
      ++ (if w.IqrfControl.FastSPI then [] else [Event.deselect])) ++ [Event.deselect], ?_, ?_, ?_, ?_⟩
  · have hr : readBytes w.IqrfSpiControl.PacketTxBuffer 0 (w.IqrfSpiControl.DLEN + 4)
        = readBytes w.IqrfSpiControl.PacketTxBuffer 0 init.length
          ++ [w.IqrfSpiControl.PacketTxBuffer.getD (0 + init.length) 0] := by
      rw [hinit]
      simp [readBytes, List.range_succ]
    rw [(transfers_last X sel w.IqrfControl.FastSPI _ _).1, hr,
      List.zip_append (by simp [length_readBytes]), ← h2, hl]
    rfl
  · rw [(transfers_last X sel w.IqrfControl.FastSPI _ _).2, h3]
  · unfold SPI_STATUS_POOLING_TIME
    split <;> decide
  · have hw : IQRF_WRITE ≠ IQRF_READ := by decide
    by_cases hv : inboundValid w.IqrfSpiControl.DLEN w.IqrfSpiControl.PTYPE (init ++ [l]) = true
    · simp only [hv, if_true, frameAccepted, iqrfDeselectTRmodule, hst, hw, if_false, true_and,
        List.append_assoc]
      split <;> rfl
    · simp only [hv, if_false, frameRejected, iqrfDeselectTRmodule, hst, true_and,
        List.append_assoc, Bool.false_eq_true]
      split
      · rfl
      · split <;> rfl

/-- Rejected frames while attempts remain: after each of them the exchange
restarts from its first byte with the same outbound frame, one attempt
fewer. -/
theorem ticks_bad_frames (bad : List (List Nat)) : ∀ (w : World),
    w.IqrfControl.SuspendFlag = false → w.IqrfControl.Status = IQRF_WRITE →
    w.IqrfSpiControl.PacketCnt = 0 →
    w.IqrfSpiControl.PacketLen = w.IqrfSpiControl.DLEN + 4 →
    w.IqrfSpiControl.DLEN ≤ 64 → w.IqrfSpiControl.PacketRxBuffer.length = 68 →
    bad.length < w.IqrfSpiControl.PacketRpt → w.IqrfSpiControl.PacketRpt ≤ 255 →
    (∀ f ∈ bad, f.length = w.IqrfSpiControl.DLEN + 4 ∧ (∀ b ∈ f, b < 256)
      ∧ inboundValid w.IqrfSpiControl.DLEN w.IqrfSpiControl.PTYPE f = false) →
    ∃ (sel : Bool) (tc : Nat) (X : List Event) (rxbuf : List Nat),
      ticks w bad.flatten =
        { w with
          IqrfSpiControl := { w.IqrfSpiControl with
            PacketRxBuffer := rxbuf
            PacketRpt := w.IqrfSpiControl.PacketRpt - bad.length }
          IqrfControl := { w.IqrfControl with TRmoduleSelected := sel, TimeCnt := tc }
          trace := w.trace ++ X }
      ∧ rxbuf.length = 68
      ∧ transfers X = (bad.map (fun f =>
          (readBytes w.IqrfSpiControl.PacketTxBuffer 0 (w.IqrfSpiControl.DLEN + 4)).zip f)).flatten
      ∧ sentPackets X = [] := by
  induction bad with
  | nil =>
    intro w _ _ _ _ _ hrx _ _ _
    exact ⟨w.IqrfControl.TRmoduleSelected, w.IqrfControl.TimeCnt, [],
      w.IqrfSpiControl.PacketRxBuffer, by simp [ticks], hrx, rfl, rfl⟩
  | cons f fs ih =>
    intro w hs hst hcnt hlen hd hrx hk hr hall
    obtain ⟨hfl, hfb, hfv⟩ := hall f (List.mem_cons_self f fs)
    simp only [List.length_cons] at hk
    obtain ⟨tc, X, hX1, hX2, _, hstep⟩ := ticks_frame_write w f hs hst hcnt hlen hd hrx hfl hfb
    have hrpt : (w.IqrfSpiControl.PacketRpt + 255) % 256 = w.IqrfSpiControl.PacketRpt - 1 := by
      omega
    have hne : w.IqrfSpiControl.PacketRpt - 1 ≠ 0 := by omega
    rw [hfv, hrpt] at hstep
    simp only [Bool.false_eq_true, if_false, hne, ne_eq, not_false_eq_true, if_true] at hstep
    obtain ⟨sel2, tc2, X2, rxbuf, h1, h2, h3, h4⟩ := ih (ticks w f)
      (by rw [hstep]; exact hs) (by rw [hstep]; exact hst) (by rw [hstep])
      (by rw [hstep]; exact hlen) (by rw [hstep]; exact hd)
      (by rw [hstep]; show (memcpy _ 0 f).length = 68; rw [length_memcpy]; exact hrx)
      (by rw [hstep]; show fs.length < w.IqrfSpiControl.PacketRpt - 1; omega)
      (by rw [hstep]; show w.IqrfSpiControl.PacketRpt - 1 ≤ 255; omega)
      (by rw [hstep]; exact fun g hg => hall g (List.mem_cons_of_mem f hg))
    refine ⟨sel2, tc2, X ++ X2, rxbuf, ?_, h2, ?_, ?_⟩
    · rw [List.flatten_cons, ticks_append, h1, hstep]
      simp only [List.length_cons, List.append_assoc, Nat.sub_sub, Nat.add_comm 1, hcnt]
    · rw [transfers_append, hX1, h3, hstep]
      simp only [List.map_cons, List.flatten_cons]
    · rw [sentPackets_append, hX2, h4]
      rfl

/-! ## The retry budget of application writes -/

theorem iqrfSendData_ok (w : World) (buf : BufPtr) (n : Nat)
    (h : w.IqrfDataSenderSM = IQRF_SM_REQUEST_OK) :
    iqrfSendData w buf n
      = ({ w with IqrfDataSenderSM := IQRF_SM_PREPARE_REQUEST }, some IQRF_OPERATION_OK) := by
  unfold iqrfSendData
  rw [h]
  rfl

theorem iqrfSendData_err (w : World) (buf : BufPtr) (n : Nat)
    (h : w.IqrfDataSenderSM = IQRF_SM_REQUEST_ERR) :
    iqrfSendData w buf n
      = ({ w with IqrfDataSenderSM := IQRF_SM_PREPARE_REQUEST },
         some IQRF_TR_MODULE_WRITE_ERR) := by
  unfold iqrfSendData
  rw [h]
  rfl

/-- Two polls of `iqrfSendData` from the Idle state in communication mode
queue the write; the driver call at which the status timer has elapsed
(status not "data ready") picks it up and starts a write exchange with
three attempts. -/
theorem iqrfSendData_pickup (w : World) (buf : List Nat) (n st : Nat)
    (hsm : w.IqrfDataSenderSM = IQRF_SM_PREPARE_REQUEST)
    (hmode : w.IqrfSpiControl.SpiStat = COMMUNICATION_MODE)
    (hready : w.IqrfControl.Status = IQRF_READY)
    (hsus : w.IqrfControl.SuspendFlag = false)
    (htime : w.IqrfControl.TimeCnt = 0)
    (hn : 1 ≤ n ∧ n ≤ 64) (hst : (st % 256) &&& 0xC0 ≠ 0x40)
    (picked : World)
    (hp : picked = iqrfDriver
      (iqrfSendData (iqrfSendData w (BufPtr.user buf) n).1 (BufPtr.user buf) n).1 st) :
    picked.IqrfControl.SuspendFlag = false
    ∧ picked.IqrfControl.Status = IQRF_WRITE
    ∧ picked.IqrfSpiControl.PacketCnt = 0
    ∧ picked.IqrfSpiControl.PacketLen = n + 4
    ∧ picked.IqrfSpiControl.DLEN = n
    ∧ picked.IqrfSpiControl.PTYPE = n ||| 0x80
    ∧ picked.IqrfSpiControl.PacketRxBuffer = w.IqrfSpiControl.PacketRxBuffer
    ∧ picked.IqrfSpiControl.PacketRpt = 3
    ∧ picked.IqrfDataSenderSM = IQRF_SM_PROCESS_REQUEST
    ∧ picked.IqrfSpiControl.PacketTxBuffer.getD 0 0 = SPI_WR_RD
    ∧ readBytes picked.IqrfSpiControl.PacketTxBuffer 2 n = readBytes buf 0 n := by
  have h1 : iqrfSendData w (BufPtr.user buf) n
      = ({ w with IqrfDataSenderSM := IQRF_SM_SEND_REQUEST }, some IQRF_OPERATION_IN_PROGRESS) := by
    have hc : COMMUNICATION_MODE ≠ SPI_DATA_TRANSFER := by decide
    have hl : ¬ (n = 0 ∨ n > 64) := by omega
    simp only [iqrfSendData, hsm, hmode, hc, hl, if_true, if_false, ne_eq, not_true_eq_false]
  have h2 : (iqrfSendData { w with IqrfDataSenderSM := IQRF_SM_SEND_REQUEST }
        (BufPtr.user buf) n).1
      = { iqrfSendPacket { w with IqrfDataSenderSM := IQRF_SM_SEND_REQUEST } SPI_WR_RD
            (BufPtr.user buf) n with IqrfDataSenderSM := IQRF_SM_PROCESS_REQUEST } := by
    have hne : IQRF_SM_SEND_REQUEST ≠ IQRF_SM_PREPARE_REQUEST := by decide
    simp only [iqrfSendData, hne, if_true, if_false]
  rw [h1, h2] at hp
  generalize hq : ({ iqrfSendPacket { w with IqrfDataSenderSM := IQRF_SM_SEND_REQUEST } SPI_WR_RD
            (BufPtr.user buf) n with IqrfDataSenderSM := IQRF_SM_PROCESS_REQUEST } : World) = q at hp
  have hq1 : q.IqrfControl = w.IqrfControl := by rw [← hq]; rfl
  have hq2 : q.IqrfPacket =
      { BufferFlag := IQRF_BUFFER_BUSY, SpiCmd := SPI_WR_RD,
        DataBuffer := BufPtr.user buf, DataLength := n } := by rw [← hq]; rfl
  have hq3 : q.IqrfSpiControl = w.IqrfSpiControl := by rw [← hq]; rfl
  have hq4 : q.IqrfDataSenderSM = IQRF_SM_PROCESS_REQUEST := by rw [← hq]
  have hdrv : iqrfDriver q st =
      { statusPoll q st with
        IqrfControl := { (statusPoll q st).IqrfControl with
          TimeCnt := ((if (statusPoll q st).IqrfControl.FastSPI = true
            then SPI_STATUS_POOLING_TIME * 5 + 1 else SPI_STATUS_POOLING_TIME + 1) + 255) % 256 } } := by
    unfold iqrfDriver iqrfSpiDriver
    simp only [hq1, hsus, hready, htime, or_true, if_true, ne_eq, not_true_eq_false, if_false,
      Bool.false_eq_true]
  rw [hdrv, statusPoll_busy q st hst (by rw [hq2])] at hp
  generalize hr : (iqrfDeselectTRmodule
      { (iqrfSendSpiByte q SPI_CHECK st).1 with
        IqrfSpiControl := { (iqrfSendSpiByte q SPI_CHECK st).1.IqrfSpiControl with
          SpiStat := st % 256 } }) = r at hp
  have hr1 : r.IqrfPacket =
      { BufferFlag := IQRF_BUFFER_BUSY, SpiCmd := SPI_WR_RD,
        DataBuffer := BufPtr.user buf, DataLength := n } := by
    rw [← hr, iqrfSendSpiByte_eq]; exact hq2
  have hr2 : r.IqrfControl.SuspendFlag = false := by
    rw [← hr, iqrfSendSpiByte_eq]; show q.IqrfControl.SuspendFlag = false; rw [hq1]; exact hsus
  have hr3 : r.IqrfSpiControl.PacketRxBuffer = w.IqrfSpiControl.PacketRxBuffer := by
    rw [← hr, iqrfSendSpiByte_eq]
    show q.IqrfSpiControl.PacketRxBuffer = _
    rw [hq3]
  have hr4 : r.IqrfDataSenderSM = IQRF_SM_PROCESS_REQUEST := by
    rw [← hr, iqrfSendSpiByte_eq]; exact hq4
  have hf := startWrite_frame r (by rw [hr1]; exact hn.2)
  rw [hr1] at hf
  have hinfo : decide (SPI_WR_RD = SPI_MODULE_INFO ∧ (n = 16 ∨ n = 32)) = false := by
    have : SPI_WR_RD ≠ SPI_MODULE_INFO := by decide
    simp [this]
  subst hp
  refine ⟨hr2, ?_, rfl, ?_, ?_, ?_, hr3, rfl, hr4, hf.1, ?_⟩
  · show (startWrite r).IqrfControl.Status = IQRF_WRITE
    simp only [startWrite, hr1, hinfo, Bool.false_eq_true, if_false]
  · show (startWrite r).IqrfSpiControl.PacketLen = n + 4
    simp only [startWrite, hr1]
    omega
  · show (startWrite r).IqrfSpiControl.DLEN = n
    simp only [startWrite, hr1]
  · show (startWrite r).IqrfSpiControl.PTYPE = n ||| 0x80
    simp only [startWrite, hr1, hinfo, Bool.false_eq_true, if_false]
  · have e := hf.2.1
    simp only [deref] at e
    exact e

/-- C1. Retry budget of application writes. A write of `1..64` bytes is
queued by two polls of `iqrfSendData` and picked up by the driver; the bus
then returns the inbound frames `bad` (each failing the validation) followed
by the valid frame `good`. The transport exchanges exactly the first
`min (K + 1) 3` of these frames (`K` the number of bad frames), sending the
same outbound frame each time, and then is ready again; the next poll of
`iqrfSendData` returns `IQRF_OPERATION_OK` if `K < 3` and
`IQRF_TR_MODULE_WRITE_ERR` if `K >= 3`, and the session is Idle again. -/
theorem iqrfSendData_retry_budget (w : World) (buf : List Nat) (n st : Nat)
    (bad : List (List Nat)) (good : List Nat)
    (hsm : w.IqrfDataSenderSM = IQRF_SM_PREPARE_REQUEST)
    (hmode : w.IqrfSpiControl.SpiStat = COMMUNICATION_MODE)
    (hready : w.IqrfControl.Status = IQRF_READY)
    (hsus : w.IqrfControl.SuspendFlag = false)
    (htime : w.IqrfControl.TimeCnt = 0)
    (hrxlen : w.IqrfSpiControl.PacketRxBuffer.length = 68)
    (hn : 1 ≤ n ∧ n ≤ 64) (hst : (st % 256) &&& 0xC0 ≠ 0x40)
    (hbad : ∀ f ∈ bad, f.length = n + 4 ∧ (∀ b ∈ f, b < 256)
      ∧ inboundValid n (n ||| 0x80) f = false)
    (hgood : good.length = n + 4 ∧ (∀ b ∈ good, b < 256)
      ∧ inboundValid n (n ||| 0x80) good = true)
    (picked final : World)
    (hp : picked = iqrfDriver
      (iqrfSendData (iqrfSendData w (BufPtr.user buf) n).1 (BufPtr.user buf) n).1 st)
    (hfinal : final = ticks picked ((bad ++ [good]).take 3).flatten) :
    picked.IqrfControl.Status = IQRF_WRITE
    ∧ picked.IqrfSpiControl.PacketTxBuffer.getD 0 0 = SPI_WR_RD
    ∧ readBytes picked.IqrfSpiControl.PacketTxBuffer 2 n = readBytes buf 0 n
    ∧ final.IqrfControl.Status = IQRF_READY
    ∧ (iqrfSendData final (BufPtr.user buf) n).2
        = some (if bad.length < 3 then IQRF_OPERATION_OK else IQRF_TR_MODULE_WRITE_ERR)
    ∧ (iqrfSendData final (BufPtr.user buf) n).1.IqrfDataSenderSM = IQRF_SM_PREPARE_REQUEST
    ∧ ((bad ++ [good]).take 3).length = min (bad.length + 1) 3
    ∧ transfers final.trace = transfers picked.trace ++
        (((bad ++ [good]).take 3).map (fun f =>
          (readBytes picked.IqrfSpiControl.PacketTxBuffer 0 (n + 4)).zip f)).flatten := by
  obtain ⟨p1, p2, p3, p4, p5, p6, p7, p8, p9, p10, p11⟩ :=
    iqrfSendData_pickup w buf n st hsm hmode hready hsus htime hn hst picked hp
  have hlen3 : ((bad ++ [good]).take 3).length = min (bad.length + 1) 3 := by
    simp [List.length_take, Nat.min_comm]
  -- the frames exchanged: `init` all rejected, then `last`
  have key : ∀ (init : List (List Nat)) (last : List Nat) (ok : Bool),
      (bad ++ [good]).take 3 = init ++ [last] →
      (∀ f ∈ init, f.length = n + 4 ∧ (∀ b ∈ f, b < 256) ∧ inboundValid n (n ||| 0x80) f = false) →
      last.length = n + 4 → (∀ b ∈ last, b < 256) → inboundValid n (n ||| 0x80) last = ok →
      (ok = false → init.length = 2) → init.length < 3 →
      final.IqrfControl.Status = IQRF_READY
      ∧ final.IqrfDataSenderSM = (if ok then IQRF_SM_REQUEST_OK else IQRF_SM_REQUEST_ERR)
      ∧ transfers final.trace = transfers picked.trace ++
        ((init ++ [last]).map (fun f =>
          (readBytes picked.IqrfSpiControl.PacketTxBuffer 0 (n + 4)).zip f)).flatten := by
    intro init last ok hsplit hinit hll hlb hlv hk2 hk3
    obtain ⟨sel, tc, X, rxbuf, h1, h2, h3, _⟩ := ticks_bad_frames init picked p1 p2 p3
      (by rw [p4, p5]) (by rw [p5]; exact hn.2) (by rw [p7]; exact hrxlen)
      (by rw [p8]; exact hk3) (by rw [p8]; decide) (by rw [p5, p6]; exact hinit)
    obtain ⟨tc2, X2, g1, _, _, g3⟩ := ticks_frame_write (ticks picked init.flatten) last
      (by rw [h1]; exact p1) (by rw [h1]; exact p2) (by rw [h1]; exact p3)
      (by rw [h1]; show picked.IqrfSpiControl.PacketLen = picked.IqrfSpiControl.DLEN + 4
          rw [p4, p5])
      (by rw [h1]; show picked.IqrfSpiControl.DLEN ≤ 64; rw [p5]; exact hn.2)
      (by rw [h1]; exact h2)
      (by rw [h1]; show last.length = picked.IqrfSpiControl.DLEN + 4; rw [p5]; exact hll) hlb
    have hfin : final = ticks (ticks picked init.flatten) last := by
      rw [hfinal, hsplit, List.flatten_append, ticks_append]
      simp
    have hv : inboundValid (ticks picked init.flatten).IqrfSpiControl.DLEN
        (ticks picked init.flatten).IqrfSpiControl.PTYPE last = ok := by
      rw [h1]
      show inboundValid picked.IqrfSpiControl.DLEN picked.IqrfSpiControl.PTYPE last = ok
      rw [p5, p6]; exact hlv
    have hsm2 : (ticks picked init.flatten).IqrfDataSenderSM = IQRF_SM_PROCESS_REQUEST := by
      rw [h1]; exact p9
    have hrpt : (ticks picked init.flatten).IqrfSpiControl.PacketRpt = 3 - init.length := by
      rw [h1]; show picked.IqrfSpiControl.PacketRpt - init.length = _; rw [p8]
    have htr : (ticks picked init.flatten).trace = picked.trace ++ X := by rw [h1]
    have htx : (ticks picked init.flatten).IqrfSpiControl.PacketTxBuffer
        = picked.IqrfSpiControl.PacketTxBuffer := by rw [h1]
    have hdl : (ticks picked init.flatten).IqrfSpiControl.DLEN = n := by rw [h1]; exact p5
    rw [hv, hsm2, hrpt] at g3
    rw [htx, hdl] at g1
    have htrace : transfers (picked.trace ++ X ++ X2) = transfers picked.trace ++
        ((init ++ [last]).map (fun f =>
          (readBytes picked.IqrfSpiControl.PacketTxBuffer 0 (n + 4)).zip f)).flatten := by
      rw [transfers_append, transfers_append, h3, g1, p5]
      simp [List.append_assoc]
    cases ok with
    | true =>
      simp only [if_true] at g3
      rw [hfin, g3]
      exact ⟨rfl, rfl, by rw [← htrace, ← htr]⟩
    | false =>
      have h2' : init.length = 2 := hk2 rfl
      rw [h2'] at g3
      simp only [Bool.false_eq_true, if_false] at g3
      rw [if_neg (by decide)] at g3
      rw [hfin, g3]
      exact ⟨rfl, rfl, by rw [← htrace, ← htr]⟩
  by_cases hK : bad.length < 3
  · have hsplit : (bad ++ [good]).take 3 = bad ++ [good] :=
      List.take_of_length_le (by simp; omega)
    obtain ⟨k1, k2, k3⟩ := key bad good true hsplit hbad hgood.1 hgood.2.1 hgood.2.2
      (by intro h; cases h) hK
    refine ⟨p2, p10, p11, k1, ?_, ?_, hlen3, ?_⟩
    · rw [iqrfSendData_ok final _ n k2, if_pos hK]
    · rw [iqrfSendData_ok final _ n k2]
    · rw [k3, hsplit]
  · match bad, hbad, hK, hlen3 with
    | b1 :: b2 :: b3 :: rest, hbad, hK, hlen3 =>
      have hsplit : ((b1 :: b2 :: b3 :: rest) ++ [good]).take 3 = [b1, b2] ++ [b3] := rfl
      obtain ⟨k1, k2, k3⟩ := key [b1, b2] b3 false hsplit
        (fun f hf => hbad f (by
          rcases List.mem_cons.mp hf with h | h
          · rw [h]; exact List.mem_cons_self _ _
          · rcases List.mem_cons.mp h with h | h
            · rw [h]; exact List.mem_cons_of_mem _ (List.mem_cons_self _ _)
            · cases h))
        (hbad b3 (by simp)).1 (hbad b3 (by simp)).2.1 (hbad b3 (by simp)).2.2
        (fun _ => rfl) (by simp)
      refine ⟨p2, p10, p11, k1, ?_, ?_, hlen3, ?_⟩
      · rw [iqrfSendData_err final _ n k2, if_neg hK]
      · rw [iqrfSendData_err final _ n k2]
      · rw [k3, hsplit]
    | [], _, hK, _ => exact absurd (by simp) hK
    | [_], _, hK, _ => exact absurd (by simp) hK
    | [_, _], _, hK, _ => exact absurd (by simp) hK

/-- Witness of `iqrfSendData_retry_budget`: the two bytes `AA 11` are sent
in communication mode; the first inbound frame is all zero (rejected), the
second carries the status `0x3F` and the checksum `0xDD` (accepted). -/
theorem iqrfSendData_retry_budget_witness :
    (ticks (iqrfDriver (iqrfSendData (iqrfSendData
        { IqrfSpiControl := { SpiStat := COMMUNICATION_MODE } }
        (BufPtr.user [0xAA, 0x11]) 2).1 (BufPtr.user [0xAA, 0x11]) 2).1 0x80)
      (([[0, 0, 0, 0, 0, 0]] ++ [[0, 0, 0, 0, 0xDD, 0x3F]]).take 3).flatten).IqrfControl.Status
      = IQRF_READY
    ∧ (iqrfSendData (ticks (iqrfDriver (iqrfSendData (iqrfSendData
        { IqrfSpiControl := { SpiStat := COMMUNICATION_MODE } }
        (BufPtr.user [0xAA, 0x11]) 2).1 (BufPtr.user [0xAA, 0x11]) 2).1 0x80)
      (([[0, 0, 0, 0, 0, 0]] ++ [[0, 0, 0, 0, 0xDD, 0x3F]]).take 3).flatten)
        (BufPtr.user [0xAA, 0x11]) 2).2
      = some (if ([[0, 0, 0, 0, 0, 0]] : List (List Nat)).length < 3 then IQRF_OPERATION_OK
          else IQRF_TR_MODULE_WRITE_ERR) :=
  have h := iqrfSendData_retry_budget
    { IqrfSpiControl := { SpiStat := COMMUNICATION_MODE } } [0xAA, 0x11] 2 0x80
    [[0, 0, 0, 0, 0, 0]] [0, 0, 0, 0, 0xDD, 0x3F]
    (by decide) (by decide) (by decide) (by decide) (by decide) (by decide) (by decide)
    (by decide) (by decide) (by decide) _ _ rfl rfl
  ⟨h.2.2.2.1, h.2.2.2.2.1⟩

/-! ## The hex line parser -/

theorem iqrfReadByteFromFile_cons (w : World) (b : Nat) (rest : List Nat)
    (h : w.CodeFile = b :: rest) :
    iqrfReadByteFromFile w =
      ({ w with
         CodeFile := rest
         CodeFileInfo := { w.CodeFileInfo with
           FileByteCnt := (w.CodeFileInfo.FileByteCnt + 1) % 65536 } }, b % 256) := by
  unfold iqrfReadByteFromFile
  rw [h]

theorem iqrfReadByteFromFile_nil (w : World) (h : w.CodeFile = []) :
    iqrfReadByteFromFile w = (w, 0) := by
  unfold iqrfReadByteFromFile
  rw [h]

/-- A hex digit, in either case, is a character that `tolower` maps to the
digits the converter knows; a pair of them converts to the byte it encodes. -/
theorem convert_hexDigit : ∀ h < 16, ∀ l < 16, ∀ u1 u2 : Bool,
    iqrfPgmConvertToNum (tolower (hexDigit u1 h % 256)) (tolower (hexDigit u2 l % 256))
      = 16 * h + l
    ∧ tolower (hexDigit u1 h % 256) ≠ 0x0A ∧ tolower (hexDigit u1 h % 256) ≠ 0x0D := by
  decide

/-- The loop of `iqrfPgmReadHEXFileLine` on the hex text of `bytes` followed by
a line terminator: the bytes are stored from `ptr` on, the text is consumed,
and the result tells whether the running sum ends at zero. -/
theorem readHexPairs_encoded (up : Nat → Bool) (eol : Nat) (rest : List Nat)
    (heol : eol = 0x0A ∨ eol = 0x0D) (bytes : List Nat) :
    ∀ (fuel : Nat) (w : World) (ptr crc k : Nat),
      w.CodeFile = encodeHex up k bytes ++ eol :: rest →
      ptr + bytes.length < 32 → bytes.length < fuel → (∀ b ∈ bytes, b < 256) → crc < 256 →
      readHexPairs fuel w ptr crc =
        some ({ w with
                CodeFile := rest
                CodeFileInfo := { w.CodeFileInfo with
                  FileByteCnt := (w.CodeFileInfo.FileByteCnt + (2 * bytes.length + 1)) % 65536 }
                IqrfPgmCodeLineBuffer := memcpy w.IqrfPgmCodeLineBuffer ptr bytes },
              if (crc + bytes.sum) % 256 ≠ 0 then IQRF_PGM_FILE_DATA_ERROR
              else IQRF_PGM_FILE_DATA_READY) := by
  induction bytes with
  | nil =>
    intro fuel w ptr crc k hfile _ hfuel _ hcrc
    obtain ⟨f, rfl⟩ : ∃ f, fuel = f + 1 := ⟨fuel - 1, by simp at hfuel; omega⟩
    simp only [encodeHex, List.nil_append] at hfile
    have he : tolower (eol % 256) = 0x0A ∨ tolower (eol % 256) = 0x0D := by
      rcases heol with h | h <;> subst h <;> decide
    have hsum : (crc + ([] : List Nat).sum) % 256 = crc := by
      simp only [List.sum_nil, Nat.add_zero]; exact Nat.mod_eq_of_lt hcrc
    simp only [readHexPairs, iqrfReadByteFromFile_cons w eol rest hfile, he, if_true,
      List.length_nil, Nat.mul_zero, Nat.zero_add, memcpy, hsum]
    split <;> rfl
  | cons b bs ih =>
    intro fuel w ptr crc k hfile hptr hfuel hb hcrc
    obtain ⟨f, rfl⟩ : ∃ f, fuel = f + 1 := ⟨fuel - 1, by simp at hfuel; omega⟩
    simp only [List.length_cons] at hptr hfuel
    have hb256 : b < 256 := hb b (List.mem_cons_self b bs)
    obtain ⟨hconv, hne1, hne2⟩ := convert_hexDigit (b / 16) (by omega) (b % 16) (by omega)
      (up k) (up (k + 1))
    have hbyte : 16 * (b / 16) + b % 16 = b := by omega
    rw [hbyte] at hconv
    simp only [encodeHex, List.cons_append] at hfile
    have hr1 := iqrfReadByteFromFile_cons w _ _ hfile
    have hr2 := iqrfReadByteFromFile_cons
      { w with
        CodeFile := hexDigit (up (k + 1)) (b % 16) :: (encodeHex up (k + 2) bs ++ eol :: rest)
        CodeFileInfo := { w.CodeFileInfo with
          FileByteCnt := (w.CodeFileInfo.FileByteCnt + 1) % 65536 } } _ _ rfl
    have hp : (ptr + 1) % 256 = ptr + 1 := Nat.mod_eq_of_lt (by omega)
    have hnge : ¬ (ptr + 1 ≥ SIZE_OF_CODE_LINE_BUFFER) := by
      unfold SIZE_OF_CODE_LINE_BUFFER; omega
    have hneol : ¬ (tolower (hexDigit (up k) (b / 16) % 256) = 0x0A
        ∨ tolower (hexDigit (up k) (b / 16) % 256) = 0x0D) := by
      intro h; rcases h with h | h
      · exact hne1 h
      · exact hne2 h
    simp only [readHexPairs, hr1, hr2, hneol, if_false, hconv, hp, hnge]
    rw [ih f _ (ptr + 1) ((crc + b) % 256) (k + 2) rfl (by omega) (by omega)
      (fun x hx => hb x (List.mem_cons_of_mem b hx)) (Nat.mod_lt _ (by decide))]
    have hcnt : ((w.CodeFileInfo.FileByteCnt + 1) % 65536 + 1) % 65536 + (2 * bs.length + 1)
        ≡ w.CodeFileInfo.FileByteCnt + (2 * (bs.length + 1) + 1) [MOD 65536] := by
      unfold Nat.ModEq; omega
    have hsum : ((crc + b) % 256 + bs.sum) % 256 = (crc + (b :: bs).sum) % 256 := by
      simp only [List.sum_cons]; omega
    simp only [List.length_cons, hsum, memcpy]
    unfold Nat.ModEq at hcnt
    rw [hcnt]

/-- The search for the start marker skips the bytes `pre` before it. -/
theorem findStartOfLine_marker (rest : List Nat) (pre : List Nat) :
    ∀ (fuel : Nat) (w : World),
      w.CodeFile = pre ++ 0x3A :: rest → pre.length < fuel →
      (∀ b ∈ pre, b % 256 ≠ 0 ∧ b % 256 ≠ 0x3A) →
      findStartOfLine fuel w =
        some ({ w with
                CodeFile := rest
                CodeFileInfo := { w.CodeFileInfo with
                  FileByteCnt := (w.CodeFileInfo.FileByteCnt + (pre.length + 1)) % 65536 } },
              0x3A) := by
  induction pre with
  | nil =>
    intro fuel w hfile hfuel _
    obtain ⟨f, rfl⟩ : ∃ f, fuel = f + 1 := ⟨fuel - 1, by simp at hfuel; omega⟩
    simp only [List.nil_append] at hfile
    simp only [findStartOfLine, iqrfReadByteFromFile_cons w _ rest hfile]
    rw [if_neg (by decide)]
    rfl
  | cons b bs ih =>
    intro fuel w hfile hfuel hpre
    obtain ⟨f, rfl⟩ : ∃ f, fuel = f + 1 := ⟨fuel - 1, by simp at hfuel; omega⟩
    simp only [List.cons_append] at hfile
    simp only [List.length_cons] at hfuel
    simp only [findStartOfLine, iqrfReadByteFromFile_cons w _ _ hfile]
    rw [if_pos (hpre b (List.mem_cons_self b bs))]
    rw [ih f _ rfl (by omega) (fun x hx => hpre x (List.mem_cons_of_mem b hx))]
    have hcnt : ((w.CodeFileInfo.FileByteCnt + 1) % 65536 + (bs.length + 1)) % 65536
        = (w.CodeFileInfo.FileByteCnt + (bs.length + 1 + 1)) % 65536 := by omega
    simp only [List.length_cons, hcnt]

/-- The search for the start marker in a file without one ends at the end of
the file with `Sign = 0`. -/
theorem findStartOfLine_eof (pre : List Nat) :
    ∀ (fuel : Nat) (w : World),
      w.CodeFile = pre → pre.length < fuel → w.CodeFileInfo.FileByteCnt < 65536 →
      (∀ b ∈ pre, b % 256 ≠ 0 ∧ b % 256 ≠ 0x3A) →
      findStartOfLine fuel w =
        some ({ w with
                CodeFile := []
                CodeFileInfo := { w.CodeFileInfo with
                  FileByteCnt := (w.CodeFileInfo.FileByteCnt + pre.length) % 65536 } },
              0) := by
  induction pre with
  | nil =>
    intro fuel w hfile hfuel hcnt _
    obtain ⟨f, rfl⟩ : ∃ f, fuel = f + 1 := ⟨fuel - 1, by simp at hfuel; omega⟩
    simp only [findStartOfLine, iqrfReadByteFromFile_nil w hfile]
    rw [if_neg (by decide)]
    have e : ({ w with
        CodeFile := []
        CodeFileInfo := { w.CodeFileInfo with
          FileByteCnt := (w.CodeFileInfo.FileByteCnt + ([] : List Nat).length) % 65536 } } : World)
        = w := by
      rcases w with ⟨c, spi, pkt, sm, ti, tr, ⟨cnt, sz, ty⟩, lb, mb, cc, wc, cf, tk, trc⟩
      simp only at hfile hcnt
      subst hfile
      simp [Nat.mod_eq_of_lt hcnt]
    rw [e]
  | cons b bs ih =>
    intro fuel w hfile hfuel _ hpre
    obtain ⟨f, rfl⟩ : ∃ f, fuel = f + 1 := ⟨fuel - 1, by simp at hfuel; omega⟩
    simp only [List.length_cons] at hfuel
    simp only [findStartOfLine, iqrfReadByteFromFile_cons w _ _ hfile]
    rw [if_pos (hpre b (List.mem_cons_self b bs))]
    rw [ih f _ rfl (by omega) (Nat.mod_lt _ (by decide))
      (fun x hx => hpre x (List.mem_cons_of_mem b hx))]
    have hcnt : ((w.CodeFileInfo.FileByteCnt + 1) % 65536 + bs.length) % 65536
        = (w.CodeFileInfo.FileByteCnt + (bs.length + 1)) % 65536 := by omega
    simp only [List.length_cons, hcnt]

/-- Reading one well-formed hex line: after the bytes `pre` (no start marker
among them) comes the line with the bytes `bytes` (at most 31). The line is
consumed, its bytes are stored at the start of the line buffer, and the
result is `IQRF_PGM_FILE_DATA_READY` exactly when the bytes sum to zero
modulo 256. -/
theorem iqrfPgmReadHEXFileLine_line (up : Nat → Bool) (eol : Nat) (pre bytes rest : List Nat)
    (w : World) (heol : eol = 0x0A ∨ eol = 0x0D)
    (hfile : w.CodeFile = pre ++ hexLine up bytes eol ++ rest)
    (hpre : ∀ b ∈ pre, b % 256 ≠ 0 ∧ b % 256 ≠ 0x3A)
    (hlen : bytes.length ≤ 31) (hb : ∀ b ∈ bytes, b < 256) :
    iqrfPgmReadHEXFileLine w =
      some ({ w with
              CodeFile := rest
              CodeFileInfo := { w.CodeFileInfo with
                FileByteCnt := (w.CodeFileInfo.FileByteCnt
                  + (pre.length + 2 * bytes.length + 2)) % 65536 }
              IqrfPgmCodeLineBuffer := memcpy w.IqrfPgmCodeLineBuffer 0 bytes },
            if bytes.sum % 256 ≠ 0 then IQRF_PGM_FILE_DATA_ERROR
            else IQRF_PGM_FILE_DATA_READY) := by
  have hfile2 : w.CodeFile = pre ++ 0x3A :: (encodeHex up 0 bytes ++ eol :: rest) := by
    rw [hfile]; simp [hexLine]
  unfold iqrfPgmReadHEXFileLine
  rw [findStartOfLine_marker _ pre _ w hfile2
    (by rw [hfile2]; simp only [List.length_append, List.length_cons]; omega) hpre]
  simp only
  rw [if_neg (by decide)]
  rw [readHexPairs_encoded up eol rest heol bytes SIZE_OF_CODE_LINE_BUFFER _ 0 0 0 rfl
    (by omega) (by unfold SIZE_OF_CODE_LINE_BUFFER; omega) hb (by decide)]
  have hcnt : ((w.CodeFileInfo.FileByteCnt + (pre.length + 1)) % 65536
      + (2 * bytes.length + 1)) % 65536
      = (w.CodeFileInfo.FileByteCnt + (pre.length + 2 * bytes.length + 2)) % 65536 := by omega
  simp only [hcnt, Nat.zero_add]

/-- Reading at the end of the file: only bytes without a start marker are
left. -/
theorem iqrfPgmReadHEXFileLine_eof (pre : List Nat) (w : World)
    (hfile : w.CodeFile = pre) (hcnt : w.CodeFileInfo.FileByteCnt < 65536)
    (hpre : ∀ b ∈ pre, b % 256 ≠ 0 ∧ b % 256 ≠ 0x3A) :
    iqrfPgmReadHEXFileLine w =
      some ({ w with
              CodeFile := []
              CodeFileInfo := { w.CodeFileInfo with
                FileByteCnt := (w.CodeFileInfo.FileByteCnt + pre.length) % 65536 } },
            IQRF_PGM_END_OF_FILE) := by
  unfold iqrfPgmReadHEXFileLine
  rw [findStartOfLine_eof pre _ w hfile (by rw [hfile]; omega) hcnt hpre]
  rfl

theorem readBytes_memcpy_zero (dst bytes : List Nat) (h : bytes.length ≤ dst.length) :
    readBytes (memcpy dst 0 bytes) 0 bytes.length = bytes := by
  conv_rhs => rw [← readBytes_self bytes]
  apply readBytes_congr
  intro i hi
  rw [Nat.zero_add]
  exact getD_memcpy_zero dst bytes i hi h

/-- C3. Hex-line round trip. The text `:` + two-digit hex (either case, digit
by digit) of `[n, addr_hi, addr_lo, type, data..., checksum]`, with `n + 5 <=
31` and `checksum = (256 - sum) mod 256`, terminated by CR or LF, makes
`iqrfPgmReadHEXFileLine` return `IQRF_PGM_FILE_DATA_READY` with exactly those
`n + 5` bytes at the start of the line buffer (and the text consumed); with
any other byte in place of the checksum it returns
`IQRF_PGM_FILE_DATA_ERROR`. -/
theorem iqrfPgmReadHEXFileLine_round_trip (w : World) (up : Nat → Bool)
    (eol addr type : Nat) (data rest : List Nat)
    (hn : data.length + 5 ≤ 31) (haddr : addr < 65536) (htype : type < 256)
    (hdata : ∀ d ∈ data, d < 256) (heol : eol = 0x0D ∨ eol = 0x0A)
    (hbuf : w.IqrfPgmCodeLineBuffer.length = 32) :
    (∃ w', iqrfPgmReadHEXFileLine { w with CodeFile := hexLine up (recordBytes addr type data ++ [recordChecksum (recordBytes addr type data)]) eol ++ rest }
          = some (w', IQRF_PGM_FILE_DATA_READY)
        ∧ readBytes w'.IqrfPgmCodeLineBuffer 0 (data.length + 5)
            = recordBytes addr type data ++ [recordChecksum (recordBytes addr type data)]
        ∧ w'.CodeFile = rest)
    ∧ (∀ c, c < 256 → c ≠ recordChecksum (recordBytes addr type data) →
        ∃ w', iqrfPgmReadHEXFileLine { w with CodeFile := hexLine up (recordBytes addr type data ++ [c]) eol ++ rest }
          = some (w', IQRF_PGM_FILE_DATA_ERROR)) := by
  have heol' : eol = 0x0A ∨ eol = 0x0D := heol.symm
  have hlen : ∀ c, (recordBytes addr type data ++ [c]).length = data.length + 5 := by
    intro c; simp [recordBytes]
  have hbytes : ∀ c, c < 256 → ∀ b ∈ recordBytes addr type data ++ [c], b < 256 := by
    intro c hc b hb
    simp only [recordBytes, List.cons_append, List.nil_append, List.mem_cons, List.mem_append,
      List.mem_singleton, List.not_mem_nil, or_false] at hb
    rcases hb with h | h | h | h | h | h
    · omega
    · omega
    · omega
    · omega
    · exact hdata b h
    · omega
  have hcs : recordChecksum (recordBytes addr type data) < 256 := by
    unfold recordChecksum; omega
  constructor
  · have h := iqrfPgmReadHEXFileLine_line up eol [] _ rest
      { w with CodeFile := hexLine up (recordBytes addr type data ++ [recordChecksum (recordBytes addr type data)]) eol ++ rest }
      heol' (by simp) (by intro b hb; cases hb) (by rw [hlen]; omega) (hbytes _ hcs)
    have hsum : (recordBytes addr type data
        ++ [recordChecksum (recordBytes addr type data)]).sum % 256 = 0 := by
      rw [List.sum_append]
      simp only [recordChecksum, List.sum_singleton]
      omega
    rw [hsum] at h
    simp only [ne_eq, not_true_eq_false, if_false] at h
    refine ⟨_, h, ?_, rfl⟩
    have := readBytes_memcpy_zero w.IqrfPgmCodeLineBuffer
      (recordBytes addr type data ++ [recordChecksum (recordBytes addr type data)])
      (by rw [hlen, hbuf]; omega)
    rw [hlen] at this
    exact this
  · intro c hc hne
    have h := iqrfPgmReadHEXFileLine_line up eol [] _ rest
      { w with CodeFile := hexLine up (recordBytes addr type data ++ [c]) eol ++ rest }
      heol' (by simp) (by intro b hb; cases hb) (by rw [hlen]; omega) (hbytes _ hc)
    have hsum : (recordBytes addr type data ++ [c]).sum % 256 ≠ 0 := by
      rw [List.sum_append]
      simp only [recordChecksum, List.sum_singleton] at hne ⊢
      omega
    rw [if_pos hsum] at h
    exact ⟨_, h⟩

/-- Witness of `iqrfPgmReadHEXFileLine_round_trip`: the record with the two
data bytes `AB 12` at address `0x0010`, in upper-case digits, ended by CR and
followed by LF, read at program start. -/
theorem iqrfPgmReadHEXFileLine_round_trip_witness :
    (∃ w', iqrfPgmReadHEXFileLine { ({} : World) with CodeFile := hexLine (fun _ => true) (recordBytes 0x10 0 [0xAB, 0x12] ++ [recordChecksum (recordBytes 0x10 0 [0xAB, 0x12])]) 0x0D ++ [0x0A] }
          = some (w', IQRF_PGM_FILE_DATA_READY)
        ∧ readBytes w'.IqrfPgmCodeLineBuffer 0 (([0xAB, 0x12] : List Nat).length + 5)
            = recordBytes 0x10 0 [0xAB, 0x12] ++ [recordChecksum (recordBytes 0x10 0 [0xAB, 0x12])]
        ∧ w'.CodeFile = [0x0A])
    ∧ (∀ c, c < 256 → c ≠ recordChecksum (recordBytes 0x10 0 [0xAB, 0x12]) →
        ∃ w', iqrfPgmReadHEXFileLine { ({} : World) with CodeFile := hexLine (fun _ => true) (recordBytes 0x10 0 [0xAB, 0x12] ++ [c]) 0x0D ++ [0x0A] }
          = some (w', IQRF_PGM_FILE_DATA_ERROR)) :=
  iqrfPgmReadHEXFileLine_round_trip {} (fun _ => true) 0x0D 0x10 0 [0xAB, 0x12] [0x0A]
    (by decide) (by decide) (by decide) (by decide) (by decide) (by decide)

/-! ## The driver against the module of the scenario -/

theorem moduleTicks_add (a : Nat) : ∀ (b : Nat) (w : World),
    moduleTicks (a + b) w = moduleTicks b (moduleTicks a w) := by
  induction a with
  | zero => intro b w; simp [moduleTicks]
  | succ n ih =>
    intro b w
    have e : n + 1 + b = (n + b) + 1 := by omega
    rw [e]
    simp only [moduleTicks]
    exact ih b _

/-- A status poll that finds neither data to read nor a pending request only
updates the status. -/
theorem statusPoll_idle (w : World) (rx : Nat) (hrx : (rx % 256) &&& 0xC0 ≠ 0x40)
    (hfree : w.IqrfPacket.BufferFlag ≠ IQRF_BUFFER_BUSY) :
    statusPoll w rx =
      { w with
        IqrfSpiControl := { w.IqrfSpiControl with SpiStat := rx % 256 }
        IqrfControl := { w.IqrfControl with TRmoduleSelected := false }
        trace := w.trace ++ ((if w.IqrfControl.TRmoduleSelected then [] else [Event.select])
          ++ [Event.transfer SPI_CHECK (rx % 256)]
          ++ (if w.IqrfControl.FastSPI then [] else [Event.deselect]) ++ [Event.deselect]) } := by
  unfold statusPoll
  simp only [iqrfSendSpiByte_eq]
  rw [if_neg (by simpa [iqrfDeselectTRmodule] using hrx)]
  rw [if_neg (by simpa [iqrfDeselectTRmodule] using hfree)]
  simp only [iqrfDeselectTRmodule, List.append_assoc]

/-- The events of a status poll contain no packet. -/
theorem sentPackets_poll (sel fast : Bool) (tx rx : Nat) :
    sentPackets ((if sel then [] else [Event.select]) ++ [Event.transfer tx rx]
        ++ (if fast then [] else [Event.deselect]) ++ [Event.deselect]) = [] := by
  cases sel <;> cases fast <;> rfl

/-- The driver at rest with nothing to send: it polls the status each time
its timer elapses and changes nothing else. -/
theorem moduleTicks_idle (k : Nat) : ∀ (w : World),
    w.IqrfControl.Status = IQRF_READY → w.IqrfControl.SuspendFlag = false →
    w.IqrfPacket.BufferFlag ≠ IQRF_BUFFER_BUSY → w.IqrfControl.TimeCnt ≤ 50 →
    ∃ (sel : Bool) (tc : Nat) (X : List Event),
      moduleTicks k w =
        { w with
          IqrfSpiControl := { w.IqrfSpiControl with
            SpiStat := if w.IqrfControl.TimeCnt < k then PROGRAMMING_MODE
              else w.IqrfSpiControl.SpiStat }
          IqrfControl := { w.IqrfControl with TRmoduleSelected := sel, TimeCnt := tc }
          trace := w.trace ++ X }
      ∧ sentPackets X = [] ∧ tc ≤ 50 := by
  induction k with
  | zero =>
    intro w _ _ _ ht
    exact ⟨w.IqrfControl.TRmoduleSelected, w.IqrfControl.TimeCnt, [], by simp [moduleTicks], rfl, ht⟩
  | succ k ih =>
    intro w hst hs hfree ht
    have hreply : moduleReply w = PROGRAMMING_MODE := by
      unfold moduleReply; rw [if_pos hst]
    have hnr : ¬ (w.IqrfControl.Status = IQRF_READ ∨ w.IqrfControl.Status = IQRF_WRITE) := by
      rw [hst]; decide
    simp only [moduleTicks, hreply]
    by_cases h0 : w.IqrfControl.TimeCnt = 0
    · have hstep : iqrfDriver w PROGRAMMING_MODE =
          { w with
            IqrfSpiControl := { w.IqrfSpiControl with SpiStat := PROGRAMMING_MODE }
            IqrfControl := { w.IqrfControl with
              TRmoduleSelected := false
              TimeCnt := if w.IqrfControl.FastSPI = true then 50 else 10 }
            trace := w.trace ++ ((if w.IqrfControl.TRmoduleSelected then [] else [Event.select])
              ++ [Event.transfer SPI_CHECK PROGRAMMING_MODE]
              ++ (if w.IqrfControl.FastSPI then [] else [Event.deselect]) ++ [Event.deselect]) } := by
        unfold iqrfDriver iqrfSpiDriver
        simp only [hs, hst, h0, or_true, if_true, ne_eq, not_true_eq_false, if_false,
          Bool.false_eq_true]
        rw [statusPoll_idle w PROGRAMMING_MODE (by decide) hfree]
        cases hf : w.IqrfControl.FastSPI <;> simp [SPI_STATUS_POOLING_TIME, PROGRAMMING_MODE, hst, hs]
      obtain ⟨sel, tc, X, h1, h2, h3⟩ := ih (iqrfDriver w PROGRAMMING_MODE)
        (by rw [hstep]; exact hst) (by rw [hstep]; exact hs) (by rw [hstep]; exact hfree)
        (by rw [hstep]; show (if w.IqrfControl.FastSPI = true then 50 else 10) ≤ 50
            split <;> decide)
      rw [h1, hstep]
      refine ⟨sel, tc, ((if w.IqrfControl.TRmoduleSelected then [] else [Event.select])
              ++ [Event.transfer SPI_CHECK PROGRAMMING_MODE]
              ++ (if w.IqrfControl.FastSPI then [] else [Event.deselect]) ++ [Event.deselect]) ++ X,
        ?_, ?_, h3⟩
      · have hlt : w.IqrfControl.TimeCnt < k + 1 := by omega
        simp only [hlt, if_true, ite_self, List.append_assoc]
      · rw [sentPackets_append, h2, sentPackets_poll]
        rfl
    · have hstep : iqrfDriver w PROGRAMMING_MODE =
          { w with IqrfControl := { w.IqrfControl with
              TimeCnt := w.IqrfControl.TimeCnt - 1 } } := by
        unfold iqrfDriver
        have hm : (w.IqrfControl.TimeCnt + 255) % 256 = w.IqrfControl.TimeCnt - 1 := by omega
        have hc : ¬ (w.IqrfControl.Status = IQRF_READ ∨ w.IqrfControl.Status = IQRF_WRITE
            ∨ w.IqrfControl.TimeCnt = 0) := by
          intro h
          rcases h with h | h | h
          · exact hnr (Or.inl h)
          · exact hnr (Or.inr h)
          · exact h0 h
        simp only [hs, hc, if_false, Bool.false_eq_true, hm]
      obtain ⟨sel, tc, X, h1, h2, h3⟩ := ih (iqrfDriver w PROGRAMMING_MODE)
        (by rw [hstep]; exact hst) (by rw [hstep]; exact hs) (by rw [hstep]; exact hfree)
        (by rw [hstep]; show w.IqrfControl.TimeCnt - 1 ≤ 50; omega)
      rw [h1, hstep]
      refine ⟨sel, tc, X, ?_, h2, h3⟩
      have hiff : (w.IqrfControl.TimeCnt - 1 < k) = (w.IqrfControl.TimeCnt < k + 1) := by
        apply propext; omega
      simp only [hiff]

/-- While the status timer runs and nothing is in flight, the driver only
counts down. -/
theorem moduleTicks_countdown (j : Nat) : ∀ (w : World),
    w.IqrfControl.Status = IQRF_READY → w.IqrfControl.SuspendFlag = false →
    j ≤ w.IqrfControl.TimeCnt → w.IqrfControl.TimeCnt ≤ 50 →
    moduleTicks j w =
      { w with IqrfControl := { w.IqrfControl with TimeCnt := w.IqrfControl.TimeCnt - j } } := by
  induction j with
  | zero => intro w _ _ _ _; simp [moduleTicks]
  | succ j ih =>
    intro w hst hs hj ht
    have hnr : ¬ (w.IqrfControl.Status = IQRF_READ ∨ w.IqrfControl.Status = IQRF_WRITE
        ∨ w.IqrfControl.TimeCnt = 0) := by
      rw [hst]
      intro h
      rcases h with h | h | h
      · exact absurd h (by decide)
      · exact absurd h (by decide)
      · omega
    have hstep : ∀ rx, iqrfDriver w rx =
        { w with IqrfControl := { w.IqrfControl with
            TimeCnt := w.IqrfControl.TimeCnt - 1 } } := by
      intro rx
      unfold iqrfDriver
      have hm : (w.IqrfControl.TimeCnt + 255) % 256 = w.IqrfControl.TimeCnt - 1 := by omega
      simp only [hs, hnr, if_false, Bool.false_eq_true, hm]
    simp only [moduleTicks]
    rw [ih _ (by rw [hstep]; exact hst) (by rw [hstep]; exact hs)
      (by rw [hstep]; show j ≤ w.IqrfControl.TimeCnt - 1; omega)
      (by rw [hstep]; show w.IqrfControl.TimeCnt - 1 ≤ 50; omega), hstep]
    have e : w.IqrfControl.TimeCnt - 1 - j = w.IqrfControl.TimeCnt - (j + 1) := by omega
    simp only [e]

/-- Feeding the driver a list of bytes that the module of the scenario would
return anyway is running it against that module. -/
theorem moduleTicks_eq_ticks (l : List Nat) : ∀ (w : World),
    (∀ i, i < l.length → moduleReply (ticks w (l.take i)) = l.getD i 0) →
    moduleTicks l.length w = ticks w l := by
  induction l with
  | nil => intro w _; rfl
  | cons b bs ih =>
    intro w h
    have h0 : moduleReply w = b := h 0 (by simp)
    simp only [List.length_cons, moduleTicks, h0]
    have ht : ticks w (b :: bs) = ticks (iqrfDriver w b) bs := rfl
    rw [ht]
    apply ih
    intro i hi
    have := h (i + 1) (by simp; omega)
    simpa [ticks] using this

theorem getD_moduleFrame (n p i : Nat) :
    (moduleFrame n p).getD i 0 =
      if i = n + 3 then SPI_CRCM_OK else if i = n + 2 then 0x5F ^^^ p else 0 := by
  unfold moduleFrame
  rw [List.getD_eq_getElem?_getD]
  by_cases h1 : i < n + 2
  · rw [List.getElem?_append_left (by simpa using h1)]
    rw [if_neg (by omega), if_neg (by omega)]
    simp [List.getElem?_replicate, h1]
  · rw [List.getElem?_append_right (by simpa using h1)]
    simp only [List.length_replicate]
    by_cases h2 : i = n + 2
    · subst h2; simp
    · by_cases h3 : i = n + 3
      · subst h3
        have e : n + 3 - (n + 2) = 1 := by omega
        simp [e]
      · have e : ∃ m, i - (n + 2) = m + 2 := ⟨i - (n + 2) - 2, by omega⟩
        obtain ⟨m, hm⟩ := e
        simp [hm, h2, h3]

theorem xorLoop_zero (B : List Nat) (cnt : Nat) : ∀ (c I : Nat),
    (∀ i, I ≤ i → i < I + cnt → B.getD i 0 = 0) → xorLoop B c I cnt = c := by
  induction cnt with
  | zero => intro c I _; rfl
  | succ k ih =>
    intro c I h
    simp only [xorLoop]
    rw [h I (Nat.le_refl I) (by omega), Nat.xor_zero,
      ih _ _ (fun i h1 h2 => h i (by omega) (by omega))]

/-- The frame of the module of the scenario passes the validation. -/
theorem inboundValid_moduleFrame (n p : Nat) : inboundValid n p (moduleFrame n p) = true := by
  have h1 : (moduleFrame n p).getD (n + 3) 0 = SPI_CRCM_OK := by
    rw [getD_moduleFrame, if_pos rfl]
  have h2 : (moduleFrame n p).getD (n + 2) 0 = 0x5F ^^^ p := by
    rw [getD_moduleFrame, if_neg (by omega), if_pos rfl]
  have h3 : xorLoop (moduleFrame n p) (0x5F ^^^ p) 2 n = 0x5F ^^^ p :=
    xorLoop_zero _ n _ 2 (by
      intro i h1 h2
      rw [getD_moduleFrame, if_neg (by omega), if_neg (by omega)])
  unfold inboundValid iqrfCrcCheck
  simp only [h1, h2, h3, if_true, beq_self_eq_true, Bool.and_self]

theorem moduleFrame_bytes (n p : Nat) (hp : p < 256) :
    (moduleFrame n p).length = n + 4 ∧ ∀ b ∈ moduleFrame n p, b < 256 := by
  constructor
  · simp [moduleFrame]
  · intro b hb
    simp only [moduleFrame, List.mem_append, List.mem_replicate, List.mem_cons,
      List.mem_singleton, List.not_mem_nil, or_false] at hb
    rcases hb with ⟨_, h⟩ | h | h
    · omega
    · rw [h]
      exact Nat.xor_lt_two_pow (n := 8) (by decide) hp
    · rw [h]; decide

/-- A write exchange against the module of the scenario is the exchange of
the frame `moduleFrame`. -/
theorem moduleTicks_frame (w : World)
    (hs : w.IqrfControl.SuspendFlag = false) (hst : w.IqrfControl.Status = IQRF_WRITE)
    (hcnt : w.IqrfSpiControl.PacketCnt = 0)
    (hlen : w.IqrfSpiControl.PacketLen = w.IqrfSpiControl.DLEN + 4)
    (hd : w.IqrfSpiControl.DLEN ≤ 64) :
    moduleTicks (w.IqrfSpiControl.DLEN + 4) w
      = ticks w (moduleFrame w.IqrfSpiControl.DLEN w.IqrfSpiControl.PTYPE) := by
  have hl : (moduleFrame w.IqrfSpiControl.DLEN w.IqrfSpiControl.PTYPE).length
      = w.IqrfSpiControl.DLEN + 4 := by simp [moduleFrame]
  rw [← hl]
  apply moduleTicks_eq_ticks
  intro i hi
  rw [hl] at hi
  obtain ⟨sel, tc, X, h1, _, _⟩ := ticks_partial
    ((moduleFrame w.IqrfSpiControl.DLEN w.IqrfSpiControl.PTYPE).take i) w hs (Or.inl hst)
    (by rw [List.length_take, hl, hcnt, hlen]; omega) (by rw [hlen]; omega)
  rw [h1, getD_moduleFrame]
  have hti : ((moduleFrame w.IqrfSpiControl.DLEN w.IqrfSpiControl.PTYPE).take i).length = i := by
    rw [List.length_take, hl]; omega
  have hne : IQRF_WRITE ≠ IQRF_READY := by decide
  simp only [moduleReply, hst, hne, if_false, hcnt, hti, Nat.zero_add]

/-- The driver call that picks a write request up from the mailbox, in closed
form. -/
theorem iqrfDriver_pickup (w : World) (rx : Nat) (hrx : (rx % 256) &&& 0xC0 ≠ 0x40)
    (hst : w.IqrfControl.Status = IQRF_READY) (hs : w.IqrfControl.SuspendFlag = false)
    (ht : w.IqrfControl.TimeCnt = 0)
    (hbusy : w.IqrfPacket.BufferFlag = IQRF_BUFFER_BUSY)
    (hlen : w.IqrfPacket.DataLength ≤ 64)
    (hcmd : w.IqrfPacket.SpiCmd ≠ SPI_MODULE_INFO) :
    ∃ (tx : List Nat) (tc : Nat) (X : List Event),
      iqrfDriver w rx =
        { w with
          IqrfSpiControl := { w.IqrfSpiControl with
            PacketTxBuffer := tx
            DLEN := w.IqrfPacket.DataLength
            PTYPE := w.IqrfPacket.DataLength ||| 0x80
            PacketLen := w.IqrfPacket.DataLength + 4
            PacketCnt := 0
            PacketRpt := 3
            SpiStat := SPI_DATA_TRANSFER }
          IqrfControl := { w.IqrfControl with
            Status := IQRF_WRITE, TRmoduleSelected := false, TimeCnt := tc }
          IqrfPacket := { w.IqrfPacket with BufferFlag := IQRF_BUFFER_FREE }
          trace := w.trace ++ X }
      ∧ sentPackets X = [] ∧ tc ≤ 50
      ∧ tx.getD 0 0 = w.IqrfPacket.SpiCmd
      ∧ readBytes tx 2 w.IqrfPacket.DataLength
          = deref w w.IqrfPacket.DataBuffer w.IqrfPacket.DataLength := by
  have hdrv : iqrfDriver w rx =
      { statusPoll w rx with
        IqrfControl := { (statusPoll w rx).IqrfControl with
          TimeCnt := ((if (statusPoll w rx).IqrfControl.FastSPI = true
            then SPI_STATUS_POOLING_TIME * 5 + 1 else SPI_STATUS_POOLING_TIME + 1) + 255) % 256 } } := by
    unfold iqrfDriver iqrfSpiDriver
    simp only [hs, hst, ht, or_true, if_true, ne_eq, not_true_eq_false, if_false,
      Bool.false_eq_true]
  rw [hdrv, statusPoll_busy w rx hrx hbusy, iqrfSendSpiByte_eq]
  have hinfo : decide (w.IqrfPacket.SpiCmd = SPI_MODULE_INFO
      ∧ (w.IqrfPacket.DataLength = 16 ∨ w.IqrfPacket.DataLength = 32)) = false := by
    simp [hcmd]
  have hf := startWrite_frame (iqrfDeselectTRmodule
      { ({ w with
            IqrfControl := { w.IqrfControl with TRmoduleSelected := w.IqrfControl.FastSPI }
            trace := w.trace ++ (if w.IqrfControl.TRmoduleSelected then [] else [Event.select])
              ++ [Event.transfer SPI_CHECK (rx % 256)]
              ++ (if w.IqrfControl.FastSPI then [] else [Event.deselect]) } : World) with
        IqrfSpiControl := { w.IqrfSpiControl with SpiStat := rx % 256 } }) hlen
  have hpl : (w.IqrfPacket.DataLength + 4) % 256 = w.IqrfPacket.DataLength + 4 := by omega
  refine ⟨_, ((if w.IqrfControl.FastSPI = true
            then SPI_STATUS_POOLING_TIME * 5 + 1 else SPI_STATUS_POOLING_TIME + 1) + 255) % 256,
    (if w.IqrfControl.TRmoduleSelected then [] else [Event.select])
      ++ [Event.transfer SPI_CHECK (rx % 256)]
      ++ (if w.IqrfControl.FastSPI then [] else [Event.deselect]) ++ [Event.deselect],
    ?_, sentPackets_poll _ _ _ _, ?_, hf.1, hf.2.1⟩
  · simp only [startWrite, iqrfDeselectTRmodule, hinfo, Bool.false_eq_true, if_false, hpl,
      List.append_assoc]
  · unfold SPI_STATUS_POOLING_TIME
    split <;> decide

/-- The driver at rest with a write request in the mailbox, against the module
of the scenario: within 170 calls the request is picked up, exchanged once and
accepted, and the status is polled again; the mailbox is free, the
programmer's variables are untouched and no packet was handed over. -/
theorem moduleTicks_busy (k : Nat) (w : World) (hrest : AtRest w)
    (hbusy : w.IqrfPacket.BufferFlag = IQRF_BUFFER_BUSY)
    (hlen : w.IqrfPacket.DataLength ≤ 64)
    (hcmd : w.IqrfPacket.SpiCmd ≠ SPI_MODULE_INFO) (hk : 170 ≤ k) :
    ∃ (spi : T_IQRF_SPI_CONTROL) (sel : Bool) (tc : Nat) (X : List Event),
      moduleTicks k w =
        { w with
          IqrfSpiControl := spi
          IqrfControl := { w.IqrfControl with
            Status := IQRF_READY, TRmoduleSelected := sel, TimeCnt := tc }
          IqrfPacket := { w.IqrfPacket with BufferFlag := IQRF_BUFFER_FREE }
          trace := w.trace ++ X }
      ∧ spi.SpiStat = PROGRAMMING_MODE ∧ spi.PacketRxBuffer.length = 68
      ∧ sentPackets X = [] ∧ tc ≤ 50 := by
  obtain ⟨hst, hs, ht, hrx, hsm⟩ := hrest
  obtain ⟨r, hr⟩ : ∃ r, k = w.IqrfControl.TimeCnt + (1 + ((w.IqrfPacket.DataLength + 4) + r)) :=
    ⟨k - w.IqrfControl.TimeCnt - 1 - (w.IqrfPacket.DataLength + 4), by omega⟩
  have hr51 : 51 ≤ r := by omega
  -- the countdown
  have hA := moduleTicks_countdown w.IqrfControl.TimeCnt w hst hs (Nat.le_refl _) ht
  rw [Nat.sub_self] at hA
  -- the pick-up
  have hreplyA : moduleReply (moduleTicks w.IqrfControl.TimeCnt w) = PROGRAMMING_MODE := by
    rw [hA]; unfold moduleReply; rw [if_pos hst]
  obtain ⟨tx, tcB, XB, hB, hXB, _, _, _⟩ := iqrfDriver_pickup
    (moduleTicks w.IqrfControl.TimeCnt w) PROGRAMMING_MODE (by decide)
    (by rw [hA]; exact hst) (by rw [hA]; exact hs) (by rw [hA])
    (by rw [hA]; exact hbusy) (by rw [hA]; exact hlen) (by rw [hA]; exact hcmd)
  rw [hA] at hB
  simp only at hB
  -- the exchange
  generalize hwB : iqrfDriver
    { w with IqrfControl := { w.IqrfControl with TimeCnt := 0 } } PROGRAMMING_MODE = wB at hB
  have hB1 : wB.IqrfControl.SuspendFlag = false := by rw [hB]; exact hs
  have hB2 : wB.IqrfControl.Status = IQRF_WRITE := by rw [hB]
  have hB3 : wB.IqrfSpiControl.PacketCnt = 0 := by rw [hB]
  have hB4 : wB.IqrfSpiControl.DLEN = w.IqrfPacket.DataLength := by rw [hB]
  have hB5 : wB.IqrfSpiControl.PacketLen = wB.IqrfSpiControl.DLEN + 4 := by rw [hB]
  have hB6 : wB.IqrfSpiControl.PTYPE = w.IqrfPacket.DataLength ||| 0x80 := by rw [hB]
  have hB7 : wB.IqrfSpiControl.PacketRxBuffer.length = 68 := by rw [hB]; exact hrx
  have hpt : wB.IqrfSpiControl.PTYPE < 256 := by
    rw [hB6]
    exact Nat.or_lt_two_pow (n := 8) (by omega) (by decide)
  have hfr := moduleFrame_bytes wB.IqrfSpiControl.DLEN wB.IqrfSpiControl.PTYPE hpt
  have hC := moduleTicks_frame wB hB1 hB2 hB3 hB5 (by rw [hB4]; exact hlen)
  obtain ⟨tcC, XC, _, hXC, htcC, hC2⟩ := ticks_frame_write wB
    (moduleFrame wB.IqrfSpiControl.DLEN wB.IqrfSpiControl.PTYPE) hB1 hB2 hB3 hB5
    (by rw [hB4]; exact hlen) hB7 hfr.1 hfr.2
  rw [inboundValid_moduleFrame, if_pos rfl] at hC2
  rw [hC2, hB4] at hC
  -- the status polls that follow
  generalize hwC : moduleTicks (w.IqrfPacket.DataLength + 4) wB = wC at hC
  obtain ⟨selD, tcD, XD, hD, hXD, htcD⟩ := moduleTicks_idle r wC
    (by rw [hC]) (by rw [hC]; exact hB1)
    (by rw [hC, hB]; exact (by decide : IQRF_BUFFER_FREE ≠ IQRF_BUFFER_BUSY))
    (by rw [hC]; exact htcC)
  have hlt : wC.IqrfControl.TimeCnt < r := by
    rw [hC]; show tcC < r; omega
  rw [if_pos hlt] at hD
  have hall : moduleTicks k w = moduleTicks r wC := by
    rw [hr, moduleTicks_add, hA, moduleTicks_add]
    have h1 : moduleTicks 1 { w with IqrfControl := { w.IqrfControl with TimeCnt := 0 } }
        = wB := by
      rw [← hwB]
      simp only [moduleTicks]
      rw [← hA, hreplyA]
    rw [h1, moduleTicks_add, hwC]
  rw [hall, hD, hC, hB]
  refine ⟨{ w.IqrfSpiControl with
      PacketTxBuffer := tx
      DLEN := w.IqrfPacket.DataLength
      PTYPE := w.IqrfPacket.DataLength ||| 0x80
      PacketLen := w.IqrfPacket.DataLength + 4
      PacketCnt := w.IqrfPacket.DataLength + 4
      PacketRpt := 3
      SpiStat := PROGRAMMING_MODE
      PacketRxBuffer := memcpy w.IqrfSpiControl.PacketRxBuffer 0
        (moduleFrame w.IqrfPacket.DataLength (w.IqrfPacket.DataLength ||| 0x80)) },
    selD, tcD, XB ++ (XC ++ XD), ?_, rfl, ?_, ?_, htcD⟩
  · have hne : IQRF_SM_PREPARE_REQUEST ≠ IQRF_SM_PROCESS_REQUEST := by decide
    simp only [hsm, hne, if_false, List.append_assoc]
  · show (memcpy _ 0 _).length = 68
    rw [length_memcpy]; exact hrx
  · rw [sentPackets_append, sentPackets_append, hXB, hXC, hXD]
    rfl

/-! ## The states of `iqrfPgmWriteCodeFile`, one poll each -/

theorem pollToCompletion_done (op : World → Option (World × Nat)) (gap fuel : Nat)
    (w w1 : World) (r : Nat) (h : op w = some (w1, r)) (hr : r > 100) :
    pollToCompletion op gap (fuel + 1) w = some (w1, [r]) := by
  simp only [pollToCompletion, h, hr, if_true]

theorem pollToCompletion_step (op : World → Option (World × Nat)) (gap fuel : Nat)
    (w w1 w2 : World) (r : Nat) (rs : List Nat) (h : op w = some (w1, r)) (hr : r ≤ 100)
    (hrest : pollToCompletion op gap fuel (moduleTicks gap w1) = some (w2, rs)) :
    pollToCompletion op gap (fuel + 1) w = some (w2, r :: rs) := by
  have hn : ¬ r > 100 := by omega
  simp only [pollToCompletion, h, hn, if_false, hrest]

/-- The state `INIT_TASK`. -/
theorem write_INIT_TASK (w : World)
    (hsm : w.WriteCode.WriteCodeTaskSM = WriteCodeTask.INIT_TASK) :
    iqrfPgmWriteCodeFile w =
      some ({ w with
              WriteCode := { w.WriteCode with
                Attempts := 1
                WriteCodeTaskSM := WriteCodeTask.ENTER_PROG_MODE }
              CodeFileInfo := { w.CodeFileInfo with FileByteCnt := 0 } },
            (0 / w.CodeFileInfo.FileSize) % 256) := by
  unfold iqrfPgmWriteCodeFile
  rw [hsm]
  simp [progressPercent]

/-- The state `ENTER_PROG_MODE`, no exchange in flight. -/
theorem write_ENTER_PROG_MODE (w : World)
    (hsm : w.WriteCode.WriteCodeTaskSM = WriteCodeTask.ENTER_PROG_MODE)
    (hst : w.IqrfControl.Status = IQRF_READY) :
    ∃ (T : Nat) (E : List Event), sentPackets E = [] ∧
      iqrfPgmWriteCodeFile w =
        some ({ w with
                IqrfControl := { w.IqrfControl with SuspendFlag := false }
                IqrfSpiControl := { w.IqrfSpiControl with SpiStat := SPI_DISABLED }
                SysTick := T
                trace := w.trace ++ E
                WriteCode := { w.WriteCode with
                  SysTickTime := T
                  WriteCodeTaskSM := WriteCodeTask.WAIT_PROG_MODE } },
              (((w.CodeFileInfo.FileByteCnt * 100) % 4294967296) / w.CodeFileInfo.FileSize)
                % 256) := by
  have hnb : ¬ (w.IqrfControl.Status = IQRF_READ ∨ w.IqrfControl.Status = IQRF_WRITE) := by
    rw [hst]; decide
  refine ⟨((((w.SysTick + 200) % 4294967296 + 100) % 4294967296 + 1) % 4294967296
      + TICKS_IN_SECOND / 2) % 4294967296,
    [Event.delay 200, Event.powerOff, Event.delay 100, Event.powerOn, Event.delay 1,
      Event.enterPgmMode], rfl, ?_⟩
  unfold iqrfPgmWriteCodeFile
  rw [hsm]
  simp only [iqrfTrEnterPgmMode, iqrfSuspendDriver, iqrfDelayMs, hnb, if_false, iqrfTrReset,
    iqrfTrPowerOff, iqrfTrPowerOn, iqrfRunDriver, iqrfGetSysTick, progressPercent,
    List.append_assoc, List.singleton_append, List.cons_append, List.nil_append]

/-- The state `WAIT_PROG_MODE` once the module reports programming mode, for
a hex or configuration file. -/
theorem write_WAIT_PROG_MODE (w : World)
    (hsm : w.WriteCode.WriteCodeTaskSM = WriteCodeTask.WAIT_PROG_MODE)
    (hst : w.IqrfControl.Status = IQRF_READY)
    (hmode : w.IqrfSpiControl.SpiStat = PROGRAMMING_MODE)
    (hft : w.CodeFileInfo.FileType ≠ IQRF_PGM_PLUGIN_FILE_TYPE) :
    iqrfPgmWriteCodeFile w =
      some ({ w with
              PrepareMemBlock := { w.PrepareMemBlock with
                DataInBufferReady := 0
                DataOverflow := 0
                MemoryBlockProcessState := 0 }
              WriteCode := { w.WriteCode with
                SysTickTime := w.SysTick
                WriteCodeTaskSM := WriteCodeTask.WRITE_HEX } },
            (((w.CodeFileInfo.FileByteCnt * 100) % 4294967296) / w.CodeFileInfo.FileSize)
              % 256) := by
  unfold iqrfPgmWriteCodeFile
  rw [hsm]
  simp only [writeWaitProgMode, iqrfGetSpiStatus, iqrfGetLibraryStatus, hst, hmode, and_self,
    if_true, hft, if_false, iqrfGetSysTick, progressPercent]

/-- The state `WRITE_HEX` with no block pending: the assembler is asked for
the next block. -/
theorem write_WRITE_HEX_prepare (w w1 : World) (r : Nat)
    (hsm : w.WriteCode.WriteCodeTaskSM = WriteCodeTask.WRITE_HEX)
    (hst : w.IqrfControl.Status = IQRF_READY)
    (hmode : w.IqrfSpiControl.SpiStat = PROGRAMMING_MODE)
    (hfree : w.IqrfPacket.BufferFlag = IQRF_BUFFER_FREE)
    (hps : w.PrepareMemBlock.MemoryBlockProcessState = 0)
    (hprep : (if w.CodeFileInfo.FileType = IQRF_PGM_HEX_FILE_TYPE then iqrfPgmPrepareMemBlock w
              else iqrfPgmProcessCfgFile w) = some (w1, r)) :
    iqrfPgmWriteCodeFile w =
      some ({ w1 with WriteCode := { w1.WriteCode with
                OperationResult := r
                WriteCodeTaskSM :=
                  if r ≠ IQRF_PGM_FLASH_BLOCK_READY ∧ r ≠ IQRF_PGM_EEPROM_BLOCK_READY
                  then WriteCodeTask.WAIT_PROG_END else w1.WriteCode.WriteCodeTaskSM } },
            (((w1.CodeFileInfo.FileByteCnt * 100) % 4294967296) / w1.CodeFileInfo.FileSize)
              % 256) := by
  unfold iqrfPgmWriteCodeFile
  rw [hsm]
  simp only [writeHex, writeReady, iqrfGetTxBufferStatus, iqrfGetSpiStatus,
    iqrfGetLibraryStatus, hst, hmode, hfree, and_self, decide_True, if_true, hps, hprep]
  by_cases hr : r ≠ IQRF_PGM_FLASH_BLOCK_READY ∧ r ≠ IQRF_PGM_EEPROM_BLOCK_READY
  · rw [if_pos hr, if_pos hr]
    rfl
  · rw [if_neg hr, if_neg hr]
    rfl

/-- The state `WRITE_HEX` with a block pending: one packet is handed over. -/
theorem write_WRITE_HEX_send (w : World)
    (hsm : w.WriteCode.WriteCodeTaskSM = WriteCodeTask.WRITE_HEX)
    (hst : w.IqrfControl.Status = IQRF_READY)
    (hmode : w.IqrfSpiControl.SpiStat = PROGRAMMING_MODE)
    (hfree : w.IqrfPacket.BufferFlag = IQRF_BUFFER_FREE)
    (hps : w.PrepareMemBlock.MemoryBlockProcessState ≠ 0) (cmd off len : Nat)
    (hpkt : (cmd, off, len) =
      if w.WriteCode.OperationResult = IQRF_PGM_FLASH_BLOCK_READY then
        if w.PrepareMemBlock.MemoryBlockProcessState = 2 then (SPI_FLASH_PGM, 0, 34)
        else (SPI_FLASH_PGM, 34, 34)
      else (SPI_EEPROM_PGM, 0, (w.PrepareMemBlock.MemoryBlock.getD 1 0 + 2) % 256)) :
    iqrfPgmWriteCodeFile w =
      some ({ w with
              IqrfPacket :=
                { BufferFlag := IQRF_BUFFER_BUSY, SpiCmd := cmd,
                  DataBuffer := BufPtr.memoryBlock off, DataLength := len }
              trace := w.trace ++
                [Event.sendPacket cmd (readBytes w.PrepareMemBlock.MemoryBlock off len) len]
              WriteCode := { w.WriteCode with SysTickTime := w.SysTick }
              PrepareMemBlock := { w.PrepareMemBlock with
                MemoryBlockProcessState :=
                  (w.PrepareMemBlock.MemoryBlockProcessState + 255) % 256 } },
            (((w.CodeFileInfo.FileByteCnt * 100) % 4294967296) / w.CodeFileInfo.FileSize)
              % 256) := by
  unfold iqrfPgmWriteCodeFile
  rw [hsm]
  simp only [writeHex, writeReady, iqrfGetTxBufferStatus, iqrfGetSpiStatus,
    iqrfGetLibraryStatus, hst, hmode, hfree, and_self, decide_True, if_true, hps, if_false]
  by_cases h1 : w.WriteCode.OperationResult = IQRF_PGM_FLASH_BLOCK_READY
  · by_cases h2 : w.PrepareMemBlock.MemoryBlockProcessState = 2
    · simp only [h1, h2, if_true, Prod.mk.injEq] at hpkt
      obtain ⟨rfl, rfl, rfl⟩ := hpkt
      simp only [h1, h2, if_true, iqrfSendPacket, deref, iqrfGetSysTick, progressPercent]
    · simp only [h1, h2, if_true, if_false, Prod.mk.injEq] at hpkt
      obtain ⟨rfl, rfl, rfl⟩ := hpkt
      simp only [h1, h2, if_true, if_false, iqrfSendPacket, deref, iqrfGetSysTick,
        progressPercent]
  · simp only [h1, if_false, Prod.mk.injEq] at hpkt
    obtain ⟨rfl, rfl, rfl⟩ := hpkt
    simp only [h1, if_false, iqrfSendPacket, deref, iqrfGetSysTick, progressPercent]

/-- The state `WAIT_PROG_END` once the module is ready: programming mode is
left. -/
theorem write_WAIT_PROG_END (w : World)
    (hsm : w.WriteCode.WriteCodeTaskSM = WriteCodeTask.WAIT_PROG_END)
    (hst : w.IqrfControl.Status = IQRF_READY)
    (hmode : w.IqrfSpiControl.SpiStat = PROGRAMMING_MODE) :
    ∃ (T : Nat) (E : List Event), sentPackets E = [] ∧
      iqrfPgmWriteCodeFile w =
        some ({ w with
                SysTick := T
                trace := w.trace ++ E
                WriteCode := { w.WriteCode with WriteCodeTaskSM := WriteCodeTask.PROG_END } },
              (((w.CodeFileInfo.FileByteCnt * 100) % 4294967296) / w.CodeFileInfo.FileSize)
                % 256) := by
  refine ⟨(((w.SysTick + 100) % 4294967296 + 1) % 4294967296 + 200) % 4294967296,
    [Event.powerOff, Event.delay 100, Event.powerOn, Event.delay 1, Event.delay 200], rfl, ?_⟩
  unfold iqrfPgmWriteCodeFile
  rw [hsm]
  simp only [iqrfGetSpiStatus, iqrfGetLibraryStatus, hst, hmode, and_self, if_true,
    iqrfTrEndPgmMode, iqrfTrReset, iqrfDelayMs, iqrfTrPowerOff, iqrfTrPowerOn, progressPercent,
    List.append_assoc, List.singleton_append, List.cons_append, List.nil_append]

/-- The state `PROG_END` once nothing is pending: the result is returned. -/
theorem write_PROG_END (w : World)
    (hsm : w.WriteCode.WriteCodeTaskSM = WriteCodeTask.PROG_END)
    (hst : w.IqrfControl.Status = IQRF_READY)
    (hfree : w.IqrfPacket.BufferFlag = IQRF_BUFFER_FREE) :
    iqrfPgmWriteCodeFile w =
      some ({ w with WriteCode := { w.WriteCode with
                WriteCodeTaskSM := WriteCodeTask.INIT_TASK } },
            w.WriteCode.OperationResult) := by
  unfold iqrfPgmWriteCodeFile
  rw [hsm]
  simp only [iqrfGetTxBufferStatus, iqrfGetLibraryStatus, hst, hfree, and_self, if_true]

/-! ## The loop of `iqrfPgmPrepareMemBlock`, one pass each -/

theorem prepareLoop_continue (fuel : Nat) (w w1 w2 : World)
    (hf : fetchLine w = some (w1, none)) (hp : processLine w1 = (w2, none)) :
    prepareLoop (fuel + 1) w =
      prepareLoop fuel
        { w2 with PrepareMemBlock := { w2.PrepareMemBlock with DataInBufferReady := 0 } } := by
  rw [prepareLoop, hf]
  simp only [hp]

theorem prepareLoop_fetch_return (fuel : Nat) (w w1 : World) (r : Nat)
    (hf : fetchLine w = some (w1, some r)) :
    prepareLoop (fuel + 1) w = some (w1, r) := by
  rw [prepareLoop, hf]

theorem prepareLoop_process_return (fuel : Nat) (w w1 w2 : World) (r : Nat)
    (hf : fetchLine w = some (w1, none)) (hp : processLine w1 = (w2, some r)) :
    prepareLoop (fuel + 1) w = some (w2, r) := by
  rw [prepareLoop, hf]
  simp only [hp]

/-- A pass that finds a line pending reads nothing. -/
theorem fetchLine_pending (w : World) (h : w.PrepareMemBlock.DataInBufferReady ≠ 0) :
    fetchLine w = some (w, none) := by
  unfold fetchLine
  rw [if_neg h]

/-- A pass that reads a well-formed line. -/
theorem fetchLine_line (up : Nat → Bool) (eol : Nat) (pre bytes rest : List Nat)
    (w : World) (heol : eol = 0x0A ∨ eol = 0x0D)
    (hdib : w.PrepareMemBlock.DataInBufferReady = 0)
    (hst : w.IqrfControl.Status = IQRF_READY)
    (hfile : w.CodeFile = pre ++ hexLine up bytes eol ++ rest)
    (hpre : ∀ b ∈ pre, b % 256 ≠ 0 ∧ b % 256 ≠ 0x3A)
    (hlen : bytes.length ≤ 31) (hb : ∀ b ∈ bytes, b < 256) (hsum : bytes.sum % 256 = 0) :
    fetchLine w =
      some ({ w with
              IqrfControl := { w.IqrfControl with SuspendFlag := false }
              IqrfSpiControl := { w.IqrfSpiControl with SpiStat := SPI_DISABLED }
              CodeFile := rest
              CodeFileInfo := { w.CodeFileInfo with
                FileByteCnt := (w.CodeFileInfo.FileByteCnt
                  + (pre.length + 2 * bytes.length + 2)) % 65536 }
              IqrfPgmCodeLineBuffer := memcpy w.IqrfPgmCodeLineBuffer 0 bytes
              PrepareMemBlock := { w.PrepareMemBlock with DataInBufferReady := 1 } }, none) := by
  have hnb : ¬ (w.IqrfControl.Status = IQRF_READ ∨ w.IqrfControl.Status = IQRF_WRITE) := by
    rw [hst]; decide
  obtain ⟨ws, hws, hsus⟩ : ∃ ws : World,
      ws = { w with
             IqrfControl := { w.IqrfControl with SuspendFlag := true }
             IqrfSpiControl := { w.IqrfSpiControl with SpiStat := SPI_DISABLED } }
      ∧ iqrfSuspendDriver w = some ws :=
    ⟨_, rfl, by unfold iqrfSuspendDriver; rw [if_neg hnb]⟩
  unfold fetchLine
  rw [if_pos hdib, hsus]
  simp only []
  rw [iqrfPgmReadHEXFileLine_line up eol pre bytes rest ws heol (by rw [hws]; exact hfile)
    hpre hlen hb]
  have hs : ¬ (bytes.sum % 256 ≠ 0) := by omega
  simp only [hs, if_false, iqrfRunDriver]
  rw [if_neg (by decide), if_neg (by decide)]
  subst hws
  rfl

/-- A pass that finds the end of the file with no block begun and no
overflow pending. -/
theorem fetchLine_eof (pre : List Nat) (w : World)
    (hdib : w.PrepareMemBlock.DataInBufferReady = 0)
    (hst : w.IqrfControl.Status = IQRF_READY)
    (hfile : w.CodeFile = pre) (hcnt : w.CodeFileInfo.FileByteCnt < 65536)
    (hpre : ∀ b ∈ pre, b % 256 ≠ 0 ∧ b % 256 ≠ 0x3A) :
    fetchLine w =
      (let w1 : World :=
        { w with
          IqrfControl := { w.IqrfControl with SuspendFlag := false }
          IqrfSpiControl := { w.IqrfSpiControl with SpiStat := SPI_DISABLED }
          CodeFile := []
          CodeFileInfo := { w.CodeFileInfo with
            FileByteCnt := (w.CodeFileInfo.FileByteCnt + pre.length) % 65536 } }
       if w.PrepareMemBlock.MemoryBlockNumber ≠ 0 then some (w1, some IQRF_PGM_FLASH_BLOCK_READY)
       else if w.PrepareMemBlock.DataOverflow ≠ 0 then
         some (iqrfPgmMoveOverflowedData w1, some IQRF_PGM_FLASH_BLOCK_READY)
       else some (w1, some IQRF_PGM_SUCCESS)) := by
  have hnb : ¬ (w.IqrfControl.Status = IQRF_READ ∨ w.IqrfControl.Status = IQRF_WRITE) := by
    rw [hst]; decide
  obtain ⟨ws, hws, hsus⟩ : ∃ ws : World,
      ws = { w with
             IqrfControl := { w.IqrfControl with SuspendFlag := true }
             IqrfSpiControl := { w.IqrfSpiControl with SpiStat := SPI_DISABLED } }
      ∧ iqrfSuspendDriver w = some ws :=
    ⟨_, rfl, by unfold iqrfSuspendDriver; rw [if_neg hnb]⟩
  unfold fetchLine
  rw [if_pos hdib, hsus]
  simp only []
  rw [iqrfPgmReadHEXFileLine_eof pre ws (by rw [hws]; exact hfile) (by rw [hws]; exact hcnt)
    hpre]
  simp only [iqrfRunDriver]
  rw [if_neg (by decide), if_pos trivial]
  subst hws
  rfl

/-- A record whose type is neither 0 nor 4 is passed over. -/
theorem processLine_other_type (w : World)
    (h0 : w.IqrfPgmCodeLineBuffer.getD 3 0 ≠ 0) (h4 : w.IqrfPgmCodeLineBuffer.getD 3 0 ≠ 4) :
    processLine w = (w, none) := by
  unfold processLine
  simp only [h0, h4, if_false]

theorem length_encodeHex (up : Nat → Bool) (bs : List Nat) : ∀ k,
    (encodeHex up k bs).length = 2 * bs.length := by
  induction bs with
  | nil => intro k; rfl
  | cons b bs ih => intro k; simp only [encodeHex, List.length_cons, ih]; omega

theorem length_hexLine (up : Nat → Bool) (bs : List Nat) (eol : Nat) :
    (hexLine up bs eol).length = 2 * bs.length + 2 := by
  simp only [hexLine, List.length_cons, List.length_append, length_encodeHex, List.length_nil]

theorem sum_record (bytes : List Nat) :
    (bytes ++ [recordChecksum bytes]).sum % 256 = 0 := by
  simp only [List.sum_append, List.sum_cons, List.sum_nil, recordChecksum]
  omega

theorem processLine_outside (w : World) (A : Nat)
    (htype : w.IqrfPgmCodeLineBuffer.getD 3 0 = 0)
    (hov : w.PrepareMemBlock.DataOverflow = 0)
    (hA : A = (((w.PrepareMemBlock.HiAddress
      + ((w.IqrfPgmCodeLineBuffer.getD 1 0 <<< 8) % 65536)
      + w.IqrfPgmCodeLineBuffer.getD 2 0) % 4294967296) / 2) % 65536)
    (h1 : ¬ (A ≥ SERIAL_EEPROM_MIN_ADR ∧ A ≤ SERIAL_EEPROM_MAX_ADR))
    (h2 : ¬ (A ≥ IQRF_MAIN_MEM_MIN_ADR ∧ A ≤ IQRF_MAIN_MEM_MAX_ADR))
    (h3 : ¬ (A ≥ IQRF_LICENCED_MEM_MIN_ADR ∧ A ≤ IQRF_LICENCED_MEM_MAX_ADR))
    (h4 : ¬ (A ≥ PIC16LF1938_EEPROM_MIN ∧ A ≤ PIC16LF1938_EEPROM_MAX)) :
    processLine w =
      ({ w with PrepareMemBlock := { w.PrepareMemBlock with Address := A } }, none) := by
  unfold processLine
  simp only [htype, if_true, ← hA, hov, ne_eq, not_true_eq_false, if_false, h1, prepareOther,
    h2, h3, h4]

/-- The whole 2-line file is consumed by one call of `iqrfPgmPrepareMemBlock`:
its data record lies at word address 0, outside every programmable area. -/
theorem iqrfPgmPrepareMemBlock_twoLine (w : World) (up : Nat → Bool) (data : List Nat)
    (hlen : data.length = 16) (hb : ∀ d ∈ data, d < 256)
    (hfile : w.CodeFile = twoLineHexFile up data)
    (hst : w.IqrfControl.Status = IQRF_READY)
    (hov : w.PrepareMemBlock.DataOverflow = 0)
    (hdib : w.PrepareMemBlock.DataInBufferReady = 0)
    (hhi : w.PrepareMemBlock.HiAddress = 0)
    (hcnt : w.CodeFileInfo.FileByteCnt = 0)
    (hlb : w.IqrfPgmCodeLineBuffer.length = 32) :
    ∃ lb : List Nat,
      iqrfPgmPrepareMemBlock w =
        some ({ w with
                IqrfControl := { w.IqrfControl with SuspendFlag := false }
                IqrfSpiControl := { w.IqrfSpiControl with SpiStat := SPI_DISABLED }
                CodeFile := []
                CodeFileInfo := { w.CodeFileInfo with FileByteCnt := 58 }
                IqrfPgmCodeLineBuffer := lb
                PrepareMemBlock := { w.PrepareMemBlock with
                  Address := 0
                  MemoryBlockNumber := 0
                  MemoryBlock := erasedMemoryBlock } }, IQRF_PGM_SUCCESS) := by
  obtain ⟨rec, hrec⟩ : ∃ rec, rec = recordBytes 0 0 data
      ++ [recordChecksum (recordBytes 0 0 data)] := ⟨_, rfl⟩
  have hreclen : rec.length = 21 := by
    rw [hrec]; simp [recordBytes, hlen]
  have hrecsum : rec.sum % 256 = 0 := by rw [hrec]; exact sum_record _
  have hrecb : ∀ b ∈ rec, b < 256 := by
    intro b hb'
    rw [hrec] at hb'
    simp only [recordBytes, List.cons_append, List.nil_append, List.mem_cons, List.mem_append,
      List.mem_singleton, List.not_mem_nil, or_false] at hb'
    rcases hb' with h | h | h | h | h | h
    · omega
    · omega
    · omega
    · omega
    · exact hb b h
    · rw [h]; unfold recordChecksum; omega
  have hrec0 : ∀ lb : List Nat, lb.length = 32 → ∀ i, 1 ≤ i → i ≤ 3 →
      (memcpy lb 0 rec).getD i 0 = 0 := by
    intro lb hl i h1 h3
    rw [getD_memcpy_zero lb rec i (by omega) (by omega), hrec]
    interval_cases i <;> simp [recordBytes]
  have hfl : w.CodeFile.length = 58 := by
    rw [hfile]
    simp only [twoLineHexFile, List.length_append, length_hexLine, ← hrec, hreclen,
      List.length_cons, List.length_nil]
  have hfile1 : w.CodeFile = [] ++ hexLine up rec 0x0D
      ++ ([0x0A] ++ hexLine (fun _ => true) [0, 0, 0, 1, 0xFF] 0x0D ++ [0x0A]) := by
    rw [hfile, hrec]; simp [twoLineHexFile]
  unfold iqrfPgmPrepareMemBlock
  rw [if_pos hov, hfl]
  simp only []
  -- the data record
  obtain ⟨wA, hfA, hwA⟩ : ∃ wA, fetchLine _ = some (wA, none) ∧ wA = _ :=
    ⟨_, fetchLine_line up 0x0D [] rec _ { w with PrepareMemBlock :=
        { w.PrepareMemBlock with MemoryBlock := erasedMemoryBlock, MemoryBlockNumber := 0 } }
      (Or.inr rfl) hdib hst hfile1 (by simp) (by omega) hrecb hrecsum, rfl⟩
  have hpA := processLine_outside wA 0
    (by rw [hwA]; exact hrec0 _ hlb 3 (by omega) (by omega))
    (by rw [hwA]; exact hov)
    (by
      rw [hwA]
      simp only [hhi, hrec0 _ hlb 1 (by omega) (by omega), hrec0 _ hlb 2 (by omega) (by omega)]
      decide)
    (by decide) (by decide) (by decide) (by decide)
  rw [show (58 : Nat) + 2 = 59 + 1 from rfl, prepareLoop_continue _ _ _ _ hfA hpA]
  -- the end-of-file record
  obtain ⟨wB, hfB, hwB⟩ : ∃ wB, fetchLine _ = some (wB, none) ∧ wB = _ :=
    ⟨_, fetchLine_line (fun _ => true) 0x0D [0x0A] [0, 0, 0, 1, 0xFF] [0x0A]
      { wA with PrepareMemBlock := { wA.PrepareMemBlock with Address := 0, DataInBufferReady := 0 } }
      (Or.inr rfl) rfl (by rw [hwA]; exact hst) (by rw [hwA]) (by simp) (by decide) (by decide)
      (by decide), rfl⟩
  have hpB := processLine_other_type wB
    (by
      rw [hwB, hwA]
      show (memcpy (memcpy w.IqrfPgmCodeLineBuffer 0 rec) 0 [0, 0, 0, 1, 0xFF]).getD 3 0 ≠ 0
      rw [getD_memcpy_zero _ _ 3 (by decide) (by rw [length_memcpy, hlb]; decide)]
      decide)
    (by
      rw [hwB, hwA]
      show (memcpy (memcpy w.IqrfPgmCodeLineBuffer 0 rec) 0 [0, 0, 0, 1, 0xFF]).getD 3 0 ≠ 4
      rw [getD_memcpy_zero _ _ 3 (by decide) (by rw [length_memcpy, hlb]; decide)]
      decide)
  rw [show (59 : Nat) = 58 + 1 from rfl, prepareLoop_continue _ _ _ _ hfB hpB]
  -- the end of the file
  have hBn : wB.PrepareMemBlock.MemoryBlockNumber = 0 := by rw [hwB, hwA]
  have hBo : wB.PrepareMemBlock.DataOverflow = 0 := by rw [hwB, hwA]; exact hov
  obtain ⟨wC, hfC, hwC⟩ : ∃ wC, fetchLine
      { wB with PrepareMemBlock := { wB.PrepareMemBlock with DataInBufferReady := 0 } }
        = some (wC, some IQRF_PGM_SUCCESS) ∧ wC = _ :=
    ⟨_, by
      rw [fetchLine_eof [0x0A] _ rfl (by rw [hwB, hwA]; exact hst) (by rw [hwB])
        (by rw [hwB]; exact Nat.mod_lt _ (by decide)) (by simp)]
      simp only []
      rw [if_neg (by rw [hBn]; decide), if_neg (by rw [hBo]; decide)], rfl⟩
  rw [show (58 : Nat) = 57 + 1 from rfl, prepareLoop_fetch_return _ _ _ _ hfC]
  refine ⟨memcpy (memcpy w.IqrfPgmCodeLineBuffer 0 rec) 0 [0, 0, 0, 1, 0xFF], ?_⟩
  subst hwC
  subst hwB
  subst hwA
  simp only [hcnt, hreclen, hdib, List.length_nil, List.length_cons, Nat.reduceAdd,
    Nat.reduceMul, Nat.reduceMod]

/-- The state `INIT_TASK` of `iqrfPgmCheckCodeFile`, hex file. -/
theorem check_INIT_TASK_hex (w : World)
    (hsm : w.CheckCodeTaskSM = CheckCodeTask.INIT_TASK)
    (hft : w.CodeFileInfo.FileType = IQRF_PGM_HEX_FILE_TYPE) :
    iqrfPgmCheckCodeFile w =
      some ({ w with
              CodeFileInfo := { w.CodeFileInfo with FileByteCnt := 0 }
              PrepareMemBlock := { w.PrepareMemBlock with
                DataInBufferReady := 0
                DataOverflow := 0 }
              CheckCodeTaskSM := CheckCodeTask.CHECK_HEX_CODE },
            (0 / w.CodeFileInfo.FileSize) % 256) := by
  unfold iqrfPgmCheckCodeFile
  rw [hsm]
  simp only [hft, progressPercent]
  rw [if_neg (by decide), if_pos trivial]

/-- The state `CHECK_HEX_CODE` of `iqrfPgmCheckCodeFile`. -/
theorem check_CHECK_HEX_CODE (w w1 : World) (r : Nat)
    (hsm : w.CheckCodeTaskSM = CheckCodeTask.CHECK_HEX_CODE)
    (hft : w.CodeFileInfo.FileType = IQRF_PGM_HEX_FILE_TYPE)
    (hprep : iqrfPgmPrepareMemBlock w = some (w1, r)) :
    iqrfPgmCheckCodeFile w =
      if r ≠ IQRF_PGM_FLASH_BLOCK_READY ∧ r ≠ IQRF_PGM_EEPROM_BLOCK_READY then
        some ({ w1 with CheckCodeTaskSM := CheckCodeTask.INIT_TASK }, r)
      else some (w1, progressPercent w1) := by
  unfold iqrfPgmCheckCodeFile
  rw [hsm]
  simp only [hft, if_true, hprep]

theorem check_twoLine (up : Nat → Bool) (data : List Nat) (gap fuel : Nat)
    (hlen : data.length = 16) (hb : ∀ d ∈ data, d < 256) :
    ∃ wf, pollToCompletion iqrfPgmCheckCodeFile gap (fuel + 2)
        (sessionStart (twoLineHexFile up data) IQRF_PGM_HEX_FILE_TYPE)
      = some (wf, [0, IQRF_PGM_SUCCESS]) := by
  obtain ⟨w1, h1, hw1⟩ : ∃ w1, iqrfPgmCheckCodeFile
      (sessionStart (twoLineHexFile up data) IQRF_PGM_HEX_FILE_TYPE) = some (w1, 0) ∧ w1 = _ :=
    ⟨_, (check_INIT_TASK_hex _ rfl rfl).trans (by
      congr 2
      show 0 / ((twoLineHexFile up data).length % 65536) % 256 = 0
      simp), rfl⟩
  obtain ⟨sel, tc, X, hX, -, -⟩ := moduleTicks_idle gap w1 (by rw [hw1]; rfl) (by rw [hw1]; rfl)
    (by rw [hw1]; exact (by decide : IQRF_BUFFER_FREE ≠ IQRF_BUFFER_BUSY))
    (by rw [hw1]; exact Nat.zero_le _)
  obtain ⟨lb, h2⟩ := iqrfPgmPrepareMemBlock_twoLine (moduleTicks gap w1) up data hlen hb
    (by rw [hX, hw1]; rfl) (by rw [hX, hw1]; rfl) (by rw [hX, hw1]) (by rw [hX, hw1])
    (by rw [hX, hw1]; rfl) (by rw [hX, hw1]) (by rw [hX, hw1]; rfl)
  have h3 := check_CHECK_HEX_CODE (moduleTicks gap w1) _ _ (by rw [hX, hw1]) (by rw [hX, hw1]; rfl) h2
  rw [if_pos (by decide)] at h3
  exact ⟨_, pollToCompletion_step _ _ _ _ _ _ _ _ h1 (by decide)
    (pollToCompletion_done _ _ _ _ _ _ h3 (by decide))⟩

/-- With no request pending, a gap of more than 50 timer calls contains a
status poll: the module is seen in programming mode. -/
theorem moduleTicks_idle_poll (k : Nat) (w : World) (hk : 51 ≤ k)
    (hst : w.IqrfControl.Status = IQRF_READY) (hs : w.IqrfControl.SuspendFlag = false)
    (hfree : w.IqrfPacket.BufferFlag = IQRF_BUFFER_FREE) (ht : w.IqrfControl.TimeCnt ≤ 50) :
    ∃ (sel : Bool) (tc : Nat) (X : List Event),
      moduleTicks k w =
        { w with
          IqrfSpiControl := { w.IqrfSpiControl with SpiStat := PROGRAMMING_MODE }
          IqrfControl := { w.IqrfControl with TRmoduleSelected := sel, TimeCnt := tc }
          trace := w.trace ++ X }
      ∧ sentPackets X = [] ∧ tc ≤ 50 := by
  obtain ⟨sel, tc, X, hX, hsX, htc⟩ := moduleTicks_idle k w hst hs
    (by rw [hfree]; decide) ht
  rw [if_pos (by omega)] at hX
  exact ⟨sel, tc, X, hX, hsX, htc⟩

theorem length_twoLineHexFile (up : Nat → Bool) (data : List Nat) (hlen : data.length = 16) :
    (twoLineHexFile up data).length = 58 := by
  simp [twoLineHexFile, length_hexLine, recordBytes, hlen]

/-- A gap of at least 170 timer calls serves whatever the mailbox holds and
ends with a status poll; the programmer's variables are left alone. -/
theorem moduleTicks_settle (k : Nat) (w : World) (hk : 170 ≤ k) (hq : Quiet w) :
    Settled (moduleTicks k w) ∧ pgmView (moduleTicks k w) = pgmView w := by
  obtain ⟨⟨hst, hs, ht, hrx, hsm⟩, hmail⟩ := hq
  rcases hmail with hfree | ⟨hbusy, hlen, hcmd⟩
  · obtain ⟨sel, tc, X, hX, hsX, htc⟩ := moduleTicks_idle_poll k w (by omega) hst hs hfree ht
    rw [hX]
    refine ⟨⟨⟨hst, hs, htc, hrx, hsm⟩, hfree, rfl⟩, ?_⟩
    simp only [pgmView, sentPackets_append, hsX, List.append_nil]
  · obtain ⟨spi, sel, tc, X, hX, hmode, hrx2, hsX, htc⟩ :=
      moduleTicks_busy k w ⟨hst, hs, ht, hrx, hsm⟩ hbusy hlen hcmd hk
    rw [hX]
    refine ⟨⟨⟨rfl, hs, htc, hrx2, hsm⟩, rfl, hmode⟩, ?_⟩
    simp only [pgmView, sentPackets_append, hsX, List.append_nil]

/-- With the mailbox free, a gap of more than 50 timer calls is enough. -/
theorem moduleTicks_settle_free (k : Nat) (w : World) (hk : 51 ≤ k) (hr : AtRest w)
    (hfree : w.IqrfPacket.BufferFlag = IQRF_BUFFER_FREE) :
    Settled (moduleTicks k w) ∧ pgmView (moduleTicks k w) = pgmView w := by
  obtain ⟨hst, hs, ht, hrx, hsm⟩ := hr
  obtain ⟨sel, tc, X, hX, hsX, htc⟩ := moduleTicks_idle_poll k w hk hst hs hfree ht
  rw [hX]
  refine ⟨⟨⟨hst, hs, htc, hrx, hsm⟩, hfree, rfl⟩, ?_⟩
  simp only [pgmView, sentPackets_append, hsX, List.append_nil]

/-! ## One poll of `iqrfPgmWriteCodeFile`, seen from the programmer -/

theorem poll_INIT_TASK (v : World) (hr : AtRest v)
    (hfree : v.IqrfPacket.BufferFlag = IQRF_BUFFER_FREE)
    (hsm : v.WriteCode.WriteCodeTaskSM = WriteCodeTask.INIT_TASK) :
    ∃ w, iqrfPgmWriteCodeFile v = some (w, (0 / v.CodeFileInfo.FileSize) % 256)
      ∧ (AtRest w ∧ w.IqrfPacket.BufferFlag = IQRF_BUFFER_FREE)
      ∧ pgmView w =
          ({ v.WriteCode with Attempts := 1, WriteCodeTaskSM := WriteCodeTask.ENTER_PROG_MODE },
            v.PrepareMemBlock, { v.CodeFileInfo with FileByteCnt := 0 }, v.CodeFile,
            v.IqrfPgmCodeLineBuffer, v.CheckCodeTaskSM, v.SysTick, sentPackets v.trace) :=
  ⟨_, write_INIT_TASK v hsm, ⟨hr, hfree⟩, rfl⟩

theorem poll_ENTER_PROG_MODE (v : World) (hr : AtRest v)
    (hfree : v.IqrfPacket.BufferFlag = IQRF_BUFFER_FREE)
    (hsm : v.WriteCode.WriteCodeTaskSM = WriteCodeTask.ENTER_PROG_MODE) :
    ∃ w T, iqrfPgmWriteCodeFile v = some (w, progressPercent v)
      ∧ (AtRest w ∧ w.IqrfPacket.BufferFlag = IQRF_BUFFER_FREE)
      ∧ pgmView w =
          ({ v.WriteCode with SysTickTime := T, WriteCodeTaskSM := WriteCodeTask.WAIT_PROG_MODE },
            v.PrepareMemBlock, v.CodeFileInfo, v.CodeFile,
            v.IqrfPgmCodeLineBuffer, v.CheckCodeTaskSM, T, sentPackets v.trace) := by
  obtain ⟨T, E, hE, h⟩ := write_ENTER_PROG_MODE v hsm hr.1
  refine ⟨_, T, h, ⟨⟨hr.1, rfl, hr.2.2.1, hr.2.2.2.1, hr.2.2.2.2⟩, hfree⟩, ?_⟩
  simp only [pgmView, sentPackets_append, hE, List.append_nil]

theorem poll_WAIT_PROG_MODE (v : World) (hv : Settled v)
    (hsm : v.WriteCode.WriteCodeTaskSM = WriteCodeTask.WAIT_PROG_MODE)
    (hft : v.CodeFileInfo.FileType ≠ IQRF_PGM_PLUGIN_FILE_TYPE) :
    ∃ w, iqrfPgmWriteCodeFile v = some (w, progressPercent v)
      ∧ (AtRest w ∧ w.IqrfPacket.BufferFlag = IQRF_BUFFER_FREE)
      ∧ pgmView w =
          ({ v.WriteCode with
               SysTickTime := v.SysTick, WriteCodeTaskSM := WriteCodeTask.WRITE_HEX },
            { v.PrepareMemBlock with
               DataInBufferReady := 0, DataOverflow := 0, MemoryBlockProcessState := 0 },
            v.CodeFileInfo, v.CodeFile,
            v.IqrfPgmCodeLineBuffer, v.CheckCodeTaskSM, v.SysTick, sentPackets v.trace) :=
  ⟨_, write_WAIT_PROG_MODE v hsm hv.1.1 hv.2.2 hft, ⟨hv.1, hv.2.1⟩, rfl⟩

theorem poll_WRITE_HEX_prepare (v w1 : World) (r : Nat) (hv : Settled v)
    (hsm : v.WriteCode.WriteCodeTaskSM = WriteCodeTask.WRITE_HEX)
    (hps : v.PrepareMemBlock.MemoryBlockProcessState = 0)
    (hprep : (if v.CodeFileInfo.FileType = IQRF_PGM_HEX_FILE_TYPE then iqrfPgmPrepareMemBlock v
              else iqrfPgmProcessCfgFile v) = some (w1, r))
    (h1 : AtRest w1 ∧ w1.IqrfPacket.BufferFlag = IQRF_BUFFER_FREE) :
    ∃ w, iqrfPgmWriteCodeFile v = some (w, progressPercent w1)
      ∧ (AtRest w ∧ w.IqrfPacket.BufferFlag = IQRF_BUFFER_FREE)
      ∧ pgmView w =
          ({ w1.WriteCode with
               OperationResult := r
               WriteCodeTaskSM :=
                 if r ≠ IQRF_PGM_FLASH_BLOCK_READY ∧ r ≠ IQRF_PGM_EEPROM_BLOCK_READY
                 then WriteCodeTask.WAIT_PROG_END else w1.WriteCode.WriteCodeTaskSM },
            w1.PrepareMemBlock, w1.CodeFileInfo, w1.CodeFile,
            w1.IqrfPgmCodeLineBuffer, w1.CheckCodeTaskSM, w1.SysTick, sentPackets w1.trace) :=
  ⟨_, write_WRITE_HEX_prepare v w1 r hsm hv.1.1 hv.2.2 hv.2.1 hps hprep, h1, rfl⟩

theorem poll_WRITE_HEX_send (v : World) (hv : Settled v)
    (hsm : v.WriteCode.WriteCodeTaskSM = WriteCodeTask.WRITE_HEX)
    (hps : v.PrepareMemBlock.MemoryBlockProcessState ≠ 0) (cmd off len : Nat)
    (hpkt : (cmd, off, len) =
      if v.WriteCode.OperationResult = IQRF_PGM_FLASH_BLOCK_READY then
        if v.PrepareMemBlock.MemoryBlockProcessState = 2 then (SPI_FLASH_PGM, 0, 34)
        else (SPI_FLASH_PGM, 34, 34)
      else (SPI_EEPROM_PGM, 0, (v.PrepareMemBlock.MemoryBlock.getD 1 0 + 2) % 256))
    (hlen : len ≤ 64) :
    ∃ w, iqrfPgmWriteCodeFile v = some (w, progressPercent v)
      ∧ Quiet w
      ∧ pgmView w =
          ({ v.WriteCode with SysTickTime := v.SysTick },
            { v.PrepareMemBlock with
               MemoryBlockProcessState := (v.PrepareMemBlock.MemoryBlockProcessState + 255) % 256 },
            v.CodeFileInfo, v.CodeFile,
            v.IqrfPgmCodeLineBuffer, v.CheckCodeTaskSM, v.SysTick,
            sentPackets v.trace ++ [(cmd, readBytes v.PrepareMemBlock.MemoryBlock off len, len)]) := by
  have hcmd : cmd ≠ SPI_MODULE_INFO := by
    intro hc
    subst hc
    split_ifs at hpkt <;> simp [SPI_MODULE_INFO, SPI_FLASH_PGM, SPI_EEPROM_PGM] at hpkt
  refine ⟨_, write_WRITE_HEX_send v hsm hv.1.1 hv.2.2 hv.2.1 hps cmd off len hpkt,
    ⟨hv.1, Or.inr ⟨rfl, hlen, hcmd⟩⟩, ?_⟩
  simp only [pgmView, sentPackets_append]
  rfl

theorem poll_WAIT_PROG_END (v : World) (hv : Settled v)
    (hsm : v.WriteCode.WriteCodeTaskSM = WriteCodeTask.WAIT_PROG_END) :
    ∃ w T, iqrfPgmWriteCodeFile v = some (w, progressPercent v)
      ∧ (AtRest w ∧ w.IqrfPacket.BufferFlag = IQRF_BUFFER_FREE)
      ∧ pgmView w =
          ({ v.WriteCode with WriteCodeTaskSM := WriteCodeTask.PROG_END },
            v.PrepareMemBlock, v.CodeFileInfo, v.CodeFile,
            v.IqrfPgmCodeLineBuffer, v.CheckCodeTaskSM, T, sentPackets v.trace) := by
  obtain ⟨T, E, hE, h⟩ := write_WAIT_PROG_END v hsm hv.1.1 hv.2.2
  refine ⟨_, T, h, ⟨hv.1, hv.2.1⟩, ?_⟩
  simp only [pgmView, sentPackets_append, hE, List.append_nil]

theorem poll_PROG_END (v : World) (hv : Settled v)
    (hsm : v.WriteCode.WriteCodeTaskSM = WriteCodeTask.PROG_END) :
    ∃ w, iqrfPgmWriteCodeFile v = some (w, v.WriteCode.OperationResult)
      ∧ sentPackets w.trace = sentPackets v.trace :=
  ⟨_, write_PROG_END v hsm hv.1.1 hv.2.1, rfl⟩

theorem iqrfPgmPrepareMemBlock_twoLine_view (v : World) (up : Nat → Bool) (data : List Nat)
    (hlen : data.length = 16) (hb : ∀ d ∈ data, d < 256)
    (hr : AtRest v) (hfree : v.IqrfPacket.BufferFlag = IQRF_BUFFER_FREE)
    (hfile : v.CodeFile = twoLineHexFile up data)
    (hov : v.PrepareMemBlock.DataOverflow = 0)
    (hdib : v.PrepareMemBlock.DataInBufferReady = 0)
    (hhi : v.PrepareMemBlock.HiAddress = 0)
    (hcnt : v.CodeFileInfo.FileByteCnt = 0)
    (hlb : v.IqrfPgmCodeLineBuffer.length = 32) :
    ∃ w1 lb, iqrfPgmPrepareMemBlock v = some (w1, IQRF_PGM_SUCCESS)
      ∧ (AtRest w1 ∧ w1.IqrfPacket.BufferFlag = IQRF_BUFFER_FREE)
      ∧ pgmView w1 =
          (v.WriteCode,
            { v.PrepareMemBlock with
               Address := 0, MemoryBlockNumber := 0, MemoryBlock := erasedMemoryBlock },
            { v.CodeFileInfo with FileByteCnt := 58 }, [], lb, v.CheckCodeTaskSM, v.SysTick,
            sentPackets v.trace) := by
  obtain ⟨lb, h⟩ := iqrfPgmPrepareMemBlock_twoLine v up data hlen hb hfile hr.1 hov hdib hhi
    hcnt hlb
  exact ⟨_, lb, h, ⟨⟨hr.1, rfl, hr.2.2.1, hr.2.2.2.1, hr.2.2.2.2⟩, hfree⟩, rfl⟩

theorem atRest_sessionStart (file : List Nat) (t : Nat) : AtRest (sessionStart file t) :=
  ⟨rfl, rfl, Nat.zero_le _, by simp [sessionStart], rfl⟩

theorem write_twoLine (up : Nat → Bool) (data : List Nat) (gap fuel : Nat)
    (hlen : data.length = 16) (hb : ∀ d ∈ data, d < 256) (hgap : 51 ≤ gap) :
    ∃ wf, pollToCompletion iqrfPgmWriteCodeFile gap (fuel + 6)
        (sessionStart (twoLineHexFile up data) IQRF_PGM_HEX_FILE_TYPE)
      = some (wf, [0, 0, 0, 100, 100, IQRF_PGM_SUCCESS]) ∧ sentPackets wf.trace = [] := by
  have hfl := length_twoLineHexFile up data hlen
  -- INIT_TASK
  obtain ⟨w1, h1, ⟨hr1, hf1⟩, hp1⟩ := poll_INIT_TASK
    (sessionStart (twoLineHexFile up data) IQRF_PGM_HEX_FILE_TYPE) (atRest_sessionStart _ _)
    rfl rfl
  have e1 : (0 / (sessionStart (twoLineHexFile up data)
      IQRF_PGM_HEX_FILE_TYPE).CodeFileInfo.FileSize) % 256 = 0 := by simp
  rw [e1] at h1
  obtain ⟨hv1, hq1⟩ := moduleTicks_settle_free gap w1 hgap hr1 hf1
  have hP1 := hq1.trans hp1
  simp only [sessionStart, hfl, Nat.reduceMod, pgmView, Prod.mk.injEq] at hP1
  obtain ⟨eWC1, ePM1, eFI1, eCF1, eLB1, eCK1, eT1, eSP1⟩ := hP1
  -- ENTER_PROG_MODE
  obtain ⟨w2, T2, h2, ⟨hr2, hf2⟩, hp2⟩ := poll_ENTER_PROG_MODE _ hv1.1 hv1.2.1 (by rw [eWC1])
  have e2 : progressPercent (moduleTicks gap w1) = 0 := by
    simp only [progressPercent, eFI1]
  rw [e2] at h2
  obtain ⟨hv2, hq2⟩ := moduleTicks_settle_free gap w2 hgap hr2 hf2
  have hP2 := hq2.trans hp2
  simp only [eWC1, ePM1, eFI1, eCF1, eLB1, eCK1, eT1, eSP1, pgmView, Prod.mk.injEq] at hP2
  obtain ⟨eWC2, ePM2, eFI2, eCF2, eLB2, eCK2, eT2, eSP2⟩ := hP2
  -- WAIT_PROG_MODE
  obtain ⟨w3, h3, ⟨hr3, hf3⟩, hp3⟩ := poll_WAIT_PROG_MODE _ hv2 (by rw [eWC2])
    (by rw [eFI2]; decide)
  have e3 : progressPercent (moduleTicks gap w2) = 0 := by
    simp only [progressPercent, eFI2]
  rw [e3] at h3
  obtain ⟨hv3, hq3⟩ := moduleTicks_settle_free gap w3 hgap hr3 hf3
  have hP3 := hq3.trans hp3
  simp only [eWC2, ePM2, eFI2, eCF2, eLB2, eCK2, eT2, eSP2, pgmView, Prod.mk.injEq] at hP3
  obtain ⟨eWC3, ePM3, eFI3, eCF3, eLB3, eCK3, eT3, eSP3⟩ := hP3
  -- WRITE_HEX: the whole file is consumed, no block results
  obtain ⟨x4, lb, hprep, hx4, hpx4⟩ := iqrfPgmPrepareMemBlock_twoLine_view _ up data hlen hb
    hv3.1 hv3.2.1 eCF3 (by rw [ePM3]) (by rw [ePM3]) (by rw [ePM3]) (by rw [eFI3])
    (by rw [eLB3]; simp)
  obtain ⟨w4, h4, ⟨hr4, hf4⟩, hp4⟩ := poll_WRITE_HEX_prepare _ x4 _ hv3 (by rw [eWC3])
    (by rw [ePM3]) (by rw [if_pos (by rw [eFI3])]; exact hprep) hx4
  simp only [pgmView, Prod.mk.injEq] at hpx4
  obtain ⟨xWC, xPM, xFI, xCF, xLB, xCK, xT, xSP⟩ := hpx4
  have e4 : progressPercent x4 = 100 := by
    simp only [progressPercent, xFI, eFI3]
  rw [e4] at h4
  obtain ⟨hv4, hq4⟩ := moduleTicks_settle_free gap w4 hgap hr4 hf4
  have hP4 := hq4.trans hp4
  simp only [xWC, xPM, xFI, xCF, xLB, xCK, xT, xSP, eWC3, ePM3, eFI3, eCF3, eLB3, eCK3, eT3,
    eSP3, pgmView, Prod.mk.injEq] at hP4
  obtain ⟨eWC4, ePM4, eFI4, eCF4, eLB4, eCK4, eT4, eSP4⟩ := hP4
  rw [if_pos (by decide)] at eWC4
  -- WAIT_PROG_END
  obtain ⟨w5, T5, h5, ⟨hr5, hf5⟩, hp5⟩ := poll_WAIT_PROG_END _ hv4 (by rw [eWC4])
  have e5 : progressPercent (moduleTicks gap w4) = 100 := by
    simp only [progressPercent, eFI4]
  rw [e5] at h5
  obtain ⟨hv5, hq5⟩ := moduleTicks_settle_free gap w5 hgap hr5 hf5
  have hP5 := hq5.trans hp5
  simp only [eWC4, ePM4, eFI4, eCF4, eLB4, eCK4, eT4, eSP4, pgmView, Prod.mk.injEq] at hP5
  obtain ⟨eWC5, ePM5, eFI5, eCF5, eLB5, eCK5, eT5, eSP5⟩ := hP5
  -- PROG_END
  obtain ⟨w6, h6, hp6⟩ := poll_PROG_END _ hv5 (by rw [eWC5])
  rw [eWC5] at h6
  refine ⟨w6, ?_, hp6.trans eSP5⟩
  exact pollToCompletion_step _ _ _ _ _ _ _ _ h1 (by decide)
    (pollToCompletion_step _ _ _ _ _ _ _ _ h2 (by decide)
    (pollToCompletion_step _ _ _ _ _ _ _ _ h3 (by decide)
    (pollToCompletion_step _ _ _ _ _ _ _ _ h4 (by decide)
    (pollToCompletion_step _ _ _ _ _ _ _ _ h5 (by decide)
    (pollToCompletion_done _ _ _ _ _ _ h6 (by decide))))))

/-- C5, counterexample: for the file `:10000000000102...0F78`, `:00000001FF`
the check run returns 0 and then `IQRF_PGM_SUCCESS` (200), never 100, and the
write run hands no packet to the transport, so no flash page is written. -/
theorem twoLineHex_counterexample :
    (∃ wf, pollToCompletion iqrfPgmCheckCodeFile 256 2
        (sessionStart (twoLineHexFile (fun _ => true)
          [0, 1, 2, 3, 4, 5, 6, 7, 8, 9, 10, 11, 12, 13, 14, 15]) IQRF_PGM_HEX_FILE_TYPE)
      = some (wf, [0, 200]))
    ∧ (∃ wf, pollToCompletion iqrfPgmWriteCodeFile 256 6
        (sessionStart (twoLineHexFile (fun _ => true)
          [0, 1, 2, 3, 4, 5, 6, 7, 8, 9, 10, 11, 12, 13, 14, 15]) IQRF_PGM_HEX_FILE_TYPE)
      = some (wf, [0, 0, 0, 100, 100, 200]) ∧ sentPackets wf.trace = []) :=
  ⟨check_twoLine (fun _ => true) _ 256 0 (by decide) (by decide),
    write_twoLine (fun _ => true) _ 256 0 (by decide) (by decide) (by decide)⟩

/-- C5, amended: for the 2-line hex file `:10000000` + 16 data bytes + valid
checksum, then `:00000001FF`, whatever the data bytes and the case of the hex
digits, `iqrfPgmCheckCodeFile` polled to completion returns 0 and then
`IQRF_PGM_SUCCESS`; `iqrfPgmWriteCodeFile` polled to completion (module
reaching programming mode, more than 50 timer calls between two polls)
returns 0, 0, 0, 100, 100 and then `IQRF_PGM_SUCCESS`, and hands no packet to
the transport: the record lies at word address 0, outside every programmable
area, and is passed over. -/
theorem twoLineHex_end_to_end (up : Nat → Bool) (data : List Nat) (gap fuel : Nat)
    (hlen : data.length = 16) (hb : ∀ d ∈ data, d < 256) (hgap : 51 ≤ gap) :
    (∃ wf, pollToCompletion iqrfPgmCheckCodeFile gap (fuel + 2)
        (sessionStart (twoLineHexFile up data) IQRF_PGM_HEX_FILE_TYPE)
      = some (wf, [0, IQRF_PGM_SUCCESS]))
    ∧ (∃ wf, pollToCompletion iqrfPgmWriteCodeFile gap (fuel + 6)
        (sessionStart (twoLineHexFile up data) IQRF_PGM_HEX_FILE_TYPE)
      = some (wf, [0, 0, 0, 100, 100, IQRF_PGM_SUCCESS]) ∧ sentPackets wf.trace = []) :=
  ⟨check_twoLine up data gap fuel hlen hb, write_twoLine up data gap fuel hlen hb hgap⟩

theorem twoLineHex_end_to_end_witness :
    (∃ wf, pollToCompletion iqrfPgmCheckCodeFile 60 (0 + 2)
        (sessionStart (twoLineHexFile (fun k => decide (k % 2 = 0))
          [0xFF, 0xAB, 0x3F, 0x00, 0x12, 0x34, 0x56, 0x78, 0x9A, 0xBC, 0xDE, 0xF0, 0x11, 0x22,
            0x33, 0x44]) IQRF_PGM_HEX_FILE_TYPE)
      = some (wf, [0, IQRF_PGM_SUCCESS]))
    ∧ (∃ wf, pollToCompletion iqrfPgmWriteCodeFile 60 (0 + 6)
        (sessionStart (twoLineHexFile (fun k => decide (k % 2 = 0))
          [0xFF, 0xAB, 0x3F, 0x00, 0x12, 0x34, 0x56, 0x78, 0x9A, 0xBC, 0xDE, 0xF0, 0x11, 0x22,
            0x33, 0x44]) IQRF_PGM_HEX_FILE_TYPE)
      = some (wf, [0, 0, 0, 100, 100, IQRF_PGM_SUCCESS]) ∧ sentPackets wf.trace = []) :=
  twoLineHex_end_to_end (fun k => decide (k % 2 = 0))
    [0xFF, 0xAB, 0x3F, 0x00, 0x12, 0x34, 0x56, 0x78, 0x9A, 0xBC, 0xDE, 0xF0, 0x11, 0x22,
      0x33, 0x44] 60 0 (by decide) (by decide) (by decide)

/-! ## The configuration file -/

/-- The read loop of `iqrfPgmProcessCfgFile`: one byte of the file per
counter value, stored with the opcode `0x34` after it. -/
theorem cfgReadLoop : ∀ (cnts bytes rest : List Nat) (v : World),
    v.CodeFile = bytes ++ rest → bytes.length = cnts.length →
    v.CodeFileInfo.FileByteCnt + bytes.length < 65536 →
    cnts.foldl cfgReadStep v =
    { v with
      CodeFile := rest
      CodeFileInfo := { v.CodeFileInfo with
        FileByteCnt := v.CodeFileInfo.FileByteCnt + bytes.length }
      PrepareMemBlock := { v.PrepareMemBlock with
        MemoryBlock := (cnts.zip (bytes.map (fun b => b % 256))).foldl
          (fun (mb : List Nat) (p : Nat × Nat) =>
            (mb.set (if p.1 < 16 then p.1 * 2 + 2 else p.1 * 2 + 4) p.2).set
              ((if p.1 < 16 then p.1 * 2 + 2 else p.1 * 2 + 4) + 1) 0x34)
          v.PrepareMemBlock.MemoryBlock } } := by
  intro cnts
  induction cnts with
  | nil =>
    intro bytes rest v hfile hlen _
    have hb : bytes = [] := List.length_eq_zero.mp hlen
    subst hb
    rcases v with ⟨a1, a2, a3, a4, a5, a6, ⟨f1, f2, f3⟩, a8, ⟨p1, p2, p3, p4, p5, p6, p7⟩, a10,
      a11, a12, a13, a14⟩
    simp only [List.nil_append] at hfile
    subst hfile
    rfl
  | cons Cnt cnts ih =>
    intro bytes rest v hfile hlen hcnt
    rcases bytes with _ | ⟨b, bs⟩
    · simp at hlen
    simp only [List.length_cons, Nat.add_right_cancel_iff] at hlen
    simp only [List.length_cons] at hcnt
    simp only [List.foldl_cons, cfgReadStep]
    rw [iqrfReadByteFromFile_cons v b (bs ++ rest) (by rw [hfile]; rfl)]
    simp only []
    rw [ih bs rest _ rfl hlen (by
      show (v.CodeFileInfo.FileByteCnt + 1) % 65536 + bs.length < 65536
      omega)]
    have e : (v.CodeFileInfo.FileByteCnt + 1) % 65536 + bs.length
        = v.CodeFileInfo.FileByteCnt + (bs.length + 1) := by omega
    simp only [e, List.map_cons, List.zip_cons_cons, List.foldl_cons, List.length_cons]

theorem iqrfSuspendDriver_ready (w : World) (hst : w.IqrfControl.Status = IQRF_READY) :
    iqrfSuspendDriver w =
      some { w with
             IqrfControl := { w.IqrfControl with SuspendFlag := true }
             IqrfSpiControl := { w.IqrfSpiControl with SpiStat := SPI_DISABLED } } := by
  unfold iqrfSuspendDriver
  rw [if_neg (by rw [hst]; decide)]

/-- The first call of `iqrfPgmProcessCfgFile` in a session: the 33 bytes are
read, the image of the configuration page is built. -/
theorem iqrfPgmProcessCfgFile_read (v : World) (bytes : List Nat) (last : Nat)
    (hr : AtRest v) (hfree : v.IqrfPacket.BufferFlag = IQRF_BUFFER_FREE)
    (hdib : v.PrepareMemBlock.DataInBufferReady = 0)
    (hfile : v.CodeFile = bytes ++ [last]) (hlen : bytes.length = 32)
    (hcnt : v.CodeFileInfo.FileByteCnt + 33 < 65536) :
    ∃ w1, iqrfPgmProcessCfgFile v = some (w1, IQRF_PGM_FLASH_BLOCK_READY)
      ∧ (AtRest w1 ∧ w1.IqrfPacket.BufferFlag = IQRF_BUFFER_FREE)
      ∧ pgmView w1 =
          (v.WriteCode,
            { v.PrepareMemBlock with
               MemoryBlock := ((List.range 32).zip (bytes.map (fun b => b % 256))).foldl
                 (fun (mb : List Nat) (p : Nat × Nat) =>
                   (mb.set (if p.1 < 16 then p.1 * 2 + 2 else p.1 * 2 + 4) p.2).set
                     ((if p.1 < 16 then p.1 * 2 + 2 else p.1 * 2 + 4) + 1) 0x34)
                 ((((v.PrepareMemBlock.MemoryBlock.set 0 (IQRF_CONFIG_MEM_L_ADR &&& 0x00FF)).set 1
                   (IQRF_CONFIG_MEM_L_ADR >>> 8)).set 34 (IQRF_CONFIG_MEM_H_ADR &&& 0x00FF)).set
                   35 (IQRF_CONFIG_MEM_H_ADR >>> 8))
               MemoryBlockProcessState := 2
               MemoryBlockNumber := last % 256
               DataInBufferReady := 1 },
            { v.CodeFileInfo with FileByteCnt := v.CodeFileInfo.FileByteCnt + 33 }, [],
            v.IqrfPgmCodeLineBuffer, v.CheckCodeTaskSM, v.SysTick, sentPackets v.trace) := by
  obtain ⟨ws, hsus, hws⟩ : ∃ ws, iqrfSuspendDriver
      { v with PrepareMemBlock := { v.PrepareMemBlock with
          MemoryBlock := (((v.PrepareMemBlock.MemoryBlock.set 0
            (IQRF_CONFIG_MEM_L_ADR &&& 0x00FF)).set 1 (IQRF_CONFIG_MEM_L_ADR >>> 8)).set 34
            (IQRF_CONFIG_MEM_H_ADR &&& 0x00FF)).set 35 (IQRF_CONFIG_MEM_H_ADR >>> 8)
          MemoryBlockProcessState := 2 } } = some ws ∧ ws = _ :=
    ⟨_, iqrfSuspendDriver_ready _ hr.1, rfl⟩
  have hloop := cfgReadLoop (List.range 32) bytes [last] ws (by rw [hws]; exact hfile)
    (by rw [hlen]; rfl)
    (by rw [hws, hlen]; show v.CodeFileInfo.FileByteCnt + 32 < 65536; omega)
  unfold iqrfPgmProcessCfgFile
  rw [if_pos hdib]
  simp only []
  rw [hsus]
  simp only []
  rw [hloop, iqrfReadByteFromFile_cons _ last [] rfl]
  have e : (v.CodeFileInfo.FileByteCnt + bytes.length + 1) % 65536
      = v.CodeFileInfo.FileByteCnt + 33 := by rw [hlen]; omega
  subst hws
  refine ⟨_, rfl, ⟨⟨hr.1, rfl, hr.2.2.1, hr.2.2.2.1, hr.2.2.2.2⟩, hfree⟩, ?_⟩
  simp only [pgmView, iqrfRunDriver, e]

/-- The second call of `iqrfPgmProcessCfgFile`: the 33rd byte goes into a
one-byte block for the address `RFPGM_CFG_ADR`. -/
theorem iqrfPgmProcessCfgFile_rfpgm (v : World)
    (hdib : v.PrepareMemBlock.DataInBufferReady = 1) :
    iqrfPgmProcessCfgFile v =
      some ({ v with PrepareMemBlock := { v.PrepareMemBlock with
                MemoryBlock := ((v.PrepareMemBlock.MemoryBlock.set 0 RFPGM_CFG_ADR).set 1 0x01).set
                  2 (v.PrepareMemBlock.MemoryBlockNumber % 256)
                MemoryBlockProcessState := 1
                DataInBufferReady := 2 } }, IQRF_PGM_EEPROM_BLOCK_READY) := by
  unfold iqrfPgmProcessCfgFile
  rw [if_neg (by rw [hdib]; decide), if_pos hdib]

/-- The third call of `iqrfPgmProcessCfgFile`: nothing is left. -/
theorem iqrfPgmProcessCfgFile_done (v : World)
    (hdib : v.PrepareMemBlock.DataInBufferReady = 2) :
    iqrfPgmProcessCfgFile v =
      some ({ v with PrepareMemBlock := { v.PrepareMemBlock with DataInBufferReady := 0 } },
        IQRF_PGM_SUCCESS) := by
  unfold iqrfPgmProcessCfgFile
  rw [if_neg (by rw [hdib]; decide), if_neg (by rw [hdib]; decide)]

theorem range32 : List.range 32 = [0, 1, 2, 3, 4, 5, 6, 7, 8, 9, 10, 11, 12, 13, 14, 15, 16,
    17, 18, 19, 20, 21, 22, 23, 24, 25, 26, 27, 28, 29, 30, 31] := by decide

theorem range33 : List.range 33 = [0, 1, 2, 3, 4, 5, 6, 7, 8, 9, 10, 11, 12, 13, 14, 15, 16,
    17, 18, 19, 20, 21, 22, 23, 24, 25, 26, 27, 28, 29, 30, 31, 32] := by decide

theorem range34 : List.range 34 = [0, 1, 2, 3, 4, 5, 6, 7, 8, 9, 10, 11, 12, 13, 14, 15, 16,
    17, 18, 19, 20, 21, 22, 23, 24, 25, 26, 27, 28, 29, 30, 31, 32, 33] := by decide

/-- The image of the configuration page built from the bytes `c 0 .. c 31`. -/
theorem cfgImage_eq (c : Nat → Nat) :
    ((List.range 32).zip [c 0, c 1, c 2, c 3, c 4, c 5, c 6, c 7, c 8, c 9, c 10, c 11, c 12, c 13, c 14, c 15, c 16, c 17, c 18, c 19, c 20, c 21, c 22, c 23, c 24, c 25, c 26, c 27, c 28, c 29, c 30, c 31]).foldl
      (fun (mb : List Nat) (p : Nat × Nat) =>
        (mb.set (if p.1 < 16 then p.1 * 2 + 2 else p.1 * 2 + 4) p.2).set
          ((if p.1 < 16 then p.1 * 2 + 2 else p.1 * 2 + 4) + 1) 0x34)
      (((((List.replicate 68 0).set 0 (IQRF_CONFIG_MEM_L_ADR &&& 0x00FF)).set 1
        (IQRF_CONFIG_MEM_L_ADR >>> 8)).set 34 (IQRF_CONFIG_MEM_H_ADR &&& 0x00FF)).set 35
        (IQRF_CONFIG_MEM_H_ADR >>> 8))
    = [0xC0, 0x37, c 0, 0x34, c 1, 0x34, c 2, 0x34, c 3, 0x34, c 4, 0x34, c 5, 0x34, c 6, 0x34, c 7, 0x34, c 8, 0x34, c 9, 0x34, c 10, 0x34, c 11, 0x34, c 12, 0x34, c 13, 0x34, c 14, 0x34, c 15, 0x34, 0xD0, 0x37, c 16, 0x34, c 17, 0x34, c 18, 0x34, c 19, 0x34, c 20, 0x34, c 21, 0x34, c 22, 0x34, c 23, 0x34, c 24, 0x34, c 25, 0x34, c 26, 0x34, c 27, 0x34, c 28, 0x34, c 29, 0x34, c 30, 0x34, c 31, 0x34] := by
  have r68 : List.replicate 68 (0 : Nat) = List.replicate 34 0 ++ List.replicate 34 0 := by
    decide
  have a1 : IQRF_CONFIG_MEM_L_ADR &&& 0x00FF = 0xC0 := by decide
  have a2 : IQRF_CONFIG_MEM_L_ADR >>> 8 = 0x37 := by decide
  have a3 : IQRF_CONFIG_MEM_H_ADR &&& 0x00FF = 0xD0 := by decide
  have a4 : IQRF_CONFIG_MEM_H_ADR >>> 8 = 0x37 := by decide
  rw [range32, r68, a1, a2, a3, a4]
  simp only [List.replicate, List.cons_append, List.nil_append, List.zip_cons_cons,
    List.zip_nil_right, List.foldl_cons, List.foldl_nil, Nat.reduceLT, if_true, if_false,
    Nat.reduceMul, Nat.reduceAdd, List.set_cons_succ, List.set_cons_zero]

theorem write_cfg (cfg : List Nat) (gap fuel : Nat)
    (hlen : cfg.length = 33) (hb : ∀ b ∈ cfg, b < 256) (hgap : 170 ≤ gap) :
    ∃ wf, pollToCompletion iqrfPgmWriteCodeFile gap (fuel + 11)
        (sessionStart cfg IQRF_PGM_CFG_FILE_TYPE)
      = some (wf, [0, 0, 0, 100, 100, 100, 100, 100, 100, 100, IQRF_PGM_SUCCESS])
      ∧ sentPackets wf.trace =
          [(SPI_FLASH_PGM, 0xC0 :: 0x37 :: cfgWords (cfg.take 16), 34),
           (SPI_FLASH_PGM, 0xD0 :: 0x37 :: cfgWords ((cfg.drop 16).take 16), 34),
           (SPI_EEPROM_PGM, [0xC1, 0x01, cfg.getD 32 0], 3)] := by
  obtain ⟨c, hc, hm⟩ : ∃ c : Nat → Nat, cfg = (List.range 33).map c ∧ ∀ i, c i % 256 = c i := by
    refine ⟨fun i => cfg.getD i 0, ?_, ?_⟩
    · have h := readBytes_self cfg
      rw [hlen] at h
      simpa [readBytes] using h.symm
    · intro i
      apply Nat.mod_eq_of_lt
      show cfg.getD i 0 < 256
      by_cases hi : i < cfg.length
      · rw [List.getD_eq_getElem _ _ hi]
        exact hb _ (List.getElem_mem _)
      · rw [List.getD_eq_default _ _ (by omega)]
        decide
  rw [range33] at hc
  simp only [List.map_cons, List.map_nil] at hc
  subst hc
  -- INIT_TASK
  obtain ⟨w1, h1, ⟨hr1, hf1⟩, hp1⟩ := poll_INIT_TASK
    (sessionStart [c 0, c 1, c 2, c 3, c 4, c 5, c 6, c 7, c 8, c 9, c 10, c 11, c 12, c 13, c 14, c 15, c 16, c 17, c 18, c 19, c 20, c 21, c 22, c 23, c 24, c 25, c 26, c 27, c 28, c 29, c 30, c 31, c 32] IQRF_PGM_CFG_FILE_TYPE) (atRest_sessionStart _ _) rfl rfl
  have e1 : (0 / (sessionStart [c 0, c 1, c 2, c 3, c 4, c 5, c 6, c 7, c 8, c 9, c 10, c 11, c 12, c 13, c 14, c 15, c 16, c 17, c 18, c 19, c 20, c 21, c 22, c 23, c 24, c 25, c 26, c 27, c 28, c 29, c 30, c 31, c 32]
      IQRF_PGM_CFG_FILE_TYPE).CodeFileInfo.FileSize) % 256 = 0 := by simp
  rw [e1] at h1
  obtain ⟨hv1, hq1⟩ := moduleTicks_settle gap w1 hgap ⟨hr1, Or.inl hf1⟩
  have hP1 := hq1.trans hp1
  simp only [sessionStart, List.length_cons, List.length_nil, Nat.reduceAdd, Nat.reduceMod, pgmView, Prod.mk.injEq] at hP1
  obtain ⟨eWC1, ePM1, eFI1, eCF1, eLB1, eCK1, eT1, eSP1⟩ := hP1
  -- ENTER_PROG_MODE
  obtain ⟨w2, T2, h2, ⟨hr2, hf2⟩, hp2⟩ := poll_ENTER_PROG_MODE _ hv1.1 hv1.2.1 (by rw [eWC1])
  have e2 : progressPercent (moduleTicks gap w1) = 0 := by
    simp only [progressPercent, eFI1]
  rw [e2] at h2
  obtain ⟨hv2, hq2⟩ := moduleTicks_settle gap w2 hgap ⟨hr2, Or.inl hf2⟩
  have hP2 := hq2.trans hp2
  simp only [eWC1, ePM1, eFI1, eCF1, eLB1, eCK1, eT1, eSP1, pgmView, Prod.mk.injEq] at hP2
  obtain ⟨eWC2, ePM2, eFI2, eCF2, eLB2, eCK2, eT2, eSP2⟩ := hP2
  -- WAIT_PROG_MODE
  obtain ⟨w3, h3, ⟨hr3, hf3⟩, hp3⟩ := poll_WAIT_PROG_MODE _ hv2 (by rw [eWC2])
    (by rw [eFI2]; decide)
  have e3 : progressPercent (moduleTicks gap w2) = 0 := by
    simp only [progressPercent, eFI2]
  rw [e3] at h3
  obtain ⟨hv3, hq3⟩ := moduleTicks_settle gap w3 hgap ⟨hr3, Or.inl hf3⟩
  have hP3 := hq3.trans hp3
  simp only [eWC2, ePM2, eFI2, eCF2, eLB2, eCK2, eT2, eSP2, pgmView, Prod.mk.injEq] at hP3
  obtain ⟨eWC3, ePM3, eFI3, eCF3, eLB3, eCK3, eT3, eSP3⟩ := hP3
  -- WRITE_HEX: the 33 bytes are read, the page image is ready
  obtain ⟨x4, hprep4, hx4, hpx4⟩ := iqrfPgmProcessCfgFile_read (moduleTicks gap w3)
    [c 0, c 1, c 2, c 3, c 4, c 5, c 6, c 7, c 8, c 9, c 10, c 11, c 12, c 13, c 14, c 15, c 16, c 17, c 18, c 19, c 20, c 21, c 22, c 23, c 24, c 25, c 26, c 27, c 28, c 29, c 30, c 31] (c 32) hv3.1 hv3.2.1 (by rw [ePM3]) (by rw [eCF3]; rfl) rfl
    (by rw [eFI3]; decide)
  obtain ⟨w4, h4, ⟨hr4, hf4⟩, hp4⟩ := poll_WRITE_HEX_prepare _ x4 _ hv3 (by rw [eWC3])
    (by rw [ePM3]) (by rw [if_neg (by rw [eFI3]; decide)]; exact hprep4) hx4
  simp only [pgmView, Prod.mk.injEq] at hpx4
  obtain ⟨xWC4, xPM4, xFI4, xCF4, xLB4, xCK4, xT4, xSP4⟩ := hpx4
  simp only [ePM3, List.map_cons, List.map_nil, hm, cfgImage_eq] at xPM4
  obtain ⟨M1, hM1⟩ : ∃ M1 : List Nat, M1 = [0xC0, 0x37, c 0, 0x34, c 1, 0x34, c 2, 0x34, c 3, 0x34, c 4, 0x34, c 5, 0x34, c 6, 0x34, c 7, 0x34, c 8, 0x34, c 9, 0x34, c 10, 0x34, c 11, 0x34, c 12, 0x34, c 13, 0x34, c 14, 0x34, c 15, 0x34, 0xD0, 0x37, c 16, 0x34, c 17, 0x34, c 18, 0x34, c 19, 0x34, c 20, 0x34, c 21, 0x34, c 22, 0x34, c 23, 0x34, c 24, 0x34, c 25, 0x34, c 26, 0x34, c 27, 0x34, c 28, 0x34, c 29, 0x34, c 30, 0x34, c 31, 0x34] := ⟨_, rfl⟩
  rw [← hM1] at xPM4
  have e4 : progressPercent x4 = 100 := by
    simp only [progressPercent, xFI4, eFI3]
  rw [e4] at h4
  obtain ⟨hv4, hq4⟩ := moduleTicks_settle gap w4 hgap ⟨hr4, Or.inl hf4⟩
  have hP4 := hq4.trans hp4
  simp only [xWC4, xPM4, xFI4, xCF4, xLB4, xCK4, xT4, xSP4, eWC3, ePM3, eFI3, eCF3, eLB3, eCK3, eT3, eSP3, pgmView, Prod.mk.injEq] at hP4
  obtain ⟨eWC4, ePM4, eFI4, eCF4, eLB4, eCK4, eT4, eSP4⟩ := hP4
  rw [if_neg (by decide)] at eWC4
  -- WRITE_HEX: first half of the page image
  obtain ⟨w5, h5, hk5, hp5⟩ := poll_WRITE_HEX_send _ hv4 (by rw [eWC4])
    (by rw [ePM4]; exact (by decide : (2 : Nat) ≠ 0)) SPI_FLASH_PGM 0 34
    (by rw [eWC4, ePM4]; rfl) (by decide)
  have e5 : progressPercent (moduleTicks gap w4) = 100 := by
    simp only [progressPercent, eFI4]
  rw [e5] at h5
  obtain ⟨hv5, hq5⟩ := moduleTicks_settle gap w5 hgap hk5
  have hP5 := hq5.trans hp5
  simp only [eWC4, ePM4, eFI4, eCF4, eLB4, eCK4, eT4, eSP4, pgmView, Prod.mk.injEq] at hP5
  obtain ⟨eWC5, ePM5, eFI5, eCF5, eLB5, eCK5, eT5, eSP5⟩ := hP5
  -- WRITE_HEX: second half of the page image
  obtain ⟨w6, h6, hk6, hp6⟩ := poll_WRITE_HEX_send _ hv5 (by rw [eWC5])
    (by rw [ePM5]; exact (by decide : (1 : Nat) ≠ 0)) SPI_FLASH_PGM 34 34
    (by rw [eWC5, ePM5]; rfl) (by decide)
  have e6 : progressPercent (moduleTicks gap w5) = 100 := by
    simp only [progressPercent, eFI5]
  rw [e6] at h6
  obtain ⟨hv6, hq6⟩ := moduleTicks_settle gap w6 hgap hk6
  have hP6 := hq6.trans hp6
  simp only [eWC5, ePM5, eFI5, eCF5, eLB5, eCK5, eT5, eSP5, pgmView, Prod.mk.injEq] at hP6
  obtain ⟨eWC6, ePM6, eFI6, eCF6, eLB6, eCK6, eT6, eSP6⟩ := hP6
  -- WRITE_HEX: the block for the 33rd byte is ready
  obtain ⟨x7, hprep7, hx7⟩ : ∃ x7, iqrfPgmProcessCfgFile (moduleTicks gap w6)
      = some (x7, IQRF_PGM_EEPROM_BLOCK_READY) ∧ x7 = _ :=
    ⟨_, iqrfPgmProcessCfgFile_rfpgm _ (by rw [ePM6]), rfl⟩
  obtain ⟨w7, h7, ⟨hr7, hf7⟩, hp7⟩ := poll_WRITE_HEX_prepare _ x7 _ hv6 (by rw [eWC6])
    (by rw [ePM6]) (by rw [if_neg (by rw [eFI6]; decide)]; exact hprep7)
    (by rw [hx7]; exact ⟨hv6.1, hv6.2.1⟩)
  have e7 : progressPercent x7 = 100 := by
    rw [hx7]
    simp only [progressPercent, eFI6]
  rw [e7] at h7
  rw [hx7] at hp7
  obtain ⟨hv7, hq7⟩ := moduleTicks_settle gap w7 hgap ⟨hr7, Or.inl hf7⟩
  have hP7 := hq7.trans hp7
  simp only [eWC6, ePM6, eFI6, eCF6, eLB6, eCK6, eT6, eSP6, hm, pgmView, Prod.mk.injEq] at hP7
  obtain ⟨eWC7, ePM7, eFI7, eCF7, eLB7, eCK7, eT7, eSP7⟩ := hP7
  rw [if_neg (by decide)] at eWC7
  obtain ⟨M2, hM2⟩ : ∃ M2 : List Nat, M2 = ((M1.set 0 RFPGM_CFG_ADR).set 1 1).set 2 (c 32) :=
    ⟨_, rfl⟩
  rw [← hM2] at ePM7
  have hM2len : (M2.getD 1 0 + 2) % 256 = 3 := by
    rw [hM2, hM1]
    rfl
  -- WRITE_HEX: the 33rd byte
  obtain ⟨w8, h8, hk8, hp8⟩ := poll_WRITE_HEX_send _ hv7 (by rw [eWC7])
    (by rw [ePM7]; exact (by decide : (1 : Nat) ≠ 0)) SPI_EEPROM_PGM 0 3
    (by
      rw [eWC7, ePM7]
      show _ = if IQRF_PGM_EEPROM_BLOCK_READY = IQRF_PGM_FLASH_BLOCK_READY then _
        else (SPI_EEPROM_PGM, 0, (M2.getD 1 0 + 2) % 256)
      rw [if_neg (by decide), hM2len]) (by decide)
  have e8 : progressPercent (moduleTicks gap w7) = 100 := by
    simp only [progressPercent, eFI7]
  rw [e8] at h8
  obtain ⟨hv8, hq8⟩ := moduleTicks_settle gap w8 hgap hk8
  have hP8 := hq8.trans hp8
  simp only [eWC7, ePM7, eFI7, eCF7, eLB7, eCK7, eT7, eSP7, pgmView, Prod.mk.injEq] at hP8
  obtain ⟨eWC8, ePM8, eFI8, eCF8, eLB8, eCK8, eT8, eSP8⟩ := hP8
  -- WRITE_HEX: nothing is left
  obtain ⟨x9, hprep9, hx9⟩ : ∃ x9, iqrfPgmProcessCfgFile (moduleTicks gap w8)
      = some (x9, IQRF_PGM_SUCCESS) ∧ x9 = _ :=
    ⟨_, iqrfPgmProcessCfgFile_done _ (by rw [ePM8]), rfl⟩
  obtain ⟨w9, h9, ⟨hr9, hf9⟩, hp9⟩ := poll_WRITE_HEX_prepare _ x9 _ hv8 (by rw [eWC8])
    (by rw [ePM8]) (by rw [if_neg (by rw [eFI8]; decide)]; exact hprep9)
    (by rw [hx9]; exact ⟨hv8.1, hv8.2.1⟩)
  have e9 : progressPercent x9 = 100 := by
    rw [hx9]
    simp only [progressPercent, eFI8]
  rw [e9] at h9
  rw [hx9] at hp9
  obtain ⟨hv9, hq9⟩ := moduleTicks_settle gap w9 hgap ⟨hr9, Or.inl hf9⟩
  have hP9 := hq9.trans hp9
  simp only [eWC8, ePM8, eFI8, eCF8, eLB8, eCK8, eT8, eSP8, pgmView, Prod.mk.injEq] at hP9
  obtain ⟨eWC9, ePM9, eFI9, eCF9, eLB9, eCK9, eT9, eSP9⟩ := hP9
  rw [if_pos (by decide)] at eWC9
  -- WAIT_PROG_END
  obtain ⟨w10, T10, h10, ⟨hr10, hf10⟩, hp10⟩ := poll_WAIT_PROG_END _ hv9 (by rw [eWC9])
  have e10 : progressPercent (moduleTicks gap w9) = 100 := by
    simp only [progressPercent, eFI9]
  rw [e10] at h10
  obtain ⟨hv10, hq10⟩ := moduleTicks_settle gap w10 hgap ⟨hr10, Or.inl hf10⟩
  have hP10 := hq10.trans hp10
  simp only [eWC9, ePM9, eFI9, eCF9, eLB9, eCK9, eT9, eSP9, pgmView, Prod.mk.injEq] at hP10
  obtain ⟨eWC10, ePM10, eFI10, eCF10, eLB10, eCK10, eT10, eSP10⟩ := hP10
  -- PROG_END
  obtain ⟨w11, h11, hp11⟩ := poll_PROG_END _ hv10 (by rw [eWC10])
  rw [eWC10] at h11
  refine ⟨w11, ?_, ?_⟩
  · exact pollToCompletion_step _ _ _ _ _ _ _ _ h1 (by decide)
      (pollToCompletion_step _ _ _ _ _ _ _ _ h2 (by decide)
      (pollToCompletion_step _ _ _ _ _ _ _ _ h3 (by decide)
      (pollToCompletion_step _ _ _ _ _ _ _ _ h4 (by decide)
      (pollToCompletion_step _ _ _ _ _ _ _ _ h5 (by decide)
      (pollToCompletion_step _ _ _ _ _ _ _ _ h6 (by decide)
      (pollToCompletion_step _ _ _ _ _ _ _ _ h7 (by decide)
      (pollToCompletion_step _ _ _ _ _ _ _ _ h8 (by decide)
      (pollToCompletion_step _ _ _ _ _ _ _ _ h9 (by decide)
      (pollToCompletion_step _ _ _ _ _ _ _ _ h10 (by decide)
      (pollToCompletion_done _ _ _ _ _ _ h11 (by decide)))))))))))
  · rw [hp11, eSP10, hM2, hM1]
    simp only [readBytes, range34, List.range_succ, List.range_zero, List.map_cons, List.map_nil,
      List.nil_append, List.cons_append, Nat.reduceAdd, List.getD_cons_succ, List.getD_cons_zero,
      List.set_cons_succ, List.set_cons_zero, cfgWords, List.take_succ_cons, List.take_zero,
      List.drop_succ_cons, List.drop_zero, List.flatMap_cons, List.flatMap_nil, sentPackets,
      RFPGM_CFG_ADR]

/-- C6, counterexample: for the 33 bytes 100, 101, .., 132 the write run hands
two `SPI_FLASH_PGM` packets to the transport, each with 16 of the 32
configuration bytes, before the `SPI_EEPROM_PGM` packet: not one flash write
carrying the 32 bytes. -/
theorem cfgSession_counterexample :
    ∃ wf, pollToCompletion iqrfPgmWriteCodeFile 256 11
        (sessionStart [100, 101, 102, 103, 104, 105, 106, 107, 108, 109, 110, 111, 112, 113, 114, 115, 116, 117, 118, 119, 120, 121, 122, 123, 124, 125, 126, 127, 128, 129, 130, 131, 132] IQRF_PGM_CFG_FILE_TYPE)
      = some (wf, [0, 0, 0, 100, 100, 100, 100, 100, 100, 100, 200])
      ∧ sentPackets wf.trace =
          [(0xF6, [0xC0, 0x37, 100, 0x34, 101, 0x34, 102, 0x34, 103, 0x34, 104, 0x34, 105, 0x34, 106, 0x34, 107, 0x34, 108, 0x34, 109, 0x34, 110, 0x34, 111, 0x34, 112, 0x34, 113, 0x34, 114, 0x34, 115, 0x34], 34),
           (0xF6, [0xD0, 0x37, 116, 0x34, 117, 0x34, 118, 0x34, 119, 0x34, 120, 0x34, 121, 0x34, 122, 0x34, 123, 0x34, 124, 0x34, 125, 0x34, 126, 0x34, 127, 0x34, 128, 0x34, 129, 0x34, 130, 0x34, 131, 0x34], 34),
           (0xF3, [0xC1, 0x01, 132], 3)] := by
  obtain ⟨wf, h1, h2⟩ := write_cfg [100, 101, 102, 103, 104, 105, 106, 107, 108, 109, 110, 111, 112, 113, 114, 115, 116, 117, 118, 119, 120, 121, 122, 123, 124, 125, 126, 127, 128, 129, 130, 131, 132] 256 0 (by decide) (by decide) (by decide)
  exact ⟨wf, h1, h2.trans (by decide)⟩

/-- C6, amended: for a config-file session whose input is exactly 33 bytes,
`iqrfPgmWriteCodeFile` polled to completion (module reaching programming
mode, every exchange succeeding, at least 170 timer calls between two polls)
hands exactly three packets to the transport: two `SPI_FLASH_PGM` packets of
34 bytes, the first with the address `0x37C0` and the configuration bytes
0..15, the second with the address `0x37D0` and the configuration bytes
16..31, each configuration byte followed by the opcode byte `0x34`; then one
`SPI_EEPROM_PGM` packet of 3 bytes, `0xC1`, `0x01` and the 33rd byte. The
values returned are 0, 0, 0, seven times 100 and then `IQRF_PGM_SUCCESS`. -/
theorem cfgSession_writes (cfg : List Nat) (gap fuel : Nat)
    (hlen : cfg.length = 33) (hb : ∀ b ∈ cfg, b < 256) (hgap : 170 ≤ gap) :
    ∃ wf, pollToCompletion iqrfPgmWriteCodeFile gap (fuel + 11)
        (sessionStart cfg IQRF_PGM_CFG_FILE_TYPE)
      = some (wf, [0, 0, 0, 100, 100, 100, 100, 100, 100, 100, IQRF_PGM_SUCCESS])
      ∧ sentPackets wf.trace =
          [(SPI_FLASH_PGM, 0xC0 :: 0x37 :: cfgWords (cfg.take 16), 34),
           (SPI_FLASH_PGM, 0xD0 :: 0x37 :: cfgWords ((cfg.drop 16).take 16), 34),
           (SPI_EEPROM_PGM, [0xC1, 0x01, cfg.getD 32 0], 3)] :=
  write_cfg cfg gap fuel hlen hb hgap

theorem cfgSession_writes_witness :
    ∃ wf, pollToCompletion iqrfPgmWriteCodeFile 170 (0 + 11)
        (sessionStart [0xb, 0x30, 0x55, 0x7a, 0x9f, 0xc4, 0xe9, 0xe, 0x33, 0x58, 0x7d, 0xa2, 0xc7, 0xec, 0x11, 0x36, 0x5b, 0x80, 0xa5, 0xca, 0xef, 0x14, 0x39, 0x5e, 0x83, 0xa8, 0xcd, 0xf2, 0x17, 0x3c, 0x61, 0x86, 0xab] IQRF_PGM_CFG_FILE_TYPE)
      = some (wf, [0, 0, 0, 100, 100, 100, 100, 100, 100, 100, IQRF_PGM_SUCCESS])
      ∧ sentPackets wf.trace =
          [(SPI_FLASH_PGM, 0xC0 :: 0x37 :: cfgWords (List.take 16 [0xb, 0x30, 0x55, 0x7a, 0x9f, 0xc4, 0xe9, 0xe, 0x33, 0x58, 0x7d, 0xa2, 0xc7, 0xec, 0x11, 0x36, 0x5b, 0x80, 0xa5, 0xca, 0xef, 0x14, 0x39, 0x5e, 0x83, 0xa8, 0xcd, 0xf2, 0x17, 0x3c, 0x61, 0x86, 0xab]), 34),
           (SPI_FLASH_PGM, 0xD0 :: 0x37 :: cfgWords
              ((List.drop 16 [0xb, 0x30, 0x55, 0x7a, 0x9f, 0xc4, 0xe9, 0xe, 0x33, 0x58, 0x7d, 0xa2, 0xc7, 0xec, 0x11, 0x36, 0x5b, 0x80, 0xa5, 0xca, 0xef, 0x14, 0x39, 0x5e, 0x83, 0xa8, 0xcd, 0xf2, 0x17, 0x3c, 0x61, 0x86, 0xab]).take 16), 34),
           (SPI_EEPROM_PGM, [0xC1, 0x01, List.getD [0xb, 0x30, 0x55, 0x7a, 0x9f, 0xc4, 0xe9, 0xe, 0x33, 0x58, 0x7d, 0xa2, 0xc7, 0xec, 0x11, 0x36, 0x5b, 0x80, 0xa5, 0xca, 0xef, 0x14, 0x39, 0x5e, 0x83, 0xa8, 0xcd, 0xf2, 0x17, 0x3c, 0x61, 0x86, 0xab] 32 0], 3)] :=
  cfgSession_writes [0xb, 0x30, 0x55, 0x7a, 0x9f, 0xc4, 0xe9, 0xe, 0x33, 0x58, 0x7d, 0xa2, 0xc7, 0xec, 0x11, 0x36, 0x5b, 0x80, 0xa5, 0xca, 0xef, 0x14, 0x39, 0x5e, 0x83, 0xa8, 0xcd, 0xf2, 0x17, 0x3c, 0x61, 0x86, 0xab] 170 0 (by decide) (by decide) (by decide)

/-! ## Page crossing -/

/-- A record of another page finds a block begun: the block is handed out,
the record stays in the line buffer. -/
theorem processLine_block_change (w : World) (A : Nat)
    (htype : w.IqrfPgmCodeLineBuffer.getD 3 0 = 0)
    (hov : w.PrepareMemBlock.DataOverflow = 0)
    (hA : A = recordAddress w.PrepareMemBlock.HiAddress w.IqrfPgmCodeLineBuffer)
    (hn : w.PrepareMemBlock.MemoryBlockNumber ≠ 0)
    (hne : w.PrepareMemBlock.MemoryBlockNumber ≠ A / 32)
    (hr : inSerial A ∨ inMainFlash A ∨ inLicencedFlash A)
    (hfit : ¬ inSerial A → FitsPage A w.IqrfPgmCodeLineBuffer) :
    processLine w =
      ({ w with PrepareMemBlock := { w.PrepareMemBlock with Address := A } },
        some IQRF_PGM_FLASH_BLOCK_READY) := by
  unfold recordAddress at hA
  unfold processLine
  simp only [htype, if_true, ← hA, hov, ne_eq, not_true_eq_false, if_false]
  by_cases hs : inSerial A
  · rw [if_pos (show A ≥ SERIAL_EEPROM_MIN_ADR ∧ A ≤ SERIAL_EEPROM_MAX_ADR from hs)]
    unfold prepareSerial
    simp only [hn, if_false, ne_eq, hne, not_false_eq_true, if_true]
  · rw [if_neg (show ¬ (A ≥ SERIAL_EEPROM_MIN_ADR ∧ A ≤ SERIAL_EEPROM_MAX_ADR) from hs)]
    have hf := hfit hs
    unfold FitsPage at hf
    rw [if_neg hs] at hf
    unfold flashDestinationIndex flashDataCounter flashMaxAdr at hf
    unfold prepareOther
    by_cases hm : inMainFlash A
    · rw [if_pos hm] at hf
      simp only []
      rw [if_pos (show A ≥ IQRF_MAIN_MEM_MIN_ADR ∧ A ≤ IQRF_MAIN_MEM_MAX_ADR from hm)]
      unfold flashChecks
      simp only [hn, hne, ne_eq, not_false_eq_true, and_self, if_true]
      rw [if_neg (by omega)]
    · rw [if_neg hm] at hf
      have hl : inLicencedFlash A := by
        rcases hr with h | h | h
        · exact absurd h hs
        · exact absurd h hm
        · exact h
      simp only []
      rw [if_neg (show ¬ (A ≥ IQRF_MAIN_MEM_MIN_ADR ∧ A ≤ IQRF_MAIN_MEM_MAX_ADR) from hm),
        if_pos (show A ≥ IQRF_LICENCED_MEM_MIN_ADR ∧ A ≤ IQRF_LICENCED_MEM_MAX_ADR from hl)]
      unfold flashChecks
      simp only [hn, hne, ne_eq, not_false_eq_true, and_self, if_true]
      rw [if_neg (by omega)]

theorem prepareSerial_first (w : World)
    (hn : w.PrepareMemBlock.MemoryBlockNumber = 0)
    (hov : w.PrepareMemBlock.DataOverflow = 0)
    (hfit : (w.PrepareMemBlock.Address % 32) + 36 + w.IqrfPgmCodeLineBuffer.getD 0 0 / 2 ≤ 68) :
    prepareSerial w =
      ({ w with PrepareMemBlock := { w.PrepareMemBlock with
           MemoryBlockNumber := w.PrepareMemBlock.Address / 32
           MemoryBlockProcessState := 1
           MemoryBlock :=
             copySerial w.IqrfPgmCodeLineBuffer (w.IqrfPgmCodeLineBuffer.getD 0 0 / 2) 0
               ((w.PrepareMemBlock.Address % 32) + 36)
               (((((memset w.PrepareMemBlock.MemoryBlock 0 0 68).set 34
                 ((((w.PrepareMemBlock.Address - 0x200) / 32) % 65536) &&& 0x00FF)).set 35
                 (((((w.PrepareMemBlock.Address - 0x200) / 32) % 65536) >>> 8) % 256)).set 0
                 ((((((w.PrepareMemBlock.Address - 0x200) / 32) % 65536) + 1) % 65536) &&& 0x00FF)).set
                 1 (((((((w.PrepareMemBlock.Address - 0x200) / 32) % 65536) + 1) % 65536) >>> 8)
                   % 256)) } },
        none) := by
  unfold prepareSerial
  generalize memset w.PrepareMemBlock.MemoryBlock 0 0 68 = mz
  have hc : ¬ (w.PrepareMemBlock.Address % 32 + 36 + w.IqrfPgmCodeLineBuffer.getD 0 0 / 2 > 68) := by
    omega
  simp only [hn, if_true, ne_eq, not_true_eq_false, if_false, hc, hov]

/-- A record that finds no block begun and fits the image of its page is
stored; the loop goes on. -/
theorem processLine_first_record (w : World) (A : Nat)
    (htype : w.IqrfPgmCodeLineBuffer.getD 3 0 = 0)
    (hov : w.PrepareMemBlock.DataOverflow = 0)
    (hA : A = recordAddress w.PrepareMemBlock.HiAddress w.IqrfPgmCodeLineBuffer)
    (hn : w.PrepareMemBlock.MemoryBlockNumber = 0)
    (hr : inSerial A ∨ inMainFlash A ∨ inLicencedFlash A)
    (hfit : FitsPage A w.IqrfPgmCodeLineBuffer) :
    processLine w =
      ({ w with PrepareMemBlock := { w.PrepareMemBlock with
           Address := A
           MemoryBlockNumber := A / 32
           MemoryBlockProcessState := if inSerial A then 1 else 2
           MemoryBlock := recordImage A w.IqrfPgmCodeLineBuffer w.PrepareMemBlock.MemoryBlock } },
        none) := by
  unfold recordAddress at hA
  unfold processLine
  simp only [htype, if_true, ← hA, hov, ne_eq, not_true_eq_false, if_false]
  unfold FitsPage at hfit
  unfold recordImage
  by_cases hs : inSerial A
  · rw [if_pos (show A ≥ SERIAL_EEPROM_MIN_ADR ∧ A ≤ SERIAL_EEPROM_MAX_ADR from hs)]
    rw [if_pos hs] at hfit
    rw [if_pos hs, if_pos hs]
    exact (prepareSerial_first _ (by exact hn) (by rfl) (by exact hfit)).trans rfl
  · rw [if_neg (show ¬ (A ≥ SERIAL_EEPROM_MIN_ADR ∧ A ≤ SERIAL_EEPROM_MAX_ADR) from hs)]
    rw [if_neg hs] at hfit
    rw [if_neg hs, if_neg hs]
    unfold flashDestinationIndex flashDataCounter flashMaxAdr at hfit
    unfold flashDestinationIndex flashDataCounter flashMaxAdr
    unfold prepareOther
    by_cases hm : inMainFlash A
    · rw [if_pos hm] at hfit
      simp only []
      rw [if_pos (show A ≥ IQRF_MAIN_MEM_MIN_ADR ∧ A ≤ IQRF_MAIN_MEM_MAX_ADR from hm)]
      unfold flashChecks
      simp only [hn, ne_eq, not_true_eq_false, false_and, if_false]
      rw [if_neg (by omega)]
      simp only [storeFlash, if_pos hm]
    · rw [if_neg hm] at hfit
      have hl : inLicencedFlash A := by
        rcases hr with h | h | h
        · exact absurd h hs
        · exact absurd h hm
        · exact h
      simp only []
      rw [if_neg (show ¬ (A ≥ IQRF_MAIN_MEM_MIN_ADR ∧ A ≤ IQRF_MAIN_MEM_MAX_ADR) from hm),
        if_pos (show A ≥ IQRF_LICENCED_MEM_MIN_ADR ∧ A ≤ IQRF_LICENCED_MEM_MAX_ADR from hl)]
      unfold flashChecks
      simp only [hn, ne_eq, not_true_eq_false, false_and, if_false]
      rw [if_neg (by omega)]
      simp only [storeFlash, if_neg hm]

theorem prepareSerial_overflow (w : World)
    (hn : w.PrepareMemBlock.MemoryBlockNumber = 0)
    (hnf : (w.PrepareMemBlock.Address % 32) + 36 + w.IqrfPgmCodeLineBuffer.getD 0 0 / 2 > 68) :
    prepareSerial w =
      ({ w with PrepareMemBlock := { w.PrepareMemBlock with
           MemoryBlockNumber := w.PrepareMemBlock.Address / 32
           MemoryBlockProcessState := 1
           DataOverflow := 1
           DataInBufferReady := 0
           MemoryBlock :=
             copySerial w.IqrfPgmCodeLineBuffer (w.IqrfPgmCodeLineBuffer.getD 0 0 / 2) 0
               ((w.PrepareMemBlock.Address % 32) + 36)
               (((((memset w.PrepareMemBlock.MemoryBlock 0 0 68).set 34
                 ((((w.PrepareMemBlock.Address - 0x200) / 32) % 65536) &&& 0x00FF)).set 35
                 (((((w.PrepareMemBlock.Address - 0x200) / 32) % 65536) >>> 8) % 256)).set 0
                 ((((((w.PrepareMemBlock.Address - 0x200) / 32) % 65536) + 1) % 65536) &&& 0x00FF)).set
                 1 (((((((w.PrepareMemBlock.Address - 0x200) / 32) % 65536) + 1) % 65536) >>> 8)
                   % 256)) } },
        some IQRF_PGM_FLASH_BLOCK_READY) := by
  unfold prepareSerial
  generalize memset w.PrepareMemBlock.MemoryBlock 0 0 68 = mz
  simp only [hn, if_true, ne_eq, not_true_eq_false, if_false, hnf, one_ne_zero,
    not_false_eq_true]

/-- A serial-memory record that finds no block begun and reaches beyond the
image of its page: the part that fits is stored, the rest wraps to the head
of the image, the block is handed out with the overflow flag set. -/
theorem processLine_serial_overflow (w : World) (A : Nat)
    (htype : w.IqrfPgmCodeLineBuffer.getD 3 0 = 0)
    (hov : w.PrepareMemBlock.DataOverflow = 0)
    (hA : A = recordAddress w.PrepareMemBlock.HiAddress w.IqrfPgmCodeLineBuffer)
    (hn : w.PrepareMemBlock.MemoryBlockNumber = 0)
    (hs : inSerial A) (hnf : ¬ FitsPage A w.IqrfPgmCodeLineBuffer) :
    processLine w =
      ({ w with PrepareMemBlock := { w.PrepareMemBlock with
           Address := A
           MemoryBlockNumber := A / 32
           MemoryBlockProcessState := 1
           DataOverflow := 1
           DataInBufferReady := 0
           MemoryBlock := recordImage A w.IqrfPgmCodeLineBuffer w.PrepareMemBlock.MemoryBlock } },
        some IQRF_PGM_FLASH_BLOCK_READY) := by
  unfold recordAddress at hA
  unfold processLine
  simp only [htype, if_true, ← hA, hov, ne_eq, not_true_eq_false, if_false]
  unfold FitsPage at hnf
  rw [if_pos hs] at hnf
  unfold recordImage
  rw [if_pos (show A ≥ SERIAL_EEPROM_MIN_ADR ∧ A ≤ SERIAL_EEPROM_MAX_ADR from hs), if_pos hs]
  exact (prepareSerial_overflow _ (by exact hn) (by exact Nat.lt_of_not_le hnf)).trans rfl

theorem copySerial_congr (l1 l2 : List Nat) : ∀ (n Cnt d : Nat) (mb : List Nat),
    (∀ j, Cnt ≤ j → j < Cnt + n → l1.getD (2 * j + 4) 0 = l2.getD (2 * j + 4) 0) →
    copySerial l1 n Cnt d mb = copySerial l2 n Cnt d mb := by
  intro n
  induction n with
  | zero => intro Cnt d mb _; rfl
  | succ n ih =>
    intro Cnt d mb h
    simp only [copySerial]
    rw [h Cnt (Nat.le_refl _) (by omega)]
    exact ih _ _ _ (fun j h1 h2 => h j (by omega) (by omega))

/-- What the assembler reads of a record in the line buffer depends on the
bytes of the record only. -/
theorem recordAddress_line (hi : Nat) (lb rec : List Nat) (h3 : 3 ≤ rec.length)
    (hl : rec.length ≤ lb.length) :
    recordAddress hi (memcpy lb 0 rec) = recordAddress hi rec := by
  unfold recordAddress
  rw [getD_memcpy_zero lb rec 1 (by omega) hl, getD_memcpy_zero lb rec 2 (by omega) hl]

theorem fitsPage_line (A : Nat) (lb rec : List Nat) (h3 : 1 ≤ rec.length)
    (hl : rec.length ≤ lb.length) :
    FitsPage A (memcpy lb 0 rec) ↔ FitsPage A rec := by
  unfold FitsPage
  rw [getD_memcpy_zero lb rec 0 (by omega) hl]

theorem flashDataCounter_le (A n : Nat) : flashDataCounter A n ≤ n := by
  unfold flashDataCounter
  split
  · omega
  · exact Nat.le_refl _

theorem recordImage_line (A : Nat) (lb rec mb : List Nat)
    (hc : rec.getD 0 0 + 5 ≤ rec.length) (hl : rec.length ≤ lb.length) :
    recordImage A (memcpy lb 0 rec) mb = recordImage A rec mb := by
  unfold recordImage
  rw [getD_memcpy_zero lb rec 0 (by omega) hl]
  by_cases hs : inSerial A
  · rw [if_pos hs, if_pos hs]
    exact copySerial_congr _ _ _ _ _ _
      (fun j _ h2 => getD_memcpy_zero lb rec _ (by omega) hl)
  · rw [if_neg hs, if_neg hs]
    simp only []
    rw [readBytes_congr (memcpy lb 0 rec) rec 4 4 _
      (fun i hi => getD_memcpy_zero lb rec _
        (by have := flashDataCounter_le A (rec.getD 0 0); omega) hl)]

/-- The bytes of a data record with its checksum. -/
theorem record_facts (addr : Nat) (data : List Nat) (hn : data.length + 5 ≤ 31)
    (ha : addr < 65536) (hd : ∀ d ∈ data, d < 256) :
    (dataRecord addr data).length = data.length + 5
    ∧ (dataRecord addr data).getD 0 0 = data.length
    ∧ (dataRecord addr data).getD 3 0 = 0
    ∧ (∀ b ∈ dataRecord addr data, b < 256)
    ∧ (dataRecord addr data).sum % 256 = 0 := by
  unfold dataRecord
  refine ⟨by simp [recordBytes], by simp [recordBytes], by simp [recordBytes], ?_, sum_record _⟩
  intro b hb
  simp only [recordBytes, List.cons_append, List.nil_append, List.mem_cons, List.mem_append,
    List.mem_singleton, List.not_mem_nil, or_false] at hb
  rcases hb with h | h | h | h | h | h
  · omega
  · omega
  · omega
  · omega
  · exact hd b h
  · rw [h]; unfold recordChecksum; omega

/-- Two records of different pages: the first call hands out the image of the
first record and keeps the second record in the line buffer. -/
theorem pageCrossing_first (w : World) (up1 up2 : Nat → Bool) (eol1 eol2 : Nat)
    (pre1 pre2 rest rec1 rec2 : List Nat)
    (hst : w.IqrfControl.Status = IQRF_READY)
    (hov : w.PrepareMemBlock.DataOverflow = 0)
    (hdib : w.PrepareMemBlock.DataInBufferReady = 0)
    (hlb : w.IqrfPgmCodeLineBuffer.length = 32)
    (hfile : w.CodeFile = pre1 ++ hexLine up1 rec1 eol1
      ++ (pre2 ++ hexLine up2 rec2 eol2 ++ rest))
    (hpre1 : ∀ b ∈ pre1, b % 256 ≠ 0 ∧ b % 256 ≠ 0x3A)
    (hpre2 : ∀ b ∈ pre2, b % 256 ≠ 0 ∧ b % 256 ≠ 0x3A)
    (heol1 : eol1 = 0x0A ∨ eol1 = 0x0D) (heol2 : eol2 = 0x0A ∨ eol2 = 0x0D)
    (hl1 : rec1.getD 0 0 + 5 ≤ rec1.length) (hm1 : rec1.length ≤ 31)
    (ht1 : rec1.getD 3 0 = 0) (hb1 : ∀ b ∈ rec1, b < 256) (hs1 : rec1.sum % 256 = 0)
    (hl2 : rec2.getD 0 0 + 5 ≤ rec2.length) (hm2 : rec2.length ≤ 31)
    (ht2 : rec2.getD 3 0 = 0) (hb2 : ∀ b ∈ rec2, b < 256) (hs2 : rec2.sum % 256 = 0)
    (hr1 : inSerial (recordAddress w.PrepareMemBlock.HiAddress rec1)
      ∨ inMainFlash (recordAddress w.PrepareMemBlock.HiAddress rec1)
      ∨ inLicencedFlash (recordAddress w.PrepareMemBlock.HiAddress rec1))
    (hr2 : inSerial (recordAddress w.PrepareMemBlock.HiAddress rec2)
      ∨ inMainFlash (recordAddress w.PrepareMemBlock.HiAddress rec2)
      ∨ inLicencedFlash (recordAddress w.PrepareMemBlock.HiAddress rec2))
    (hpage : recordAddress w.PrepareMemBlock.HiAddress rec1 / 32
      ≠ recordAddress w.PrepareMemBlock.HiAddress rec2 / 32)
    (hfit1 : FitsPage (recordAddress w.PrepareMemBlock.HiAddress rec1) rec1)
    (hfit2 : ¬ inSerial (recordAddress w.PrepareMemBlock.HiAddress rec2) →
      FitsPage (recordAddress w.PrepareMemBlock.HiAddress rec2) rec2) :
    ∃ w1, iqrfPgmPrepareMemBlock w = some (w1, IQRF_PGM_FLASH_BLOCK_READY)
      ∧ w1.PrepareMemBlock.MemoryBlock
          = recordImage (recordAddress w.PrepareMemBlock.HiAddress rec1) rec1 erasedMemoryBlock
      ∧ w1.PrepareMemBlock.DataInBufferReady = 1
      ∧ w1.IqrfPgmCodeLineBuffer = memcpy (memcpy w.IqrfPgmCodeLineBuffer 0 rec1) 0 rec2
      ∧ w1.CodeFile = rest
      ∧ w1.IqrfControl.Status = IQRF_READY
      ∧ w1.PrepareMemBlock.DataOverflow = 0
      ∧ w1.PrepareMemBlock.HiAddress = w.PrepareMemBlock.HiAddress
      ∧ w1.CodeFileInfo.FileByteCnt < 65536 := by
  have hA1pos : recordAddress w.PrepareMemBlock.HiAddress rec1 / 32 ≠ 0 := by
    unfold inSerial inMainFlash inLicencedFlash SERIAL_EEPROM_MIN_ADR IQRF_MAIN_MEM_MIN_ADR
      IQRF_LICENCED_MEM_MIN_ADR at hr1
    omega
  unfold iqrfPgmPrepareMemBlock
  rw [if_pos hov]
  simp only []
  -- the first record
  obtain ⟨wA, hfA, hwA⟩ : ∃ wA, fetchLine _ = some (wA, none) ∧ wA = _ :=
    ⟨_, fetchLine_line up1 eol1 pre1 rec1 _ { w with PrepareMemBlock :=
        { w.PrepareMemBlock with MemoryBlock := erasedMemoryBlock, MemoryBlockNumber := 0 } }
      heol1 hdib hst hfile hpre1 hm1 hb1 hs1, rfl⟩
  have hlA : wA.IqrfPgmCodeLineBuffer = memcpy w.IqrfPgmCodeLineBuffer 0 rec1 := by rw [hwA]
  have hhA : wA.PrepareMemBlock.HiAddress = w.PrepareMemBlock.HiAddress := by rw [hwA]
  have hmA : wA.PrepareMemBlock.MemoryBlock = erasedMemoryBlock := by rw [hwA]
  obtain ⟨wA2, hpA, hwA2⟩ : ∃ wA2, processLine wA = (wA2, none) ∧ wA2 = _ :=
    ⟨_, processLine_first_record wA (recordAddress w.PrepareMemBlock.HiAddress rec1)
      (by rw [hlA, getD_memcpy_zero _ _ 3 (by omega) (by omega)]; exact ht1)
      (by rw [hwA]; exact hov)
      (by rw [hlA, hhA, recordAddress_line _ _ _ (by omega) (by omega)])
      (by rw [hwA])
      hr1
      (by rw [hlA]; exact (fitsPage_line _ _ _ (by omega) (by omega)).mpr hfit1), rfl⟩
  rw [prepareLoop_continue (w.CodeFile.length + 1) _ _ _ hfA hpA]
  -- the second record
  obtain ⟨wB, hfB, hwB⟩ : ∃ wB, fetchLine _ = some (wB, none) ∧ wB = _ :=
    ⟨_, fetchLine_line up2 eol2 pre2 rec2 rest
      { wA2 with PrepareMemBlock := { wA2.PrepareMemBlock with DataInBufferReady := 0 } }
      heol2 rfl (by rw [hwA2, hwA]; exact hst) (by rw [hwA2, hwA]) hpre2 hm2 hb2 hs2, rfl⟩
  have hlB : wB.IqrfPgmCodeLineBuffer
      = memcpy (memcpy w.IqrfPgmCodeLineBuffer 0 rec1) 0 rec2 := by rw [hwB, hwA2, hwA]
  have hll : (memcpy w.IqrfPgmCodeLineBuffer 0 rec1).length = 32 := by
    rw [length_memcpy]; exact hlb
  have hhB : wB.PrepareMemBlock.HiAddress = w.PrepareMemBlock.HiAddress := by
    rw [hwB, hwA2, hwA]
  have hnB : wB.PrepareMemBlock.MemoryBlockNumber
      = recordAddress w.PrepareMemBlock.HiAddress rec1 / 32 := by rw [hwB, hwA2]
  have hpB := processLine_block_change wB (recordAddress w.PrepareMemBlock.HiAddress rec2)
    (by rw [hlB, getD_memcpy_zero _ _ 3 (by omega) (by omega)]; exact ht2)
    (by rw [hwB, hwA2, hwA]; exact hov)
    (by rw [hlB, hhB, recordAddress_line _ _ _ (by omega) (by omega)])
    (by rw [hnB]; exact hA1pos)
    (by rw [hnB]; exact hpage)
    hr2
    (fun h => by rw [hlB]; exact (fitsPage_line _ _ _ (by omega) (by omega)).mpr (hfit2 h))
  rw [prepareLoop_process_return (w.CodeFile.length) _ _ _ _ hfB hpB]
  refine ⟨_, rfl, ?_, ?_, hlB, ?_, ?_, ?_, hhB, ?_⟩
  · show wB.PrepareMemBlock.MemoryBlock = _
    rw [hwB, hwA2]
    show recordImage _ wA.IqrfPgmCodeLineBuffer wA.PrepareMemBlock.MemoryBlock = _
    rw [hlA, hmA, recordImage_line _ _ _ _ hl1 (by omega)]
  · show wB.PrepareMemBlock.DataInBufferReady = 1
    rw [hwB]
  · show wB.CodeFile = rest
    rw [hwB]
  · show wB.IqrfControl.Status = IQRF_READY
    rw [hwB, hwA2, hwA]; exact hst
  · show wB.PrepareMemBlock.DataOverflow = 0
    rw [hwB, hwA2, hwA]; exact hov
  · show wB.CodeFileInfo.FileByteCnt < 65536
    rw [hwB]
    exact Nat.mod_lt _ (by decide)

/-- The call that finds a record pending and the file at its end: the record
is stored into a freshly initialised image, which is handed out. -/
theorem pageCrossing_second (w : World) (lb0 rec2 : List Nat)
    (hst : w.IqrfControl.Status = IQRF_READY)
    (hov : w.PrepareMemBlock.DataOverflow = 0)
    (hdib : w.PrepareMemBlock.DataInBufferReady = 1)
    (hlb : w.IqrfPgmCodeLineBuffer = memcpy lb0 0 rec2) (hlb0 : lb0.length = 32)
    (hcnt : w.CodeFileInfo.FileByteCnt < 65536)
    (hrest : ∀ b ∈ w.CodeFile, b % 256 ≠ 0 ∧ b % 256 ≠ 0x3A)
    (hl2 : rec2.getD 0 0 + 5 ≤ rec2.length) (hm2 : rec2.length ≤ 31)
    (ht2 : rec2.getD 3 0 = 0)
    (hr2 : inSerial (recordAddress w.PrepareMemBlock.HiAddress rec2)
      ∨ inMainFlash (recordAddress w.PrepareMemBlock.HiAddress rec2)
      ∨ inLicencedFlash (recordAddress w.PrepareMemBlock.HiAddress rec2))
    (hfit2 : ¬ inSerial (recordAddress w.PrepareMemBlock.HiAddress rec2) →
      FitsPage (recordAddress w.PrepareMemBlock.HiAddress rec2) rec2) :
    ∃ w2, iqrfPgmPrepareMemBlock w = some (w2, IQRF_PGM_FLASH_BLOCK_READY)
      ∧ w2.PrepareMemBlock.MemoryBlock
          = recordImage (recordAddress w.PrepareMemBlock.HiAddress rec2) rec2
              erasedMemoryBlock := by
  have hA2pos : recordAddress w.PrepareMemBlock.HiAddress rec2 / 32 ≠ 0 := by
    unfold inSerial inMainFlash inLicencedFlash SERIAL_EEPROM_MIN_ADR IQRF_MAIN_MEM_MIN_ADR
      IQRF_LICENCED_MEM_MIN_ADR at hr2
    omega
  unfold iqrfPgmPrepareMemBlock
  rw [if_pos hov]
  simp only []
  obtain ⟨wA, hfA, hwA⟩ : ∃ wA, fetchLine wA = some (wA, none) ∧ wA =
      { w with PrepareMemBlock :=
        { w.PrepareMemBlock with MemoryBlock := erasedMemoryBlock, MemoryBlockNumber := 0 } } :=
    ⟨_, fetchLine_pending _ (by
      show w.PrepareMemBlock.DataInBufferReady ≠ 0
      rw [hdib]; decide), rfl⟩
  have hlA : wA.IqrfPgmCodeLineBuffer = memcpy lb0 0 rec2 := by rw [hwA]; exact hlb
  have hhA : wA.PrepareMemBlock.HiAddress = w.PrepareMemBlock.HiAddress := by rw [hwA]
  have hmA : wA.PrepareMemBlock.MemoryBlock = erasedMemoryBlock := by rw [hwA]
  have htype : wA.IqrfPgmCodeLineBuffer.getD 3 0 = 0 := by
    rw [hlA, getD_memcpy_zero _ _ 3 (by omega) (by omega)]; exact ht2
  have hadr : recordAddress w.PrepareMemBlock.HiAddress rec2
      = recordAddress wA.PrepareMemBlock.HiAddress wA.IqrfPgmCodeLineBuffer := by
    rw [hlA, hhA, recordAddress_line _ _ _ (by omega) (by omega)]
  have himg : recordImage (recordAddress w.PrepareMemBlock.HiAddress rec2)
      wA.IqrfPgmCodeLineBuffer wA.PrepareMemBlock.MemoryBlock
      = recordImage (recordAddress w.PrepareMemBlock.HiAddress rec2) rec2 erasedMemoryBlock := by
    rw [hlA, hmA, recordImage_line _ _ _ _ hl2 (by omega)]
  rw [← hwA]
  by_cases hfit : FitsPage (recordAddress w.PrepareMemBlock.HiAddress rec2) rec2
  · obtain ⟨wA2, hpA, hwA2⟩ : ∃ wA2, processLine wA = (wA2, none) ∧ wA2 = _ :=
      ⟨_, processLine_first_record wA (recordAddress w.PrepareMemBlock.HiAddress rec2)
        htype (by rw [hwA]; exact hov) hadr (by rw [hwA]) hr2
        (by rw [hlA]; exact (fitsPage_line _ _ _ (by omega) (by omega)).mpr hfit), rfl⟩
    rw [prepareLoop_continue (w.CodeFile.length + 1) _ _ _ hfA hpA]
    obtain ⟨wC, hfC, hwC⟩ : ∃ wC, fetchLine
        { wA2 with PrepareMemBlock := { wA2.PrepareMemBlock with DataInBufferReady := 0 } }
          = some (wC, some IQRF_PGM_FLASH_BLOCK_READY) ∧ wC = _ :=
      ⟨_, by
        rw [fetchLine_eof w.CodeFile _ rfl (by rw [hwA2, hwA]; exact hst) (by rw [hwA2, hwA])
          (by rw [hwA2, hwA]; exact hcnt) hrest]
        simp only []
        rw [if_pos (by rw [hwA2]; exact hA2pos)], rfl⟩
    rw [prepareLoop_fetch_return (w.CodeFile.length) _ _ _ hfC]
    refine ⟨_, rfl, ?_⟩
    rw [hwC, hwA2]
    exact himg
  · have hs : inSerial (recordAddress w.PrepareMemBlock.HiAddress rec2) :=
      Classical.not_not.mp (fun h => hfit (hfit2 h))
    have hpA := processLine_serial_overflow wA (recordAddress w.PrepareMemBlock.HiAddress rec2)
      htype (by rw [hwA]; exact hov) hadr (by rw [hwA]) hs
      (by rw [hlA]; exact fun h => hfit ((fitsPage_line _ _ _ (by omega) (by omega)).mp h))
    rw [prepareLoop_process_return (w.CodeFile.length + 1) _ _ _ _ hfA hpA]
    exact ⟨_, rfl, himg⟩

/-- C7, counterexample: two consecutive flash records of different pages
(word addresses `0x3A00` and `0x3A3F`), no overflow pending: the second
record, 4 bytes at the last word of its page, reaches beyond the page image,
and the first call returns `IQRF_PGM_ERROR`, not `IQRF_PGM_FLASH_BLOCK_READY`.
And with a first record in the serial memory that reaches beyond its page
(word address `0x021F`, 2 bytes) the first call returns with
`DataInBufferReady = 0`, the second record still unread in the file. -/
theorem iqrfPgmPrepareMemBlock_page_crossing_counterexample :
    (iqrfPgmPrepareMemBlock { ({} : World) with
        CodeFile := hexLine (fun _ => true) (dataRecord 0x7400 [1, 2]) 0x0D ++ [0x0A]
          ++ hexLine (fun _ => true) (dataRecord 0x747E [1, 2, 3, 4]) 0x0D ++ [0x0A] }).map
      (fun r => r.2) = some IQRF_PGM_ERROR
    ∧ (iqrfPgmPrepareMemBlock { ({} : World) with
        CodeFile := hexLine (fun _ => true) (dataRecord 0x043E [1, 0, 2, 0]) 0x0D ++ [0x0A]
          ++ hexLine (fun _ => true) (dataRecord 0x0440 [3, 0]) 0x0D ++ [0x0A] }).map
      (fun r => (r.2, r.1.PrepareMemBlock.DataInBufferReady, r.1.CodeFile))
      = some (IQRF_PGM_FLASH_BLOCK_READY, 0,
          [0x0A] ++ hexLine (fun _ => true) (dataRecord 0x0440 [3, 0]) 0x0D ++ [0x0A]) := by
  constructor
  · decide!
  · decide!

/-- C7, amended: page crossing. Two consecutive data records whose word
addresses lie in the serial memory or in a flash area and whose page indices
(word address / 32) differ, no overflow pending, the first record fitting the
image of its page and the second too if it is a flash record: the first call
of `iqrfPgmPrepareMemBlock` returns `IQRF_PGM_FLASH_BLOCK_READY` with the
image made of the first record alone, the second record pending in the line
buffer (`DataInBufferReady = 1`); the following call, when the file holds no
further record, returns `IQRF_PGM_FLASH_BLOCK_READY` with the image made of
the second record alone in a freshly initialised image. -/
theorem iqrfPgmPrepareMemBlock_page_crossing (w : World) (up1 up2 : Nat → Bool)
    (eol1 eol2 addr1 addr2 : Nat) (pre1 pre2 rest data1 data2 : List Nat)
    (hst : w.IqrfControl.Status = IQRF_READY)
    (hov : w.PrepareMemBlock.DataOverflow = 0)
    (hdib : w.PrepareMemBlock.DataInBufferReady = 0)
    (hlb : w.IqrfPgmCodeLineBuffer.length = 32)
    (hfile : w.CodeFile = pre1 ++ hexLine up1 (dataRecord addr1 data1) eol1
      ++ (pre2 ++ hexLine up2 (dataRecord addr2 data2) eol2 ++ rest))
    (hpre1 : ∀ b ∈ pre1, b % 256 ≠ 0 ∧ b % 256 ≠ 0x3A)
    (hpre2 : ∀ b ∈ pre2, b % 256 ≠ 0 ∧ b % 256 ≠ 0x3A)
    (heol1 : eol1 = 0x0A ∨ eol1 = 0x0D) (heol2 : eol2 = 0x0A ∨ eol2 = 0x0D)
    (hn1 : data1.length + 5 ≤ 31) (ha1 : addr1 < 65536) (hd1 : ∀ d ∈ data1, d < 256)
    (hn2 : data2.length + 5 ≤ 31) (ha2 : addr2 < 65536) (hd2 : ∀ d ∈ data2, d < 256)
    (hr1 : inSerial (recordAddress w.PrepareMemBlock.HiAddress (dataRecord addr1 data1))
      ∨ inMainFlash (recordAddress w.PrepareMemBlock.HiAddress (dataRecord addr1 data1))
      ∨ inLicencedFlash (recordAddress w.PrepareMemBlock.HiAddress (dataRecord addr1 data1)))
    (hr2 : inSerial (recordAddress w.PrepareMemBlock.HiAddress (dataRecord addr2 data2))
      ∨ inMainFlash (recordAddress w.PrepareMemBlock.HiAddress (dataRecord addr2 data2))
      ∨ inLicencedFlash (recordAddress w.PrepareMemBlock.HiAddress (dataRecord addr2 data2)))
    (hpage : recordAddress w.PrepareMemBlock.HiAddress (dataRecord addr1 data1) / 32
      ≠ recordAddress w.PrepareMemBlock.HiAddress (dataRecord addr2 data2) / 32)
    (hfit1 : FitsPage (recordAddress w.PrepareMemBlock.HiAddress (dataRecord addr1 data1))
      (dataRecord addr1 data1))
    (hfit2 : ¬ inSerial (recordAddress w.PrepareMemBlock.HiAddress (dataRecord addr2 data2)) →
      FitsPage (recordAddress w.PrepareMemBlock.HiAddress (dataRecord addr2 data2))
        (dataRecord addr2 data2)) :
    ∃ w1, iqrfPgmPrepareMemBlock w = some (w1, IQRF_PGM_FLASH_BLOCK_READY)
      ∧ w1.PrepareMemBlock.MemoryBlock
          = recordImage (recordAddress w.PrepareMemBlock.HiAddress (dataRecord addr1 data1))
              (dataRecord addr1 data1) erasedMemoryBlock
      ∧ w1.PrepareMemBlock.DataInBufferReady = 1
      ∧ readBytes w1.IqrfPgmCodeLineBuffer 0 (data2.length + 5) = dataRecord addr2 data2
      ∧ w1.CodeFile = rest
      ∧ ((∀ b ∈ rest, b % 256 ≠ 0 ∧ b % 256 ≠ 0x3A) →
          ∃ w2, iqrfPgmPrepareMemBlock w1 = some (w2, IQRF_PGM_FLASH_BLOCK_READY)
            ∧ w2.PrepareMemBlock.MemoryBlock
                = recordImage
                    (recordAddress w.PrepareMemBlock.HiAddress (dataRecord addr2 data2))
                    (dataRecord addr2 data2) erasedMemoryBlock) := by
  obtain ⟨f1l, f1c, f1t, f1b, f1s⟩ := record_facts addr1 data1 hn1 ha1 hd1
  obtain ⟨f2l, f2c, f2t, f2b, f2s⟩ := record_facts addr2 data2 hn2 ha2 hd2
  obtain ⟨w1, h1, himg, hd, hl, hcf, hs, ho, hh, hc⟩ := pageCrossing_first w up1 up2 eol1 eol2
    pre1 pre2 rest (dataRecord addr1 data1) (dataRecord addr2 data2) hst hov hdib hlb hfile
    hpre1 hpre2 heol1 heol2 (by omega) (by omega) f1t f1b f1s (by omega) (by omega) f2t f2b f2s
    hr1 hr2 hpage hfit1 hfit2
  refine ⟨w1, h1, himg, hd, ?_, hcf, ?_⟩
  · rw [hl, ← f2l]
    exact readBytes_memcpy_zero _ _ (by rw [length_memcpy]; omega)
  · intro hrest
    rw [← hh] at hr2 hfit2 ⊢
    exact pageCrossing_second w1 (memcpy w.IqrfPgmCodeLineBuffer 0 (dataRecord addr1 data1))
      (dataRecord addr2 data2) hs ho hd hl (by rw [length_memcpy]; exact hlb) hc
      (by rw [hcf]; exact hrest) (by omega) (by omega) f2t hr2 hfit2

theorem iqrfPgmPrepareMemBlock_page_crossing_witness :
    ∃ w1, iqrfPgmPrepareMemBlock { ({} : World) with
          CodeFile := [] ++ hexLine (fun _ => true) (dataRecord 0x7400 [1, 2, 3, 4]) 0x0D
            ++ ([0x0A] ++ hexLine (fun _ => false) (dataRecord 0x0460 [5, 0, 6, 0]) 0x0D
              ++ [0x0A]) }
        = some (w1, IQRF_PGM_FLASH_BLOCK_READY)
      ∧ w1.PrepareMemBlock.MemoryBlock
          = recordImage (recordAddress 0 (dataRecord 0x7400 [1, 2, 3, 4]))
              (dataRecord 0x7400 [1, 2, 3, 4]) erasedMemoryBlock
      ∧ w1.PrepareMemBlock.DataInBufferReady = 1
      ∧ readBytes w1.IqrfPgmCodeLineBuffer 0 (([5, 0, 6, 0] : List Nat).length + 5)
          = dataRecord 0x0460 [5, 0, 6, 0]
      ∧ w1.CodeFile = [0x0A]
      ∧ ((∀ b ∈ ([0x0A] : List Nat), b % 256 ≠ 0 ∧ b % 256 ≠ 0x3A) →
          ∃ w2, iqrfPgmPrepareMemBlock w1 = some (w2, IQRF_PGM_FLASH_BLOCK_READY)
            ∧ w2.PrepareMemBlock.MemoryBlock
                = recordImage (recordAddress 0 (dataRecord 0x0460 [5, 0, 6, 0]))
                    (dataRecord 0x0460 [5, 0, 6, 0]) erasedMemoryBlock) :=
  iqrfPgmPrepareMemBlock_page_crossing
    { ({} : World) with
      CodeFile := [] ++ hexLine (fun _ => true) (dataRecord 0x7400 [1, 2, 3, 4]) 0x0D
        ++ ([0x0A] ++ hexLine (fun _ => false) (dataRecord 0x0460 [5, 0, 6, 0]) 0x0D
          ++ [0x0A]) }
    (fun _ => true) (fun _ => false) 0x0D 0x0D 0x7400 0x0460 [] [0x0A] [0x0A] [1, 2, 3, 4]
    [5, 0, 6, 0] rfl rfl rfl rfl rfl (by decide) (by decide) (by decide) (by decide)
    (by decide) (by decide) (by decide) (by decide) (by decide) (by decide)
    (by decide) (by decide) (by decide) (by decide) (by decide)

/-! ## Overflow relocation -/

theorem length_memset (v : Nat) : ∀ (n : Nat) (dst : List Nat) (off : Nat),
    (memset dst off v n).length = dst.length := by
  intro n
  induction n with
  | zero => intro dst off; rfl
  | succ n ih => intro dst off; simp [memset, ih]

theorem getD_memset (v : Nat) : ∀ (n : Nat) (dst : List Nat) (off j : Nat),
    (memset dst off v n).getD j 0 =
      if off ≤ j ∧ j < off + n ∧ j < dst.length then v else dst.getD j 0 := by
  intro n
  induction n with
  | zero =>
    intro dst off j
    simp only [memset]
    rw [if_neg (by omega)]
  | succ n ih =>
    intro dst off j
    simp only [memset]
    rw [ih, List.length_set, getD_set_eq]
    by_cases h1 : off = j
    · subst h1
      by_cases h2 : off < dst.length
      · simp [h2]
      · simp [h2]
    · by_cases h2 : off + 1 ≤ j ∧ j < off + 1 + n ∧ j < dst.length
      · rw [if_pos h2, if_pos ⟨by omega, by omega, h2.2.2⟩]
      · rw [if_neg h2, if_neg (by omega), if_neg (by omega)]

theorem length_copySerial (line : List Nat) : ∀ (n Cnt d : Nat) (mb : List Nat),
    (copySerial line n Cnt d mb).length = mb.length := by
  intro n
  induction n with
  | zero => intro Cnt d mb; rfl
  | succ n ih => intro Cnt d mb; simp only [copySerial, ih, List.length_set]

theorem copySerial_succ (line : List Nat) (n Cnt d : Nat) (mb : List Nat) (h2 : d ≤ 67) :
    copySerial line (n + 1) Cnt d mb =
      copySerial line n (Cnt + 1) (if d = 67 then 2 else d + 1)
        (mb.set d (line.getD (2 * Cnt + 4) 0)) := by
  simp only [copySerial]
  have e : (d + 1) % 256 = d + 1 := by omega
  rw [e]
  by_cases h : d = 67
  · subst h; rfl
  · rw [if_neg (by omega), if_neg h]

/-- The relocation by `iqrfPgmMoveOverflowedData`: the first half of the image
becomes the second half. -/
theorem iqrfPgmMoveOverflowedData_image (w : World)
    (hl : w.PrepareMemBlock.MemoryBlock.length = 68) (j : Nat) (hj : j < 34) :
    (iqrfPgmMoveOverflowedData w).PrepareMemBlock.MemoryBlock.getD (34 + j) 0
      = w.PrepareMemBlock.MemoryBlock.getD j 0 := by
  have h1 : (memcpy w.PrepareMemBlock.MemoryBlock 34
      (readBytes w.PrepareMemBlock.MemoryBlock 0 34)).getD (34 + j) 0
      = w.PrepareMemBlock.MemoryBlock.getD j 0 := by
    rw [getD_memcpy, if_pos ⟨by omega, by rw [length_readBytes]; omega, by omega⟩,
      getD_readBytes _ _ _ _ (by omega)]
    congr 1
    omega
  obtain ⟨m1, hm1⟩ : ∃ m1, m1 = memcpy w.PrepareMemBlock.MemoryBlock 34
      (readBytes w.PrepareMemBlock.MemoryBlock 0 34) := ⟨_, rfl⟩
  rw [← hm1] at h1
  have h2 : (memset m1 0 0 34).getD (34 + j) 0 = w.PrepareMemBlock.MemoryBlock.getD j 0 := by
    rw [getD_memset, if_neg (by omega), h1]
  obtain ⟨m2, hm2⟩ : ∃ m2, m2 = memset m1 0 0 34 := ⟨_, rfl⟩
  rw [← hm2] at h2
  unfold iqrfPgmMoveOverflowedData
  simp only [← hm1, ← hm2]
  rw [getD_set_ne _ _ _ _ _ (by omega), getD_set_ne _ _ _ _ _ (by omega), h2]

theorem iterate_fixed {α : Type} (f : α → α) (x : α) (h : f x = x) :
    ∀ n, Nat.iterate f n x = x := by
  intro n
  induction n with
  | zero => rfl
  | succ n ih => rw [Function.iterate_succ_apply, h, ih]

theorem iqrfTrInfoProcess_senderSM (w : World) (d : List Nat) :
    (iqrfTrInfoProcess w d).IqrfDataSenderSM = w.IqrfDataSenderSM := by
  unfold iqrfTrInfoProcess
  simp only []
  split_ifs <;> rfl

theorem callRxHandler_senderSM (w : World) :
    (callRxHandler w).IqrfDataSenderSM = w.IqrfDataSenderSM := by
  unfold callRxHandler
  simp only []
  split
  · rw [iqrfTrInfoProcess_senderSM]
  · rfl

theorem callRxHandler_status (w : World) :
    (callRxHandler w).IqrfControl = w.IqrfControl := by
  unfold callRxHandler
  simp only []
  split
  · unfold iqrfTrInfoProcess
    simp only []
    split_ifs <;> rfl
  · rfl

theorem frameAccepted_senderSM (w : World) :
    (frameAccepted w).IqrfDataSenderSM = w.IqrfDataSenderSM
    ∨ (frameAccepted w).IqrfDataSenderSM = IQRF_SM_REQUEST_OK := by
  unfold frameAccepted
  simp only []
  split_ifs
  · right; rfl
  · left; exact callRxHandler_senderSM w
  · right; rfl
  · left; rfl

theorem frameRejected_senderSM (w : World) :
    (frameRejected w).IqrfDataSenderSM = w.IqrfDataSenderSM
    ∨ (frameRejected w).IqrfDataSenderSM = IQRF_SM_REQUEST_ERR := by
  unfold frameRejected
  simp only []
  split_ifs
  · left; rfl
  · right; rfl
  · left; rfl

theorem completeFrame_senderSM (w : World) :
    (completeFrame w).IqrfDataSenderSM = w.IqrfDataSenderSM
    ∨ (completeFrame w).IqrfDataSenderSM = IQRF_SM_REQUEST_OK
    ∨ (completeFrame w).IqrfDataSenderSM = IQRF_SM_REQUEST_ERR := by
  unfold completeFrame
  simp only []
  split_ifs
  · rcases frameAccepted_senderSM (iqrfDeselectTRmodule w) with h | h
    · left; rw [h]; rfl
    · right; left; exact h
  · rcases frameRejected_senderSM (iqrfDeselectTRmodule w) with h | h
    · left; rw [h]; rfl
    · right; right; exact h

theorem receiveByte_senderSM (w : World) (rx : Nat) :
    (receiveByte w rx).IqrfDataSenderSM = w.IqrfDataSenderSM := by
  rw [receiveByte_eq]

theorem statusPoll_senderSM (w : World) (rx : Nat) :
    (statusPoll w rx).IqrfDataSenderSM = w.IqrfDataSenderSM := by
  unfold statusPoll
  rw [iqrfSendSpiByte_eq]
  simp only []
  split_ifs <;> rfl

/-- The driver writes `IqrfDataSenderSM` only to mark a session completed or
failed. -/
theorem iqrfDriver_senderSM (w : World) (rx : Nat) :
    (iqrfDriver w rx).IqrfDataSenderSM = w.IqrfDataSenderSM
    ∨ (iqrfDriver w rx).IqrfDataSenderSM = IQRF_SM_REQUEST_OK
    ∨ (iqrfDriver w rx).IqrfDataSenderSM = IQRF_SM_REQUEST_ERR := by
  unfold iqrfDriver
  split_ifs with h1 h2
  · left; rfl
  · show (iqrfSpiDriver w rx).IqrfDataSenderSM = _ ∨ (iqrfSpiDriver w rx).IqrfDataSenderSM = _
      ∨ (iqrfSpiDriver w rx).IqrfDataSenderSM = _
    unfold iqrfSpiDriver
    split_ifs
    · unfold exchangeByte
      simp only []
      split_ifs
      · rcases completeFrame_senderSM (receiveByte w rx) with h | h | h
        · left; rw [h, receiveByte_senderSM]
        · right; left; exact h
        · right; right; exact h
      · left; exact receiveByte_senderSM w rx
    · left; exact statusPoll_senderSM w rx
  · left; rfl


theorem iqrfSendData_senderSM (w : World) (buf : BufPtr) (len : Nat) :
    SenderState (iqrfSendData w buf len).1.IqrfDataSenderSM
    ∨ (iqrfSendData w buf len).1.IqrfDataSenderSM = w.IqrfDataSenderSM := by
  unfold iqrfSendData
  simp only []
  split_ifs <;> first
    | (right; rfl)
    | (left; exact (by decide : SenderState IQRF_SM_PREPARE_REQUEST))
    | (left; exact (by decide : SenderState IQRF_SM_SEND_REQUEST))
    | (left; exact (by decide : SenderState IQRF_SM_PROCESS_REQUEST))

/-- C11. Send session progress: a call of `iqrfSendData` in the state Sending
(`IQRF_SM_SEND_REQUEST`) or AwaitingCompletion (`IQRF_SM_PROCESS_REQUEST`)
returns `IQRF_OPERATION_IN_PROGRESS`; in AwaitingCompletion the call changes
nothing, however often it is repeated; the driver leaves the session state
alone or marks it Completed (`IQRF_SM_REQUEST_OK`) or Failed
(`IQRF_SM_REQUEST_ERR`); the call made in the state Completed (resp. Failed)
returns `IQRF_OPERATION_OK` (resp. `IQRF_TR_MODULE_WRITE_ERR`) and resets the
state to Idle (`IQRF_SM_PREPARE_REQUEST`); a session state that is one of the
five defined states is one of them after `iqrfSendData`, after `iqrfDriver`
and after `iqrfSendPacket`. -/
theorem iqrfSendData_session_progress (w : World) (buf buf2 : BufPtr) (len len2 rx cmd n : Nat)
    (hsm : SenderState w.IqrfDataSenderSM) :
    (iqrfSendData { w with IqrfDataSenderSM := IQRF_SM_SEND_REQUEST } buf len).2
      = some IQRF_OPERATION_IN_PROGRESS
    ∧ iqrfSendData { w with IqrfDataSenderSM := IQRF_SM_PROCESS_REQUEST } buf len
      = ({ w with IqrfDataSenderSM := IQRF_SM_PROCESS_REQUEST }, some IQRF_OPERATION_IN_PROGRESS)
    ∧ Nat.iterate (fun v => (iqrfSendData v buf len).1) n
        { w with IqrfDataSenderSM := IQRF_SM_PROCESS_REQUEST }
      = { w with IqrfDataSenderSM := IQRF_SM_PROCESS_REQUEST }
    ∧ ((iqrfDriver w rx).IqrfDataSenderSM = w.IqrfDataSenderSM
        ∨ (iqrfDriver w rx).IqrfDataSenderSM = IQRF_SM_REQUEST_OK
        ∨ (iqrfDriver w rx).IqrfDataSenderSM = IQRF_SM_REQUEST_ERR)
    ∧ iqrfSendData { w with IqrfDataSenderSM := IQRF_SM_REQUEST_OK } buf len
      = ({ w with IqrfDataSenderSM := IQRF_SM_PREPARE_REQUEST }, some IQRF_OPERATION_OK)
    ∧ iqrfSendData { w with IqrfDataSenderSM := IQRF_SM_REQUEST_ERR } buf len
      = ({ w with IqrfDataSenderSM := IQRF_SM_PREPARE_REQUEST }, some IQRF_TR_MODULE_WRITE_ERR)
    ∧ SenderState (iqrfSendData w buf len).1.IqrfDataSenderSM
    ∧ SenderState (iqrfDriver w rx).IqrfDataSenderSM
    ∧ SenderState (iqrfSendPacket w cmd buf2 len2).IqrfDataSenderSM := by
  have hproc : iqrfSendData { w with IqrfDataSenderSM := IQRF_SM_PROCESS_REQUEST } buf len
      = ({ w with IqrfDataSenderSM := IQRF_SM_PROCESS_REQUEST },
          some IQRF_OPERATION_IN_PROGRESS) := rfl
  refine ⟨rfl, hproc, ?_, iqrfDriver_senderSM w rx, rfl, rfl, ?_, ?_, hsm⟩
  · exact iterate_fixed _ _ (by rw [hproc]) n
  · rcases iqrfSendData_senderSM w buf len with h | h
    · exact h
    · rw [h]; exact hsm
  · rcases iqrfDriver_senderSM w rx with h | h | h
    · rw [h]; exact hsm
    · rw [h]; decide
    · rw [h]; decide

theorem iqrfSendData_session_progress_witness :
    SenderState ({} : World).IqrfDataSenderSM
    ∧ (iqrfSendData { ({} : World) with IqrfDataSenderSM := IQRF_SM_SEND_REQUEST }
        (BufPtr.user [7]) 1).2 = some IQRF_OPERATION_IN_PROGRESS
    ∧ iqrfSendData { ({} : World) with IqrfDataSenderSM := IQRF_SM_REQUEST_OK }
        (BufPtr.user [7]) 1
      = ({ ({} : World) with IqrfDataSenderSM := IQRF_SM_PREPARE_REQUEST },
          some IQRF_OPERATION_OK)
    ∧ SenderState (iqrfDriver {} 0x80).IqrfDataSenderSM :=
  ⟨by decide,
   (iqrfSendData_session_progress {} (BufPtr.user [7]) (BufPtr.user []) 1 0 0x80 0 3
      (by decide)).1,
   (iqrfSendData_session_progress {} (BufPtr.user [7]) (BufPtr.user []) 1 0 0x80 0 3
      (by decide)).2.2.2.2.1,
   (iqrfSendData_session_progress {} (BufPtr.user [7]) (BufPtr.user []) 1 0 0x80 0 3
      (by decide)).2.2.2.2.2.2.2.1⟩

/-! ## Tick granularity -/

theorem iqrfTrInfoProcess_trace (w : World) (d : List Nat) :
    (iqrfTrInfoProcess w d).trace = w.trace := by
  unfold iqrfTrInfoProcess
  simp only []
  split_ifs <;> rfl

theorem callRxHandler_trace (w : World) :
    (callRxHandler w).trace = w.trace ++
      [Event.rxHandler w.IqrfControl.IqrfRxHandler
        (readBytes w.IqrfSpiControl.PacketRxBuffer 2 w.IqrfSpiControl.DLEN)
        w.IqrfSpiControl.DLEN] := by
  unfold callRxHandler
  simp only []
  split
  · rw [iqrfTrInfoProcess_trace]
  · rfl

theorem frameAccepted_trace (w : World) :
    (frameAccepted w).trace = w.trace ++
      (if w.IqrfControl.Status = IQRF_READ then
        [Event.rxHandler w.IqrfControl.IqrfRxHandler
          (readBytes w.IqrfSpiControl.PacketRxBuffer 2 w.IqrfSpiControl.DLEN)
          w.IqrfSpiControl.DLEN]
       else []) := by
  unfold frameAccepted
  simp only []
  by_cases h : w.IqrfControl.Status = IQRF_READ
  · rw [if_pos h, if_pos h]
    split_ifs <;> exact callRxHandler_trace w
  · rw [if_neg h, if_neg h, List.append_nil]
    split_ifs <;> rfl

theorem frameRejected_trace (w : World) : (frameRejected w).trace = w.trace := by
  unfold frameRejected
  simp only []
  split_ifs <;> rfl

theorem transfers_rxHandler (t : List Event) (h : RxHandler) (d : List Nat) (n : Nat) :
    transfers (t ++ [Event.rxHandler h d n]) = transfers t := by
  rw [transfers_append]; simp [transfers]

theorem transfers_deselect (t : List Event) : transfers (t ++ [Event.deselect]) = transfers t := by
  rw [transfers_append]; simp [transfers]

theorem completeFrame_transfers (w : World) :
    transfers (completeFrame w).trace = transfers w.trace := by
  unfold completeFrame
  simp only []
  split_ifs
  · rw [frameAccepted_trace]
    split_ifs
    · rw [transfers_rxHandler]; exact transfers_deselect _
    · rw [List.append_nil]; exact transfers_deselect _
  · rw [frameRejected_trace]; exact transfers_deselect _

theorem receiveByte_transfers (w : World) (rx : Nat) :
    transfers (receiveByte w rx).trace = transfers w.trace ++
      [(w.IqrfSpiControl.PacketTxBuffer.getD w.IqrfSpiControl.PacketCnt 0, rx % 256)] := by
  rw [receiveByte_eq]
  exact (transfers_step w.trace w.IqrfControl.TRmoduleSelected w.IqrfControl.FastSPI _ _).1

theorem exchangeByte_transfers (w : World) (rx : Nat) :
    transfers (exchangeByte w rx).trace = transfers w.trace ++
      [(w.IqrfSpiControl.PacketTxBuffer.getD w.IqrfSpiControl.PacketCnt 0, rx % 256)] := by
  unfold exchangeByte
  simp only []
  split_ifs
  · rw [completeFrame_transfers, receiveByte_transfers]
  · rw [receiveByte_transfers]

theorem statusPoll_transfers (w : World) (rx : Nat) :
    transfers (statusPoll w rx).trace = transfers w.trace ++ [(SPI_CHECK, rx % 256)] := by
  have h : (statusPoll w rx).trace = w.trace
      ++ (if w.IqrfControl.TRmoduleSelected then [] else [Event.select])
      ++ [Event.transfer SPI_CHECK (rx % 256)]
      ++ (if w.IqrfControl.FastSPI then [] else [Event.deselect]) ++ [Event.deselect] := by
    unfold statusPoll
    rw [iqrfSendSpiByte_eq]
    simp only []
    split_ifs <;> rfl
  rw [h, transfers_deselect]
  exact (transfers_step w.trace w.IqrfControl.TRmoduleSelected w.IqrfControl.FastSPI _ _).1

/-- C12, counterexample. The driver is running and the mailbox holds a
request, the poll countdown `TimeCnt` stands at 5: the invocation of
`iqrfDriver` makes no transfer, it only counts down. -/
theorem iqrfDriver_tick_counterexample :
    ({ IqrfPacket := { BufferFlag := IQRF_BUFFER_BUSY, SpiCmd := SPI_WR_RD,
                       DataBuffer := BufPtr.user [7], DataLength := 1 },
       IqrfControl := { TimeCnt := 5 } } : World).IqrfControl.SuspendFlag = false
    ∧ iqrfGetTxBufferStatus
        { IqrfPacket := { BufferFlag := IQRF_BUFFER_BUSY, SpiCmd := SPI_WR_RD,
                          DataBuffer := BufPtr.user [7], DataLength := 1 },
          IqrfControl := { TimeCnt := 5 } } = IQRF_BUFFER_BUSY
    ∧ (iqrfDriver
        { IqrfPacket := { BufferFlag := IQRF_BUFFER_BUSY, SpiCmd := SPI_WR_RD,
                          DataBuffer := BufPtr.user [7], DataLength := 1 },
          IqrfControl := { TimeCnt := 5 } } 0x80).trace = []
    ∧ iqrfDriver
        { IqrfPacket := { BufferFlag := IQRF_BUFFER_BUSY, SpiCmd := SPI_WR_RD,
                          DataBuffer := BufPtr.user [7], DataLength := 1 },
          IqrfControl := { TimeCnt := 5 } } 0x80
      = { IqrfPacket := { BufferFlag := IQRF_BUFFER_BUSY, SpiCmd := SPI_WR_RD,
                          DataBuffer := BufPtr.user [7], DataLength := 1 },
          IqrfControl := { TimeCnt := 4 } } := by
  refine ⟨rfl, rfl, ?_, ?_⟩ <;> decide

/-- C12, amended. Tick granularity: whenever the driver is not suspended and
either an exchange is mid-flight or the library is ready and the poll
countdown `TimeCnt` has reached 0, the invocation of `iqrfDriver` performs
exactly one byte transfer on the bus (a byte of the frame, resp. the status
check `SPI_CHECK`); during an exchange it stores the byte received and
advances `PacketCnt` by one, and when `PacketCnt` then equals `PacketLen` (or
the buffer size) it deselects the device and validates the frame, taking the
branch of the accepted or of the rejected frame; the countdown is all it
changes beyond that. -/
theorem iqrfDriver_tick (w : World) (rx : Nat)
    (hs : w.IqrfControl.SuspendFlag = false)
    (hc : w.IqrfControl.Status = IQRF_READ ∨ w.IqrfControl.Status = IQRF_WRITE
      ∨ (w.IqrfControl.Status = IQRF_READY ∧ w.IqrfControl.TimeCnt = 0)) :
    transfers (iqrfDriver w rx).trace = transfers w.trace ++
      [(if w.IqrfControl.Status = IQRF_READY then SPI_CHECK
        else w.IqrfSpiControl.PacketTxBuffer.getD w.IqrfSpiControl.PacketCnt 0, rx % 256)]
    ∧ (w.IqrfControl.Status ≠ IQRF_READY →
        (receiveByte w rx).IqrfSpiControl.PacketCnt = (w.IqrfSpiControl.PacketCnt + 1) % 256
        ∧ (receiveByte w rx).IqrfSpiControl.PacketRxBuffer
            = w.IqrfSpiControl.PacketRxBuffer.set w.IqrfSpiControl.PacketCnt (rx % 256)
        ∧ (iqrfDeselectTRmodule (receiveByte w rx)).trace
            = (receiveByte w rx).trace ++ [Event.deselect]
        ∧ ∃ tc, iqrfDriver w rx =
            { (if (w.IqrfSpiControl.PacketCnt + 1) % 256 = w.IqrfSpiControl.PacketLen
                  ∨ (w.IqrfSpiControl.PacketCnt + 1) % 256 = IQRF_PKT_SIZE then
                if frameValid (iqrfDeselectTRmodule (receiveByte w rx)) then
                  frameAccepted (iqrfDeselectTRmodule (receiveByte w rx))
                else frameRejected (iqrfDeselectTRmodule (receiveByte w rx))
               else receiveByte w rx) with
              IqrfControl :=
                { (if (w.IqrfSpiControl.PacketCnt + 1) % 256 = w.IqrfSpiControl.PacketLen
                      ∨ (w.IqrfSpiControl.PacketCnt + 1) % 256 = IQRF_PKT_SIZE then
                    if frameValid (iqrfDeselectTRmodule (receiveByte w rx)) then
                      frameAccepted (iqrfDeselectTRmodule (receiveByte w rx))
                    else frameRejected (iqrfDeselectTRmodule (receiveByte w rx))
                   else receiveByte w rx).IqrfControl with TimeCnt := tc } }) := by
  have hkey : (iqrfDriver w rx).trace = (iqrfSpiDriver w rx).trace := by
    unfold iqrfDriver
    rw [hs]
    have hcond : w.IqrfControl.Status = IQRF_READ ∨ w.IqrfControl.Status = IQRF_WRITE
        ∨ w.IqrfControl.TimeCnt = 0 := by
      rcases hc with h | h | h
      · exact Or.inl h
      · exact Or.inr (Or.inl h)
      · exact Or.inr (Or.inr h.2)
    simp only [Bool.false_eq_true, if_false, if_pos hcond]
  refine ⟨?_, ?_⟩
  · rw [hkey]
    unfold iqrfSpiDriver
    by_cases hr : w.IqrfControl.Status = IQRF_READY
    · rw [if_neg (by simpa using hr), if_pos hr, statusPoll_transfers]
    · rw [if_pos hr, if_neg hr, exchangeByte_transfers]
  · intro hr
    have hst : w.IqrfControl.Status = IQRF_WRITE ∨ w.IqrfControl.Status = IQRF_READ := by
      rcases hc with h | h | h
      · exact Or.inr h
      · exact Or.inl h
      · exact absurd h.1 hr
    refine ⟨by rw [receiveByte_eq], by rw [receiveByte_eq], rfl, ?_⟩
    refine ⟨((if (exchangeByte w rx).IqrfControl.FastSPI = true
      then SPI_STATUS_POOLING_TIME * 5 + 1 else SPI_STATUS_POOLING_TIME + 1) + 255) % 256, ?_⟩
    rw [iqrfDriver_exchange w rx hs hst]
    have hx : exchangeByte w rx =
        (if (w.IqrfSpiControl.PacketCnt + 1) % 256 = w.IqrfSpiControl.PacketLen
            ∨ (w.IqrfSpiControl.PacketCnt + 1) % 256 = IQRF_PKT_SIZE then
          if frameValid (iqrfDeselectTRmodule (receiveByte w rx)) then
            frameAccepted (iqrfDeselectTRmodule (receiveByte w rx))
          else frameRejected (iqrfDeselectTRmodule (receiveByte w rx))
         else receiveByte w rx) := by
      unfold exchangeByte completeFrame
      have e1 : (receiveByte w rx).IqrfSpiControl.PacketCnt
          = (w.IqrfSpiControl.PacketCnt + 1) % 256 := by rw [receiveByte_eq]
      have e2 : (receiveByte w rx).IqrfSpiControl.PacketLen = w.IqrfSpiControl.PacketLen := by
        rw [receiveByte_eq]
      simp only [e1, e2]
    rw [← hx]

theorem iqrfDriver_tick_witness :
    transfers (iqrfDriver {} 0x80).trace = transfers ({} : World).trace ++
      [(if ({} : World).IqrfControl.Status = IQRF_READY then SPI_CHECK
        else ({} : World).IqrfSpiControl.PacketTxBuffer.getD
          ({} : World).IqrfSpiControl.PacketCnt 0, 0x80 % 256)] :=
  (iqrfDriver_tick {} 0x80 rfl (Or.inr (Or.inr ⟨rfl, rfl⟩))).1

/-! ## Suspend and resume -/

theorem iqrfDriver_suspended (w : World) (rx : Nat) (h : w.IqrfControl.SuspendFlag = true) :
    iqrfDriver w rx = w := by
  unfold iqrfDriver
  rw [if_pos h]

theorem ticks_suspended (rxs : List Nat) : ∀ (w : World),
    w.IqrfControl.SuspendFlag = true → ticks w rxs = w := by
  induction rxs with
  | nil => intro w _; rfl
  | cons rx rest ih =>
    intro w h
    show ticks (iqrfDriver w rx) rest = w
    rw [iqrfDriver_suspended w rx h]
    exact ih w h

/-- C13. Suspend/resume: called with no exchange in flight,
`iqrfSuspendDriver` returns with the suspend flag set and the transport
status `SPI_DISABLED` (it changes nothing else); after it every invocation of
`iqrfDriver`, however many and whatever the module would answer, leaves the
whole state unchanged (status, mailbox, counters, buffers, and the record of
bus transfers); `iqrfRunDriver` clears the suspend flag and changes nothing
else. -/
theorem iqrfSuspendDriver_freezes (w : World) (rxs : List Nat)
    (hidle : w.IqrfControl.Status ≠ IQRF_READ ∧ w.IqrfControl.Status ≠ IQRF_WRITE) :
    ∃ w1, iqrfSuspendDriver w = some w1
      ∧ w1.IqrfControl.SuspendFlag = true
      ∧ iqrfGetSpiStatus w1 = SPI_DISABLED
      ∧ w1 = { w with
          IqrfControl := { w.IqrfControl with SuspendFlag := true }
          IqrfSpiControl := { w.IqrfSpiControl with SpiStat := SPI_DISABLED } }
      ∧ ticks w1 rxs = w1
      ∧ transfers (ticks w1 rxs).trace = transfers w.trace
      ∧ (iqrfRunDriver (ticks w1 rxs)).IqrfControl.SuspendFlag = false
      ∧ iqrfRunDriver (ticks w1 rxs)
          = { w with IqrfSpiControl := { w.IqrfSpiControl with SpiStat := SPI_DISABLED }
                     IqrfControl := { w.IqrfControl with SuspendFlag := false } }
      ∧ (∀ v : World, (iqrfRunDriver v).IqrfSpiControl = v.IqrfSpiControl
          ∧ (iqrfRunDriver v).IqrfPacket = v.IqrfPacket
          ∧ (iqrfRunDriver v).IqrfControl = { v.IqrfControl with SuspendFlag := false }
          ∧ (iqrfRunDriver v).trace = v.trace
          ∧ iqrfRunDriver v = { v with IqrfControl := (iqrfRunDriver v).IqrfControl }) := by
  have hs : iqrfSuspendDriver w = some
      { w with
        IqrfControl := { w.IqrfControl with SuspendFlag := true }
        IqrfSpiControl := { w.IqrfSpiControl with SpiStat := SPI_DISABLED } } := by
    unfold iqrfSuspendDriver
    rw [if_neg (by
      intro h
      rcases h with h | h
      · exact hidle.1 h
      · exact hidle.2 h)]
  have ht := ticks_suspended rxs
    { w with
      IqrfControl := { w.IqrfControl with SuspendFlag := true }
      IqrfSpiControl := { w.IqrfSpiControl with SpiStat := SPI_DISABLED } } rfl
  refine ⟨_, hs, rfl, rfl, rfl, ht, ?_, ?_, ?_, ?_⟩
  · rw [ht]
  · rw [ht]; rfl
  · rw [ht]; rfl
  · intro v
    exact ⟨rfl, rfl, rfl, rfl, rfl⟩

theorem iqrfSuspendDriver_freezes_witness :
    ∃ w1, iqrfSuspendDriver { IqrfSpiControl := { SpiStat := COMMUNICATION_MODE } } = some w1
      ∧ w1.IqrfControl.SuspendFlag = true
      ∧ iqrfGetSpiStatus w1 = SPI_DISABLED
      ∧ ticks w1 [0x80, 0x40, 0x80] = w1 := by
  obtain ⟨w1, h1, h2, h3, _, h5, _⟩ := iqrfSuspendDriver_freezes
    { IqrfSpiControl := { SpiStat := COMMUNICATION_MODE } } [0x80, 0x40, 0x80]
    ⟨by decide, by decide⟩
  exact ⟨w1, h1, h2, h3, h5⟩

/-! ## The plugin line reader -/

theorem plain_hexDigit : ∀ h < 16, ∀ u : Bool,
    tolower (hexDigit u h % 256) ≠ 0x23 ∧ tolower (hexDigit u h % 256) ≠ 0x0D
    ∧ tolower (hexDigit u h % 256) ≠ 0 := by
  decide

theorem skipComment_body (rest : List Nat) (body : List Nat) :
    ∀ (fuel : Nat) (w : World),
      w.CodeFile = body ++ 0x0D :: rest → body.length < fuel → CommentText body →
      ∃ w1, skipComment fuel w = some (w1, 0x0D) ∧ w1.CodeFile = rest
        ∧ w1.IqrfPgmCodeLineBuffer = w.IqrfPgmCodeLineBuffer := by
  induction body with
  | nil =>
    intro fuel w hfile hfuel _
    obtain ⟨f, rfl⟩ : ∃ f, fuel = f + 1 := ⟨fuel - 1, by simp at hfuel; omega⟩
    simp only [List.nil_append] at hfile
    simp only [skipComment, iqrfReadByteFromFile_cons w _ rest hfile]
    rw [if_neg (by decide)]
    exact ⟨_, rfl, rfl, rfl⟩
  | cons b bs ih =>
    intro fuel w hfile hfuel hpre
    obtain ⟨f, rfl⟩ : ∃ f, fuel = f + 1 := ⟨fuel - 1, by simp at hfuel; omega⟩
    simp only [List.cons_append] at hfile
    simp only [List.length_cons] at hfuel
    simp only [skipComment, iqrfReadByteFromFile_cons w _ _ hfile]
    rw [if_pos (hpre b (List.mem_cons_self b bs))]
    obtain ⟨w1, h1, h2, h3⟩ := ih f
      { w with
        CodeFile := bs ++ 0x0D :: rest
        CodeFileInfo := { w.CodeFileInfo with
          FileByteCnt := (w.CodeFileInfo.FileByteCnt + 1) % 65536 } }
      rfl (by omega) (fun x hx => hpre x (List.mem_cons_of_mem b hx))
    exact ⟨w1, h1, h2, h3⟩

/-- One blank or comment line before any pair of the line is read: the
reader starts over behind it. -/
theorem readIQRFLoop_skipped (l : Option (List Nat)) (rest : List Nat) (fuel : Nat) (w : World)
    (hfile : w.CodeFile = skippedLine l ++ rest)
    (hl : ∀ body, l = some body → CommentText body) :
    ∃ w1, readIQRFLoop (fuel + 1) w 0 = readIQRFLoop fuel w1 0 ∧ w1.CodeFile = rest
      ∧ w1.IqrfPgmCodeLineBuffer = w.IqrfPgmCodeLineBuffer := by
  cases l with
  | none =>
    simp only [skippedLine, List.cons_append, List.nil_append] at hfile
    have hr1 := iqrfReadByteFromFile_cons w _ _ hfile
    have hr2 := iqrfReadByteFromFile_cons
      { w with
        CodeFile := 0x0A :: rest
        CodeFileInfo := { w.CodeFileInfo with
          FileByteCnt := (w.CodeFileInfo.FileByteCnt + 1) % 65536 } } _ _ rfl
    have e1 : tolower (0x0D % 256) = 0x0D := by decide
    have e2 : ¬ ((0x0D : Nat) = 0x23) := by decide
    simp only [readIQRFLoop, hr1, e1, e2, if_false, if_true, hr2]
    exact ⟨_, rfl, rfl, rfl⟩
  | some body =>
    simp only [skippedLine, List.cons_append, List.append_assoc, List.nil_append] at hfile
    have hr1 := iqrfReadByteFromFile_cons w _ _ hfile
    have e1 : tolower (0x23 % 256) = 0x23 := by decide
    obtain ⟨w1, h1, h2, h3⟩ := skipComment_body (0x0A :: rest) body
      ((body ++ 0x0D :: 0x0A :: rest).length + 1)
      { w with
        CodeFile := body ++ 0x0D :: 0x0A :: rest
        CodeFileInfo := { w.CodeFileInfo with
          FileByteCnt := (w.CodeFileInfo.FileByteCnt + 1) % 65536 } }
      rfl (by simp only [List.length_append, List.length_cons]; omega) (hl body rfl)
    have hr2 := iqrfReadByteFromFile_cons w1 _ _ h2
    simp only [readIQRFLoop, hr1, e1, if_true, h1, hr2]
    exact ⟨_, rfl, rfl, h3⟩

/-- The blank and comment lines before a data line are passed over. -/
theorem readIQRFLoop_prelude (rest : List Nat) (pre : List (Option (List Nat))) :
    ∀ (fuel : Nat) (w : World),
      w.CodeFile = skippedLines pre ++ rest →
      (∀ body, some body ∈ pre → CommentText body) →
      ∃ w1, readIQRFLoop (fuel + pre.length) w 0 = readIQRFLoop fuel w1 0 ∧ w1.CodeFile = rest
        ∧ w1.IqrfPgmCodeLineBuffer = w.IqrfPgmCodeLineBuffer := by
  induction pre with
  | nil =>
    intro fuel w hfile _
    exact ⟨w, rfl, by simpa [skippedLines] using hfile, rfl⟩
  | cons l ls ih =>
    intro fuel w hfile hpre
    have hfile2 : w.CodeFile = skippedLine l ++ (skippedLines ls ++ rest) := by
      rw [hfile]; simp [skippedLines]
    obtain ⟨w1, h1, h2, h3⟩ := readIQRFLoop_skipped l (skippedLines ls ++ rest)
      (fuel + ls.length) w hfile2 (fun body hb => hpre body (by rw [hb]; exact List.mem_cons_self _ _))
    obtain ⟨w2, g1, g2, g3⟩ := ih fuel w1 h2
      (fun body hb => hpre body (List.mem_cons_of_mem _ hb))
    refine ⟨w2, ?_, g2, g3.trans h3⟩
    rw [← g1, ← h1]
    rfl

/-- The data line: `bytes.length` pairs from buffer index `ptr` on, ended by
CR LF. With `ptr + bytes.length = 20` the line is accepted, otherwise it is a
format error (at the CR when it is shorter, at the 21st pair when longer). -/
theorem readIQRFLoop_line (up : Nat → Bool) (rest : List Nat) (bytes : List Nat) :
    ∀ (fuel : Nat) (w : World) (ptr k : Nat),
      w.CodeFile = encodeHex up k bytes ++ 0x0D :: 0x0A :: rest →
      bytes.length < fuel → (∀ b ∈ bytes, b < 256) → ptr ≤ 20 → 1 ≤ ptr + bytes.length →
      ∃ w1, readIQRFLoop fuel w ptr
          = some (w1, if ptr + bytes.length = 20 then IQRF_PGM_FILE_DATA_READY
                      else IQRF_PGM_FILE_DATA_ERROR)
        ∧ (ptr + bytes.length = 20 → w1.CodeFile = rest
            ∧ w1.IqrfPgmCodeLineBuffer = memcpy w.IqrfPgmCodeLineBuffer ptr bytes) := by
  induction bytes with
  | nil =>
    intro fuel w ptr k hfile hfuel _ hptr h1
    obtain ⟨f, rfl⟩ : ∃ f, fuel = f + 1 := ⟨fuel - 1, by simp at hfuel; omega⟩
    simp only [encodeHex, List.nil_append] at hfile
    simp only [List.length_nil, Nat.add_zero] at h1 ⊢
    have hr1 := iqrfReadByteFromFile_cons w _ _ hfile
    have hr2 := iqrfReadByteFromFile_cons
      { w with
        CodeFile := 0x0A :: rest
        CodeFileInfo := { w.CodeFileInfo with
          FileByteCnt := (w.CodeFileInfo.FileByteCnt + 1) % 65536 } } _ _ rfl
    have e1 : tolower (0x0D % 256) = 0x0D := by decide
    have e2 : ¬ ((0x0D : Nat) = 0x23) := by decide
    have e3 : ¬ (ptr = 0) := by omega
    simp only [readIQRFLoop, hr1, e1, e2, if_false, if_true, hr2, e3]
    by_cases h20 : ptr = 20
    · simp only [h20, if_true]
      exact ⟨_, rfl, fun _ => ⟨rfl, rfl⟩⟩
    · simp only [h20, if_false]
      exact ⟨_, rfl, fun h => h.elim⟩
  | cons b bs ih =>
    intro fuel w ptr k hfile hfuel hb hptr _
    obtain ⟨f, rfl⟩ : ∃ f, fuel = f + 1 := ⟨fuel - 1, by simp at hfuel; omega⟩
    simp only [List.length_cons] at hfuel ⊢
    have hb256 : b < 256 := hb b (List.mem_cons_self b bs)
    obtain ⟨hconv, -, -⟩ := convert_hexDigit (b / 16) (by omega) (b % 16) (by omega)
      (up k) (up (k + 1))
    obtain ⟨p1, p2, p3⟩ := plain_hexDigit (b / 16) (by omega) (up k)
    have hbyte : 16 * (b / 16) + b % 16 = b := by omega
    rw [hbyte] at hconv
    simp only [encodeHex, List.cons_append] at hfile
    have hr1 := iqrfReadByteFromFile_cons w _ _ hfile
    have hr2 := iqrfReadByteFromFile_cons
      { w with
        CodeFile := hexDigit (up (k + 1)) (b % 16)
          :: (encodeHex up (k + 2) bs ++ 0x0D :: 0x0A :: rest)
        CodeFileInfo := { w.CodeFileInfo with
          FileByteCnt := (w.CodeFileInfo.FileByteCnt + 1) % 65536 } } _ _ rfl
    simp only [readIQRFLoop, hr1, p1, p2, p3, if_false, hr2, hconv]
    by_cases h20 : ptr = 20
    · have hge : ptr ≥ 20 := by omega
      rw [if_pos hge, if_neg (by omega)]
      exact ⟨_, rfl, fun h => absurd h (by omega)⟩
    · have hge : ¬ (ptr ≥ 20) := by omega
      rw [if_neg hge]
      obtain ⟨w1, h1, h2⟩ := ih f
        { w with
          CodeFile := encodeHex up (k + 2) bs ++ 0x0D :: 0x0A :: rest
          CodeFileInfo := { w.CodeFileInfo with
            FileByteCnt := ((w.CodeFileInfo.FileByteCnt + 1) % 65536 + 1) % 65536 }
          IqrfPgmCodeLineBuffer := w.IqrfPgmCodeLineBuffer.set ptr b }
        (ptr + 1) (k + 2) rfl (by omega) (fun x hx => hb x (List.mem_cons_of_mem b hx))
        (by omega) (by omega)
      have hidx : ptr + 1 + bs.length = ptr + (bs.length + 1) := by omega
      rw [hidx] at h1 h2
      exact ⟨w1, h1, h2⟩

/-- The stream ends inside a line, after `bytes.length` pairs (or with none,
at a line boundary): the reader reports the end of the file. -/
theorem readIQRFLoop_eof (up : Nat → Bool) (bytes : List Nat) :
    ∀ (fuel : Nat) (w : World) (ptr k : Nat),
      w.CodeFile = encodeHex up k bytes →
      bytes.length < fuel → (∀ b ∈ bytes, b < 256) → ptr + bytes.length ≤ 20 →
      ∃ w1, readIQRFLoop fuel w ptr = some (w1, IQRF_PGM_END_OF_FILE)
        ∧ w1.CodeFile = []
        ∧ w1.IqrfPgmCodeLineBuffer = memcpy w.IqrfPgmCodeLineBuffer ptr bytes := by
  induction bytes with
  | nil =>
    intro fuel w ptr k hfile hfuel _ _
    obtain ⟨f, rfl⟩ : ∃ f, fuel = f + 1 := ⟨fuel - 1, by simp at hfuel; omega⟩
    simp only [encodeHex] at hfile
    have hr1 := iqrfReadByteFromFile_nil w hfile
    have e1 : tolower 0 = 0 := by decide
    have e2 : ¬ ((0 : Nat) = 0x23) := by decide
    have e3 : ¬ ((0 : Nat) = 0x0D) := by decide
    simp only [readIQRFLoop, hr1, e1, e2, e3, if_false, if_true]
    exact ⟨_, rfl, hfile, rfl⟩
  | cons b bs ih =>
    intro fuel w ptr k hfile hfuel hb hptr
    obtain ⟨f, rfl⟩ : ∃ f, fuel = f + 1 := ⟨fuel - 1, by simp at hfuel; omega⟩
    simp only [List.length_cons] at hfuel hptr
    have hb256 : b < 256 := hb b (List.mem_cons_self b bs)
    obtain ⟨hconv, -, -⟩ := convert_hexDigit (b / 16) (by omega) (b % 16) (by omega)
      (up k) (up (k + 1))
    obtain ⟨p1, p2, p3⟩ := plain_hexDigit (b / 16) (by omega) (up k)
    have hbyte : 16 * (b / 16) + b % 16 = b := by omega
    rw [hbyte] at hconv
    simp only [encodeHex] at hfile
    have hr1 := iqrfReadByteFromFile_cons w _ _ hfile
    have hr2 := iqrfReadByteFromFile_cons
      { w with
        CodeFile := hexDigit (up (k + 1)) (b % 16) :: encodeHex up (k + 2) bs
        CodeFileInfo := { w.CodeFileInfo with
          FileByteCnt := (w.CodeFileInfo.FileByteCnt + 1) % 65536 } } _ _ rfl
    have hge : ¬ (ptr ≥ 20) := by omega
    simp only [readIQRFLoop, hr1, p1, p2, p3, if_false, hr2, hconv, hge]
    obtain ⟨w1, h1, h2, h3⟩ := ih f
      { w with
        CodeFile := encodeHex up (k + 2) bs
        CodeFileInfo := { w.CodeFileInfo with
          FileByteCnt := ((w.CodeFileInfo.FileByteCnt + 1) % 65536 + 1) % 65536 }
        IqrfPgmCodeLineBuffer := w.IqrfPgmCodeLineBuffer.set ptr b }
      (ptr + 1) (k + 2) rfl (by omega) (fun x hx => hb x (List.mem_cons_of_mem b hx))
      (by omega)
    exact ⟨w1, h1, h2, h3⟩

theorem length_skippedLines (pre : List (Option (List Nat))) :
    pre.length ≤ (skippedLines pre).length := by
  induction pre with
  | nil => exact Nat.le_refl _
  | cons l ls ih =>
    have h : (skippedLines (l :: ls)).length = (skippedLine l).length + (skippedLines ls).length := by
      simp [skippedLines]
    rw [h, List.length_cons]
    cases l <;> simp only [skippedLine, List.length_cons, List.length_append] <;> omega

/-- C14. Plugin line length: the input is any number of blank lines and
comment lines (from `#` to CR LF), then a line of `bytes.length >= 1` hex
pairs ended by CR LF. `iqrfPgmReadIQRFFileLine` returns
`IQRF_PGM_FILE_DATA_READY` if and only if the line has 20 pairs, and then the
first 20 bytes of the line buffer are the decoded pairs and the file stands
behind the line; for every other number of pairs it returns
`IQRF_PGM_FILE_DATA_ERROR`. -/
theorem iqrfPgmReadIQRFFileLine_line_length (w : World) (up : Nat → Bool)
    (pre : List (Option (List Nat))) (bytes rest : List Nat)
    (hpre : ∀ body, some body ∈ pre → CommentText body)
    (hb : ∀ b ∈ bytes, b < 256) (hk : 1 ≤ bytes.length)
    (hlb : w.IqrfPgmCodeLineBuffer.length = 32)
    (hfile : w.CodeFile = skippedLines pre ++ (encodeHex up 0 bytes ++ 0x0D :: 0x0A :: rest)) :
    ∃ w1 r, iqrfPgmReadIQRFFileLine w = some (w1, r)
      ∧ (r = IQRF_PGM_FILE_DATA_READY ↔ bytes.length = 20)
      ∧ (bytes.length ≠ 20 → r = IQRF_PGM_FILE_DATA_ERROR)
      ∧ (bytes.length = 20 →
          readBytes w1.IqrfPgmCodeLineBuffer 0 20 = bytes ∧ w1.CodeFile = rest) := by
  have hlen : w.CodeFile.length + 1 = (w.CodeFile.length + 1 - pre.length) + pre.length := by
    have := length_skippedLines pre
    rw [hfile, List.length_append]; omega
  obtain ⟨w1, h1, h2, h3⟩ := readIQRFLoop_prelude _ pre (w.CodeFile.length + 1 - pre.length) w
    hfile hpre
  obtain ⟨w2, g1, g2⟩ := readIQRFLoop_line up rest bytes (w.CodeFile.length + 1 - pre.length) w1
    0 0 h2 (by
      have := length_skippedLines pre
      rw [hfile]
      simp only [List.length_append, List.length_cons, length_encodeHex]
      omega) hb (by omega) (by omega)
  refine ⟨w2, (if 0 + bytes.length = 20 then IQRF_PGM_FILE_DATA_READY
    else IQRF_PGM_FILE_DATA_ERROR), ?_, ?_, ?_, ?_⟩
  · unfold iqrfPgmReadIQRFFileLine
    rw [hlen, h1, g1]
  · rw [Nat.zero_add]
    by_cases h20 : bytes.length = 20
    · rw [if_pos h20]; exact ⟨fun _ => h20, fun _ => rfl⟩
    · rw [if_neg h20]; exact ⟨fun h => absurd h (by decide), fun h => absurd h h20⟩
  · intro h20
    rw [Nat.zero_add, if_neg h20]
  · intro h20
    obtain ⟨e1, e2⟩ := g2 (by omega)
    refine ⟨?_, e1⟩
    rw [e2, h3, ← h20]
    exact readBytes_memcpy_zero _ _ (by omega)

theorem iqrfPgmReadIQRFFileLine_line_length_witness :
    ∃ w1 r, iqrfPgmReadIQRFFileLine
        { CodeFile := skippedLines [some [0x41, 0x42], none]
            ++ (encodeHex (fun _ => true) 0 [0xAB, 0x12] ++ 0x0D :: 0x0A :: [0x31]) }
          = some (w1, r)
      ∧ (([0xAB, 0x12] : List Nat).length ≠ 20 → r = IQRF_PGM_FILE_DATA_ERROR) := by
  obtain ⟨w1, r, h1, _, h3, _⟩ := iqrfPgmReadIQRFFileLine_line_length
    { CodeFile := skippedLines [some [0x41, 0x42], none]
        ++ (encodeHex (fun _ => true) 0 [0xAB, 0x12] ++ 0x0D :: 0x0A :: [0x31]) }
    (fun _ => true) [some [0x41, 0x42], none] [0xAB, 0x12] [0x31]
    (by intro body hb; simp at hb; subst hb; decide) (by decide) (by decide) rfl rfl
  exact ⟨w1, r, h1, h3⟩

/-- C15, counterexample. The stream ends after one hex pair, `12`, with no
line terminator: `iqrfPgmReadIQRFFileLine` returns `IQRF_PGM_END_OF_FILE`, not
`IQRF_PGM_FILE_DATA_ERROR`. -/
theorem iqrfPgmReadIQRFFileLine_partial_line_counterexample :
    (iqrfPgmReadIQRFFileLine { CodeFile := [0x31, 0x32] }).map Prod.snd
      = some IQRF_PGM_END_OF_FILE
    ∧ (iqrfPgmReadIQRFFileLine { CodeFile := [0x31, 0x32] }).map Prod.snd
      ≠ some IQRF_PGM_FILE_DATA_ERROR := by
  decide

/-- C15, amended. Plugin end of stream: if the stream ends after 1..19 hex
pairs of a line (a partially filled line with no line terminator),
`iqrfPgmReadIQRFFileLine` returns `IQRF_PGM_END_OF_FILE`, the pairs read left
in the line buffer, the same as when the stream ends at a line boundary
(`bytes = []`: no pair read since the last line terminator). -/
theorem iqrfPgmReadIQRFFileLine_end_of_stream (w : World) (up : Nat → Bool)
    (pre : List (Option (List Nat))) (bytes : List Nat)
    (hpre : ∀ body, some body ∈ pre → CommentText body)
    (hb : ∀ b ∈ bytes, b < 256) (hk : bytes.length ≤ 19)
    (hlb : w.IqrfPgmCodeLineBuffer.length = 32)
    (hfile : w.CodeFile = skippedLines pre ++ encodeHex up 0 bytes) :
    ∃ w1, iqrfPgmReadIQRFFileLine w = some (w1, IQRF_PGM_END_OF_FILE)
      ∧ readBytes w1.IqrfPgmCodeLineBuffer 0 bytes.length = bytes
      ∧ w1.CodeFile = [] := by
  have hlen : w.CodeFile.length + 1 = (w.CodeFile.length + 1 - pre.length) + pre.length := by
    have := length_skippedLines pre
    rw [hfile, List.length_append]; omega
  obtain ⟨w1, h1, h2, h3⟩ := readIQRFLoop_prelude _ pre (w.CodeFile.length + 1 - pre.length) w
    hfile hpre
  obtain ⟨w2, g1, g2, g3⟩ := readIQRFLoop_eof up bytes (w.CodeFile.length + 1 - pre.length) w1
    0 0 h2 (by
      have := length_skippedLines pre
      rw [hfile]
      simp only [List.length_append, length_encodeHex]
      omega) hb (by omega)
  refine ⟨w2, ?_, ?_, g2⟩
  · unfold iqrfPgmReadIQRFFileLine
    rw [hlen, h1, g1]
  · rw [g3, h3]
    exact readBytes_memcpy_zero _ _ (by omega)

theorem iqrfPgmReadIQRFFileLine_end_of_stream_witness :
    ∃ w1, iqrfPgmReadIQRFFileLine
        { CodeFile := skippedLines [some [0x41, 0x42], none]
            ++ encodeHex (fun _ => true) 0 [0xAB, 0x12] }
          = some (w1, IQRF_PGM_END_OF_FILE)
      ∧ readBytes w1.IqrfPgmCodeLineBuffer 0 ([0xAB, 0x12] : List Nat).length = [0xAB, 0x12] := by
  obtain ⟨w1, h1, h2, _⟩ := iqrfPgmReadIQRFFileLine_end_of_stream
    { CodeFile := skippedLines [some [0x41, 0x42], none]
        ++ encodeHex (fun _ => true) 0 [0xAB, 0x12] }
    (fun _ => true) [some [0x41, 0x42], none] [0xAB, 0x12]
    (by intro body hb; simp at hb; subst hb; decide) (by decide) (by decide) rfl rfl
  exact ⟨w1, h1, h2⟩

/-! ## Hex lines longer than the line buffer -/

/-- The loop of `iqrfPgmReadHEXFileLine` on hex text that fills the line
buffer: the byte stored at index 31 ends the call with a format error,
whatever follows in the file. -/
theorem readHexPairs_overflow (up : Nat → Bool) (tail : List Nat) (bytes : List Nat) :
    ∀ (fuel : Nat) (w : World) (ptr crc k : Nat),
      w.CodeFile = encodeHex up k bytes ++ tail →
      ptr < 32 → 32 ≤ ptr + bytes.length → 32 ≤ ptr + fuel → (∀ b ∈ bytes, b < 256) →
      ∃ w1, readHexPairs fuel w ptr crc = some (w1, IQRF_PGM_FILE_DATA_ERROR) := by
  induction bytes with
  | nil =>
    intro fuel w ptr crc k _ hptr hlen _ _
    simp only [List.length_nil] at hlen
    omega
  | cons b bs ih =>
    intro fuel w ptr crc k hfile hptr hlen hfuel hb
    obtain ⟨f, rfl⟩ : ∃ f, fuel = f + 1 := ⟨fuel - 1, by omega⟩
    simp only [List.length_cons] at hlen
    have hb256 : b < 256 := hb b (List.mem_cons_self b bs)
    obtain ⟨hconv, hne1, hne2⟩ := convert_hexDigit (b / 16) (by omega) (b % 16) (by omega)
      (up k) (up (k + 1))
    have hbyte : 16 * (b / 16) + b % 16 = b := by omega
    rw [hbyte] at hconv
    simp only [encodeHex, List.cons_append] at hfile
    have hr1 := iqrfReadByteFromFile_cons w _ _ hfile
    have hr2 := iqrfReadByteFromFile_cons
      { w with
        CodeFile := hexDigit (up (k + 1)) (b % 16) :: (encodeHex up (k + 2) bs ++ tail)
        CodeFileInfo := { w.CodeFileInfo with
          FileByteCnt := (w.CodeFileInfo.FileByteCnt + 1) % 65536 } } _ _ rfl
    have hp : (ptr + 1) % 256 = ptr + 1 := Nat.mod_eq_of_lt (by omega)
    have hneol : ¬ (tolower (hexDigit (up k) (b / 16) % 256) = 0x0A
        ∨ tolower (hexDigit (up k) (b / 16) % 256) = 0x0D) := by
      intro h; rcases h with h | h
      · exact hne1 h
      · exact hne2 h
    simp only [readHexPairs, hr1, hr2, hneol, if_false, hconv, hp]
    by_cases hfull : ptr + 1 ≥ SIZE_OF_CODE_LINE_BUFFER
    · rw [if_pos hfull]
      exact ⟨_, rfl⟩
    · rw [if_neg hfull]
      unfold SIZE_OF_CODE_LINE_BUFFER at hfull
      exact ih f _ (ptr + 1) ((crc + b) % 256) (k + 2) rfl (by omega) (by omega) (by omega)
        (fun x hx => hb x (List.mem_cons_of_mem b hx))

/-- C16, counterexample. A line of exactly 32 pairs, all `00`, ended by CR: it
is within the capacity of the line buffer and its bytes sum to 0, yet
`iqrfPgmReadHEXFileLine` returns `IQRF_PGM_FILE_DATA_ERROR`. -/
theorem iqrfPgmReadHEXFileLine_full_line_counterexample :
    (List.replicate 32 0).length ≤ SIZE_OF_CODE_LINE_BUFFER
    ∧ (List.replicate 32 0).sum % 256 = 0
    ∧ (iqrfPgmReadHEXFileLine
        { CodeFile := hexLine (fun _ => false) (List.replicate 32 0) 0x0D }).map Prod.snd
      = some IQRF_PGM_FILE_DATA_ERROR := by
  refine ⟨by decide, by decide, ?_⟩
  decide

/-- C16, amended. Hex line acceptance: for a line `:` + k hex-digit pairs
ended by CR or LF, `iqrfPgmReadHEXFileLine` returns
`IQRF_PGM_FILE_DATA_ERROR` whenever k reaches the line-buffer capacity
(k >= 32), and for every k below it (k <= 31) it returns
`IQRF_PGM_FILE_DATA_READY` if and only if the sum of the k decoded bytes is 0
modulo 256, and `IQRF_PGM_FILE_DATA_ERROR` otherwise. -/
theorem iqrfPgmReadHEXFileLine_acceptance (w : World) (up : Nat → Bool) (eol : Nat)
    (bytes rest : List Nat) (heol : eol = 0x0D ∨ eol = 0x0A)
    (hb : ∀ b ∈ bytes, b < 256)
    (hfile : w.CodeFile = hexLine up bytes eol ++ rest) :
    ∃ w1 r, iqrfPgmReadHEXFileLine w = some (w1, r)
      ∧ (32 ≤ bytes.length → r = IQRF_PGM_FILE_DATA_ERROR)
      ∧ (bytes.length ≤ 31 →
          (r = IQRF_PGM_FILE_DATA_READY ↔ bytes.sum % 256 = 0)
          ∧ (r = IQRF_PGM_FILE_DATA_ERROR ↔ bytes.sum % 256 ≠ 0)) := by
  by_cases hlen : bytes.length ≤ 31
  · have h := iqrfPgmReadHEXFileLine_line up eol [] bytes rest w
      (by rcases heol with h | h
          · exact Or.inr h
          · exact Or.inl h)
      (by rw [hfile]; rfl) (by intro b hb; cases hb) hlen hb
    refine ⟨_, _, h, fun h32 => absurd hlen (by omega), fun _ => ?_⟩
    by_cases hs : bytes.sum % 256 = 0
    · rw [if_neg (by simpa using hs)]
      exact ⟨⟨fun _ => hs, fun _ => rfl⟩, fun h => absurd h (by decide), fun h => absurd hs h⟩
    · rw [if_pos hs]
      exact ⟨⟨fun h => absurd h (by decide), fun h => absurd h hs⟩, fun _ => hs, fun _ => rfl⟩
  · have hfile2 : w.CodeFile = [] ++ 0x3A :: (encodeHex up 0 bytes ++ ([eol] ++ rest)) := by
      rw [hfile]; simp [hexLine]
    have hstart := findStartOfLine_marker _ [] (w.CodeFile.length + 1) w hfile2
      (by simp) (by intro b hb; cases hb)
    obtain ⟨w1, h1⟩ := readHexPairs_overflow up ([eol] ++ rest) bytes SIZE_OF_CODE_LINE_BUFFER
      { w with
        CodeFile := encodeHex up 0 bytes ++ ([eol] ++ rest)
        CodeFileInfo := { w.CodeFileInfo with
          FileByteCnt := (w.CodeFileInfo.FileByteCnt + (([] : List Nat).length + 1)) % 65536 } }
      0 0 0 rfl (by decide) (by omega) (by decide) hb
    refine ⟨w1, IQRF_PGM_FILE_DATA_ERROR, ?_, fun _ => rfl, fun h => absurd h hlen⟩
    unfold iqrfPgmReadHEXFileLine
    rw [hstart]
    simp only []
    rw [if_neg (by decide)]
    exact h1

theorem iqrfPgmReadHEXFileLine_acceptance_witness :
    ∃ w1 r, iqrfPgmReadHEXFileLine
        { CodeFile := hexLine (fun _ => true) [0x02, 0xFE] 0x0A ++ [0x3A] } = some (w1, r)
      ∧ (([0x02, 0xFE] : List Nat).length ≤ 31 →
          (r = IQRF_PGM_FILE_DATA_READY ↔ ([0x02, 0xFE] : List Nat).sum % 256 = 0)
          ∧ (r = IQRF_PGM_FILE_DATA_ERROR ↔ ([0x02, 0xFE] : List Nat).sum % 256 ≠ 0)) := by
  obtain ⟨w1, r, h1, _, h3⟩ := iqrfPgmReadHEXFileLine_acceptance
    { CodeFile := hexLine (fun _ => true) [0x02, 0xFE] 0x0A ++ [0x3A] }
    (fun _ => true) 0x0A [0x02, 0xFE] [0x3A] (Or.inr rfl) (by decide) rfl
  exact ⟨w1, r, h1, h3⟩

/-! ## Records outside every memory area -/

/-- A file whose only record is a data record addressed outside the four
memory areas: the record is read, its address computed, nothing is stored,
and at the end of the file the call reports success. -/
theorem iqrfPgmPrepareMemBlock_outside (w : World) (up : Nat → Bool) (eol addr : Nat)
    (data rest : List Nat)
    (heol : eol = 0x0D ∨ eol = 0x0A)
    (haddr : addr < 65536) (hn : data.length + 5 ≤ 31) (hb : ∀ d ∈ data, d < 256)
    (h1 : ¬ inSerial (recordAddress w.PrepareMemBlock.HiAddress (dataRecord addr data)))
    (h2 : ¬ inMainFlash (recordAddress w.PrepareMemBlock.HiAddress (dataRecord addr data)))
    (h3 : ¬ inLicencedFlash (recordAddress w.PrepareMemBlock.HiAddress (dataRecord addr data)))
    (h4 : ¬ inEeprom (recordAddress w.PrepareMemBlock.HiAddress (dataRecord addr data)))
    (hfile : w.CodeFile = hexLine up (dataRecord addr data) eol ++ rest)
    (hrest : ∀ b ∈ rest, b % 256 ≠ 0 ∧ b % 256 ≠ 0x3A)
    (hst : w.IqrfControl.Status = IQRF_READY)
    (hov : w.PrepareMemBlock.DataOverflow = 0)
    (hdib : w.PrepareMemBlock.DataInBufferReady = 0)
    (hlb : w.IqrfPgmCodeLineBuffer.length = 32) :
    ∃ w3, iqrfPgmPrepareMemBlock w = some (w3, IQRF_PGM_SUCCESS)
      ∧ w3.PrepareMemBlock.MemoryBlock = erasedMemoryBlock
      ∧ w3.PrepareMemBlock.Address
          = recordAddress w.PrepareMemBlock.HiAddress (dataRecord addr data)
      ∧ w3.CodeFile = [] := by
  obtain ⟨rec, hrec⟩ : ∃ rec, rec = dataRecord addr data := ⟨_, rfl⟩
  obtain ⟨f1, -, f3, f4, f5⟩ := record_facts addr data hn haddr hb
  rw [← hrec] at h1 h2 h3 h4 hfile f1 f3 f4 f5 ⊢
  have hfile1 : w.CodeFile = [] ++ hexLine up rec eol ++ rest := by rw [hfile]; rfl
  unfold iqrfPgmPrepareMemBlock
  rw [if_pos hov]
  simp only []
  obtain ⟨wA, hfA, hwA⟩ : ∃ wA, fetchLine _ = some (wA, none) ∧ wA = _ :=
    ⟨_, fetchLine_line up eol [] rec rest { w with PrepareMemBlock :=
        { w.PrepareMemBlock with MemoryBlock := erasedMemoryBlock, MemoryBlockNumber := 0 } }
      (by rcases heol with h | h
          · exact Or.inr h
          · exact Or.inl h)
      hdib hst hfile1 (by simp) (by omega) f4 f5, rfl⟩
  have hadr : recordAddress w.PrepareMemBlock.HiAddress (memcpy w.IqrfPgmCodeLineBuffer 0 rec)
      = recordAddress w.PrepareMemBlock.HiAddress rec :=
    recordAddress_line _ _ _ (by omega) (by omega)
  have hpA := processLine_outside wA
    (recordAddress w.PrepareMemBlock.HiAddress (memcpy w.IqrfPgmCodeLineBuffer 0 rec))
    (by rw [hwA]
        show (memcpy w.IqrfPgmCodeLineBuffer 0 rec).getD 3 0 = 0
        rw [getD_memcpy_zero _ _ 3 (by omega) (by omega)]; exact f3)
    (by rw [hwA]; exact hov)
    (by rw [hwA]; rfl)
    (by rw [hadr]; exact h1) (by rw [hadr]; exact h2) (by rw [hadr]; exact h3)
    (by rw [hadr]; exact h4)
  rw [show w.CodeFile.length + 2 = (w.CodeFile.length + 1) + 1 from rfl,
    prepareLoop_continue _ _ _ _ hfA hpA]
  obtain ⟨wC, hfC, hwC⟩ : ∃ wC, fetchLine
      { wA with PrepareMemBlock := { wA.PrepareMemBlock with
          Address := recordAddress w.PrepareMemBlock.HiAddress
            (memcpy w.IqrfPgmCodeLineBuffer 0 rec)
          DataInBufferReady := 0 } }
        = some (wC, some IQRF_PGM_SUCCESS) ∧ wC = _ :=
    ⟨_, by
      rw [fetchLine_eof rest
        { wA with PrepareMemBlock := { wA.PrepareMemBlock with
            Address := recordAddress w.PrepareMemBlock.HiAddress
              (memcpy w.IqrfPgmCodeLineBuffer 0 rec)
            DataInBufferReady := 0 } }
        rfl (by rw [hwA]; exact hst) (by rw [hwA])
        (by rw [hwA]; exact Nat.mod_lt _ (by decide)) hrest]
      simp only []
      rw [if_neg (by rw [hwA]; exact fun h => h rfl), if_neg (by rw [hwA]; exact fun h => h hov)],
      rfl⟩
  refine ⟨wC, prepareLoop_fetch_return _ _ _ _ hfC, ?_, ?_, ?_⟩
  · rw [hwC, hwA]
  · rw [hwC, hwA]; exact hadr
  · rw [hwC]

/-- C17, counterexample. The file holds one data record, 2 bytes for byte
address 0 (word address 0, in none of the four areas):
`iqrfPgmPrepareMemBlock` returns `IQRF_PGM_SUCCESS`, not `IQRF_PGM_ERROR`. -/
theorem iqrfPgmPrepareMemBlock_outside_counterexample :
    (dataRecord 0 [1, 2]).getD 3 0 = 0
    ∧ recordAddress 0 (dataRecord 0 [1, 2]) = 0
    ∧ ¬ inSerial 0 ∧ ¬ inMainFlash 0 ∧ ¬ inLicencedFlash 0 ∧ ¬ inEeprom 0
    ∧ (iqrfPgmPrepareMemBlock
        { CodeFile := hexLine (fun _ => true) (dataRecord 0 [1, 2]) 0x0D ++ [0x0A] }).map
        Prod.snd = some IQRF_PGM_SUCCESS := by
  refine ⟨by decide, by decide, by decide, by decide, by decide, by decide, ?_⟩
  obtain ⟨w3, h, -⟩ := iqrfPgmPrepareMemBlock_outside
    { CodeFile := hexLine (fun _ => true) (dataRecord 0 [1, 2]) 0x0D ++ [0x0A] }
    (fun _ => true) 0x0D 0 [1, 2] [0x0A] (Or.inl rfl) (by decide) (by decide) (by decide)
    (by decide) (by decide) (by decide) (by decide) rfl (by decide) rfl rfl rfl rfl
  rw [h]; rfl

/-- C17, amended. Address out of range: a data record (type 0) whose computed
word address lies in none of the four known regions (serial memory
0x0200..0x09FF, licensed flash 0x2C00..0x37FF, main flash 0x3A00..0x3FFF,
internal EEPROM 0xF000..0xF0FF) is passed over by `iqrfPgmPrepareMemBlock`
without an error: the address is computed, nothing is stored in the page
image, and the function continues with the next line; when no other record
follows, it returns `IQRF_PGM_SUCCESS`. -/
theorem iqrfPgmPrepareMemBlock_address_outside (w : World) (up : Nat → Bool) (eol addr : Nat)
    (data rest : List Nat)
    (heol : eol = 0x0D ∨ eol = 0x0A)
    (haddr : addr < 65536) (hn : data.length + 5 ≤ 31) (hb : ∀ d ∈ data, d < 256)
    (h1 : ¬ inSerial (recordAddress w.PrepareMemBlock.HiAddress (dataRecord addr data)))
    (h2 : ¬ inMainFlash (recordAddress w.PrepareMemBlock.HiAddress (dataRecord addr data)))
    (h3 : ¬ inLicencedFlash (recordAddress w.PrepareMemBlock.HiAddress (dataRecord addr data)))
    (h4 : ¬ inEeprom (recordAddress w.PrepareMemBlock.HiAddress (dataRecord addr data)))
    (hfile : w.CodeFile = hexLine up (dataRecord addr data) eol ++ rest)
    (hrest : ∀ b ∈ rest, b % 256 ≠ 0 ∧ b % 256 ≠ 0x3A)
    (hst : w.IqrfControl.Status = IQRF_READY)
    (hov : w.PrepareMemBlock.DataOverflow = 0)
    (hdib : w.PrepareMemBlock.DataInBufferReady = 0)
    (hlb : w.IqrfPgmCodeLineBuffer.length = 32) :
    (∀ v : World, v.IqrfPgmCodeLineBuffer = memcpy w.IqrfPgmCodeLineBuffer 0 (dataRecord addr data) →
        v.PrepareMemBlock.HiAddress = w.PrepareMemBlock.HiAddress →
        v.PrepareMemBlock.DataOverflow = 0 →
        processLine v = ({ v with PrepareMemBlock := { v.PrepareMemBlock with
          Address := recordAddress w.PrepareMemBlock.HiAddress (dataRecord addr data) } }, none))
    ∧ ∃ w3, iqrfPgmPrepareMemBlock w = some (w3, IQRF_PGM_SUCCESS)
      ∧ w3.PrepareMemBlock.MemoryBlock = erasedMemoryBlock
      ∧ w3.PrepareMemBlock.Address
          = recordAddress w.PrepareMemBlock.HiAddress (dataRecord addr data)
      ∧ w3.CodeFile = [] := by
  refine ⟨?_, iqrfPgmPrepareMemBlock_outside w up eol addr data rest heol haddr hn hb h1 h2 h3 h4
    hfile hrest hst hov hdib hlb⟩
  intro v hv hhi hvo
  obtain ⟨f1, -, f3, -, -⟩ := record_facts addr data hn haddr hb
  have hadr : recordAddress w.PrepareMemBlock.HiAddress
      (memcpy w.IqrfPgmCodeLineBuffer 0 (dataRecord addr data))
      = recordAddress w.PrepareMemBlock.HiAddress (dataRecord addr data) :=
    recordAddress_line _ _ _ (by omega) (by omega)
  rw [← hadr]
  exact processLine_outside v _
    (by rw [hv, getD_memcpy_zero _ _ 3 (by omega) (by omega)]; exact f3)
    hvo (by rw [hv, hhi]; rfl)
    (by rw [hadr]; exact h1) (by rw [hadr]; exact h2) (by rw [hadr]; exact h3)
    (by rw [hadr]; exact h4)

theorem iqrfPgmPrepareMemBlock_address_outside_witness :
    ∃ w3, iqrfPgmPrepareMemBlock
        { CodeFile := hexLine (fun _ => false) (dataRecord 0x7000 [0xAB, 0xCD]) 0x0A ++ [0x0D] }
          = some (w3, IQRF_PGM_SUCCESS)
      ∧ w3.PrepareMemBlock.MemoryBlock = erasedMemoryBlock
      ∧ w3.PrepareMemBlock.Address = 0x3800 := by
  obtain ⟨w3, h, hm, ha, -⟩ := (iqrfPgmPrepareMemBlock_address_outside
    { CodeFile := hexLine (fun _ => false) (dataRecord 0x7000 [0xAB, 0xCD]) 0x0A ++ [0x0D] }
    (fun _ => false) 0x0A 0x7000 [0xAB, 0xCD] [0x0D] (Or.inr rfl) (by decide) (by decide)
    (by decide) (by decide) (by decide) (by decide) (by decide) rfl (by decide) rfl rfl rfl
    rfl).2
  exact ⟨w3, h, hm, ha.trans (by decide)⟩

/-! ## The progress value -/

/-- A return of `iqrfPgmCheckCodeFile` that leaves the state machine out of
its initial state comes from the final `return`: the progress value. -/
theorem iqrfPgmCheckCodeFile_progress (w w1 : World) (r : Nat)
    (h : iqrfPgmCheckCodeFile w = some (w1, r))
    (hn : w1.CheckCodeTaskSM ≠ CheckCodeTask.INIT_TASK) : r = progressPercent w1 := by
  unfold iqrfPgmCheckCodeFile at h
  split at h
  · rename_i hsm
    try simp only [] at h
    split_ifs at h
    all_goals
      simp only [Option.some.injEq, Prod.mk.injEq] at h
      obtain ⟨h1, h2⟩ := h
      subst h1
      first
        | exact h2.symm
        | exact absurd hsm hn
  · split at h
    · exact absurd h (by simp)
    · split at h
      · exact absurd h (by simp)
      · try simp only [] at h
        split_ifs at h
        all_goals
          simp only [Option.some.injEq, Prod.mk.injEq] at h
          obtain ⟨h1, h2⟩ := h
          subst h1
          first
            | exact h2.symm
            | exact absurd rfl hn
  · split at h
    · exact absurd h (by simp)
    · try simp only [] at h
      split_ifs at h
      all_goals
        simp only [Option.some.injEq, Prod.mk.injEq] at h
        obtain ⟨h1, h2⟩ := h
        subst h1
        first
          | exact h2.symm
          | exact absurd rfl hn

/-- A return of `iqrfPgmWriteCodeFile` that leaves the state machine out of
its initial state comes from the final `return`: the progress value. -/
theorem iqrfPgmWriteCodeFile_progress (w w1 : World) (r : Nat)
    (h : iqrfPgmWriteCodeFile w = some (w1, r))
    (hn : w1.WriteCode.WriteCodeTaskSM ≠ WriteCodeTask.INIT_TASK) : r = progressPercent w1 := by
  unfold iqrfPgmWriteCodeFile at h
  split at h
  · simp only [Option.some.injEq, Prod.mk.injEq] at h
    obtain ⟨h1, h2⟩ := h
    subst h1
    exact h2.symm
  · split at h
    · exact absurd h (by simp)
    · simp only [Option.some.injEq, Prod.mk.injEq] at h
      obtain ⟨h1, h2⟩ := h
      subst h1
      exact h2.symm
  · simp only [Option.some.injEq, Prod.mk.injEq] at h
    obtain ⟨h1, h2⟩ := h
    subst h1
    exact h2.symm
  · split at h
    · exact absurd h (by simp)
    · simp only [Option.some.injEq, Prod.mk.injEq] at h
      obtain ⟨h1, h2⟩ := h
      subst h1
      exact h2.symm
  · split at h
    · exact absurd h (by simp)
    · simp only [Option.some.injEq, Prod.mk.injEq] at h
      obtain ⟨h1, h2⟩ := h
      subst h1
      exact h2.symm
  · simp only [Option.some.injEq, Prod.mk.injEq] at h
    obtain ⟨h1, h2⟩ := h
    subst h1
    exact h2.symm
  · split_ifs at h
    all_goals
      simp only [Option.some.injEq, Prod.mk.injEq] at h
      obtain ⟨h1, h2⟩ := h
      subst h1
      first
        | exact h2.symm
        | exact absurd rfl hn

theorem progressPercent_eq (w : World) (hcnt : w.CodeFileInfo.FileByteCnt < 65536) :
    progressPercent w = (w.CodeFileInfo.FileByteCnt * 100 / w.CodeFileInfo.FileSize) % 256 := by
  unfold progressPercent
  have h : w.CodeFileInfo.FileByteCnt * 100 % 4294967296 = w.CodeFileInfo.FileByteCnt * 100 :=
    Nat.mod_eq_of_lt (by omega)
  rw [h]

theorem progressPercent_le (w : World)
    (hle : w.CodeFileInfo.FileByteCnt ≤ w.CodeFileInfo.FileSize)
    (hcnt : w.CodeFileInfo.FileByteCnt < 65536) :
    progressPercent w = w.CodeFileInfo.FileByteCnt * 100 / w.CodeFileInfo.FileSize
    ∧ progressPercent w ≤ 100 := by
  have h100 : w.CodeFileInfo.FileByteCnt * 100 / w.CodeFileInfo.FileSize ≤ 100 := by
    apply Nat.div_le_of_le_mul
    nlinarith
  rw [progressPercent_eq w hcnt, Nat.mod_eq_of_lt (by omega)]
  exact ⟨rfl, h100⟩

/-- C18, counterexample. With `FileSize = 1` declared and 3 bytes (resp. 2
bytes) counted, a call of `iqrfPgmWriteCodeFile` that waits in
`WAIT_PROG_END` for the module returns 44 (resp. 200, the value of
`IQRF_PGM_SUCCESS`), not the quotient 300 (resp. a value that is no result
code): the return type `uint8_t` cuts the quotient. -/
theorem progress_percentage_counterexample :
    iqrfPgmWriteCodeFile
        { WriteCode := { WriteCodeTaskSM := WriteCodeTask.WAIT_PROG_END },
          CodeFileInfo := { FileByteCnt := 3, FileSize := 1 } }
      = some ({ WriteCode := { WriteCodeTaskSM := WriteCodeTask.WAIT_PROG_END },
                CodeFileInfo := { FileByteCnt := 3, FileSize := 1 } }, 44)
    ∧ (3 * 100 / 1 : Nat) = 300
    ∧ iqrfPgmWriteCodeFile
        { WriteCode := { WriteCodeTaskSM := WriteCodeTask.WAIT_PROG_END },
          CodeFileInfo := { FileByteCnt := 2, FileSize := 1 } }
      = some ({ WriteCode := { WriteCodeTaskSM := WriteCodeTask.WAIT_PROG_END },
                CodeFileInfo := { FileByteCnt := 2, FileSize := 1 } }, IQRF_PGM_SUCCESS) := by
  decide

/-- C18, amended. Progress percentage: every non-terminal return value of
`iqrfPgmCheckCodeFile` and `iqrfPgmWriteCodeFile` (a return that does not
put the state machine back to `INIT_TASK`) equals
`floor(FileByteCnt * 100 / FileSize)` reduced modulo 256, the function
returning `uint8_t`; the product is computed without overflow; under
`0 < FileSize` and `FileByteCnt <= FileSize` the value equals the quotient
itself, lies in 0..100 and therefore never equals a result code (200, 220,
221, 222). `FileByteCnt` and `FileSize` are the values at the return. -/
theorem progress_percentage (w w1 : World) (r : Nat)
    (hcall : (iqrfPgmCheckCodeFile w = some (w1, r)
        ∧ w1.CheckCodeTaskSM ≠ CheckCodeTask.INIT_TASK)
      ∨ (iqrfPgmWriteCodeFile w = some (w1, r)
        ∧ w1.WriteCode.WriteCodeTaskSM ≠ WriteCodeTask.INIT_TASK))
    (hcnt : w1.CodeFileInfo.FileByteCnt < 65536) :
    r = (w1.CodeFileInfo.FileByteCnt * 100 / w1.CodeFileInfo.FileSize) % 256
    ∧ w1.CodeFileInfo.FileByteCnt * 100 < 4294967296
    ∧ (0 < w1.CodeFileInfo.FileSize → w1.CodeFileInfo.FileByteCnt ≤ w1.CodeFileInfo.FileSize →
        r = w1.CodeFileInfo.FileByteCnt * 100 / w1.CodeFileInfo.FileSize
        ∧ r ≤ 100
        ∧ r ≠ IQRF_PGM_SUCCESS ∧ r ≠ IQRF_PGM_FLASH_BLOCK_READY
        ∧ r ≠ IQRF_PGM_EEPROM_BLOCK_READY ∧ r ≠ IQRF_PGM_ERROR) := by
  have hr : r = progressPercent w1 := by
    rcases hcall with ⟨h, hn⟩ | ⟨h, hn⟩
    · exact iqrfPgmCheckCodeFile_progress w w1 r h hn
    · exact iqrfPgmWriteCodeFile_progress w w1 r h hn
  refine ⟨by rw [hr]; exact progressPercent_eq w1 hcnt, by omega, ?_⟩
  intro _ hle
  obtain ⟨h1, h2⟩ := progressPercent_le w1 hle hcnt
  rw [← hr] at h1 h2
  unfold IQRF_PGM_SUCCESS IQRF_PGM_FLASH_BLOCK_READY IQRF_PGM_EEPROM_BLOCK_READY IQRF_PGM_ERROR
  exact ⟨h1, h2, by omega, by omega, by omega, by omega⟩

theorem progress_percentage_witness :
    iqrfPgmWriteCodeFile
        { WriteCode := { WriteCodeTaskSM := WriteCodeTask.WAIT_PROG_END },
          CodeFileInfo := { FileByteCnt := 29, FileSize := 58 } }
      = some ({ WriteCode := { WriteCodeTaskSM := WriteCodeTask.WAIT_PROG_END },
                CodeFileInfo := { FileByteCnt := 29, FileSize := 58 } }, 50)
    ∧ (50 : Nat) = (29 * 100 / 58) % 256
    ∧ ((0 : Nat) < 58 → (29 : Nat) ≤ 58 → (50 : Nat) = 29 * 100 / 58 ∧ (50 : Nat) ≤ 100
        ∧ (50 : Nat) ≠ IQRF_PGM_SUCCESS ∧ (50 : Nat) ≠ IQRF_PGM_FLASH_BLOCK_READY
        ∧ (50 : Nat) ≠ IQRF_PGM_EEPROM_BLOCK_READY ∧ (50 : Nat) ≠ IQRF_PGM_ERROR) :=
  ⟨by decide,
   (progress_percentage
      { WriteCode := { WriteCodeTaskSM := WriteCodeTask.WAIT_PROG_END },
        CodeFileInfo := { FileByteCnt := 29, FileSize := 58 } }
      { WriteCode := { WriteCodeTaskSM := WriteCodeTask.WAIT_PROG_END },
        CodeFileInfo := { FileByteCnt := 29, FileSize := 58 } } 50
      (Or.inr ⟨by decide, by decide⟩) (by decide)).1,
   (progress_percentage
      { WriteCode := { WriteCodeTaskSM := WriteCodeTask.WAIT_PROG_END },
        CodeFileInfo := { FileByteCnt := 29, FileSize := 58 } }
      { WriteCode := { WriteCodeTaskSM := WriteCodeTask.WAIT_PROG_END },
        CodeFileInfo := { FileByteCnt := 29, FileSize := 58 } } 50
      (Or.inr ⟨by decide, by decide⟩) (by decide)).2.2⟩

/-! ## The read the status starts -/

theorem startRead_frame : ∀ D, D ≤ 64 →
    readBytes ((((List.replicate 68 0).set 0 SPI_WR_RD).set 1 D).set (D + 2)
      (iqrfCrcCalculate (((List.replicate 68 0).set 0 SPI_WR_RD).set 1 D) D)) 0 (D + 4)
      = [SPI_WR_RD, D] ++ List.replicate D 0 ++ [0x5F ^^^ SPI_WR_RD ^^^ D, 0] := by
  decide

theorem readLength_bounds : ∀ s, s < 256 → s &&& 0xC0 = 0x40 →
    1 ≤ (if s = 0x40 then 64 else s &&& 0x3F) ∧ (if s = 0x40 then 64 else s &&& 0x3F) ≤ 64 := by
  intro s hs
  interval_cases s <;> decide

/-- The status poll when the module reports data ready. -/
theorem statusPoll_dataReady (w : World) (s : Nat) (hs : s < 256) (hst : s &&& 0xC0 = 0x40) :
    statusPoll w s =
      { w with
        IqrfSpiControl := { w.IqrfSpiControl with
          PacketTxBuffer := (((List.replicate 68 0).set 0 SPI_WR_RD).set 1
              (if s = 0x40 then 64 else s &&& 0x3F)).set
            ((if s = 0x40 then 64 else s &&& 0x3F) + 2)
            (iqrfCrcCalculate (((List.replicate 68 0).set 0 SPI_WR_RD).set 1
              (if s = 0x40 then 64 else s &&& 0x3F)) (if s = 0x40 then 64 else s &&& 0x3F))
          DLEN := if s = 0x40 then 64 else s &&& 0x3F
          PTYPE := if s = 0x40 then 64 else s &&& 0x3F
          PacketLen := (if s = 0x40 then 64 else s &&& 0x3F) + 4
          PacketCnt := 0
          PacketRpt := 1
          SpiStat := SPI_DATA_TRANSFER }
        IqrfControl := { w.IqrfControl with Status := IQRF_READ, TRmoduleSelected := false }
        trace := w.trace ++ ((if w.IqrfControl.TRmoduleSelected then [] else [Event.select])
          ++ [Event.transfer SPI_CHECK s]
          ++ (if w.IqrfControl.FastSPI then [] else [Event.deselect]) ++ [Event.deselect]) } := by
  have hm : s % 256 = s := Nat.mod_eq_of_lt hs
  have hlen : ((if s = 0x40 then 64 else s &&& 0x3F) + 4) % 256
      = (if s = 0x40 then 64 else s &&& 0x3F) + 4 := by
    have := (readLength_bounds s hs hst).2
    omega
  unfold statusPoll
  rw [iqrfSendSpiByte_eq]
  simp only [hm, iqrfDeselectTRmodule, hst, if_true, startRead, hlen, List.append_assoc]

theorem startWrite_status (w : World) :
    (startWrite w).IqrfControl.Status = IQRF_READ ↔
      (w.IqrfPacket.SpiCmd = SPI_MODULE_INFO
        ∧ (w.IqrfPacket.DataLength = 16 ∨ w.IqrfPacket.DataLength = 32)) := by
  unfold startWrite
  simp only []
  by_cases h : w.IqrfPacket.SpiCmd = SPI_MODULE_INFO
      ∧ (w.IqrfPacket.DataLength = 16 ∨ w.IqrfPacket.DataLength = 32)
  · rw [decide_eq_true h]
    exact ⟨fun _ => h, fun _ => rfl⟩
  · rw [decide_eq_false h]
    exact ⟨fun h2 => absurd h2 (by decide), fun h2 => absurd h2 h⟩

/-- C19, counterexample. An idle poll returns the status 0x80 (communication
mode, no data ready) while the mailbox holds a module-information request of
16 bytes: the library status becomes `IQRF_READ`, a read exchange starts,
although `(0x80 AND 0xC0) = 0x40` does not hold. -/
theorem iqrfSpiDriver_read_counterexample :
    ({ IqrfPacket := { BufferFlag := IQRF_BUFFER_BUSY, SpiCmd := SPI_MODULE_INFO,
                       DataBuffer := BufPtr.user [], DataLength := 16 } } : World).IqrfControl.Status
      = IQRF_READY
    ∧ (0x80 : Nat) &&& 0xC0 ≠ 0x40
    ∧ (iqrfSpiDriver
        { IqrfPacket := { BufferFlag := IQRF_BUFFER_BUSY, SpiCmd := SPI_MODULE_INFO,
                          DataBuffer := BufPtr.user [], DataLength := 16 } }
        0x80).IqrfControl.Status = IQRF_READ
    ∧ (iqrfSpiDriver
        { IqrfPacket := { BufferFlag := IQRF_BUFFER_BUSY, SpiCmd := SPI_MODULE_INFO,
                          DataBuffer := BufPtr.user [], DataLength := 16 } }
        0x80).IqrfSpiControl.PacketTxBuffer.getD 0 0 = SPI_MODULE_INFO := by
  decide

/-- C19, amended. Autonomous read sizing: on an idle poll (`iqrfSpiDriver`
called with the library status `IQRF_READY`) that returns the status `s`, the
library status becomes `IQRF_READ`, a read exchange starts, exactly when
`(s AND 0xC0) = 0x40` or, failing that, the mailbox holds a
`SPI_MODULE_INFO` request of length 16 or 32. When `(s AND 0xC0) = 0x40`, the
read length `DLEN` is 64 for `s = 0x40` and `(s AND 0x3F)` otherwise, so
`1 <= DLEN <= 64`; the outbound frame is `[SPI_WR_RD, DLEN, DLEN zero bytes,
checksum]` (the checksum is `0x5F xor SPI_WR_RD xor DLEN`; one zero byte
follows), `PacketLen = DLEN + 4`, the exchange starts at byte 0 with one
attempt, the mailbox is left alone and the library status becomes
`IQRF_READ`. -/
theorem iqrfSpiDriver_read_sizing (w : World) (s D : Nat) (hs : s < 256)
    (hready : w.IqrfControl.Status = IQRF_READY)
    (hD : D = if s = 0x40 then 64 else s &&& 0x3F) :
    ((iqrfSpiDriver w s).IqrfControl.Status = IQRF_READ ↔
      (s &&& 0xC0 = 0x40
        ∨ (w.IqrfPacket.BufferFlag = IQRF_BUFFER_BUSY ∧ w.IqrfPacket.SpiCmd = SPI_MODULE_INFO
            ∧ (w.IqrfPacket.DataLength = 16 ∨ w.IqrfPacket.DataLength = 32))))
    ∧ (s &&& 0xC0 = 0x40 →
        1 ≤ D ∧ D ≤ 64
        ∧ (iqrfSpiDriver w s).IqrfSpiControl.DLEN = D
        ∧ readBytes (iqrfSpiDriver w s).IqrfSpiControl.PacketTxBuffer 0 (D + 4)
            = [SPI_WR_RD, D] ++ List.replicate D 0 ++ [0x5F ^^^ SPI_WR_RD ^^^ D, 0]
        ∧ (iqrfSpiDriver w s).IqrfSpiControl.PacketLen = D + 4
        ∧ (iqrfSpiDriver w s).IqrfSpiControl.PacketCnt = 0
        ∧ (iqrfSpiDriver w s).IqrfSpiControl.PacketRpt = 1
        ∧ (iqrfSpiDriver w s).IqrfPacket = w.IqrfPacket
        ∧ (iqrfSpiDriver w s).IqrfControl.Status = IQRF_READ) := by
  have hm : s % 256 = s := Nat.mod_eq_of_lt hs
  have hidle : iqrfSpiDriver w s = statusPoll w s := by
    unfold iqrfSpiDriver
    rw [if_neg (by simpa using hready)]
  rw [hidle]
  by_cases hst : s &&& 0xC0 = 0x40
  · obtain ⟨b1, b2⟩ := readLength_bounds s hs hst
    rw [← hD] at b1 b2
    have hp := statusPoll_dataReady w s hs hst
    rw [← hD] at hp
    rw [hp]
    refine ⟨⟨fun _ => Or.inl hst, fun _ => rfl⟩, fun _ => ?_⟩
    exact ⟨b1, b2, rfl, startRead_frame D b2, rfl, rfl, rfl, rfl, rfl⟩
  · refine ⟨?_, fun h => absurd h hst⟩
    by_cases hbusy : w.IqrfPacket.BufferFlag = IQRF_BUFFER_BUSY
    · rw [statusPoll_busy w s (by rw [hm]; exact hst) hbusy, startWrite_status]
      rw [iqrfSendSpiByte_eq]
      constructor
      · intro h; exact Or.inr ⟨hbusy, h⟩
      · intro h
        rcases h with h | h
        · exact absurd h hst
        · exact h.2
    · rw [statusPoll_idle w s (by rw [hm]; exact hst) hbusy]
      constructor
      · intro h
        have h2 : w.IqrfControl.Status = IQRF_READ := h
        rw [hready] at h2
        exact absurd h2 (by decide)
      · intro h
        rcases h with h | h
        · exact absurd h hst
        · exact absurd h.1 hbusy

theorem iqrfSpiDriver_read_sizing_witness :
    (0x45 : Nat) &&& 0xC0 = 0x40
    ∧ (iqrfSpiDriver {} 0x45).IqrfSpiControl.DLEN = 5
    ∧ readBytes (iqrfSpiDriver {} 0x45).IqrfSpiControl.PacketTxBuffer 0 (5 + 4)
        = [SPI_WR_RD, 5] ++ List.replicate 5 0 ++ [0x5F ^^^ SPI_WR_RD ^^^ 5, 0]
    ∧ (iqrfSpiDriver {} 0x45).IqrfControl.Status = IQRF_READ :=
  ⟨by decide,
   ((iqrfSpiDriver_read_sizing {} 0x45 5 (by decide) rfl (by decide)).2 (by decide)).2.2.1,
   ((iqrfSpiDriver_read_sizing {} 0x45 5 (by decide) rfl (by decide)).2 (by decide)).2.2.2.1,
   ((iqrfSpiDriver_read_sizing {} 0x45 5 (by decide) rfl (by decide)).2
      (by decide)).2.2.2.2.2.2.2.2⟩

/-! ## The outcome of the read the status starts -/

theorem rxCalls_append (a b : List Event) : rxCalls (a ++ b) = rxCalls a ++ rxCalls b := by
  induction a with
  | nil => rfl
  | cons e es ih => cases e <;> simp [rxCalls, ih]

theorem rxCalls_step (t : List Event) (sel fast : Bool) (tx rx : Nat) :
    rxCalls (t ++ ((if sel then [] else [Event.select]) ++ [Event.transfer tx rx]
        ++ (if fast then [] else [Event.deselect]))) = rxCalls t := by
  rw [rxCalls_append]
  cases sel <;> cases fast <;> simp [rxCalls]

/-- The bytes of an exchange before its last one: the receive handler is not
called and the exchange stays in flight. -/
theorem ticks_partial_quiet (bytes : List Nat) : ∀ (w : World),
    w.IqrfControl.SuspendFlag = false →
    (w.IqrfControl.Status = IQRF_WRITE ∨ w.IqrfControl.Status = IQRF_READ) →
    w.IqrfSpiControl.PacketCnt + bytes.length < w.IqrfSpiControl.PacketLen →
    w.IqrfSpiControl.PacketLen ≤ 68 →
    rxCalls (ticks w bytes).trace = rxCalls w.trace
    ∧ (ticks w bytes).IqrfControl.Status = w.IqrfControl.Status := by
  induction bytes with
  | nil => intro w _ _ _ _; exact ⟨rfl, rfl⟩
  | cons b bs ih =>
    intro w hs hst hcnt hlen
    simp only [List.length_cons] at hcnt
    have hstep := iqrfDriver_mid w b hs hst (by omega) hlen
    have hticks : ticks w (b :: bs) = ticks (iqrfDriver w b) bs := rfl
    obtain ⟨h1, h2⟩ := ih (iqrfDriver w b) (by rw [hstep]; exact hs)
      (by rw [hstep]; exact hst)
      (by rw [hstep]; show w.IqrfSpiControl.PacketCnt + 1 + bs.length < w.IqrfSpiControl.PacketLen
          omega)
      (by rw [hstep]; exact hlen)
    rw [hticks, h1, h2, hstep]
    exact ⟨rxCalls_step w.trace _ _ _ _, rfl⟩

/-- The end of a read exchange on its only attempt: the device is
deselected, the handler is called when the frame validates, and the library
is ready again either way. -/
theorem completeFrame_read (v : World) (hst : v.IqrfControl.Status = IQRF_READ)
    (hrpt : v.IqrfSpiControl.PacketRpt = 1) :
    (completeFrame v).IqrfControl.Status = IQRF_READY
    ∧ (completeFrame v).trace = v.trace ++ [Event.deselect] ++
        (if frameValid v then
          [Event.rxHandler v.IqrfControl.IqrfRxHandler
            (readBytes v.IqrfSpiControl.PacketRxBuffer 2 v.IqrfSpiControl.DLEN)
            v.IqrfSpiControl.DLEN]
         else []) := by
  have hv : frameValid (iqrfDeselectTRmodule v) = frameValid v := rfl
  unfold completeFrame
  simp only [hv]
  by_cases h : frameValid v = true
  · rw [if_pos h, if_pos h]
    refine ⟨rfl, ?_⟩
    rw [frameAccepted_trace, if_pos (show (iqrfDeselectTRmodule v).IqrfControl.Status = IQRF_READ
      from hst)]
    rfl
  · rw [if_neg h, if_neg h, List.append_nil]
    refine ⟨?_, frameRejected_trace _⟩
    unfold frameRejected
    have hr : ((iqrfDeselectTRmodule v).IqrfSpiControl.PacketRpt + 255) % 256 = 0 := by
      show (v.IqrfSpiControl.PacketRpt + 255) % 256 = 0
      rw [hrpt]
    simp only [hr, ne_eq, not_true_eq_false, if_false]

/-- One whole read exchange on its only attempt, `f` the bytes the module
returns: `DLEN + 4` transfers, the handler called once with the payload when
the frame validates and not at all otherwise, the library ready at the end. -/
theorem ticks_frame_read (w : World) (f : List Nat)
    (hs : w.IqrfControl.SuspendFlag = false) (hst : w.IqrfControl.Status = IQRF_READ)
    (hcnt : w.IqrfSpiControl.PacketCnt = 0)
    (hlen : w.IqrfSpiControl.PacketLen = w.IqrfSpiControl.DLEN + 4)
    (hd : w.IqrfSpiControl.DLEN ≤ 64) (hrx : w.IqrfSpiControl.PacketRxBuffer.length = 68)
    (hrpt : w.IqrfSpiControl.PacketRpt = 1)
    (hf : f.length = w.IqrfSpiControl.DLEN + 4) (hb : ∀ b ∈ f, b < 256) :
    (ticks w f).IqrfControl.Status = IQRF_READY
    ∧ transfers (ticks w f).trace = transfers w.trace ++
        (readBytes w.IqrfSpiControl.PacketTxBuffer 0 (w.IqrfSpiControl.DLEN + 4)).zip f
    ∧ rxCalls (ticks w f).trace = rxCalls w.trace ++
        (if inboundValid w.IqrfSpiControl.DLEN w.IqrfSpiControl.PTYPE f then
          [(w.IqrfControl.IqrfRxHandler, readBytes f 2 w.IqrfSpiControl.DLEN,
            w.IqrfSpiControl.DLEN)]
         else []) := by
  rcases List.eq_nil_or_concat f with h | ⟨init, l, h⟩
  · subst h; simp at hf
  rw [List.concat_eq_append] at h
  subst h
  have hinit : init.length = w.IqrfSpiControl.DLEN + 3 := by
    simp only [List.length_append, List.length_singleton] at hf; omega
  have hbi : ∀ b ∈ init, b < 256 := fun b hb1 => hb b (List.mem_append_left _ hb1)
  have hl : l % 256 = l := Nat.mod_eq_of_lt (hb l (by simp))
  obtain ⟨sel, tc, X, h1, h2, -⟩ := ticks_partial init w hs (Or.inr hst)
    (by rw [hcnt, hlen, hinit]; omega) (by rw [hlen]; omega)
  obtain ⟨q1, -⟩ := ticks_partial_quiet init w hs (Or.inr hst)
    (by rw [hcnt, hlen, hinit]; omega) (by rw [hlen]; omega)
  rw [map_mod_of_lt init hbi, hcnt] at h1 h2
  obtain ⟨u, hu⟩ : ∃ u, u = ticks w init := ⟨_, rfl⟩
  rw [← hu] at h1 q1
  have hus : u.IqrfControl.SuspendFlag = false := by rw [h1]; exact hs
  have hust : u.IqrfControl.Status = IQRF_READ := by rw [h1]; exact hst
  have hucnt : u.IqrfSpiControl.PacketCnt = 0 + init.length := by rw [h1]
  have hulen : u.IqrfSpiControl.PacketLen = w.IqrfSpiControl.DLEN + 4 := by rw [h1]; exact hlen
  have hutr : u.trace = w.trace ++ X := by rw [h1]
  have hutx : u.IqrfSpiControl.PacketTxBuffer = w.IqrfSpiControl.PacketTxBuffer := by rw [h1]
  have hurx : u.IqrfSpiControl.PacketRxBuffer
      = memcpy w.IqrfSpiControl.PacketRxBuffer 0 init := by rw [h1]
  have hlast : ticks w (init ++ [l]) = iqrfDriver u l := by rw [ticks_append, ← hu]; rfl
  obtain ⟨v, hv⟩ : ∃ v, v = receiveByte u l := ⟨_, rfl⟩
  have hdrv : (iqrfDriver u l).IqrfControl.Status = (completeFrame v).IqrfControl.Status
      ∧ (iqrfDriver u l).trace = (completeFrame v).trace := by
    rw [iqrfDriver_exchange u l hus (Or.inr hust),
      exchangeByte_last u l (by rw [hucnt, hulen, hinit]; omega), ← hv]
    exact ⟨rfl, rfl⟩
  have hvst : v.IqrfControl.Status = IQRF_READ := by rw [hv, receiveByte_eq]; exact hust
  have hvrpt : v.IqrfSpiControl.PacketRpt = 1 := by
    rw [hv, receiveByte_eq]
    show u.IqrfSpiControl.PacketRpt = 1
    rw [h1]; exact hrpt
  have hvrx : v.IqrfSpiControl.PacketRxBuffer
      = memcpy w.IqrfSpiControl.PacketRxBuffer 0 (init ++ [l]) := by
    rw [hv, receiveByte_eq]
    show u.IqrfSpiControl.PacketRxBuffer.set u.IqrfSpiControl.PacketCnt (l % 256) = _
    rw [hurx, hucnt, memcpy_append, hl]; rfl
  have hvd : v.IqrfSpiControl.DLEN = w.IqrfSpiControl.DLEN := by
    rw [hv, receiveByte_eq]
    show u.IqrfSpiControl.DLEN = _
    rw [h1]
  have hvp : v.IqrfSpiControl.PTYPE = w.IqrfSpiControl.PTYPE := by
    rw [hv, receiveByte_eq]
    show u.IqrfSpiControl.PTYPE = _
    rw [h1]
  have hvh : v.IqrfControl.IqrfRxHandler = w.IqrfControl.IqrfRxHandler := by
    rw [hv, receiveByte_eq]
    show u.IqrfControl.IqrfRxHandler = _
    rw [h1]
  have hvalid : frameValid v
      = inboundValid w.IqrfSpiControl.DLEN w.IqrfSpiControl.PTYPE (init ++ [l]) := by
    unfold frameValid
    rw [hvrx, hvd, hvp]
    show inboundValid w.IqrfSpiControl.DLEN w.IqrfSpiControl.PTYPE
      (memcpy w.IqrfSpiControl.PacketRxBuffer 0 (init ++ [l])) = _
    apply inboundValid_congr
    intro i _ hi
    exact getD_memcpy_zero _ _ i (by rw [hf]; omega) (by rw [hf, hrx]; omega)
  have hpay : readBytes v.IqrfSpiControl.PacketRxBuffer 2 v.IqrfSpiControl.DLEN
      = readBytes (init ++ [l]) 2 w.IqrfSpiControl.DLEN := by
    rw [hvrx, hvd]
    unfold readBytes
    apply List.map_congr_left
    intro i hi
    rw [List.mem_range] at hi
    exact getD_memcpy_zero _ _ (2 + i) (by rw [hf]; omega) (by rw [hf, hrx]; omega)
  have hvtr : transfers v.trace = transfers w.trace ++
      (readBytes w.IqrfSpiControl.PacketTxBuffer 0 (w.IqrfSpiControl.DLEN + 4)).zip
        (init ++ [l]) := by
    rw [hv, receiveByte_transfers, hutr, transfers_append, h2, hutx, hucnt, hl]
    have hr : readBytes w.IqrfSpiControl.PacketTxBuffer 0 (w.IqrfSpiControl.DLEN + 4)
        = readBytes w.IqrfSpiControl.PacketTxBuffer 0 init.length
          ++ [w.IqrfSpiControl.PacketTxBuffer.getD (0 + init.length) 0] := by
      rw [hinit]
      simp [readBytes, List.range_succ]
    rw [hr, List.zip_append (by simp [length_readBytes]), List.append_assoc]
    rfl
  have hvrc : rxCalls v.trace = rxCalls w.trace := by
    rw [hv, receiveByte_eq]
    show rxCalls (u.trace ++ (if u.IqrfControl.TRmoduleSelected then [] else [Event.select])
      ++ [Event.transfer _ _] ++ (if u.IqrfControl.FastSPI then [] else [Event.deselect])) = _
    rw [List.append_assoc, List.append_assoc, ← List.append_assoc _ [Event.transfer _ _] _,
      rxCalls_step, q1]
  obtain ⟨c1, c2⟩ := completeFrame_read v hvst hvrpt
  rw [hlast, hdrv.1, hdrv.2]
  refine ⟨c1, ?_, ?_⟩
  · rw [completeFrame_transfers, hvtr]
  · rw [c2, rxCalls_append, rxCalls_append, hvrc, hvalid, hpay, hvd, hvh]
    split <;> simp [rxCalls]

/-- The timer callback at the end of the countdown, the library ready: one
status poll. -/
theorem iqrfDriver_idle_tick (w : World) (s : Nat)
    (hsus : w.IqrfControl.SuspendFlag = false) (hready : w.IqrfControl.Status = IQRF_READY)
    (htime : w.IqrfControl.TimeCnt = 0) :
    ∃ tc, iqrfDriver w s =
      { statusPoll w s with
        IqrfControl := { (statusPoll w s).IqrfControl with TimeCnt := tc } } := by
  refine ⟨((if (statusPoll w s).IqrfControl.FastSPI = true then SPI_STATUS_POOLING_TIME * 5 + 1
    else SPI_STATUS_POOLING_TIME + 1) + 255) % 256, ?_⟩
  unfold iqrfDriver
  rw [hsus]
  simp only [Bool.false_eq_true, if_false, htime, or_true, if_true]
  unfold iqrfSpiDriver
  rw [if_neg (by simpa using hready)]

/-- C20. Status-driven read outcome: the read exchange an idle poll starts on
the status `s` (data ready, `DLEN` bytes) is attempted exactly once: the
exchange is in flight during the first `DLEN + 3` of the following
invocations of `iqrfDriver` and over with the `DLEN + 4`-th, that many
transfers having been made with the bytes of the outbound frame. If the
inbound frame `f` validates, the registered receive handler is called
exactly once, with the `DLEN` bytes at offset 2 of `f` and the length
`DLEN`; if it is rejected the handler is not called. In both cases the
library status is `IQRF_READY` after the `DLEN + 4` transfers: there is no
second attempt. A receive handler is registered (`IqrfRxHandler` is not the
null pointer), as `iqrfInit` leaves it when given one. -/
theorem statusRead_outcome (w : World) (s D : Nat) (f : List Nat)
    (hsus : w.IqrfControl.SuspendFlag = false) (hready : w.IqrfControl.Status = IQRF_READY)
    (htime : w.IqrfControl.TimeCnt = 0)
    (_hreg : w.IqrfControl.IqrfRxHandler ≠ RxHandler.null)
    (hrx : w.IqrfSpiControl.PacketRxBuffer.length = 68)
    (hs : s < 256) (hst : s &&& 0xC0 = 0x40)
    (hD : D = if s = 0x40 then 64 else s &&& 0x3F)
    (hf : f.length = D + 4) (hb : ∀ b ∈ f, b < 256) :
    (iqrfDriver w s).IqrfControl.Status = IQRF_READ
    ∧ (iqrfDriver w s).IqrfSpiControl.DLEN = D
    ∧ (∀ k, k < D + 4 →
        (ticks (iqrfDriver w s) (f.take k)).IqrfControl.Status = IQRF_READ)
    ∧ (ticks (iqrfDriver w s) f).IqrfControl.Status = IQRF_READY
    ∧ transfers (ticks (iqrfDriver w s) f).trace = transfers (iqrfDriver w s).trace ++
        (readBytes (iqrfDriver w s).IqrfSpiControl.PacketTxBuffer 0 (D + 4)).zip f
    ∧ rxCalls (ticks (iqrfDriver w s) f).trace = rxCalls w.trace ++
        (if inboundValid D D f then [(w.IqrfControl.IqrfRxHandler, readBytes f 2 D, D)]
         else []) := by
  obtain ⟨tc, hdrv⟩ := iqrfDriver_idle_tick w s hsus hready htime
  have hp := statusPoll_dataReady w s hs hst
  rw [← hD] at hp
  rw [hp] at hdrv
  obtain ⟨-, b2⟩ := readLength_bounds s hs hst
  rw [← hD] at b2
  obtain ⟨p, hpd⟩ : ∃ p, p = iqrfDriver w s := ⟨_, rfl⟩
  rw [← hpd] at hdrv ⊢
  have e1 : p.IqrfControl.SuspendFlag = false := by rw [hdrv]; exact hsus
  have e2 : p.IqrfControl.Status = IQRF_READ := by rw [hdrv]
  have e3 : p.IqrfSpiControl.PacketCnt = 0 := by rw [hdrv]
  have e4 : p.IqrfSpiControl.DLEN = D := by rw [hdrv]
  have e5 : p.IqrfSpiControl.PacketLen = p.IqrfSpiControl.DLEN + 4 := by rw [hdrv]
  have e6 : p.IqrfSpiControl.PacketRxBuffer.length = 68 := by rw [hdrv]; exact hrx
  have e7 : p.IqrfSpiControl.PacketRpt = 1 := by rw [hdrv]
  have e8 : p.IqrfSpiControl.PTYPE = D := by rw [hdrv]
  have e9 : p.IqrfControl.IqrfRxHandler = w.IqrfControl.IqrfRxHandler := by rw [hdrv]
  have e10 : rxCalls p.trace = rxCalls w.trace := by
    rw [hdrv]
    show rxCalls (w.trace ++ ((if w.IqrfControl.TRmoduleSelected then [] else [Event.select])
      ++ [Event.transfer SPI_CHECK s]
      ++ (if w.IqrfControl.FastSPI then [] else [Event.deselect]) ++ [Event.deselect])) = _
    rw [← List.append_assoc, rxCalls_append, rxCalls_step]
    simp [rxCalls]
  obtain ⟨t1, t2, t3⟩ := ticks_frame_read p f e1 e2 e3 e5 (by rw [e4]; exact b2) e6 e7
    (by rw [e4]; exact hf) hb
  rw [e4] at t2 t3
  rw [e8, e9, e10] at t3
  refine ⟨e2, e4, ?_, t1, t2, t3⟩
  intro k hk
  have hq := (ticks_partial_quiet (f.take k) p e1 (Or.inr e2)
    (by rw [e3, e5, e4, List.length_take]; omega) (by rw [e5, e4]; omega)).2
  rw [hq, e2]

/-- Witness for `statusRead_outcome`: the handler of the user is registered,
the module announces 2 bytes and returns the valid frame
`00 00 AB CD 3B 3F`: the handler is called once, with `AB CD` and the
length 2. -/
theorem statusRead_outcome_witness :
    (iqrfDriver { IqrfControl := { IqrfRxHandler := RxHandler.user } } 0x42).IqrfControl.Status
      = IQRF_READ
    ∧ (ticks (iqrfDriver { IqrfControl := { IqrfRxHandler := RxHandler.user } } 0x42)
        [0, 0, 0xAB, 0xCD, 0x3B, 0x3F]).IqrfControl.Status = IQRF_READY
    ∧ rxCalls (ticks (iqrfDriver { IqrfControl := { IqrfRxHandler := RxHandler.user } } 0x42)
        [0, 0, 0xAB, 0xCD, 0x3B, 0x3F]).trace
        = [(RxHandler.user, [0xAB, 0xCD], 2)] :=
  ⟨(statusRead_outcome { IqrfControl := { IqrfRxHandler := RxHandler.user } } 0x42 2
      [0, 0, 0xAB, 0xCD, 0x3B, 0x3F] rfl rfl rfl (by decide) (by decide)
      (by decide) (by decide) (by decide) (by decide) (by decide)).1,
   (statusRead_outcome { IqrfControl := { IqrfRxHandler := RxHandler.user } } 0x42 2
      [0, 0, 0xAB, 0xCD, 0x3B, 0x3F] rfl rfl rfl (by decide) (by decide)
      (by decide) (by decide) (by decide) (by decide) (by decide)).2.2.2.1,
   (statusRead_outcome { IqrfControl := { IqrfRxHandler := RxHandler.user } } 0x42 2
      [0, 0, 0xAB, 0xCD, 0x3B, 0x3F] rfl rfl rfl (by decide) (by decide)
      (by decide) (by decide) (by decide) (by decide) (by decide)).2.2.2.2.2.trans
      (by decide)⟩

/-! ## Frame acceptance -/

theorem iqrfCrcCheck_iff (B : List Nat) (n P : Nat) (hlen : n + 2 ≤ B.length) :
    iqrfCrcCheck B n P = true ↔ B.getD (n + 2) 0 = specInboundChecksum P (payloadOf B n) := by
  have hspec : xorLoop B (0x5F ^^^ P) 2 n = specInboundChecksum P (payloadOf B n) := by
    rw [xorLoop_eq_xorAll n B _ 2 (by omega)]
    rfl
  unfold iqrfCrcCheck
  simp only [hspec]
  split_ifs with h
  · exact ⟨fun _ => h, fun _ => rfl⟩
  · exact ⟨fun h2 => absurd h2 (by decide), fun h2 => absurd h2 h⟩

theorem frameValid_iff (v : World) (hrx : v.IqrfSpiControl.PacketRxBuffer.length = 68)
    (hd : v.IqrfSpiControl.DLEN ≤ 64) :
    frameValid v = true ↔
      (v.IqrfSpiControl.PacketRxBuffer.getD (v.IqrfSpiControl.DLEN + 3) 0 = SPI_CRCM_OK
        ∧ v.IqrfSpiControl.PacketRxBuffer.getD (v.IqrfSpiControl.DLEN + 2) 0
            = specInboundChecksum v.IqrfSpiControl.PTYPE
                (payloadOf v.IqrfSpiControl.PacketRxBuffer v.IqrfSpiControl.DLEN)) := by
  unfold frameValid
  rw [Bool.and_eq_true, beq_iff_eq, iqrfCrcCheck_iff _ _ _ (by omega)]

/-- C21, counterexample. The last byte of a write exchange of 2 payload bytes
arrives: the inbound frame carries the payload `AA 11` and the checksum
`0x66 = 0x5F xor 0x82 xor 0xAA xor 0x11`, but its last byte is
`SPI_CRCM_ERR`. The checksum byte equals the computed checksum and the frame
is rejected: an attempt is used up and the exchange starts over. -/
theorem iqrfSpiDriver_acceptance_counterexample :
    ([0, 0, 0xAA, 0x11, 0x66, 0] : List Nat).getD 4 0
      = specInboundChecksum 0x82 (payloadOf [0, 0, 0xAA, 0x11, 0x66, 0] 2)
    ∧ (iqrfSpiDriver
        { IqrfControl := { Status := IQRF_WRITE },
          IqrfSpiControl := { DLEN := 2, PTYPE := 0x82, PacketLen := 6, PacketCnt := 5,
                              PacketRpt := 3,
                              PacketRxBuffer := [0, 0, 0xAA, 0x11, 0x66, 0]
                                ++ List.replicate 62 0 } }
        SPI_CRCM_ERR).IqrfSpiControl.PacketRpt = 2
    ∧ (iqrfSpiDriver
        { IqrfControl := { Status := IQRF_WRITE },
          IqrfSpiControl := { DLEN := 2, PTYPE := 0x82, PacketLen := 6, PacketCnt := 5,
                              PacketRpt := 3,
                              PacketRxBuffer := [0, 0, 0xAA, 0x11, 0x66, 0]
                                ++ List.replicate 62 0 } }
        SPI_CRCM_ERR).IqrfControl.Status = IQRF_WRITE
    ∧ (iqrfSpiDriver
        { IqrfControl := { Status := IQRF_WRITE },
          IqrfSpiControl := { DLEN := 2, PTYPE := 0x82, PacketLen := 6, PacketCnt := 5,
                              PacketRpt := 3,
                              PacketRxBuffer := [0, 0, 0xAA, 0x11, 0x66, 0]
                                ++ List.replicate 62 0 } }
        SPI_CRCM_ERR).IqrfSpiControl.PacketCnt = 0 := by
  decide

/-- C21, amended. Frame acceptance: when an exchange completes (the byte
received is the one that brings `PacketCnt` to `PacketLen`), the transport
accepts the inbound frame if and only if its last byte, `Rx[DLEN + 3]`, is
`SPI_CRCM_OK` and its checksum byte `Rx[DLEN + 2]` equals the computed
checksum `0x5F XOR type XOR` (XOR of the payload bytes); otherwise the frame
is rejected. Accepted: the library is ready again and no attempt is used up;
rejected: one attempt is used up. -/
theorem iqrfSpiDriver_frame_acceptance (w : World) (rx : Nat)
    (hst : w.IqrfControl.Status ≠ IQRF_READY)
    (hlast : (w.IqrfSpiControl.PacketCnt + 1) % 256 = w.IqrfSpiControl.PacketLen)
    (hrx : w.IqrfSpiControl.PacketRxBuffer.length = 68)
    (hd : w.IqrfSpiControl.DLEN ≤ 64) :
    iqrfSpiDriver w rx =
      (if (w.IqrfSpiControl.PacketRxBuffer.set w.IqrfSpiControl.PacketCnt (rx % 256)).getD
            (w.IqrfSpiControl.DLEN + 3) 0 = SPI_CRCM_OK
          ∧ (w.IqrfSpiControl.PacketRxBuffer.set w.IqrfSpiControl.PacketCnt (rx % 256)).getD
              (w.IqrfSpiControl.DLEN + 2) 0
            = specInboundChecksum w.IqrfSpiControl.PTYPE
                (payloadOf (w.IqrfSpiControl.PacketRxBuffer.set w.IqrfSpiControl.PacketCnt
                  (rx % 256)) w.IqrfSpiControl.DLEN) then
        frameAccepted (iqrfDeselectTRmodule (receiveByte w rx))
       else frameRejected (iqrfDeselectTRmodule (receiveByte w rx)))
    ∧ (frameAccepted (iqrfDeselectTRmodule (receiveByte w rx))).IqrfControl.Status = IQRF_READY
    ∧ (frameAccepted (iqrfDeselectTRmodule (receiveByte w rx))).IqrfSpiControl.PacketRpt
        = w.IqrfSpiControl.PacketRpt
    ∧ (frameRejected (iqrfDeselectTRmodule (receiveByte w rx))).IqrfSpiControl.PacketRpt
        = (w.IqrfSpiControl.PacketRpt + 255) % 256 := by
  obtain ⟨v, hv⟩ : ∃ v, v = receiveByte w rx := ⟨_, rfl⟩
  have hvrx : v.IqrfSpiControl.PacketRxBuffer
      = w.IqrfSpiControl.PacketRxBuffer.set w.IqrfSpiControl.PacketCnt (rx % 256) := by
    rw [hv, receiveByte_eq]
  have hvd : v.IqrfSpiControl.DLEN = w.IqrfSpiControl.DLEN := by rw [hv, receiveByte_eq]
  have hvp : v.IqrfSpiControl.PTYPE = w.IqrfSpiControl.PTYPE := by rw [hv, receiveByte_eq]
  have hvr : v.IqrfSpiControl.PacketRpt = w.IqrfSpiControl.PacketRpt := by
    rw [hv, receiveByte_eq]
  have hvalid := frameValid_iff v (by rw [hvrx, List.length_set]; exact hrx) (by rw [hvd]; exact hd)
  rw [hvrx, hvd, hvp] at hvalid
  rw [← hv]
  refine ⟨?_, ?_, ?_, ?_⟩
  · unfold iqrfSpiDriver
    rw [if_pos hst, exchangeByte_last w rx hlast, ← hv]
    unfold completeFrame
    have hvd2 : frameValid (iqrfDeselectTRmodule v) = frameValid v := rfl
    simp only [hvd2]
    by_cases h : frameValid v = true
    · rw [if_pos h, if_pos (hvalid.mp h)]
    · rw [if_neg h, if_neg (fun h2 => h (hvalid.mpr h2))]
  · unfold frameAccepted
    simp only []
  · unfold frameAccepted
    simp only []
    have hc : ∀ x : World, (callRxHandler x).IqrfSpiControl = x.IqrfSpiControl := by
      intro x
      unfold callRxHandler
      simp only []
      split
      · unfold iqrfTrInfoProcess
        simp only []
        split_ifs <;> rfl
      · rfl
    split_ifs
    all_goals first
      | (show (callRxHandler (iqrfDeselectTRmodule v)).IqrfSpiControl.PacketRpt = _
         rw [hc]; exact hvr)
      | exact hvr
  · unfold frameRejected
    simp only []
    split_ifs
    all_goals
      show ((iqrfDeselectTRmodule v).IqrfSpiControl.PacketRpt + 255) % 256 = _
      show (v.IqrfSpiControl.PacketRpt + 255) % 256 = _
      rw [hvr]

theorem iqrfSpiDriver_frame_acceptance_witness :
    (iqrfSpiDriver
        { IqrfControl := { Status := IQRF_WRITE },
          IqrfSpiControl := { DLEN := 2, PTYPE := 0x82, PacketLen := 6, PacketCnt := 5,
                              PacketRpt := 3,
                              PacketRxBuffer := [0, 0, 0xAA, 0x11, 0x66, 0]
                                ++ List.replicate 62 0 } }
        SPI_CRCM_OK).IqrfControl.Status = IQRF_READY := by
  have h := iqrfSpiDriver_frame_acceptance
    { IqrfControl := { Status := IQRF_WRITE },
      IqrfSpiControl := { DLEN := 2, PTYPE := 0x82, PacketLen := 6, PacketCnt := 5,
                          PacketRpt := 3,
                          PacketRxBuffer := [0, 0, 0xAA, 0x11, 0x66, 0]
                            ++ List.replicate 62 0 } }
    SPI_CRCM_OK (by decide) (by decide) (by decide) (by decide)
  rw [h.1, if_pos (by decide)]
  exact h.2.1

/-! ## The outbound frame -/

theorem xorAll_cons (a : Nat) (l : List Nat) : xorAll (a :: l) = a ^^^ xorAll l := by
  have hf : ∀ (l : List Nat) (a : Nat),
      List.foldl (fun a b => a ^^^ b) a l = a ^^^ List.foldl (fun a b => a ^^^ b) 0 l := by
    intro l
    induction l with
    | nil => intro a; simp
    | cons y ys ihy =>
      intro a
      simp only [List.foldl_cons, Nat.zero_xor]
      rw [ihy (a ^^^ y), ihy y, Nat.xor_assoc]
  simp only [xorAll, List.foldl_cons, Nat.zero_xor]
  exact hf l a

theorem readBytes_succ (B : List Nat) (off n : Nat) :
    readBytes B off (n + 1) = B.getD off 0 :: readBytes B (off + 1) n := by
  simp only [readBytes, List.range_succ_eq_map, List.map_cons, List.map_map, Nat.add_zero]
  congr 1
  apply List.map_congr_left
  intro i _
  simp only [Function.comp]
  congr 1
  omega

/-- The checksum loop is the XOR of the seed and of the bytes it passes. -/
theorem xorLoop_readBytes (B : List Nat) (cnt : Nat) : ∀ (c I : Nat),
    xorLoop B c I cnt = c ^^^ xorAll (readBytes B I cnt) := by
  induction cnt with
  | zero => intro c I; simp [xorLoop, readBytes, xorAll]
  | succ k ih =>
    intro c I
    simp only [xorLoop]
    rw [ih, readBytes_succ, xorAll_cons, Nat.xor_assoc]

theorem xorAll_append_singleton (l : List Nat) (x : Nat) : xorAll (l ++ [x]) = xorAll l ^^^ x := by
  simp [xorAll, List.foldl_append]

theorem readBytes_append (B : List Nat) (off n : Nat) :
    readBytes B off (n + 1) = readBytes B off n ++ [B.getD (off + n) 0] := by
  simp [readBytes, List.range_succ]

theorem or_and_info : ((16 : Nat) ||| 0x80) &&& 0x7F = 16 ∧ ((32 : Nat) ||| 0x80) &&& 0x7F = 32 := by
  decide

/-- The frame `iqrfSpiDriver` builds in the cleared transmit buffer from a
command, a type byte and `n <= 64` payload bytes. -/
theorem outboundFrame_facts (cmd type n : Nat) (payload : List Nat)
    (hlen : payload.length = n) (hn : n ≤ 64) (tx2 tx3 : List Nat)
    (h2 : tx2 = memcpy (((List.replicate 68 0).set 0 cmd).set 1 type) 2 payload)
    (h3 : tx3 = tx2.set (n + 2) (iqrfCrcCalculate tx2 n)) :
    tx3.length = 68
    ∧ tx3.getD 0 0 = cmd
    ∧ tx3.getD 1 0 = type
    ∧ readBytes tx3 2 n = payload
    ∧ tx3.getD (n + 2) 0 = 0x5F ^^^ cmd ^^^ type ^^^ xorAll payload
    ∧ (∀ i, n + 3 ≤ i → tx3.getD i 0 = 0)
    ∧ xorAll (readBytes tx3 0 (n + 3)) = 0x5F := by
  have hl2 : tx2.length = 68 := by rw [h2, length_memcpy]; simp
  have g0 : tx2.getD 0 0 = cmd := by
    rw [h2, getD_memcpy, if_neg (by omega), getD_set_ne _ _ _ _ _ (by omega),
      getD_set_self _ _ _ _ (by simp)]
  have g1 : tx2.getD 1 0 = type := by
    rw [h2, getD_memcpy, if_neg (by omega), getD_set_self _ _ _ _ (by simp)]
  have gp : readBytes tx2 2 n = payload := by
    have e := readBytes_self payload
    rw [hlen] at e
    conv_rhs => rw [← e]
    apply readBytes_congr
    intro i hi
    rw [h2, getD_memcpy, if_pos ⟨by omega, by omega, by simp; omega⟩]
    congr 1
    omega
  have gz : ∀ i, n + 2 ≤ i → tx2.getD i 0 = 0 := by
    intro i hi
    rw [h2, getD_memcpy, if_neg (by omega), getD_set_ne _ _ _ _ _ (by omega),
      getD_set_ne _ _ _ _ _ (by omega)]
    simp only [List.getD_eq_getElem?_getD, List.getElem?_replicate]
    split <;> rfl
  have hhead : readBytes tx2 0 (n + 2) = cmd :: type :: payload := by
    rw [show n + 2 = (n + 1) + 1 from rfl, readBytes_succ, readBytes_succ, g0, g1, gp]
  have hcrc : iqrfCrcCalculate tx2 n = 0x5F ^^^ cmd ^^^ type ^^^ xorAll payload := by
    unfold iqrfCrcCalculate
    rw [xorLoop_readBytes, hhead, xorAll_cons, xorAll_cons, ← Nat.xor_assoc, ← Nat.xor_assoc]
  have hsame : ∀ i, i ≠ n + 2 → tx3.getD i 0 = tx2.getD i 0 := by
    intro i hi
    rw [h3, getD_set_ne _ _ _ _ _ (fun h => hi h.symm)]
  have hc3 : tx3.getD (n + 2) 0 = 0x5F ^^^ cmd ^^^ type ^^^ xorAll payload := by
    rw [h3, getD_set_self _ _ _ _ (by omega), hcrc]
  refine ⟨by rw [h3, List.length_set, hl2], ?_, ?_, ?_, hc3, ?_, ?_⟩
  · rw [hsame 0 (by omega), g0]
  · rw [hsame 1 (by omega), g1]
  · rw [← gp]
    apply readBytes_congr
    intro i hi
    exact hsame _ (by omega)
  · intro i hi
    rw [hsame i (by omega)]
    exact gz i (by omega)
  · have hh : readBytes tx3 0 (n + 2) = cmd :: type :: payload := by
      rw [← hhead]
      apply readBytes_congr
      intro i hi
      exact hsame _ (by omega)
    rw [readBytes_append, hh, xorAll_append_singleton, Nat.zero_add, hc3, xorAll_cons,
      xorAll_cons]
    generalize xorAll payload = x
    have e : cmd ^^^ (type ^^^ x) ^^^ (95 ^^^ cmd ^^^ type ^^^ x)
        = 95 ^^^ ((cmd ^^^ cmd) ^^^ ((type ^^^ type) ^^^ (x ^^^ x))) := by ac_rfl
    rw [e, Nat.xor_self, Nat.xor_self, Nat.xor_self]
    rfl

/-- C22. Outbound frame and send-side checksum: a status poll that does not
report data ready picks up the mailbox request (cmd, payload of `n <= 64`
bytes, read through the pointer at the pick-up). The outbound frame is
`Tx[0] = cmd`, `Tx[1] = type`, `Tx[2..n+1] = payload`,
`Tx[n+2] = 0x5F XOR cmd XOR type XOR` (XOR of the payload), all later bytes
0, `PacketLen = n + 4`, where `type = n OR 0x80` unless
`cmd = SPI_MODULE_INFO` and `n` is 16 or 32 (then `type = n`); the XOR of
`Tx[0..n+2]` is `0x5F`, and the mailbox is marked free. -/
theorem iqrfSpiDriver_outbound_frame (w : World) (s cmd n type : Nat) (payload : List Nat)
    (hready : w.IqrfControl.Status = IQRF_READY)
    (hs : (s % 256) &&& 0xC0 ≠ 0x40)
    (hbusy : w.IqrfPacket.BufferFlag = IQRF_BUFFER_BUSY)
    (hcmd : cmd = w.IqrfPacket.SpiCmd) (hnd : n = w.IqrfPacket.DataLength) (hn : n ≤ 64)
    (hpay : payload = deref w w.IqrfPacket.DataBuffer n)
    (htype : type = if cmd = SPI_MODULE_INFO ∧ (n = 16 ∨ n = 32) then n else n ||| 0x80) :
    (iqrfSpiDriver w s).IqrfSpiControl.PacketTxBuffer.length = 68
    ∧ (iqrfSpiDriver w s).IqrfSpiControl.PacketTxBuffer.getD 0 0 = cmd
    ∧ (iqrfSpiDriver w s).IqrfSpiControl.PacketTxBuffer.getD 1 0 = type
    ∧ readBytes (iqrfSpiDriver w s).IqrfSpiControl.PacketTxBuffer 2 n = payload
    ∧ (iqrfSpiDriver w s).IqrfSpiControl.PacketTxBuffer.getD (n + 2) 0
        = 0x5F ^^^ cmd ^^^ type ^^^ xorAll payload
    ∧ (∀ i, n + 3 ≤ i → (iqrfSpiDriver w s).IqrfSpiControl.PacketTxBuffer.getD i 0 = 0)
    ∧ xorAll (readBytes (iqrfSpiDriver w s).IqrfSpiControl.PacketTxBuffer 0 (n + 3)) = 0x5F
    ∧ (iqrfSpiDriver w s).IqrfSpiControl.PacketLen = n + 4
    ∧ (iqrfSpiDriver w s).IqrfSpiControl.DLEN = n
    ∧ (iqrfSpiDriver w s).IqrfSpiControl.PTYPE = type
    ∧ (iqrfSpiDriver w s).IqrfSpiControl.PacketCnt = 0
    ∧ iqrfGetTxBufferStatus (iqrfSpiDriver w s) = IQRF_BUFFER_FREE := by
  have hidle : iqrfSpiDriver w s = statusPoll w s := by
    unfold iqrfSpiDriver
    rw [if_neg (by simpa using hready)]
  rw [hidle, statusPoll_busy w s hs hbusy, iqrfSendSpiByte_eq]
  obtain ⟨u, hu⟩ : ∃ u : World, u = iqrfDeselectTRmodule
      { ({ w with
          IqrfControl := { w.IqrfControl with TRmoduleSelected := w.IqrfControl.FastSPI }
          trace := w.trace ++ (if w.IqrfControl.TRmoduleSelected then [] else [Event.select])
            ++ [Event.transfer SPI_CHECK (s % 256)]
            ++ (if w.IqrfControl.FastSPI then [] else [Event.deselect]) }, s % 256).1 with
        IqrfSpiControl :=
          { ({ w with
              IqrfControl := { w.IqrfControl with TRmoduleSelected := w.IqrfControl.FastSPI }
              trace := w.trace
                ++ (if w.IqrfControl.TRmoduleSelected then [] else [Event.select])
                ++ [Event.transfer SPI_CHECK (s % 256)]
                ++ (if w.IqrfControl.FastSPI then [] else [Event.deselect]) },
              s % 256).1.IqrfSpiControl with SpiStat := s % 256 } } := ⟨_, rfl⟩
  rw [← hu]
  have up : u.IqrfPacket = w.IqrfPacket := by rw [hu]; rfl
  have ud : deref u u.IqrfPacket.DataBuffer n = payload := by
    rw [hpay, up, hu]
    unfold deref
    split <;> rfl
  have hinfo : (if decide (u.IqrfPacket.SpiCmd = SPI_MODULE_INFO
        ∧ (u.IqrfPacket.DataLength = 16 ∨ u.IqrfPacket.DataLength = 32)) = true
      then (u.IqrfPacket.DataLength ||| 0x80) &&& 0x7F else u.IqrfPacket.DataLength ||| 0x80)
      = type := by
    rw [up, ← hcmd, ← hnd, htype]
    by_cases hi : cmd = SPI_MODULE_INFO ∧ (n = 16 ∨ n = 32)
    · rw [decide_eq_true hi, if_pos rfl, if_pos hi]
      rcases hi.2 with h | h
      · rw [h]; exact or_and_info.1
      · rw [h]; exact or_and_info.2
    · rw [decide_eq_false hi, if_neg (by decide), if_neg hi]
  have hplen : payload.length = n := by
    rw [hpay]; unfold deref; split <;> exact length_readBytes _ _ _
  obtain ⟨f1, f2, f3, f4, f5, f6, f7⟩ := outboundFrame_facts cmd type n payload hplen hn _ _
    rfl rfl
  have htx : (startWrite u).IqrfSpiControl.PacketTxBuffer
      = (memcpy (((List.replicate 68 0).set 0 cmd).set 1 type) 2 payload).set (n + 2)
          (iqrfCrcCalculate (memcpy (((List.replicate 68 0).set 0 cmd).set 1 type) 2 payload)
            n) := by
    unfold startWrite
    simp only [hinfo]
    rw [up, ← hcmd, ← hnd]
    have ud2 : deref u w.IqrfPacket.DataBuffer n = payload := by rw [← up]; exact ud
    rw [ud2]
  rw [htx]
  refine ⟨f1, f2, f3, f4, f5, f6, f7, ?_, ?_, ?_, rfl, rfl⟩
  · show (u.IqrfPacket.DataLength + 4) % 256 = n + 4
    rw [up, ← hnd]; omega
  · show u.IqrfPacket.DataLength = n
    rw [up, ← hnd]
  · exact hinfo

theorem iqrfSpiDriver_outbound_frame_witness :
    (iqrfSpiDriver
        { IqrfPacket := { BufferFlag := IQRF_BUFFER_BUSY, SpiCmd := SPI_EEPROM_PGM,
                          DataBuffer := BufPtr.user [9, 7], DataLength := 2 } }
        PROGRAMMING_MODE).IqrfSpiControl.PacketTxBuffer.getD (2 + 2) 0
      = 0x5F ^^^ SPI_EEPROM_PGM ^^^ 0x82 ^^^ xorAll [9, 7]
    ∧ xorAll (readBytes (iqrfSpiDriver
        { IqrfPacket := { BufferFlag := IQRF_BUFFER_BUSY, SpiCmd := SPI_EEPROM_PGM,
                          DataBuffer := BufPtr.user [9, 7], DataLength := 2 } }
        PROGRAMMING_MODE).IqrfSpiControl.PacketTxBuffer 0 (2 + 3)) = 0x5F :=
  ⟨(iqrfSpiDriver_outbound_frame
      { IqrfPacket := { BufferFlag := IQRF_BUFFER_BUSY, SpiCmd := SPI_EEPROM_PGM,
                        DataBuffer := BufPtr.user [9, 7], DataLength := 2 } }
      PROGRAMMING_MODE SPI_EEPROM_PGM 2 0x82 [9, 7] rfl (by decide) rfl rfl rfl (by decide)
      (by decide) (by decide)).2.2.2.2.1,
   (iqrfSpiDriver_outbound_frame
      { IqrfPacket := { BufferFlag := IQRF_BUFFER_BUSY, SpiCmd := SPI_EEPROM_PGM,
                        DataBuffer := BufPtr.user [9, 7], DataLength := 2 } }
      PROGRAMMING_MODE SPI_EEPROM_PGM 2 0x82 [9, 7] rfl (by decide) rfl rfl rfl (by decide)
      (by decide) (by decide)).2.2.2.2.2.2.1⟩

/-! ## The basic identity -/

set_option maxRecDepth 100000 in
theorem versionByte_facts : ∀ d, d < 256 →
    (((d / 16) <<< 8) % 65536) ||| (d % 16) = (d / 16) * 256 + d % 16
    ∧ ((((d / 16) <<< 8) % 65536) ||| (d % 16)) >>> 8 = d / 16
    ∧ ((((d / 16) <<< 8) % 65536) ||| (d % 16)) &&& 0x00FF = d % 16 := by
  decide

set_option maxRecDepth 100000 in
theorem typeByte_facts : ∀ d, d < 256 →
    (d &&& 0x08) >>> 3 = (d / 8) % 2
    ∧ d >>> 4 = d / 16
    ∧ d &&& 0x07 = d % 8 := by
  decide

/-- C26. Extended-identity threshold: for every basic-identity response `D`
(bytes, processed with `IqrfTrInfoReading = 4`), `iqrfTrInfoProcess` sets
`OsVersion = (D[4] div 16) * 256 + (D[4] mod 16)`, `McuType = D[5] AND 7`,
`Fcc` = bit 3 of `D[5]`, `ModuleType = D[5] div 16`, so that
`D[5] = 16 * ModuleType + 8 * Fcc + McuType`, and requests the extended
identity (`IqrfTrInfoReading = 2`) if and only if the version is at least
4.03 (major `D[4] div 16` above 4, or equal to 4 with minor `D[4] mod 16` at
least 3), which holds exactly when `D[4] >= 0x43`; otherwise it ends the
identification (`IqrfTrInfoReading = 1`). -/
theorem iqrfTrInfoProcess_basic (w : World) (D : List Nat)
    (hr : w.IqrfTrInfoReading = 4) (h4 : D.getD 4 0 < 256) (h5 : D.getD 5 0 < 256) :
    (iqrfTrInfoProcess w D).IqrfTrInfoStruct.OsVersion
      = (D.getD 4 0 / 16) * 256 + D.getD 4 0 % 16
    ∧ (iqrfTrInfoProcess w D).IqrfTrInfoStruct.McuType = D.getD 5 0 &&& 7
    ∧ (iqrfTrInfoProcess w D).IqrfTrInfoStruct.Fcc = (D.getD 5 0 / 8) % 2
    ∧ (iqrfTrInfoProcess w D).IqrfTrInfoStruct.ModuleType = D.getD 5 0 / 16
    ∧ D.getD 5 0 = 16 * (iqrfTrInfoProcess w D).IqrfTrInfoStruct.ModuleType
        + 8 * (iqrfTrInfoProcess w D).IqrfTrInfoStruct.Fcc
        + (iqrfTrInfoProcess w D).IqrfTrInfoStruct.McuType
    ∧ ((iqrfTrInfoProcess w D).IqrfTrInfoReading = 2 ↔
        (D.getD 4 0 / 16 > 4 ∨ (D.getD 4 0 / 16 = 4 ∧ D.getD 4 0 % 16 ≥ 3)))
    ∧ ((iqrfTrInfoProcess w D).IqrfTrInfoReading = 2 ↔ D.getD 4 0 ≥ 0x43)
    ∧ (D.getD 4 0 < 0x43 → (iqrfTrInfoProcess w D).IqrfTrInfoReading = 1) := by
  obtain ⟨v1, v2, v3⟩ := versionByte_facts (D.getD 4 0) h4
  obtain ⟨t1, t2, t3⟩ := typeByte_facts (D.getD 5 0) h5
  obtain ⟨a, ha⟩ : ∃ a, a = D.getD 4 0 := ⟨_, rfl⟩
  obtain ⟨b, hb⟩ : ∃ b, b = D.getD 5 0 := ⟨_, rfl⟩
  rw [← ha] at v1 v2 v3 h4
  rw [← hb] at t1 t2 t3 h5
  have hfields : (iqrfTrInfoProcess w D).IqrfTrInfoStruct.OsVersion = (a / 16) * 256 + a % 16
      ∧ (iqrfTrInfoProcess w D).IqrfTrInfoStruct.McuType = b &&& 7
      ∧ (iqrfTrInfoProcess w D).IqrfTrInfoStruct.Fcc = (b / 8) % 2
      ∧ (iqrfTrInfoProcess w D).IqrfTrInfoStruct.ModuleType = b / 16
      ∧ (iqrfTrInfoProcess w D).IqrfTrInfoReading
          = if a / 16 > 4 ∨ (a / 16 = 4 ∧ a % 16 ≥ 3) then 2 else 1 := by
    unfold iqrfTrInfoProcess
    simp only [hr, if_true, ← ha, ← hb, v2, v3]
    split_ifs with hc
    · exact ⟨v1, rfl, t1, t2, rfl⟩
    · exact ⟨v1, rfl, t1, t2, rfl⟩
  obtain ⟨e1, e2, e3, e4, e5⟩ := hfields
  rw [← ha, ← hb, e1, e2, e3, e4, e5]
  refine ⟨rfl, rfl, rfl, rfl, ?_, ?_, ?_, ?_⟩
  · rw [t3]; omega
  · split_ifs with hc
    · exact ⟨fun _ => hc, fun _ => rfl⟩
    · exact ⟨fun h => absurd h (by decide), fun h => absurd h hc⟩
  · split_ifs with hc
    · exact ⟨fun _ => by omega, fun _ => rfl⟩
    · exact ⟨fun h => absurd h (by decide), fun h => absurd (by omega) hc⟩
  · intro hlt
    rw [if_neg (by omega)]

theorem iqrfTrInfoProcess_basic_witness :
    (iqrfTrInfoProcess { IqrfTrInfoReading := 4 }
        [0x81, 0x00, 0x12, 0x34, 0x43, 0xB4, 0xC8, 0x08]).IqrfTrInfoStruct.OsVersion
      = (0x43 / 16) * 256 + 0x43 % 16
    ∧ ((iqrfTrInfoProcess { IqrfTrInfoReading := 4 }
        [0x81, 0x00, 0x12, 0x34, 0x43, 0xB4, 0xC8, 0x08]).IqrfTrInfoReading = 2
        ↔ (0x43 : Nat) ≥ 0x43) :=
  ⟨(iqrfTrInfoProcess_basic { IqrfTrInfoReading := 4 }
      [0x81, 0x00, 0x12, 0x34, 0x43, 0xB4, 0xC8, 0x08] rfl (by decide) (by decide)).1,
   (iqrfTrInfoProcess_basic { IqrfTrInfoReading := 4 }
      [0x81, 0x00, 0x12, 0x34, 0x43, 0xB4, 0xC8, 0x08] rfl (by decide)
      (by decide)).2.2.2.2.2.2.1⟩

/-! ## Flash records that reach beyond the page image -/

theorem flash_not_serial (A : Nat) (h : inMainFlash A ∨ inLicencedFlash A) : ¬ inSerial A := by
  unfold inSerial inMainFlash inLicencedFlash SERIAL_EEPROM_MIN_ADR SERIAL_EEPROM_MAX_ADR
    IQRF_MAIN_MEM_MIN_ADR IQRF_MAIN_MEM_MAX_ADR IQRF_LICENCED_MEM_MIN_ADR
    IQRF_LICENCED_MEM_MAX_ADR at *
  omega

/-- A flash record that does not fit the image of its page ends the call with
`IQRF_PGM_ERROR`; the image is not written. -/
theorem processLine_flash_overflow (w : World) (A : Nat)
    (htype : w.IqrfPgmCodeLineBuffer.getD 3 0 = 0)
    (hov : w.PrepareMemBlock.DataOverflow = 0)
    (hA : A = recordAddress w.PrepareMemBlock.HiAddress w.IqrfPgmCodeLineBuffer)
    (hr : inMainFlash A ∨ inLicencedFlash A)
    (hbad : ¬ FitsPage A w.IqrfPgmCodeLineBuffer) :
    processLine w =
      ({ w with PrepareMemBlock := { w.PrepareMemBlock with Address := A } },
        some IQRF_PGM_ERROR) := by
  have hs := flash_not_serial A hr
  unfold recordAddress at hA
  unfold processLine
  simp only [htype, if_true, ← hA, hov, ne_eq, not_true_eq_false, if_false]
  unfold FitsPage at hbad
  rw [if_neg (show ¬ (A ≥ SERIAL_EEPROM_MIN_ADR ∧ A ≤ SERIAL_EEPROM_MAX_ADR) from hs)]
  rw [if_neg hs] at hbad
  unfold flashDestinationIndex flashDataCounter flashMaxAdr at hbad
  unfold prepareOther
  by_cases hm : inMainFlash A
  · rw [if_pos hm] at hbad
    simp only []
    rw [if_pos (show A ≥ IQRF_MAIN_MEM_MIN_ADR ∧ A ≤ IQRF_MAIN_MEM_MAX_ADR from hm)]
    unfold flashChecks
    simp only []
    rw [if_pos (by omega)]
  · rw [if_neg hm] at hbad
    have hl : inLicencedFlash A := by
      rcases hr with h | h
      · exact absurd h hm
      · exact h
    simp only []
    rw [if_neg (show ¬ (A ≥ IQRF_MAIN_MEM_MIN_ADR ∧ A ≤ IQRF_MAIN_MEM_MAX_ADR) from hm),
      if_pos (show A ≥ IQRF_LICENCED_MEM_MIN_ADR ∧ A ≤ IQRF_LICENCED_MEM_MAX_ADR from hl)]
    unfold flashChecks
    simp only []
    rw [if_pos (by omega)]

/-- C28, counterexample. A file whose only record is a main-flash record of 4
bytes at word address 0x3A1F, the last word of its page: the data would
extend beyond the page image, and `iqrfPgmPrepareMemBlock` returns
`IQRF_PGM_ERROR`; the record is not split. -/
theorem iqrfPgmPrepareMemBlock_flash_split_counterexample :
    inMainFlash (recordAddress 0 (dataRecord 0x743E [1, 2, 3, 4]))
    ∧ recordAddress 0 (dataRecord 0x743E [1, 2, 3, 4]) = 0x3A1F
    ∧ (iqrfPgmPrepareMemBlock
        { CodeFile := hexLine (fun _ => true) (dataRecord 0x743E [1, 2, 3, 4]) 0x0D ++ [0x0A] }).map
      (fun r => (r.2, r.1.PrepareMemBlock.MemoryBlock))
      = some (IQRF_PGM_ERROR, erasedMemoryBlock) := by
  decide

/-- C28, amended. Flash overflow: a flash (main or licensed) data record whose
data would extend beyond the end of the page image (the test
`DestinationIndex + DataCounter > sizeof(MemoryBlock)` is true, `DataCounter`
taken after the cut at the end of the area) is rejected by
`iqrfPgmPrepareMemBlock`: the call returns `IQRF_PGM_ERROR`, and no part of
the record is stored in the image. -/
theorem iqrfPgmPrepareMemBlock_flash_overflow (w : World) (up : Nat → Bool) (eol addr : Nat)
    (data rest : List Nat)
    (heol : eol = 0x0D ∨ eol = 0x0A)
    (haddr : addr < 65536) (hn : data.length + 5 ≤ 31) (hb : ∀ d ∈ data, d < 256)
    (hr : inMainFlash (recordAddress w.PrepareMemBlock.HiAddress (dataRecord addr data))
      ∨ inLicencedFlash (recordAddress w.PrepareMemBlock.HiAddress (dataRecord addr data)))
    (hbad : ¬ FitsPage (recordAddress w.PrepareMemBlock.HiAddress (dataRecord addr data))
      (dataRecord addr data))
    (hfile : w.CodeFile = hexLine up (dataRecord addr data) eol ++ rest)
    (hst : w.IqrfControl.Status = IQRF_READY)
    (hov : w.PrepareMemBlock.DataOverflow = 0)
    (hdib : w.PrepareMemBlock.DataInBufferReady = 0)
    (hlb : w.IqrfPgmCodeLineBuffer.length = 32) :
    ∃ w1, iqrfPgmPrepareMemBlock w = some (w1, IQRF_PGM_ERROR)
      ∧ w1.PrepareMemBlock.MemoryBlock = erasedMemoryBlock
      ∧ w1.PrepareMemBlock.DataOverflow = 0
      ∧ w1.CodeFile = rest := by
  obtain ⟨rec, hrec⟩ : ∃ rec, rec = dataRecord addr data := ⟨_, rfl⟩
  obtain ⟨f1, -, f3, f4, f5⟩ := record_facts addr data hn haddr hb
  rw [← hrec] at hr hbad hfile f1 f3 f4 f5
  have hfile1 : w.CodeFile = [] ++ hexLine up rec eol ++ rest := by rw [hfile]; rfl
  unfold iqrfPgmPrepareMemBlock
  rw [if_pos hov]
  simp only []
  obtain ⟨wA, hfA, hwA⟩ : ∃ wA, fetchLine _ = some (wA, none) ∧ wA = _ :=
    ⟨_, fetchLine_line up eol [] rec rest { w with PrepareMemBlock :=
        { w.PrepareMemBlock with MemoryBlock := erasedMemoryBlock, MemoryBlockNumber := 0 } }
      (by rcases heol with h | h
          · exact Or.inr h
          · exact Or.inl h)
      hdib hst hfile1 (by simp) (by omega) f4 f5, rfl⟩
  have hadr : recordAddress w.PrepareMemBlock.HiAddress (memcpy w.IqrfPgmCodeLineBuffer 0 rec)
      = recordAddress w.PrepareMemBlock.HiAddress rec :=
    recordAddress_line _ _ _ (by omega) (by omega)
  have hpA := processLine_flash_overflow wA
    (recordAddress w.PrepareMemBlock.HiAddress (memcpy w.IqrfPgmCodeLineBuffer 0 rec))
    (by rw [hwA]
        show (memcpy w.IqrfPgmCodeLineBuffer 0 rec).getD 3 0 = 0
        rw [getD_memcpy_zero _ _ 3 (by omega) (by omega)]; exact f3)
    (by rw [hwA]; exact hov)
    (by rw [hwA])
    (by rw [hadr]; exact hr)
    (by
      rw [hadr, hwA]
      show ¬ FitsPage _ (memcpy w.IqrfPgmCodeLineBuffer 0 rec)
      rw [fitsPage_line _ _ _ (by omega) (by omega)]
      exact hbad)
  rw [show w.CodeFile.length + 2 = (w.CodeFile.length + 1) + 1 from rfl,
    prepareLoop_process_return _ _ _ _ _ hfA hpA]
  refine ⟨_, rfl, ?_, ?_, ?_⟩
  · rw [hwA]
  · rw [hwA]; exact hov
  · rw [hwA]

theorem iqrfPgmPrepareMemBlock_flash_overflow_witness :
    ∃ w1, iqrfPgmPrepareMemBlock
        { CodeFile := hexLine (fun _ => false) (dataRecord 0x5B3E [1, 2, 3, 4]) 0x0A ++ [0x0D] }
          = some (w1, IQRF_PGM_ERROR)
      ∧ w1.PrepareMemBlock.MemoryBlock = erasedMemoryBlock := by
  obtain ⟨w1, h1, h2, -⟩ := iqrfPgmPrepareMemBlock_flash_overflow
    { CodeFile := hexLine (fun _ => false) (dataRecord 0x5B3E [1, 2, 3, 4]) 0x0A ++ [0x0D] }
    (fun _ => false) 0x0A 0x5B3E [1, 2, 3, 4] [0x0D] (Or.inr rfl) (by decide) (by decide)
    (by decide) (by decide) (by decide) rfl rfl rfl rfl rfl
  exact ⟨w1, h1, h2⟩

/-- C29, the failing input. A file whose only record holds one word, `AA 3B`,
for the last word address of the main flash, 0x3FFF (byte address 0x7FFE).
The word lies within the area, yet the record is cut to no data at all: the
image handed out at the end of the file holds the erased pattern `FF 3F` at
the place of the word. A record of one word for 0x3FFE is stored. -/
theorem iqrfPgmPrepareMemBlock_last_flash_word :
    recordAddress 0 (dataRecord 0x7FFE [0xAA, 0x3B]) = IQRF_MAIN_MEM_MAX_ADR
    ∧ flashDataCounter IQRF_MAIN_MEM_MAX_ADR 2 = 0
    ∧ (iqrfPgmPrepareMemBlock
        { CodeFile := hexLine (fun _ => true) (dataRecord 0x7FFE [0xAA, 0x3B]) 0x0D ++ [0x0A] }).map
      (fun r => (r.2, readBytes r.1.PrepareMemBlock.MemoryBlock 66 2))
      = some (IQRF_PGM_FLASH_BLOCK_READY, [0xFF, 0x3F])
    ∧ (iqrfPgmPrepareMemBlock
        { CodeFile := hexLine (fun _ => true) (dataRecord 0x7FFC [0xAA, 0x3B]) 0x0D ++ [0x0A] }).map
      (fun r => (r.2, readBytes r.1.PrepareMemBlock.MemoryBlock 64 2))
      = some (IQRF_PGM_FLASH_BLOCK_READY, [0xAA, 0x3B]) := by
  decide

/-- C30, the failing input. A file that selects the upper address word 0x0001
and holds one data record of 2 bytes for the byte address 0xE1FE, the last
byte 0xF0FF of the internal EEPROM (`n = 1`): the record does not overrun the
area and `n <= 32`, yet `iqrfPgmPrepareMemBlock` returns `IQRF_PGM_ERROR`. A
record for 0xF0FE is accepted. -/
theorem iqrfPgmPrepareMemBlock_last_eeprom_byte :
    recordAddress 0x10000 (dataRecord 0xE1FE [0xAA, 0x00]) = PIC16LF1938_EEPROM_MAX
    ∧ (iqrfPgmPrepareMemBlock
        { CodeFile := hexLine (fun _ => true)
              (recordBytes 0 4 [0, 1] ++ [recordChecksum (recordBytes 0 4 [0, 1])]) 0x0D ++ [0x0A]
            ++ hexLine (fun _ => true) (dataRecord 0xE1FE [0xAA, 0x00]) 0x0D ++ [0x0A] }).map
      Prod.snd = some IQRF_PGM_ERROR
    ∧ (iqrfPgmPrepareMemBlock
        { CodeFile := hexLine (fun _ => true)
              (recordBytes 0 4 [0, 1] ++ [recordChecksum (recordBytes 0 4 [0, 1])]) 0x0D ++ [0x0A]
            ++ hexLine (fun _ => true) (dataRecord 0xE1FC [0xAA, 0x00]) 0x0D ++ [0x0A] }).map
      (fun r => (r.2, readBytes r.1.PrepareMemBlock.MemoryBlock 0 3,
        r.1.PrepareMemBlock.MemoryBlockProcessState))
      = some (IQRF_PGM_EEPROM_BLOCK_READY, [0xFE, 1, 0xAA], 1) := by
  decide

/-! ## The end of a programming run -/

/-- C24, counterexample. Two runs of `iqrfPgmWriteCodeFile` that end with
`IQRF_PGM_ERROR` without a call of `iqrfTrEndPgmMode`. In the first the
state `WRITE_HEX` finds the module out of programming mode for half a
second: the module is reset (power off, 100 ms, power on, 1 ms: the 200 ms
of `iqrfTrEndPgmMode` do not follow) and the next call returns the error. In
the second the state `WAIT_PROG_MODE` times out with no attempt left:
nothing is called at all. -/
theorem iqrfPgmWriteCodeFile_exit_counterexample :
    (iqrfPgmWriteCodeFile
        { WriteCode := { WriteCodeTaskSM := WriteCodeTask.WRITE_HEX },
          IqrfSpiControl := { SpiStat := COMMUNICATION_MODE }, SysTick := 500 }).bind
      (fun r => (iqrfPgmWriteCodeFile r.1).map (fun q => (q.2, q.1.trace)))
      = some (IQRF_PGM_ERROR,
          [Event.powerOff, Event.delay 100, Event.powerOn, Event.delay 1])
    ∧ (iqrfTrEndPgmMode {}).trace
      = [Event.powerOff, Event.delay 100, Event.powerOn, Event.delay 1, Event.delay 200]
    ∧ (iqrfPgmWriteCodeFile
        { WriteCode := { WriteCodeTaskSM := WriteCodeTask.WAIT_PROG_MODE },
          IqrfSpiControl := { SpiStat := COMMUNICATION_MODE }, SysTick := 500 }).bind
      (fun r => (iqrfPgmWriteCodeFile r.1).map (fun q => (q.2, q.1.trace)))
      = some (IQRF_PGM_ERROR, []) := by
  decide

/-- C24, amended. Programming-mode exit: every return of
`iqrfPgmWriteCodeFile` outside the state `PROG_END` is the final `return`
with the progress value; the terminal result is returned by `PROG_END`
alone, which hands back the stored `OperationResult` once the mailbox is
free and the library ready, and calls nothing. The
state `WAIT_PROG_END` is the one that exits programming mode: once the
module is in programming mode and the library ready it calls
`iqrfTrEndPgmMode` and goes to `PROG_END`, queuing nothing; the end of the
file and a file-format error lead to `WAIT_PROG_END`. A timeout in the write
states resets the module with `iqrfTrReset` instead and goes to `PROG_END`
directly, and a timeout of `WAIT_PROG_MODE` with no attempt left goes there
with no call at all: these runs return `IQRF_PGM_ERROR` without
`iqrfTrEndPgmMode`. -/
theorem iqrfPgmWriteCodeFile_exit (w w1 : World) (r : Nat)
    (h : iqrfPgmWriteCodeFile w = some (w1, r)) :
    (w.WriteCode.WriteCodeTaskSM ≠ WriteCodeTask.PROG_END → r = progressPercent w1)
    ∧ (w.WriteCode.WriteCodeTaskSM = WriteCodeTask.PROG_END →
        w1.trace = w.trace
        ∧ (iqrfGetTxBufferStatus w = IQRF_BUFFER_FREE ∧ iqrfGetLibraryStatus w = IQRF_READY →
            r = w.WriteCode.OperationResult
            ∧ w1.WriteCode.WriteCodeTaskSM = WriteCodeTask.INIT_TASK)
        ∧ (¬ (iqrfGetTxBufferStatus w = IQRF_BUFFER_FREE ∧ iqrfGetLibraryStatus w = IQRF_READY) →
            r = progressPercent w1 ∧ w1 = w))
    ∧ (w.WriteCode.WriteCodeTaskSM = WriteCodeTask.WAIT_PROG_END →
        (iqrfGetSpiStatus w = PROGRAMMING_MODE ∧ iqrfGetLibraryStatus w = IQRF_READY →
          w1.WriteCode.WriteCodeTaskSM = WriteCodeTask.PROG_END
          ∧ w1.trace = (iqrfTrEndPgmMode w).trace
          ∧ w1.trace = w.trace
              ++ [Event.powerOff, Event.delay 100, Event.powerOn, Event.delay 1, Event.delay 200]
          ∧ w1.WriteCode.OperationResult = w.WriteCode.OperationResult)
        ∧ (¬ (iqrfGetSpiStatus w = PROGRAMMING_MODE ∧ iqrfGetLibraryStatus w = IQRF_READY) →
          w1 = w))
    ∧ ((w.WriteCode.WriteCodeTaskSM = WriteCodeTask.WRITE_PLUGIN
          ∨ w.WriteCode.WriteCodeTaskSM = WriteCodeTask.WRITE_HEX) →
        writeReady w = false →
        ticksSince w w.WriteCode.SysTickTime ≥ TICKS_IN_SECOND / 2 →
        w1.WriteCode.WriteCodeTaskSM = WriteCodeTask.PROG_END
        ∧ w1.WriteCode.OperationResult = IQRF_PGM_ERROR
        ∧ w1.trace = (iqrfTrReset w).trace
        ∧ w1.trace = w.trace
            ++ [Event.powerOff, Event.delay 100, Event.powerOn, Event.delay 1])
    ∧ (w.WriteCode.WriteCodeTaskSM = WriteCodeTask.WAIT_PROG_MODE →
        ¬ (iqrfGetSpiStatus w = PROGRAMMING_MODE ∧ iqrfGetLibraryStatus w = IQRF_READY) →
        ticksSince w w.WriteCode.SysTickTime ≥ TICKS_IN_SECOND / 2 →
        w.WriteCode.Attempts = 0 →
        w1.WriteCode.WriteCodeTaskSM = WriteCodeTask.PROG_END
        ∧ w1.WriteCode.OperationResult = IQRF_PGM_ERROR
        ∧ w1.trace = w.trace)
    ∧ (w.WriteCode.WriteCodeTaskSM = WriteCodeTask.WRITE_PLUGIN → writeReady w = true →
        ∀ ws w2 res, iqrfSuspendDriver w = some ws →
          iqrfPgmReadIQRFFileLine ws = some (w2, res) →
          (res = IQRF_PGM_FILE_DATA_ERROR ∨ res = IQRF_PGM_END_OF_FILE) →
          w1.WriteCode.WriteCodeTaskSM = WriteCodeTask.WAIT_PROG_END
          ∧ w1.WriteCode.OperationResult
              = (if res = IQRF_PGM_FILE_DATA_ERROR then IQRF_PGM_ERROR else IQRF_PGM_SUCCESS)
          ∧ w1.trace = w2.trace)
    ∧ (w.WriteCode.WriteCodeTaskSM = WriteCodeTask.WRITE_HEX → writeReady w = true →
        w.PrepareMemBlock.MemoryBlockProcessState = 0 →
        ∀ w2 res, (if w.CodeFileInfo.FileType = IQRF_PGM_HEX_FILE_TYPE
            then iqrfPgmPrepareMemBlock w else iqrfPgmProcessCfgFile w) = some (w2, res) →
          res ≠ IQRF_PGM_FLASH_BLOCK_READY → res ≠ IQRF_PGM_EEPROM_BLOCK_READY →
          w1.WriteCode.WriteCodeTaskSM = WriteCodeTask.WAIT_PROG_END
          ∧ w1.WriteCode.OperationResult = res
          ∧ w1.trace = w2.trace) := by
  refine ⟨?_, ?_, ?_, ?_, ?_, ?_, ?_⟩
  · intro hn
    unfold iqrfPgmWriteCodeFile at h
    split at h
    · simp only [Option.some.injEq, Prod.mk.injEq] at h
      obtain ⟨h1, h2⟩ := h
      subst h1
      exact h2.symm
    · split at h
      · exact absurd h (by simp)
      · simp only [Option.some.injEq, Prod.mk.injEq] at h
        obtain ⟨h1, h2⟩ := h
        subst h1
        exact h2.symm
    · simp only [Option.some.injEq, Prod.mk.injEq] at h
      obtain ⟨h1, h2⟩ := h
      subst h1
      exact h2.symm
    · split at h
      · exact absurd h (by simp)
      · simp only [Option.some.injEq, Prod.mk.injEq] at h
        obtain ⟨h1, h2⟩ := h
        subst h1
        exact h2.symm
    · split at h
      · exact absurd h (by simp)
      · simp only [Option.some.injEq, Prod.mk.injEq] at h
        obtain ⟨h1, h2⟩ := h
        subst h1
        exact h2.symm
    · simp only [Option.some.injEq, Prod.mk.injEq] at h
      obtain ⟨h1, h2⟩ := h
      subst h1
      exact h2.symm
    · rename_i hsm
      exact absurd hsm hn
  · intro hsm
    unfold iqrfPgmWriteCodeFile at h
    rw [hsm] at h
    simp only [] at h
    split_ifs at h with hc
    · simp only [Option.some.injEq, Prod.mk.injEq] at h
      obtain ⟨h1, h2⟩ := h
      subst h1
      exact ⟨rfl, fun _ => ⟨h2.symm, rfl⟩, fun hx => absurd hc hx⟩
    · simp only [Option.some.injEq, Prod.mk.injEq] at h
      obtain ⟨h1, h2⟩ := h
      subst h1
      exact ⟨rfl, fun hx => absurd hx hc, fun _ => ⟨h2.symm, rfl⟩⟩
  · intro hsm
    unfold iqrfPgmWriteCodeFile at h
    rw [hsm] at h
    simp only [Option.some.injEq, Prod.mk.injEq] at h
    obtain ⟨h1, -⟩ := h
    subst h1
    refine ⟨fun hc => ?_, fun hc => ?_⟩
    · rw [if_pos hc]
      exact ⟨rfl, rfl, by
        simp [iqrfTrEndPgmMode, iqrfTrReset, iqrfDelayMs, iqrfTrPowerOn, iqrfTrPowerOff], rfl⟩
    · rw [if_neg hc]
  · intro hsm hnr hto
    have hw : writeTimeout w =
        { iqrfTrReset w with WriteCode := { (iqrfTrReset w).WriteCode with
            OperationResult := IQRF_PGM_ERROR
            WriteCodeTaskSM := WriteCodeTask.PROG_END } } := by
      unfold writeTimeout
      rw [if_pos hto]
    unfold iqrfPgmWriteCodeFile at h
    rcases hsm with hsm | hsm
    · rw [hsm] at h
      simp only [writePlugin, hnr, Bool.false_eq_true, if_false, Option.some.injEq,
        Prod.mk.injEq] at h
      obtain ⟨h1, -⟩ := h
      subst h1
      rw [hw]
      exact ⟨rfl, rfl, rfl, by
        simp [iqrfTrReset, iqrfDelayMs, iqrfTrPowerOn, iqrfTrPowerOff]⟩
    · rw [hsm] at h
      simp only [writeHex, hnr, Bool.false_eq_true, if_false, Option.some.injEq,
        Prod.mk.injEq] at h
      obtain ⟨h1, -⟩ := h
      subst h1
      rw [hw]
      exact ⟨rfl, rfl, rfl, by
        simp [iqrfTrReset, iqrfDelayMs, iqrfTrPowerOn, iqrfTrPowerOff]⟩
  · intro hsm hnm hto hatt
    unfold iqrfPgmWriteCodeFile at h
    rw [hsm] at h
    simp only [Option.some.injEq, Prod.mk.injEq] at h
    obtain ⟨h1, -⟩ := h
    subst h1
    unfold writeWaitProgMode
    rw [if_neg hnm, if_pos hto, if_neg (by simp [hatt])]
    exact ⟨rfl, rfl, rfl⟩
  · intro hsm hrd ws w2 res hsus hread hres
    unfold iqrfPgmWriteCodeFile at h
    rw [hsm] at h
    simp only [writePlugin, hrd, if_true, hsus, hread] at h
    rcases hres with hres | hres
    · subst hres
      rw [if_pos rfl] at h
      simp only [Option.some.injEq, Prod.mk.injEq] at h
      obtain ⟨h1, -⟩ := h
      subst h1
      exact ⟨rfl, rfl, rfl⟩
    · subst hres
      rw [if_neg (by decide), if_pos rfl] at h
      simp only [Option.some.injEq, Prod.mk.injEq] at h
      obtain ⟨h1, -⟩ := h
      subst h1
      exact ⟨rfl, rfl, rfl⟩
  · intro hsm hrd hps w2 res hprep hr1 hr2
    unfold iqrfPgmWriteCodeFile at h
    rw [hsm] at h
    simp only [writeHex, hrd, if_true, hps, hprep] at h
    rw [if_pos ⟨hr1, hr2⟩] at h
    simp only [Option.some.injEq, Prod.mk.injEq] at h
    obtain ⟨h1, -⟩ := h
    subst h1
    exact ⟨rfl, rfl, rfl⟩

/-- Witness for `iqrfPgmWriteCodeFile_exit`: the state `WAIT_PROG_END` with
the module not in programming mode, 29 bytes read of a file of 58; the call
changes nothing and returns the progress value 50. -/
theorem iqrfPgmWriteCodeFile_exit_witness :
    iqrfPgmWriteCodeFile
        { WriteCode := { WriteCodeTaskSM := WriteCodeTask.WAIT_PROG_END },
          CodeFileInfo := { FileByteCnt := 29, FileSize := 58 } }
      = some ({ WriteCode := { WriteCodeTaskSM := WriteCodeTask.WAIT_PROG_END },
                CodeFileInfo := { FileByteCnt := 29, FileSize := 58 } }, 50)
    ∧ (50 : Nat) = progressPercent
        { WriteCode := { WriteCodeTaskSM := WriteCodeTask.WAIT_PROG_END },
          CodeFileInfo := { FileByteCnt := 29, FileSize := 58 } } :=
  ⟨by decide,
    (iqrfPgmWriteCodeFile_exit
      { WriteCode := { WriteCodeTaskSM := WriteCodeTask.WAIT_PROG_END },
        CodeFileInfo := { FileByteCnt := 29, FileSize := 58 } }
      { WriteCode := { WriteCodeTaskSM := WriteCodeTask.WAIT_PROG_END },
        CodeFileInfo := { FileByteCnt := 29, FileSize := 58 } } 50 (by decide)).1
      (by decide)⟩

/-! ## The clock and the silent module -/

theorem pgmEntries_append (a b : List Event) :
    pgmEntries (a ++ b) = pgmEntries a + pgmEntries b := by
  induction a with
  | nil => simp [pgmEntries]
  | cons e es ih =>
    cases e <;> simp [pgmEntries, ih]
    omega

theorem pgmEntries_poll (sel fast : Bool) (tx rx : Nat) :
    pgmEntries ((if sel then [] else [Event.select]) ++ [Event.transfer tx rx]
        ++ (if fast then [] else [Event.deselect]) ++ [Event.deselect]) = 0 := by
  cases sel <;> cases fast <;> rfl

theorem clockTicks_add (reply : World → Nat) (a : Nat) : ∀ (b : Nat) (w : World),
    clockTicks reply (a + b) w = clockTicks reply b (clockTicks reply a w) := by
  induction a with
  | zero => intro b w; simp [clockTicks]
  | succ n ih =>
    intro b w
    have e : n + 1 + b = (n + b) + 1 := by omega
    rw [e]
    simp only [clockTicks]
    exact ih b _

/-- One tick of the clock in front of a silent module, the transport idle:
at most a status poll. -/
theorem clockTick_silent (reply : World → Nat) (hsil : Silent reply) (w : World)
    (hi : Idle w) :
    ∃ (st : Nat) (sel : Bool) (tc : Nat) (X : List Event),
      clockTick reply w =
        { w with
          IqrfSpiControl := { w.IqrfSpiControl with SpiStat := st }
          IqrfControl := { w.IqrfControl with TRmoduleSelected := sel, TimeCnt := tc }
          SysTick := (w.SysTick + 1) % 4294967296
          trace := w.trace ++ X }
      ∧ st ≠ PROGRAMMING_MODE ∧ sentPackets X = [] ∧ pgmEntries X = 0 := by
  obtain ⟨hst, hs, hfree, hmode⟩ := hi
  have hnr : ¬ (w.IqrfControl.Status = IQRF_READ ∨ w.IqrfControl.Status = IQRF_WRITE) := by
    rw [hst]; decide
  have hfree2 : w.IqrfPacket.BufferFlag ≠ IQRF_BUFFER_BUSY := by rw [hfree]; decide
  by_cases h0 : w.IqrfControl.TimeCnt = 0
  · refine ⟨reply w % 256, false, if w.IqrfControl.FastSPI = true then 50 else 10,
      (if w.IqrfControl.TRmoduleSelected then [] else [Event.select])
        ++ [Event.transfer SPI_CHECK (reply w % 256)]
        ++ (if w.IqrfControl.FastSPI then [] else [Event.deselect]) ++ [Event.deselect],
      ?_, (hsil w).2, sentPackets_poll _ _ _ _, pgmEntries_poll _ _ _ _⟩
    unfold clockTick iqrfDriver iqrfSpiDriver
    simp only [hs, hst, h0, or_true, if_true, ne_eq, not_true_eq_false, if_false,
      Bool.false_eq_true]
    rw [statusPoll_idle w (reply w) (hsil w).1 hfree2]
    cases hf : w.IqrfControl.FastSPI <;> simp [SPI_STATUS_POOLING_TIME, hst, hs]
  · refine ⟨w.IqrfSpiControl.SpiStat, w.IqrfControl.TRmoduleSelected,
      (w.IqrfControl.TimeCnt + 255) % 256, [], ?_, hmode, rfl, rfl⟩
    have hc : ¬ (w.IqrfControl.Status = IQRF_READ ∨ w.IqrfControl.Status = IQRF_WRITE
        ∨ w.IqrfControl.TimeCnt = 0) := by
      intro h
      rcases h with h | h | h
      · exact hnr (Or.inl h)
      · exact hnr (Or.inr h)
      · exact h0 h
    unfold clockTick iqrfDriver
    simp only [hs, hc, if_false, Bool.false_eq_true, List.append_nil]

/-- The clock ticking `k` times in front of a silent module, the transport
idle: the driver polls the status and changes nothing else. -/
theorem clockTicks_silent (reply : World → Nat) (hsil : Silent reply) (k : Nat) :
    ∀ (w : World), Idle w →
    ∃ (st : Nat) (sel : Bool) (tc clk : Nat) (X : List Event),
      clockTicks reply k w =
        { w with
          IqrfSpiControl := { w.IqrfSpiControl with SpiStat := st }
          IqrfControl := { w.IqrfControl with TRmoduleSelected := sel, TimeCnt := tc }
          SysTick := clk
          trace := w.trace ++ X }
      ∧ clk % 4294967296 = (w.SysTick + k) % 4294967296
      ∧ st ≠ PROGRAMMING_MODE ∧ sentPackets X = [] ∧ pgmEntries X = 0 := by
  induction k with
  | zero =>
    intro w hi
    refine ⟨w.IqrfSpiControl.SpiStat, w.IqrfControl.TRmoduleSelected, w.IqrfControl.TimeCnt,
      w.SysTick, [], ?_, rfl, hi.2.2.2, rfl, rfl⟩
    simp only [clockTicks, List.append_nil]
  | succ k ih =>
    intro w hi
    obtain ⟨st, sel, tc, X, hX, hst, hsp, hpe⟩ := clockTick_silent reply hsil w hi
    obtain ⟨st2, sel2, tc2, clk2, X2, hX2, hclk2, hst2, hsp2, hpe2⟩ := ih (clockTick reply w)
      (by rw [hX]; exact ⟨hi.1, hi.2.1, hi.2.2.1, hst⟩)
    refine ⟨st2, sel2, tc2, clk2, X ++ X2, ?_, ?_, hst2, ?_, ?_⟩
    · simp only [clockTicks]
      rw [hX2, hX]
      simp only [List.append_assoc]
    · rw [hclk2, hX]
      show ((w.SysTick + 1) % 4294967296 + k) % 4294967296 = _
      omega
    · rw [sentPackets_append, hsp, hsp2]; rfl
    · rw [pgmEntries_append, hpe, hpe2]

/-- In front of a silent module the idle transport stays idle, the clock
advances, and the tasks' variables are left alone. -/
theorem clockTicks_idle (reply : World → Nat) (hsil : Silent reply) (k : Nat) (w : World)
    (hi : Idle w) :
    Idle (clockTicks reply k w) ∧ taskView (clockTicks reply k w) = taskView w
      ∧ (clockTicks reply k w).SysTick % 4294967296 = (w.SysTick + k) % 4294967296 := by
  obtain ⟨st, sel, tc, clk, X, hX, hclk, hst, hsp, hpe⟩ := clockTicks_silent reply hsil k w hi
  rw [hX]
  refine ⟨⟨hi.1, hi.2.1, hi.2.2.1, hst⟩, ?_, hclk⟩
  simp only [taskView, sentPackets_append, pgmEntries_append, hsp, hpe, List.append_nil,
    Nat.add_zero]

/-- The port `iqrfTrEnterPgmMode` with no exchange in flight. -/
theorem iqrfTrEnterPgmMode_ready (w : World) (hst : w.IqrfControl.Status = IQRF_READY) :
    ∃ (T : Nat), T < 4294967296 ∧
      iqrfTrEnterPgmMode w =
        some { w with
               IqrfControl := { w.IqrfControl with SuspendFlag := false }
               IqrfSpiControl := { w.IqrfSpiControl with SpiStat := SPI_DISABLED }
               SysTick := T
               trace := w.trace ++ [Event.delay 200, Event.powerOff, Event.delay 100,
                 Event.powerOn, Event.delay 1, Event.enterPgmMode] } := by
  have hnb : ¬ (w.IqrfControl.Status = IQRF_READ ∨ w.IqrfControl.Status = IQRF_WRITE) := by
    rw [hst]; decide
  refine ⟨((((w.SysTick + 200) % 4294967296 + 100) % 4294967296 + 1) % 4294967296
      + TICKS_IN_SECOND / 2) % 4294967296, Nat.mod_lt _ (by decide), ?_⟩
  simp only [iqrfTrEnterPgmMode, iqrfSuspendDriver, iqrfDelayMs, hnb, if_false, iqrfTrReset,
    iqrfTrPowerOff, iqrfTrPowerOn, iqrfRunDriver,
    List.append_assoc, List.singleton_append, List.cons_append, List.nil_append]

theorem infoLoop_done (reply : World → Nat) (g fuel : Nat) (w : World)
    (h : w.IqrfTrInfoReading = 0) : infoLoop reply g (fuel + 1) w = some (w, 0) := by
  simp only [infoLoop, h, if_true]

theorem infoLoop_step (reply : World → Nat) (g fuel : Nat) (w w1 w2 : World) (n : Nat)
    (hr : w.IqrfTrInfoReading ≠ 0) (h : iqrfTrInfoTask w = some w1)
    (hrest : infoLoop reply g fuel (clockTicks reply g w1) = some (w2, n)) :
    infoLoop reply g (fuel + 1) w = some (w2, n + 1) := by
  simp only [infoLoop, hr, if_false, h, hrest]

/-- The state `SEND_REQUEST` while the module is not in programming mode and
less than `TICKS_IN_SECOND / 2` ticks have passed: the task does nothing. -/
theorem iqrfTrInfoTask_waiting (v : World)
    (hsm : v.TrInfoTask.TrInfoTaskSM = TrInfoTaskState.SEND_REQUEST)
    (hmode : v.IqrfSpiControl.SpiStat ≠ PROGRAMMING_MODE)
    (ht : ticksSince v v.TrInfoTask.SysTickTime < TICKS_IN_SECOND / 2) :
    iqrfTrInfoTask v = some v := by
  unfold iqrfTrInfoTask
  rw [hsm]
  simp only []
  rw [if_neg (fun h => hmode h.1), if_neg (by omega)]

/-- Polls of the identification task while it waits for programming mode. -/
theorem infoLoop_wait (reply : World → Nat) (hsil : Silent reply) (g : Nat)
    (hg : g ≤ 4294966000) (j : Nat) :
    ∀ (w : World) (fuel : Nat) (w2 : World) (n : Nat),
    w.TrInfoTask.TrInfoTaskSM = TrInfoTaskState.SEND_REQUEST → w.IqrfTrInfoReading ≠ 0 →
    Idle w →
    ticksSince w w.TrInfoTask.SysTickTime + j * g < TICKS_IN_SECOND / 2 + g →
    infoLoop reply g fuel (clockTicks reply (j * g) w) = some (w2, n) →
    infoLoop reply g (fuel + j) w = some (w2, n + j) := by
  induction j with
  | zero =>
    intro w fuel w2 n _ _ _ _ h
    simpa [clockTicks] using h
  | succ j ih =>
    intro w fuel w2 n hsm hr hi ht h
    have hjg : (j + 1) * g = g + j * g := by rw [Nat.succ_mul]; omega
    rw [hjg] at ht h
    rw [clockTicks_add] at h
    have hT : (TICKS_IN_SECOND / 2 : Nat) = 500 := by decide
    rw [hT] at ht
    obtain ⟨hi2, hv2, hc2⟩ := clockTicks_idle reply hsil g w hi
    simp only [taskView, Prod.mk.injEq] at hv2
    obtain ⟨hT2, -, hR2, -, -, -, -⟩ := hv2
    have hstep : iqrfTrInfoTask w = some w :=
      iqrfTrInfoTask_waiting w hsm hi.2.2.2 (by rw [hT]; omega)
    have hrec := ih (clockTicks reply g w) fuel w2 n (by rw [hT2]; exact hsm)
      (by rw [hR2]; exact hr) hi2
      (by
        rw [hT2, hT]
        unfold ticksSince iqrfGetSysTick at ht ⊢
        omega) h
    have e : fuel + (j + 1) = (fuel + j) + 1 := by omega
    have e2 : n + (j + 1) = (n + j) + 1 := by omega
    rw [e, e2]
    exact infoLoop_step reply g _ w w w2 _ hr hstep hrec

theorem waitPolls_spec (g : Nat) (hg : 1 ≤ g) :
    ∃ k, waitPolls g = k + 1 ∧ 500 ≤ k * g + g ∧ k * g < 500 := by
  have h1 : g * ((499 + g) / g) + (499 + g) % g = 499 + g := Nat.div_add_mod _ _
  have h2 : (499 + g) % g < g := Nat.mod_lt _ (by omega)
  have h3 : 1 ≤ (499 + g) / g := by
    rw [Nat.le_div_iff_mul_le (by omega)]
    omega
  obtain ⟨k, hk⟩ : ∃ k, (499 + g) / g = k + 1 := ⟨(499 + g) / g - 1, by omega⟩
  refine ⟨k, ?_, ?_, ?_⟩
  · unfold waitPolls
    have hT : (TICKS_IN_SECOND / 2 - 1 : Nat) = 499 := by decide
    rw [hT]
    exact hk
  · rw [hk, Nat.mul_succ, Nat.mul_comm] at h1
    omega
  · rw [hk, Nat.mul_succ, Nat.mul_comm] at h1
    omega

/-- One attempt of the identification task in front of a silent module: the
call in `ENTER_PROG_MODE` and the polls in `SEND_REQUEST` that do nothing,
`waitPolls g` calls in all, lead to a poll at which `TICKS_IN_SECOND / 2`
ticks have passed. -/
theorem infoLoop_attempt (reply : World → Nat) (hsil : Silent reply) (g : Nat)
    (hg1 : 1 ≤ g) (hg : g ≤ 4294966000) (w : World)
    (hsm : w.TrInfoTask.TrInfoTaskSM = TrInfoTaskState.ENTER_PROG_MODE)
    (hr : w.IqrfTrInfoReading ≠ 0) (hi : Idle w) :
    ∃ v, (∀ fuel w2 n, infoLoop reply g fuel v = some (w2, n) →
          infoLoop reply g (fuel + waitPolls g) w = some (w2, n + waitPolls g))
      ∧ Idle v ∧ v.TrInfoTask.TrInfoTaskSM = TrInfoTaskState.SEND_REQUEST
      ∧ ticksSince v v.TrInfoTask.SysTickTime ≥ TICKS_IN_SECOND / 2
      ∧ v.TrInfoTask.Attempts = w.TrInfoTask.Attempts
      ∧ v.IqrfTrInfoReading = w.IqrfTrInfoReading
      ∧ v.IqrfTrInfoStruct = w.IqrfTrInfoStruct
      ∧ sentPackets v.trace = sentPackets w.trace
      ∧ pgmEntries v.trace = pgmEntries w.trace + 1 := by
  obtain ⟨k, hk, hk1, hk2⟩ := waitPolls_spec g hg1
  obtain ⟨T, hT, hE⟩ := iqrfTrEnterPgmMode_ready w hi.1
  obtain ⟨wE, hwE, hcall⟩ : ∃ wE, wE =
      ({ w with
         IqrfControl := { w.IqrfControl with SuspendFlag := false }
         IqrfSpiControl := { w.IqrfSpiControl with SpiStat := SPI_DISABLED }
         SysTick := T
         trace := w.trace ++ [Event.delay 200, Event.powerOff, Event.delay 100,
           Event.powerOn, Event.delay 1, Event.enterPgmMode]
         TrInfoTask := { w.TrInfoTask with
           SysTickTime := T
           TrInfoTaskSM := TrInfoTaskState.SEND_REQUEST } } : World)
      ∧ iqrfTrInfoTask w = some wE := by
    refine ⟨_, rfl, ?_⟩
    unfold iqrfTrInfoTask
    rw [hsm]
    simp only [hE, iqrfGetSysTick]
  have hiE : Idle wE := by
    rw [hwE]
    exact ⟨hi.1, rfl, hi.2.2.1, (by decide : SPI_DISABLED ≠ PROGRAMMING_MODE)⟩
  obtain ⟨hi1, hv1, hc1⟩ := clockTicks_idle reply hsil g wE hiE
  obtain ⟨hi2, hv2, hc2⟩ := clockTicks_idle reply hsil (k * g) (clockTicks reply g wE) hi1
  simp only [taskView, Prod.mk.injEq] at hv1 hv2
  obtain ⟨hT1, -, hR1, hS1, -, hP1, hN1⟩ := hv1
  obtain ⟨hT2, -, hR2, hS2, -, hP2, hN2⟩ := hv2
  have hTE : wE.TrInfoTask.SysTickTime = T := by rw [hwE]
  have hCE : wE.SysTick = T := by rw [hwE]
  have h500 : (TICKS_IN_SECOND / 2 : Nat) = 500 := by decide
  refine ⟨clockTicks reply (k * g) (clockTicks reply g wE), ?_, hi2, ?_, ?_, ?_, ?_, ?_, ?_, ?_⟩
  · intro fuel w2 n h
    have hw := infoLoop_wait reply hsil g hg k (clockTicks reply g wE) fuel w2 n
      (by rw [hT1, hwE]) (by rw [hR1, hwE]; exact hr) hi1
      (by
        rw [hT1, hTE, h500]
        unfold ticksSince iqrfGetSysTick
        rw [hCE] at hc1
        omega) h
    rw [hk]
    exact infoLoop_step reply g _ w wE w2 _ hr hcall hw
  · rw [hT2, hT1, hwE]
  · rw [hT2, hT1, hTE, h500]
    unfold ticksSince iqrfGetSysTick
    rw [hCE] at hc1
    omega
  · rw [hT2, hT1, hwE]
  · rw [hR2, hR1, hwE]
  · rw [hS2, hS1, hwE]
  · rw [hP2, hP1, hwE]
    simp only [sentPackets_append, sentPackets, List.append_nil]
  · rw [hN2, hN1, hwE]
    simp only [pgmEntries_append, pgmEntries]

/-! ## The identification of a module that does not answer -/

set_option maxRecDepth 1000000 in
/-- C27, counterexample. A module that never reports `PROGRAMMING_MODE` but
has a packet of 8 bytes `04` for the host: the driver reads the packet while
the identification runs, the handler `iqrfTrInfoProcess` registered by
`iqrfInit` takes it for the identity, and the task, which calls
`iqrfTrEnterPgmMode` twice and gives up after 14 calls (100 ticks apart),
finishes with `McuType = 4`, not `MCU_UNKNOWN`. -/
theorem iqrfTrInfoTask_timeout_counterexample :
    (∀ w, talkativeReply w % 256 ≠ PROGRAMMING_MODE)
    ∧ (infoLoop talkativeReply 100 15 identStart).map
        (fun r => (r.2, r.1.IqrfTrInfoStruct.McuType, r.1.IqrfTrInfoReading,
          pgmEntries r.1.trace))
      = some (14, 4, 0, 2)
    ∧ MCU_UNKNOWN ≠ 4 := by
  refine ⟨?_, ?_, by decide⟩
  · intro w
    unfold talkativeReply
    split_ifs <;> decide
  · decide

/-- C27, amended. Identification timeout: if the module never reports
`PROGRAMMING_MODE` and never reports data ready, the loop of `iqrfInit` over
`iqrfTrInfoTask` (`g` ticks of the clock between two calls, `1 ≤ g`) ends
after `2 * waitPolls g + 4` calls: `iqrfTrEnterPgmMode` has been invoked
exactly twice, each time followed by `waitPolls g` polls `g` ticks apart,
that is by a wait of at least `TICKS_IN_SECOND / 2` ticks during which the
task does nothing; no request has been sent; `McuType = MCU_UNKNOWN` and
`IqrfTrInfoReading = 0`. -/
theorem iqrfTrInfoTask_timeout (reply : World → Nat) (g fuel : Nat) (w : World)
    (hsil : Silent reply) (hg1 : 1 ≤ g) (hg : g ≤ 4294966000)
    (hsm : w.TrInfoTask.TrInfoTaskSM = TrInfoTaskState.INIT_TASK)
    (hr : w.IqrfTrInfoReading ≠ 0) (hi : Idle w) :
    ∃ wf, infoLoop reply g (fuel + 2 * waitPolls g + 5) w = some (wf, 2 * waitPolls g + 4)
      ∧ wf.IqrfTrInfoReading = 0
      ∧ wf.IqrfTrInfoStruct.McuType = MCU_UNKNOWN
      ∧ pgmEntries wf.trace = pgmEntries w.trace + 2
      ∧ sentPackets wf.trace = sentPackets w.trace
      ∧ TICKS_IN_SECOND / 2 ≤ waitPolls g * g
      ∧ (∀ v : World, v.TrInfoTask.TrInfoTaskSM = TrInfoTaskState.SEND_REQUEST →
          v.IqrfSpiControl.SpiStat ≠ PROGRAMMING_MODE →
          ticksSince v v.TrInfoTask.SysTickTime < TICKS_IN_SECOND / 2 →
          iqrfTrInfoTask v = some v) := by
  -- the call in INIT_TASK
  obtain ⟨wA, hwA, hcA⟩ : ∃ wA, wA =
      ({ w with
         IqrfTrInfoStruct := { w.IqrfTrInfoStruct with McuType := MCU_UNKNOWN }
         TrInfoTask := { w.TrInfoTask with
           Attempts := 1
           DataToModule := memset w.TrInfoTask.DataToModule 0 0 32
           TrInfoTaskSM := TrInfoTaskState.ENTER_PROG_MODE } } : World)
      ∧ iqrfTrInfoTask w = some wA := by
    refine ⟨_, rfl, ?_⟩
    unfold iqrfTrInfoTask
    rw [hsm]
  have hiA : Idle wA := by rw [hwA]; exact hi
  obtain ⟨hi1, hv1, -⟩ := clockTicks_idle reply hsil g wA hiA
  simp only [taskView, Prod.mk.injEq] at hv1
  obtain ⟨hT1, -, hR1, hS1, -, hP1, hN1⟩ := hv1
  -- the first attempt
  obtain ⟨v1, hrun1, hiv1, hsm1, hto1, hat1, hrd1, hst1, hsp1, hpe1⟩ :=
    infoLoop_attempt reply hsil g hg1 hg (clockTicks reply g wA)
      (by rw [hT1, hwA]) (by rw [hR1, hwA]; exact hr) hi1
  have hatt1 : v1.TrInfoTask.Attempts = 1 := by rw [hat1, hT1, hwA]
  obtain ⟨wD, hwD, hcD⟩ : ∃ wD, wD =
      ({ v1 with TrInfoTask := { v1.TrInfoTask with
          Attempts := 0
          TrInfoTaskSM := TrInfoTaskState.ENTER_PROG_MODE } } : World)
      ∧ iqrfTrInfoTask v1 = some wD := by
    refine ⟨_, rfl, ?_⟩
    unfold iqrfTrInfoTask
    rw [hsm1]
    simp only []
    rw [if_neg (fun h => hiv1.2.2.2 h.1), if_pos hto1, if_pos (by rw [hatt1]; decide), hatt1]
  have hiD : Idle wD := by rw [hwD]; exact hiv1
  obtain ⟨hi2, hv2, -⟩ := clockTicks_idle reply hsil g wD hiD
  simp only [taskView, Prod.mk.injEq] at hv2
  obtain ⟨hT2, -, hR2, hS2, -, hP2, hN2⟩ := hv2
  -- the second attempt
  obtain ⟨v2, hrun2, hiv2, hsm2, hto2, hat2, hrd2, hst2, hsp2, hpe2⟩ :=
    infoLoop_attempt reply hsil g hg1 hg (clockTicks reply g wD)
      (by rw [hT2, hwD]) (by rw [hR2, hwD, hrd1, hR1, hwA]; exact hr) hi2
  have hatt2 : v2.TrInfoTask.Attempts = 0 := by rw [hat2, hT2, hwD]
  obtain ⟨wG, hwG, hcG⟩ : ∃ wG, wG =
      ({ v2 with TrInfoTask := { v2.TrInfoTask with
          TrInfoTaskSM := TrInfoTaskState.DONE } } : World)
      ∧ iqrfTrInfoTask v2 = some wG := by
    refine ⟨_, rfl, ?_⟩
    unfold iqrfTrInfoTask
    rw [hsm2]
    simp only []
    rw [if_neg (fun h => hiv2.2.2.2 h.1), if_pos hto2, if_neg (by rw [hatt2]; decide)]
  have hiG : Idle wG := by rw [hwG]; exact hiv2
  obtain ⟨hi3, hv3, -⟩ := clockTicks_idle reply hsil g wG hiG
  simp only [taskView, Prod.mk.injEq] at hv3
  obtain ⟨hT3, -, hR3, hS3, -, hP3, hN3⟩ := hv3
  -- the call in DONE
  obtain ⟨wI, hwI, hcI⟩ : ∃ wI, wI =
      ({ clockTicks reply g wG with IqrfTrInfoReading := 0 } : World)
      ∧ iqrfTrInfoTask (clockTicks reply g wG) = some wI := by
    refine ⟨_, rfl, ?_⟩
    have hsmG : (clockTicks reply g wG).TrInfoTask.TrInfoTaskSM = TrInfoTaskState.DONE := by
      rw [hT3, hwG]
    unfold iqrfTrInfoTask
    rw [hsmG]
    simp only []
    rw [if_pos ⟨hi3.2.2.1, hi3.1⟩]
  have hiI : Idle wI := by rw [hwI]; exact hi3
  obtain ⟨-, hv4, -⟩ := clockTicks_idle reply hsil g wI hiI
  simp only [taskView, Prod.mk.injEq] at hv4
  obtain ⟨-, -, hR4, hS4, -, hP4, hN4⟩ := hv4
  have hrd2n : v2.IqrfTrInfoReading ≠ 0 := by rw [hrd2, hR2, hwD, hrd1, hR1, hwA]; exact hr
  have hrd1n : v1.IqrfTrInfoReading ≠ 0 := by rw [hrd1, hR1, hwA]; exact hr
  have hrd3n : (clockTicks reply g wG).IqrfTrInfoReading ≠ 0 := by
    rw [hR3, hwG]; exact hrd2n
  -- the run, from its end
  have hJ := infoLoop_done reply g fuel (clockTicks reply g wI) (by rw [hR4, hwI])
  have hI := infoLoop_step reply g _ _ _ _ _ hrd3n hcI hJ
  have hG := infoLoop_step reply g _ _ _ _ _ hrd2n hcG hI
  have hF := hrun2 _ _ _ hG
  have hD := infoLoop_step reply g _ _ _ _ _ hrd1n hcD hF
  have hC := hrun1 _ _ _ hD
  have hA := infoLoop_step reply g _ _ _ _ _ hr hcA hC
  obtain ⟨k, hk, hk1, hk2⟩ := waitPolls_spec g hg1
  refine ⟨clockTicks reply g wI, ?_, ?_, ?_, ?_, ?_, ?_, ?_⟩
  · have e1 : fuel + 2 * waitPolls g + 5
        = fuel + 1 + 1 + 1 + waitPolls g + 1 + waitPolls g + 1 := by omega
    have e2 : 2 * waitPolls g + 4 = 0 + 1 + 1 + waitPolls g + 1 + waitPolls g + 1 := by omega
    rw [e1, e2]
    exact hA
  · rw [hR4, hwI]
  · rw [hS4, hwI]
    show (clockTicks reply g wG).IqrfTrInfoStruct.McuType = MCU_UNKNOWN
    rw [hS3, hwG]
    show v2.IqrfTrInfoStruct.McuType = MCU_UNKNOWN
    rw [hst2, hS2, hwD]
    show v1.IqrfTrInfoStruct.McuType = MCU_UNKNOWN
    rw [hst1, hS1, hwA]
  · rw [hN4, hwI]
    show pgmEntries (clockTicks reply g wG).trace = _
    rw [hN3, hwG]
    show pgmEntries v2.trace = _
    rw [hpe2, hN2, hwD]
    show pgmEntries v1.trace + 1 = _
    rw [hpe1, hN1, hwA]
  · rw [hP4, hwI]
    show sentPackets (clockTicks reply g wG).trace = _
    rw [hP3, hwG]
    show sentPackets v2.trace = _
    rw [hsp2, hP2, hwD]
    show sentPackets v1.trace = _
    rw [hsp1, hP1, hwA]
  · rw [hk, Nat.succ_mul]
    have hT : (TICKS_IN_SECOND / 2 : Nat) = 500 := by decide
    rw [hT]
    exact hk1
  · exact iqrfTrInfoTask_waiting

/-- Witness for `iqrfTrInfoTask_timeout`: the state in which `iqrfInit` enters
the loop, a module that answers every status poll with `0x00`, the task
called every 100 ticks. -/
theorem iqrfTrInfoTask_timeout_witness :
    Silent (fun _ => 0) ∧ Idle identStart
    ∧ ∃ wf, infoLoop (fun _ => 0) 100 (0 + 2 * waitPolls 100 + 5) identStart
          = some (wf, 2 * waitPolls 100 + 4)
      ∧ wf.IqrfTrInfoReading = 0
      ∧ wf.IqrfTrInfoStruct.McuType = MCU_UNKNOWN
      ∧ pgmEntries wf.trace = pgmEntries identStart.trace + 2
      ∧ sentPackets wf.trace = sentPackets identStart.trace
      ∧ TICKS_IN_SECOND / 2 ≤ waitPolls 100 * 100
      ∧ (∀ v : World, v.TrInfoTask.TrInfoTaskSM = TrInfoTaskState.SEND_REQUEST →
          v.IqrfSpiControl.SpiStat ≠ PROGRAMMING_MODE →
          ticksSince v v.TrInfoTask.SysTickTime < TICKS_IN_SECOND / 2 →
          iqrfTrInfoTask v = some v) :=
  ⟨fun _ => ⟨(by decide : (0 % 256) &&& 0xC0 ≠ 0x40), (by decide : 0 % 256 ≠ PROGRAMMING_MODE)⟩,
    by decide,
    iqrfTrInfoTask_timeout (fun _ => 0) 100 0 identStart
      (fun _ => ⟨(by decide : (0 % 256) &&& 0xC0 ≠ 0x40),
        (by decide : 0 % 256 ≠ PROGRAMMING_MODE)⟩)
      (by decide) (by decide) rfl (by decide) (by decide)⟩

/-! ## The driver records bus traffic only -/

/-- C25, the code at the failing input. The module has entered programming
mode and `iqrfTrInfoTask`, in `SEND_REQUEST` with `IqrfTrInfoReading = 4`,
queues the basic-identity request: `SPI_MODULE_INFO` with 1 byte. The driver
sends it as a write (type byte `0x81`: only the lengths 16 and 32 make
`SPI_MODULE_INFO` a read). The module answers with a frame that validates
(payload `0x12`, checksum `0xCC`, `SPI_CRCM_OK`); the exchange ends, the
library is ready again, and the handler has not been called: the payload
does not reach `iqrfTrInfoProcess` and `IqrfTrInfoReading` is still 4. The
task waits, and half a second later it leaves programming mode and the loop
ends with the identity unknown. -/
theorem iqrfTrInfoTask_basic_request :
    basicRequestRun.map (fun w => sentPackets w.trace) = some [(SPI_MODULE_INFO, [0], 1)]
    ∧ basicRequestRun.map (fun w => (transfers w.trace).drop 2)
        = some [(SPI_MODULE_INFO, 0), (0x81, 0), (0, 0x12), (0x5F ^^^ SPI_MODULE_INFO ^^^ 0x81, 0xCC),
            (0, SPI_CRCM_OK)]
    ∧ basicRequestRun.map (fun w => w.IqrfSpiControl.PTYPE) = some 0x81
    ∧ basicRequestRun.map (fun w => inboundValid 1 0x81 (w.IqrfSpiControl.PacketRxBuffer.take 5))
        = some true
    ∧ basicRequestRun.map (fun w => w.IqrfControl.Status) = some IQRF_READY
    ∧ basicRequestRun.map (fun w => rxCalls w.trace) = some []
    ∧ basicRequestRun.map (fun w => w.IqrfTrInfoReading) = some 4
    ∧ basicRequestRun.bind (fun w => (iqrfTrInfoTask w).map (fun v => decide (v = w)))
        = some true
    ∧ basicRequestRun.bind (fun w => (iqrfTrInfoTask (later 500 w)).bind
          (fun v => (iqrfTrInfoTask v).map (fun u =>
            (v.TrInfoTask.TrInfoTaskSM, u.IqrfTrInfoReading, u.IqrfTrInfoStruct.McuType,
              u.IqrfTrInfoStruct.OsVersion))))
        = some (TrInfoTaskState.DONE, 0, MCU_UNKNOWN, 0) := by
  refine ⟨?_, ?_, ?_, ?_, ?_, ?_, ?_, ?_, ?_⟩ <;> decide

/-! ## Writing the user key or the access password -/

theorem nibbles_or : ∀ d < 16, ∀ e < 16,
    ((d <<< 4) % 256) ||| e = 16 * d + e ∧ (d <<< 4) % 256 = 16 * d := by
  decide

theorem iqrfPgmConvertToNum_eq (hi lo : Nat) :
    iqrfPgmConvertToNum hi lo = 16 * specDigit hi + specDigit lo := by
  have hv : specDigit hi < 16 ∧ specDigit lo < 16 := by
    unfold specDigit
    constructor <;> split_ifs <;> omega
  have key := nibbles_or (specDigit hi) hv.1 (specDigit lo) hv.2
  have h1 : (if hi ≥ 48 ∧ hi ≤ 57 then ((hi - 48) <<< 4) % 256
      else if hi ≥ 97 ∧ hi ≤ 102 then ((hi - 87) <<< 4) % 256 else 0)
      = (specDigit hi <<< 4) % 256 := by
    unfold specDigit
    split_ifs <;> rfl
  have h2 : iqrfPgmConvertToNum hi lo = ((specDigit hi <<< 4) % 256) ||| specDigit lo := by
    unfold iqrfPgmConvertToNum
    simp only [h1]
    unfold specDigit
    split_ifs <;> first | rfl | simp
  rw [h2]
  exact key.1

/-- The loop of `iqrfPgmReadHEXFileLine` on any pairs of characters followed
by a line terminator: a byte is stored for each pair, whatever the
characters are, and the result tells whether the running sum ends at zero. -/
theorem readHexPairs_chars (eol : Nat) (rest : List Nat)
    (heol : eol = 0x0A ∨ eol = 0x0D) (ps : List (Nat × Nat)) :
    ∀ (fuel : Nat) (w : World) (ptr crc : Nat),
      w.CodeFile = pairChars ps ++ eol :: rest →
      ptr + ps.length < 32 → ps.length < fuel →
      (∀ p ∈ ps, tolower (p.1 % 256) ≠ 0x0A ∧ tolower (p.1 % 256) ≠ 0x0D) → crc < 256 →
      readHexPairs fuel w ptr crc =
        some ({ w with
                CodeFile := rest
                CodeFileInfo := { w.CodeFileInfo with
                  FileByteCnt := (w.CodeFileInfo.FileByteCnt + (2 * ps.length + 1)) % 65536 }
                IqrfPgmCodeLineBuffer := memcpy w.IqrfPgmCodeLineBuffer ptr (ps.map convertPair) },
              if (crc + (ps.map convertPair).sum) % 256 ≠ 0 then IQRF_PGM_FILE_DATA_ERROR
              else IQRF_PGM_FILE_DATA_READY) := by
  induction ps with
  | nil =>
    intro fuel w ptr crc hfile _ hfuel _ hcrc
    obtain ⟨f, rfl⟩ : ∃ f, fuel = f + 1 := ⟨fuel - 1, by simp at hfuel; omega⟩
    simp only [pairChars, List.flatMap_nil, List.nil_append] at hfile
    have he : tolower (eol % 256) = 0x0A ∨ tolower (eol % 256) = 0x0D := by
      rcases heol with h | h <;> subst h <;> decide
    have hsum : (crc + ([] : List Nat).sum) % 256 = crc := by
      simp only [List.sum_nil, Nat.add_zero]; exact Nat.mod_eq_of_lt hcrc
    simp only [readHexPairs, iqrfReadByteFromFile_cons w eol rest hfile, he, if_true,
      List.length_nil, Nat.mul_zero, Nat.zero_add, memcpy, hsum, List.map_nil]
    split <;> rfl
  | cons p qs ih =>
    intro fuel w ptr crc hfile hptr hfuel hp hcrc
    obtain ⟨f, rfl⟩ : ∃ f, fuel = f + 1 := ⟨fuel - 1, by simp at hfuel; omega⟩
    simp only [List.length_cons] at hptr hfuel
    obtain ⟨hne1, hne2⟩ := hp p (List.mem_cons_self p qs)
    have hfile2 : w.CodeFile = p.1 :: p.2 :: (pairChars qs ++ eol :: rest) := by
      rw [hfile]; simp [pairChars]
    have hr1 := iqrfReadByteFromFile_cons w _ _ hfile2
    have hr2 := iqrfReadByteFromFile_cons
      { w with
        CodeFile := p.2 :: (pairChars qs ++ eol :: rest)
        CodeFileInfo := { w.CodeFileInfo with
          FileByteCnt := (w.CodeFileInfo.FileByteCnt + 1) % 65536 } } _ _ rfl
    have hpm : (ptr + 1) % 256 = ptr + 1 := Nat.mod_eq_of_lt (by omega)
    have hnge : ¬ (ptr + 1 ≥ SIZE_OF_CODE_LINE_BUFFER) := by
      unfold SIZE_OF_CODE_LINE_BUFFER; omega
    have hneol : ¬ (tolower (p.1 % 256) = 0x0A ∨ tolower (p.1 % 256) = 0x0D) := by
      intro h; rcases h with h | h
      · exact hne1 h
      · exact hne2 h
    have hconv : iqrfPgmConvertToNum (tolower (p.1 % 256)) (tolower (p.2 % 256))
        = convertPair p := rfl
    simp only [readHexPairs, hr1, hr2, hneol, if_false, hconv, hpm, hnge]
    rw [ih f _ (ptr + 1) ((crc + convertPair p) % 256) rfl (by omega) (by omega)
      (fun x hx => hp x (List.mem_cons_of_mem p hx)) (Nat.mod_lt _ (by decide))]
    have hcnt : ((w.CodeFileInfo.FileByteCnt + 1) % 65536 + 1) % 65536 + (2 * qs.length + 1)
        ≡ w.CodeFileInfo.FileByteCnt + (2 * (qs.length + 1) + 1) [MOD 65536] := by
      unfold Nat.ModEq; omega
    have hsum : ((crc + convertPair p) % 256 + (qs.map convertPair).sum) % 256
        = (crc + ((p :: qs).map convertPair).sum) % 256 := by
      simp only [List.map_cons, List.sum_cons]; omega
    simp only [List.length_cons, hsum, memcpy, List.map_cons]
    unfold Nat.ModEq at hcnt
    rw [hcnt]

/-- The reader on a line of any characters. -/
theorem iqrfPgmReadHEXFileLine_chars (eol : Nat) (pre rest : List Nat) (ps : List (Nat × Nat))
    (w : World) (heol : eol = 0x0A ∨ eol = 0x0D)
    (hfile : w.CodeFile = pre ++ 0x3A :: (pairChars ps ++ eol :: rest))
    (hpre : ∀ b ∈ pre, b % 256 ≠ 0 ∧ b % 256 ≠ 0x3A)
    (hlen : ps.length ≤ 31)
    (hhi : ∀ p ∈ ps, tolower (p.1 % 256) ≠ 0x0A ∧ tolower (p.1 % 256) ≠ 0x0D) :
    iqrfPgmReadHEXFileLine w =
      some ({ w with
              CodeFile := rest
              CodeFileInfo := { w.CodeFileInfo with
                FileByteCnt := (w.CodeFileInfo.FileByteCnt
                  + (pre.length + 2 * ps.length + 2)) % 65536 }
              IqrfPgmCodeLineBuffer := memcpy w.IqrfPgmCodeLineBuffer 0 (ps.map convertPair) },
            if (ps.map convertPair).sum % 256 ≠ 0 then IQRF_PGM_FILE_DATA_ERROR
            else IQRF_PGM_FILE_DATA_READY) := by
  unfold iqrfPgmReadHEXFileLine
  rw [findStartOfLine_marker _ pre _ w hfile
    (by rw [hfile]; simp only [List.length_append, List.length_cons]; omega) hpre]
  simp only
  rw [if_neg (by decide)]
  rw [readHexPairs_chars eol rest heol ps SIZE_OF_CODE_LINE_BUFFER _ 0 0 rfl
    (by omega) (by unfold SIZE_OF_CODE_LINE_BUFFER; omega) hhi (by decide)]
  have hcnt : ((w.CodeFileInfo.FileByteCnt + (pre.length + 1)) % 65536
      + (2 * ps.length + 1)) % 65536
      = (w.CodeFileInfo.FileByteCnt + (pre.length + 2 * ps.length + 2)) % 65536 := by omega
  simp only [hcnt, Nat.zero_add]

/-- C40. Non-hex characters are not rejected: `iqrfPgmConvertToNum` returns
`16 * v(hi) + v(lo)`, where `v` gives `0`..`9` and `a`..`f` their digit
values and every other character 0. Hence for a line `:` + pairs of any
characters + CR or LF (at most 31 pairs, none starting with a line end)
`iqrfPgmReadHEXFileLine` stores a byte per pair and returns
`IQRF_PGM_FILE_DATA_READY` whenever the sum of these bytes is 0 modulo 256:
so for `:zz` + LF, which stores the byte 0, and for the empty record `:` +
LF, where the line buffer keeps the previous line's contents. -/
theorem iqrfPgmReadHEXFileLine_nonhex (eol : Nat) (pre rest : List Nat)
    (ps : List (Nat × Nat)) (w : World) (heol : eol = 0x0A ∨ eol = 0x0D)
    (hfile : w.CodeFile = pre ++ 0x3A :: (pairChars ps ++ eol :: rest))
    (hpre : ∀ b ∈ pre, b % 256 ≠ 0 ∧ b % 256 ≠ 0x3A)
    (hlen : ps.length ≤ 31)
    (hhi : ∀ p ∈ ps, tolower (p.1 % 256) ≠ 0x0A ∧ tolower (p.1 % 256) ≠ 0x0D)
    (hsum : ((ps.map convertPair).sum) % 256 = 0) :
    (∀ hi lo, iqrfPgmConvertToNum hi lo = 16 * specDigit hi + specDigit lo)
    ∧ (∃ w1, iqrfPgmReadHEXFileLine w = some (w1, IQRF_PGM_FILE_DATA_READY)
        ∧ w1.IqrfPgmCodeLineBuffer = memcpy w.IqrfPgmCodeLineBuffer 0 (ps.map convertPair)
        ∧ w1.CodeFile = rest)
    ∧ (∀ (v : World) (tail : List Nat), v.CodeFile = [0x3A, 0x7A, 0x7A, 0x0A] ++ tail →
        ∃ v1, iqrfPgmReadHEXFileLine v = some (v1, IQRF_PGM_FILE_DATA_READY)
          ∧ v1.IqrfPgmCodeLineBuffer = v.IqrfPgmCodeLineBuffer.set 0 0)
    ∧ (∀ (v : World) (tail : List Nat), v.CodeFile = [0x3A, 0x0A] ++ tail →
        ∃ v1, iqrfPgmReadHEXFileLine v = some (v1, IQRF_PGM_FILE_DATA_READY)
          ∧ v1.IqrfPgmCodeLineBuffer = v.IqrfPgmCodeLineBuffer) := by
  refine ⟨iqrfPgmConvertToNum_eq, ?_, ?_, ?_⟩
  · rw [iqrfPgmReadHEXFileLine_chars eol pre rest ps w heol hfile hpre hlen hhi, if_neg (by
      rw [hsum]; decide)]
    exact ⟨_, rfl, rfl, rfl⟩
  · intro v tail hv
    rw [iqrfPgmReadHEXFileLine_chars 0x0A [] tail [(0x7A, 0x7A)] v (Or.inl rfl) (by rw [hv]; rfl)
      (by simp) (by decide) (by decide), if_neg (by decide)]
    exact ⟨_, rfl, rfl⟩
  · intro v tail hv
    rw [iqrfPgmReadHEXFileLine_chars 0x0A [] tail [] v (Or.inl rfl) (by rw [hv]; rfl)
      (by simp) (by decide) (by simp), if_neg (by decide)]
    exact ⟨_, rfl, rfl⟩

/-- Witness for `iqrfPgmReadHEXFileLine_nonhex`: the file `:zz` + LF read from
the program's initial state. -/
theorem iqrfPgmReadHEXFileLine_nonhex_witness :
    ∃ w1, iqrfPgmReadHEXFileLine { CodeFile := [0x3A, 0x7A, 0x7A, 0x0A] }
        = some (w1, IQRF_PGM_FILE_DATA_READY)
      ∧ w1.IqrfPgmCodeLineBuffer
          = memcpy ({ CodeFile := [0x3A, 0x7A, 0x7A, 0x0A] } : World).IqrfPgmCodeLineBuffer 0
              ([(0x7A, 0x7A)].map convertPair)
      ∧ w1.CodeFile = [] :=
  (iqrfPgmReadHEXFileLine_nonhex 0x0A [] [] [(0x7A, 0x7A)] { CodeFile := [0x3A, 0x7A, 0x7A, 0x0A] }
    (Or.inl rfl) rfl (by simp) (by decide) (by decide) (by decide)).2.1

/-! ## The three calls of the configuration assembler -/

theorem range68 : List.range 68 = [0, 1, 2, 3, 4, 5, 6, 7, 8, 9, 10, 11, 12, 13, 14, 15, 16, 17, 18, 19, 20, 21, 22, 23, 24,
    25, 26, 27, 28, 29, 30, 31, 32, 33, 34, 35, 36, 37, 38, 39, 40, 41, 42, 43, 44, 45, 46,
    47, 48, 49, 50, 51, 52, 53, 54, 55, 56, 57, 58, 59, 60, 61, 62, 63, 64, 65, 66, 67] := by
  decide

theorem list_eq_range_map (l : List Nat) :
    l = (List.range l.length).map (fun i => l.getD i 0) := by
  apply List.ext_getElem
  · simp
  · intro i h1 h2
    simp [List.getD_eq_getElem?_getD, List.getElem?_eq_getElem h1]

theorem list_of_length_68 (mb : List Nat) (h : mb.length = 68) :
    mb = [mb.getD 0 0, mb.getD 1 0, mb.getD 2 0, mb.getD 3 0, mb.getD 4 0, mb.getD 5 0, mb.getD 6
      0, mb.getD 7 0, mb.getD 8 0, mb.getD 9 0, mb.getD 10 0, mb.getD 11 0, mb.getD 12 0,
      mb.getD 13 0, mb.getD 14 0, mb.getD 15 0, mb.getD 16 0, mb.getD 17 0, mb.getD 18 0,
      mb.getD 19 0, mb.getD 20 0, mb.getD 21 0, mb.getD 22 0, mb.getD 23 0, mb.getD 24 0,
      mb.getD 25 0, mb.getD 26 0, mb.getD 27 0, mb.getD 28 0, mb.getD 29 0, mb.getD 30 0,
      mb.getD 31 0, mb.getD 32 0, mb.getD 33 0, mb.getD 34 0, mb.getD 35 0, mb.getD 36 0,
      mb.getD 37 0, mb.getD 38 0, mb.getD 39 0, mb.getD 40 0, mb.getD 41 0, mb.getD 42 0,
      mb.getD 43 0, mb.getD 44 0, mb.getD 45 0, mb.getD 46 0, mb.getD 47 0, mb.getD 48 0,
      mb.getD 49 0, mb.getD 50 0, mb.getD 51 0, mb.getD 52 0, mb.getD 53 0, mb.getD 54 0,
      mb.getD 55 0, mb.getD 56 0, mb.getD 57 0, mb.getD 58 0, mb.getD 59 0, mb.getD 60 0,
      mb.getD 61 0, mb.getD 62 0, mb.getD 63 0, mb.getD 64 0, mb.getD 65 0, mb.getD 66 0,
      mb.getD 67 0] := by
  have e := list_eq_range_map mb
  rw [h, range68] at e
  exact e

theorem list_of_length_32 (bytes : List Nat) (h : bytes.length = 32) :
    bytes = [bytes.getD 0 0, bytes.getD 1 0, bytes.getD 2 0, bytes.getD 3 0, bytes.getD 4 0,
      bytes.getD 5 0, bytes.getD 6 0, bytes.getD 7 0, bytes.getD 8 0, bytes.getD 9 0, bytes.getD
      10 0, bytes.getD 11 0, bytes.getD 12 0, bytes.getD 13 0, bytes.getD 14 0, bytes.getD 15 0,
      bytes.getD 16 0, bytes.getD 17 0, bytes.getD 18 0, bytes.getD 19 0, bytes.getD 20 0,
      bytes.getD 21 0, bytes.getD 22 0, bytes.getD 23 0, bytes.getD 24 0, bytes.getD 25 0,
      bytes.getD 26 0, bytes.getD 27 0, bytes.getD 28 0, bytes.getD 29 0, bytes.getD 30 0,
      bytes.getD 31 0] := by
  have e := list_eq_range_map bytes
  rw [h, range32] at e
  exact e

/-- The image of the configuration page built from the bytes `c 0 .. c 31`,
whatever the image held before: every one of its 68 bytes is written. -/
theorem cfgImage_any (mb : List Nat) (h : mb.length = 68) (c : Nat → Nat) :
    ((List.range 32).zip [c 0, c 1, c 2, c 3, c 4, c 5, c 6, c 7, c 8, c 9, c 10, c 11, c 12, c 13, c 14, c 15, c
      16, c 17, c 18, c 19, c 20, c 21, c 22, c 23, c 24, c 25, c 26, c 27, c 28, c 29, c 30, c
      31]).foldl
      (fun (mb : List Nat) (p : Nat × Nat) =>
        (mb.set (if p.1 < 16 then p.1 * 2 + 2 else p.1 * 2 + 4) p.2).set
          ((if p.1 < 16 then p.1 * 2 + 2 else p.1 * 2 + 4) + 1) 0x34)
      ((((mb.set 0 (IQRF_CONFIG_MEM_L_ADR &&& 0x00FF)).set 1
        (IQRF_CONFIG_MEM_L_ADR >>> 8)).set 34 (IQRF_CONFIG_MEM_H_ADR &&& 0x00FF)).set 35
        (IQRF_CONFIG_MEM_H_ADR >>> 8))
    = [0xC0, 0x37, c 0, 0x34, c 1, 0x34, c 2, 0x34, c 3, 0x34, c 4, 0x34, c 5, 0x34, c 6, 0x34,
      c 7, 0x34, c 8, 0x34, c 9, 0x34, c 10, 0x34, c 11, 0x34, c 12, 0x34, c 13, 0x34, c 14,
      0x34, c 15, 0x34, 0xD0, 0x37, c 16, 0x34, c 17, 0x34, c 18, 0x34, c 19, 0x34, c 20, 0x34,
      c 21, 0x34, c 22, 0x34, c 23, 0x34, c 24, 0x34, c 25, 0x34, c 26, 0x34, c 27, 0x34, c 28,
      0x34, c 29, 0x34, c 30, 0x34, c 31, 0x34] := by
  have a1 : IQRF_CONFIG_MEM_L_ADR &&& 0x00FF = 0xC0 := by decide
  have a2 : IQRF_CONFIG_MEM_L_ADR >>> 8 = 0x37 := by decide
  have a3 : IQRF_CONFIG_MEM_H_ADR &&& 0x00FF = 0xD0 := by decide
  have a4 : IQRF_CONFIG_MEM_H_ADR >>> 8 = 0x37 := by decide
  rw [list_of_length_68 mb h, range32, a1, a2, a3, a4]
  simp only [List.zip_cons_cons,
    List.zip_nil_right, List.foldl_cons, List.foldl_nil, Nat.reduceLT, if_true, if_false,
    Nat.reduceMul, Nat.reduceAdd, List.set_cons_succ, List.set_cons_zero]

theorem cfgReadLoop_image : ∀ (cnts bytes rest : List Nat) (v : World),
    v.CodeFile = bytes ++ rest → bytes.length = cnts.length →
    cnts.foldl cfgReadStep v =
    { v with
      CodeFile := rest
      CodeFileInfo := { v.CodeFileInfo with
        FileByteCnt := (fun x => (x + 1) % 65536)^[bytes.length] v.CodeFileInfo.FileByteCnt }
      PrepareMemBlock := { v.PrepareMemBlock with
        MemoryBlock := (cnts.zip (bytes.map (fun b => b % 256))).foldl
          (fun (mb : List Nat) (p : Nat × Nat) =>
            (mb.set (if p.1 < 16 then p.1 * 2 + 2 else p.1 * 2 + 4) p.2).set
              ((if p.1 < 16 then p.1 * 2 + 2 else p.1 * 2 + 4) + 1) 0x34)
          v.PrepareMemBlock.MemoryBlock } } := by
  intro cnts
  induction cnts with
  | nil =>
    intro bytes rest v hfile hlen
    have hb : bytes = [] := List.length_eq_zero.mp hlen
    subst hb
    rcases v with ⟨a1, a2, a3, a4, a5, a6, ⟨f1, f2, f3⟩, a8, ⟨p1, p2, p3, p4, p5, p6, p7⟩, a10,
      a11, a12, a13, a14, a15, a16⟩
    simp only [List.nil_append] at hfile
    subst hfile
    rfl
  | cons Cnt cnts ih =>
    intro bytes rest v hfile hlen
    rcases bytes with _ | ⟨b, bs⟩
    · simp at hlen
    simp only [List.length_cons, Nat.add_right_cancel_iff] at hlen
    simp only [List.foldl_cons, cfgReadStep]
    rw [iqrfReadByteFromFile_cons v b (bs ++ rest) (by rw [hfile]; rfl)]
    simp only []
    rw [ih bs rest _ rfl hlen]
    simp only [List.map_cons, List.zip_cons_cons, List.foldl_cons, List.length_cons,
      Function.iterate_succ_apply]

/-- C33. Config-block assembler: starting from `DataInBufferReady = 0`, with
no exchange in flight and a file that holds the 32 configuration bytes
`bytes` and the byte `b` after them, three successive calls of
`iqrfPgmProcessCfgFile` return `IQRF_PGM_FLASH_BLOCK_READY`,
`IQRF_PGM_EEPROM_BLOCK_READY`, `IQRF_PGM_SUCCESS` in this order and restore
`DataInBufferReady = 0`. After the first call the image holds the headers
`0x37C0` and `0x37D0` (little-endian at offsets 0 and 34) and file byte `i`
at offset `2 + 2i` for `i < 16` and `4 + 2i` for `i >= 16`, each followed by
the separator `0x34`; after the second call the image starts with
`[RFPGM_CFG_ADR, 0x01, b]`. -/
theorem iqrfPgmProcessCfgFile_three_calls (w : World) (bytes rest : List Nat) (b : Nat)
    (hdib : w.PrepareMemBlock.DataInBufferReady = 0)
    (hst : w.IqrfControl.Status = IQRF_READY)
    (hfile : w.CodeFile = bytes ++ b :: rest) (hlen : bytes.length = 32)
    (hb : ∀ x ∈ bytes, x < 256) (hb2 : b < 256)
    (hmb : w.PrepareMemBlock.MemoryBlock.length = 68) :
    ∃ w1 w2 w3, iqrfPgmProcessCfgFile w = some (w1, IQRF_PGM_FLASH_BLOCK_READY)
      ∧ iqrfPgmProcessCfgFile w1 = some (w2, IQRF_PGM_EEPROM_BLOCK_READY)
      ∧ iqrfPgmProcessCfgFile w2 = some (w3, IQRF_PGM_SUCCESS)
      ∧ w3.PrepareMemBlock.DataInBufferReady = 0
      ∧ w1.PrepareMemBlock.MemoryBlock.getD 0 0 + 256 * w1.PrepareMemBlock.MemoryBlock.getD 1 0
          = IQRF_CONFIG_MEM_L_ADR
      ∧ w1.PrepareMemBlock.MemoryBlock.getD 34 0 + 256 * w1.PrepareMemBlock.MemoryBlock.getD 35 0
          = IQRF_CONFIG_MEM_H_ADR
      ∧ (∀ i, i < 32 →
          w1.PrepareMemBlock.MemoryBlock.getD (if i < 16 then 2 + 2 * i else 4 + 2 * i) 0
            = bytes.getD i 0
          ∧ w1.PrepareMemBlock.MemoryBlock.getD ((if i < 16 then 2 + 2 * i else 4 + 2 * i) + 1) 0
            = 0x34)
      ∧ w1.PrepareMemBlock.MemoryBlock.length = 68
      ∧ w1.CodeFile = rest
      ∧ readBytes w2.PrepareMemBlock.MemoryBlock 0 3 = [RFPGM_CFG_ADR, 0x01, b] := by
  have hmap : bytes.map (fun b => b % 256) = bytes := map_mod_of_lt bytes hb
  obtain ⟨ws, hsus, hws⟩ : ∃ ws, iqrfSuspendDriver
      { w with PrepareMemBlock := { w.PrepareMemBlock with
          MemoryBlock := (((w.PrepareMemBlock.MemoryBlock.set 0
            (IQRF_CONFIG_MEM_L_ADR &&& 0x00FF)).set 1 (IQRF_CONFIG_MEM_L_ADR >>> 8)).set 34
            (IQRF_CONFIG_MEM_H_ADR &&& 0x00FF)).set 35 (IQRF_CONFIG_MEM_H_ADR >>> 8)
          MemoryBlockProcessState := 2 } } = some ws ∧ ws = _ :=
    ⟨_, iqrfSuspendDriver_ready _ hst, rfl⟩
  have hloop := cfgReadLoop_image (List.range 32) bytes (b :: rest) ws
    (by rw [hws]; exact hfile) (by rw [hlen]; rfl)
  obtain ⟨img, himg0⟩ : ∃ img : List Nat, img =
      [0xC0, 0x37, bytes.getD 0 0, 0x34, bytes.getD 1 0, 0x34, bytes.getD 2 0, 0x34, bytes.getD
        3 0, 0x34, bytes.getD 4 0, 0x34, bytes.getD 5 0, 0x34, bytes.getD 6 0, 0x34, bytes.getD 7
        0, 0x34, bytes.getD 8 0, 0x34, bytes.getD 9 0, 0x34, bytes.getD 10 0, 0x34, bytes.getD 11
        0, 0x34, bytes.getD 12 0, 0x34, bytes.getD 13 0, 0x34, bytes.getD 14 0, 0x34, bytes.getD
        15 0, 0x34, 0xD0, 0x37, bytes.getD 16 0, 0x34, bytes.getD 17 0, 0x34, bytes.getD 18 0,
        0x34, bytes.getD 19 0, 0x34, bytes.getD 20 0, 0x34, bytes.getD 21 0, 0x34, bytes.getD 22
        0, 0x34, bytes.getD 23 0, 0x34, bytes.getD 24 0, 0x34, bytes.getD 25 0, 0x34, bytes.getD
        26 0, 0x34, bytes.getD 27 0, 0x34, bytes.getD 28 0, 0x34, bytes.getD 29 0, 0x34,
        bytes.getD 30 0, 0x34, bytes.getD 31 0, 0x34] := ⟨_, rfl⟩
  have himg : ((List.range 32).zip (bytes.map (fun b => b % 256))).foldl
      (fun (mb : List Nat) (p : Nat × Nat) =>
        (mb.set (if p.1 < 16 then p.1 * 2 + 2 else p.1 * 2 + 4) p.2).set
          ((if p.1 < 16 then p.1 * 2 + 2 else p.1 * 2 + 4) + 1) 0x34)
      ws.PrepareMemBlock.MemoryBlock = img := by
    rw [hmap, hws, himg0]
    conv_lhs => rw [list_of_length_32 bytes hlen]
    exact cfgImage_any w.PrepareMemBlock.MemoryBlock hmb (fun i => bytes.getD i 0)
  rw [himg] at hloop
  obtain ⟨w1, hc1, e1, d1, n1, f1⟩ : ∃ w1,
      iqrfPgmProcessCfgFile w = some (w1, IQRF_PGM_FLASH_BLOCK_READY)
      ∧ w1.PrepareMemBlock.MemoryBlock = img
      ∧ w1.PrepareMemBlock.DataInBufferReady = 1
      ∧ w1.PrepareMemBlock.MemoryBlockNumber = b % 256
      ∧ w1.CodeFile = rest := by
    unfold iqrfPgmProcessCfgFile
    rw [if_pos hdib]
    simp only []
    rw [hsus]
    simp only []
    rw [hloop, iqrfReadByteFromFile_cons _ b rest rfl]
    exact ⟨_, rfl, rfl, rfl, rfl, rfl⟩
  rw [Nat.mod_eq_of_lt hb2] at n1
  have hc2 := iqrfPgmProcessCfgFile_rfpgm w1 d1
  have hc3 := iqrfPgmProcessCfgFile_done
    { w1 with PrepareMemBlock := { w1.PrepareMemBlock with
        MemoryBlock := ((w1.PrepareMemBlock.MemoryBlock.set 0 RFPGM_CFG_ADR).set 1 0x01).set
          2 (w1.PrepareMemBlock.MemoryBlockNumber % 256)
        MemoryBlockProcessState := 1
        DataInBufferReady := 2 } } rfl
  refine ⟨w1, _, _, hc1, hc2, hc3, rfl, ?_, ?_, ?_, ?_, f1, ?_⟩
  · rw [e1, himg0]; rfl
  · rw [e1, himg0]; rfl
  · intro i hi
    rw [e1, himg0]
    interval_cases i <;> exact ⟨rfl, rfl⟩
  · rw [e1, himg0]; rfl
  · show readBytes (((w1.PrepareMemBlock.MemoryBlock.set 0 RFPGM_CFG_ADR).set 1 0x01).set
      2 (w1.PrepareMemBlock.MemoryBlockNumber % 256)) 0 3 = _
    rw [e1, n1, himg0, Nat.mod_eq_of_lt hb2]
    rfl

/-- Witness for `iqrfPgmProcessCfgFile_three_calls`: the configuration bytes
`0 .. 31` followed by the byte `0xC3`, read from the program's initial
state. -/
theorem iqrfPgmProcessCfgFile_three_calls_witness :
    ∃ w1 w2 w3, iqrfPgmProcessCfgFile { CodeFile := List.range 32 ++ 0xC3 :: [] }
        = some (w1, IQRF_PGM_FLASH_BLOCK_READY)
      ∧ iqrfPgmProcessCfgFile w1 = some (w2, IQRF_PGM_EEPROM_BLOCK_READY)
      ∧ iqrfPgmProcessCfgFile w2 = some (w3, IQRF_PGM_SUCCESS)
      ∧ w3.PrepareMemBlock.DataInBufferReady = 0
      ∧ w1.PrepareMemBlock.MemoryBlock.getD 0 0 + 256 * w1.PrepareMemBlock.MemoryBlock.getD 1 0
          = IQRF_CONFIG_MEM_L_ADR
      ∧ w1.PrepareMemBlock.MemoryBlock.getD 34 0 + 256 * w1.PrepareMemBlock.MemoryBlock.getD 35 0
          = IQRF_CONFIG_MEM_H_ADR
      ∧ (∀ i, i < 32 →
          w1.PrepareMemBlock.MemoryBlock.getD (if i < 16 then 2 + 2 * i else 4 + 2 * i) 0
            = (List.range 32).getD i 0
          ∧ w1.PrepareMemBlock.MemoryBlock.getD ((if i < 16 then 2 + 2 * i else 4 + 2 * i) + 1) 0
            = 0x34)
      ∧ w1.PrepareMemBlock.MemoryBlock.length = 68
      ∧ w1.CodeFile = []
      ∧ readBytes w2.PrepareMemBlock.MemoryBlock 0 3 = [RFPGM_CFG_ADR, 0x01, 0xC3] :=
  iqrfPgmProcessCfgFile_three_calls { CodeFile := List.range 32 ++ 0xC3 :: [] } (List.range 32) []
    0xC3 rfl rfl rfl (by decide) (by decide) (by decide) (by decide)

/-! ## The file readers always return -/

theorem iqrfReadByteFromFile_frame (w : World) :
    (iqrfReadByteFromFile w).1.CodeFile.length ≤ w.CodeFile.length
    ∧ ((iqrfReadByteFromFile w).2 ≠ 0 →
        (iqrfReadByteFromFile w).1.CodeFile.length < w.CodeFile.length)
    ∧ fileFrame (iqrfReadByteFromFile w).1 = fileFrame w
    ∧ (iqrfReadByteFromFile w).1.IqrfPgmCodeLineBuffer = w.IqrfPgmCodeLineBuffer := by
  cases hf : w.CodeFile with
  | nil =>
    rw [iqrfReadByteFromFile_nil w hf]
    exact ⟨by rw [hf], fun h => absurd rfl h, rfl, rfl⟩
  | cons b rest =>
    rw [iqrfReadByteFromFile_cons w b rest hf]
    exact ⟨by simp, fun _ => by simp, rfl, rfl⟩

/-- The search for the start of a line ends at the latest when the file is
exhausted; it reads the file and changes nothing else. -/
theorem findStartOfLine_total : ∀ (fuel : Nat) (w : World), w.CodeFile.length < fuel →
    ∃ w1 s, findStartOfLine fuel w = some (w1, s)
      ∧ w1.CodeFile.length ≤ w.CodeFile.length
      ∧ (s ≠ 0 → w1.CodeFile.length < w.CodeFile.length)
      ∧ fileFrame w1 = fileFrame w
      ∧ w1.IqrfPgmCodeLineBuffer = w.IqrfPgmCodeLineBuffer := by
  intro fuel
  induction fuel with
  | zero => intro w h; omega
  | succ f ih =>
    intro w hlen
    obtain ⟨h1, h2, h3, h4⟩ := iqrfReadByteFromFile_frame w
    simp only [findStartOfLine]
    by_cases hc : (iqrfReadByteFromFile w).2 ≠ 0 ∧ (iqrfReadByteFromFile w).2 ≠ 0x3A
    · rw [if_pos hc]
      have hlt := h2 hc.1
      obtain ⟨w1, s, e, a1, a2, a3, a4⟩ := ih (iqrfReadByteFromFile w).1 (by omega)
      exact ⟨w1, s, e, by omega, fun hs => by have := a2 hs; omega, a3.trans h3, a4.trans h4⟩
    · rw [if_neg hc]
      exact ⟨_, _, rfl, h1, h2, h3, h4⟩

/-- The loop of `iqrfPgmReadHEXFileLine` ends after at most `32 - ptr` stored
bytes, whatever the file holds; the bytes are stored from `ptr` on and none
at index 32 or above. -/
theorem readHexPairs_total : ∀ (fuel : Nat) (w : World) (ptr crc : Nat),
    ptr < 32 → 32 ≤ ptr + fuel →
    ∃ w1 r bytes, readHexPairs fuel w ptr crc = some (w1, r)
      ∧ ptr + bytes.length ≤ 32
      ∧ w1.IqrfPgmCodeLineBuffer = memcpy w.IqrfPgmCodeLineBuffer ptr bytes
      ∧ w1.CodeFile.length ≤ w.CodeFile.length
      ∧ fileFrame w1 = fileFrame w
      ∧ (r = IQRF_PGM_FILE_DATA_READY ∨ r = IQRF_PGM_FILE_DATA_ERROR) := by
  intro fuel
  induction fuel with
  | zero => intro w ptr crc h1 h2; omega
  | succ f ih =>
    intro w ptr crc hptr hfuel
    obtain ⟨h1, -, h3, h4⟩ := iqrfReadByteFromFile_frame w
    obtain ⟨g1, -, g3, g4⟩ := iqrfReadByteFromFile_frame (iqrfReadByteFromFile w).1
    simp only [readHexPairs]
    by_cases he : tolower (iqrfReadByteFromFile w).2 = 0x0A
        ∨ tolower (iqrfReadByteFromFile w).2 = 0x0D
    · rw [if_pos he]
      by_cases hc : crc ≠ 0
      · rw [if_pos hc]
        exact ⟨_, _, [], rfl, by simpa using Nat.le_of_lt hptr, by rw [h4]; rfl, h1, h3,
          Or.inr rfl⟩
      · rw [if_neg hc]
        exact ⟨_, _, [], rfl, by simpa using Nat.le_of_lt hptr, by rw [h4]; rfl, h1, h3,
          Or.inl rfl⟩
    · rw [if_neg he]
      have hpm : (ptr + 1) % 256 = ptr + 1 := Nat.mod_eq_of_lt (by omega)
      simp only [hpm]
      by_cases hfull : ptr + 1 ≥ SIZE_OF_CODE_LINE_BUFFER
      · rw [if_pos hfull]
        refine ⟨_, _, [iqrfPgmConvertToNum (tolower (iqrfReadByteFromFile w).2)
          (tolower (iqrfReadByteFromFile (iqrfReadByteFromFile w).1).2)], rfl, ?_, ?_, ?_, ?_,
          Or.inr rfl⟩
        · simp only [List.length_singleton]; omega
        · show List.set _ ptr _ = _
          rw [g4, h4]
          rfl
        · show (iqrfReadByteFromFile (iqrfReadByteFromFile w).1).1.CodeFile.length ≤ _
          omega
        · exact g3.trans h3
      · rw [if_neg hfull]
        have hlt : ptr + 1 < 32 := by unfold SIZE_OF_CODE_LINE_BUFFER at hfull; omega
        obtain ⟨w1, r, bytes, e, a1, a2, a3, a4, a5⟩ := ih
          { (iqrfReadByteFromFile (iqrfReadByteFromFile w).1).1 with
            IqrfPgmCodeLineBuffer :=
              (iqrfReadByteFromFile (iqrfReadByteFromFile w).1).1.IqrfPgmCodeLineBuffer.set ptr
                (iqrfPgmConvertToNum (tolower (iqrfReadByteFromFile w).2)
                  (tolower (iqrfReadByteFromFile (iqrfReadByteFromFile w).1).2)) }
          (ptr + 1) ((crc + iqrfPgmConvertToNum (tolower (iqrfReadByteFromFile w).2)
              (tolower (iqrfReadByteFromFile (iqrfReadByteFromFile w).1).2)) % 256) hlt (by omega)
        refine ⟨w1, r, iqrfPgmConvertToNum (tolower (iqrfReadByteFromFile w).2)
          (tolower (iqrfReadByteFromFile (iqrfReadByteFromFile w).1).2) :: bytes, e, ?_, ?_, ?_, ?_,
          a5⟩
        · simp only [List.length_cons]; omega
        · rw [a2]
          show memcpy (List.set _ ptr _) (ptr + 1) bytes = _
          rw [g4, h4]
          rfl
        · have : w1.CodeFile.length
              ≤ (iqrfReadByteFromFile (iqrfReadByteFromFile w).1).1.CodeFile.length := a3
          omega
        · exact a4.trans (g3.trans h3)

/-- The function `iqrfPgmReadHEXFileLine` returns for every file and every
state; it stores at most 32 bytes, from the start of the line buffer on. -/
theorem iqrfPgmReadHEXFileLine_total (w : World) :
    ∃ w1 r bytes, iqrfPgmReadHEXFileLine w = some (w1, r)
      ∧ bytes.length ≤ 32
      ∧ w1.IqrfPgmCodeLineBuffer = memcpy w.IqrfPgmCodeLineBuffer 0 bytes
      ∧ w1.CodeFile.length ≤ w.CodeFile.length
      ∧ (r ≠ IQRF_PGM_END_OF_FILE → w1.CodeFile.length < w.CodeFile.length)
      ∧ fileFrame w1 = fileFrame w
      ∧ (r = IQRF_PGM_FILE_DATA_READY ∨ r = IQRF_PGM_FILE_DATA_ERROR
          ∨ r = IQRF_PGM_END_OF_FILE) := by
  obtain ⟨w1, s, e, a1, a2, a3, a4⟩ := findStartOfLine_total (w.CodeFile.length + 1) w (by omega)
  unfold iqrfPgmReadHEXFileLine
  rw [e]
  simp only []
  by_cases hs : s = 0
  · rw [if_pos hs]
    exact ⟨w1, _, [], rfl, by simp, by rw [a4]; rfl, a1, fun h => absurd rfl h, a3,
      Or.inr (Or.inr rfl)⟩
  · rw [if_neg hs]
    obtain ⟨w2, r, bytes, e2, b1, b2, b3, b4, b5⟩ :=
      readHexPairs_total SIZE_OF_CODE_LINE_BUFFER w1 0 0 (by decide) (by decide)
    have hlt := a2 hs
    refine ⟨w2, r, bytes, e2, by omega, by rw [b2, a4], by omega, fun _ => by omega,
      b4.trans a3, ?_⟩
    rcases b5 with h | h
    · exact Or.inl h
    · exact Or.inr (Or.inl h)

theorem tolower_zero_of (c : Nat) (h : tolower c ≠ 0) : c ≠ 0 := by
  intro hc; subst hc; exact h (by decide)

/-- The comment loop of `iqrfPgmReadIQRFFileLine` ends at the latest when the
file is exhausted. -/
theorem skipComment_total : ∀ (fuel : Nat) (w : World), w.CodeFile.length < fuel →
    ∃ w1 s, skipComment fuel w = some (w1, s)
      ∧ w1.CodeFile.length ≤ w.CodeFile.length
      ∧ fileFrame w1 = fileFrame w
      ∧ w1.IqrfPgmCodeLineBuffer = w.IqrfPgmCodeLineBuffer := by
  intro fuel
  induction fuel with
  | zero => intro w h; omega
  | succ f ih =>
    intro w hlen
    obtain ⟨h1, h2, h3, h4⟩ := iqrfReadByteFromFile_frame w
    simp only [skipComment]
    by_cases hc : (iqrfReadByteFromFile w).2 ≠ 0 ∧ (iqrfReadByteFromFile w).2 ≠ 0x0D
    · rw [if_pos hc]
      have hlt := h2 hc.1
      obtain ⟨w1, s, e, a1, a3, a4⟩ := ih (iqrfReadByteFromFile w).1 (by omega)
      exact ⟨w1, s, e, by omega, a3.trans h3, a4.trans h4⟩
    · rw [if_neg hc]
      exact ⟨_, _, rfl, h1, h3, h4⟩

/-- The loop of `iqrfPgmReadIQRFFileLine` (the jumps to `repeat_read`) ends
for every file; the bytes are stored from `ptr` on and none at index 20 or
above. -/
theorem readIQRFLoop_total : ∀ (fuel : Nat) (w : World) (ptr : Nat),
    w.CodeFile.length < fuel → ptr ≤ 20 →
    ∃ w1 r bytes, readIQRFLoop fuel w ptr = some (w1, r)
      ∧ ptr + bytes.length ≤ 20
      ∧ w1.IqrfPgmCodeLineBuffer = memcpy w.IqrfPgmCodeLineBuffer ptr bytes
      ∧ w1.CodeFile.length ≤ w.CodeFile.length
      ∧ fileFrame w1 = fileFrame w
      ∧ (r = IQRF_PGM_FILE_DATA_READY ∨ r = IQRF_PGM_FILE_DATA_ERROR
          ∨ r = IQRF_PGM_END_OF_FILE) := by
  intro fuel
  induction fuel with
  | zero => intro w ptr h; omega
  | succ f ih =>
    intro w ptr hlen hptr
    obtain ⟨h1, h2, h3, h4⟩ := iqrfReadByteFromFile_frame w
    -- the first character, after a comment has been skipped
    have hfirst : ∃ w1 c, (if tolower (iqrfReadByteFromFile w).2 = 0x23
          then skipComment ((iqrfReadByteFromFile w).1.CodeFile.length + 1)
            (iqrfReadByteFromFile w).1
          else some ((iqrfReadByteFromFile w).1, tolower (iqrfReadByteFromFile w).2))
          = some (w1, c)
        ∧ w1.CodeFile.length ≤ w.CodeFile.length
        ∧ (c ≠ 0 → w1.CodeFile.length < w.CodeFile.length)
        ∧ fileFrame w1 = fileFrame w
        ∧ w1.IqrfPgmCodeLineBuffer = w.IqrfPgmCodeLineBuffer := by
      by_cases hh : tolower (iqrfReadByteFromFile w).2 = 0x23
      · rw [if_pos hh]
        have hne : (iqrfReadByteFromFile w).2 ≠ 0 :=
          tolower_zero_of _ (by rw [hh]; decide)
        have hlt := h2 hne
        obtain ⟨w1, s, e, a1, a3, a4⟩ :=
          skipComment_total ((iqrfReadByteFromFile w).1.CodeFile.length + 1)
            (iqrfReadByteFromFile w).1 (by omega)
        exact ⟨w1, s, e, by omega, fun _ => by omega, a3.trans h3, a4.trans h4⟩
      · rw [if_neg hh]
        exact ⟨_, _, rfl, h1, fun hc => h2 (tolower_zero_of _ hc), h3, h4⟩
    obtain ⟨w1, c, e1, a1, a2, a3, a4⟩ := hfirst
    obtain ⟨g1, -, g3, g4⟩ := iqrfReadByteFromFile_frame w1
    simp only [readIQRFLoop]
    rw [e1]
    simp only []
    by_cases hcr : c = 0x0D
    · rw [if_pos hcr]
      have hlt := a2 (by rw [hcr]; decide)
      by_cases hp0 : ptr = 0
      · rw [if_pos hp0]
        obtain ⟨w2, r, bytes, e, b1, b2, b3, b4, b5⟩ :=
          ih (iqrfReadByteFromFile w1).1 ptr (by omega) hptr
        exact ⟨w2, r, bytes, e, b1, by rw [b2, g4, a4], by omega, b4.trans (g3.trans a3), b5⟩
      · rw [if_neg hp0]
        by_cases hp20 : ptr = 20
        · rw [if_pos hp20]
          exact ⟨_, _, [], rfl, by simpa using hptr, by rw [g4, a4]; rfl, by omega, g3.trans a3,
            Or.inl rfl⟩
        · rw [if_neg hp20]
          exact ⟨_, _, [], rfl, by simpa using hptr, by rw [g4, a4]; rfl, by omega, g3.trans a3,
            Or.inr (Or.inl rfl)⟩
    · rw [if_neg hcr]
      by_cases hc0 : c = 0
      · rw [if_pos hc0]
        exact ⟨_, _, [], rfl, by simpa using hptr, by rw [a4]; rfl, a1, a3, Or.inr (Or.inr rfl)⟩
      · rw [if_neg hc0]
        have hlt := a2 hc0
        by_cases hfull : ptr ≥ 20
        · rw [if_pos hfull]
          exact ⟨_, _, [], rfl, by simpa using hptr, by rw [g4, a4]; rfl, by omega, g3.trans a3,
            Or.inr (Or.inl rfl)⟩
        · rw [if_neg hfull]
          obtain ⟨w2, r, bytes, e, b1, b2, b3, b4, b5⟩ := ih
            { (iqrfReadByteFromFile w1).1 with
              IqrfPgmCodeLineBuffer := (iqrfReadByteFromFile w1).1.IqrfPgmCodeLineBuffer.set ptr
                (iqrfPgmConvertToNum c (tolower (iqrfReadByteFromFile w1).2)) }
            (ptr + 1)
            (by
              show (iqrfReadByteFromFile w1).1.CodeFile.length < f
              omega)
            (by omega)
          refine ⟨w2, r, iqrfPgmConvertToNum c (tolower (iqrfReadByteFromFile w1).2) :: bytes, e,
            ?_, ?_, ?_, ?_, b5⟩
          · simp only [List.length_cons]; omega
          · rw [b2]
            show memcpy (List.set _ ptr _) (ptr + 1) bytes = _
            rw [g4, a4]
            rfl
          · have : w2.CodeFile.length ≤ (iqrfReadByteFromFile w1).1.CodeFile.length := b3
            omega
          · exact b4.trans (g3.trans a3)

/-- The function `iqrfPgmReadIQRFFileLine` returns for every file and every
state; it stores at most 20 bytes, from the start of the line buffer on. -/
theorem iqrfPgmReadIQRFFileLine_total (w : World) :
    ∃ w1 r bytes, iqrfPgmReadIQRFFileLine w = some (w1, r)
      ∧ bytes.length ≤ 20
      ∧ w1.IqrfPgmCodeLineBuffer = memcpy w.IqrfPgmCodeLineBuffer 0 bytes
      ∧ w1.CodeFile.length ≤ w.CodeFile.length
      ∧ fileFrame w1 = fileFrame w := by
  obtain ⟨w1, r, bytes, e, b1, b2, b3, b4, -⟩ :=
    readIQRFLoop_total (w.CodeFile.length + 1) w 0 (by omega) (by omega)
  exact ⟨w1, r, bytes, e, by omega, b2, b3, b4⟩

/-! ## The assembler: what it leaves alone, and that it returns -/

theorem iqrfPgmMoveOverflowedData_lineFrame (w : World) :
    lineFrame (iqrfPgmMoveOverflowedData w) = lineFrame w := rfl

theorem iqrfPgmMoveOverflowedData_congr (a b : World) (h : a.PrepareMemBlock = b.PrepareMemBlock) :
    (iqrfPgmMoveOverflowedData a).PrepareMemBlock
      = (iqrfPgmMoveOverflowedData b).PrepareMemBlock := by
  unfold iqrfPgmMoveOverflowedData
  simp only [h]

theorem prepareSerial_lineFrame (w : World) : lineFrame (prepareSerial w).1 = lineFrame w := by
  unfold prepareSerial
  simp only []
  split_ifs <;> rfl

theorem storeFlash_lineFrame (w : World) (a b c : Nat) :
    lineFrame (storeFlash w a b c) = lineFrame w := rfl

theorem prepareEeprom_lineFrame (w : World) (c : Nat) :
    lineFrame (prepareEeprom w c).1 = lineFrame w := by
  unfold prepareEeprom
  simp only []
  split_ifs <;> rfl

theorem prepareOther_lineFrame (w : World) : lineFrame (prepareOther w).1 = lineFrame w := by
  have arm : ∀ m d c b : Nat, lineFrame
      (match flashChecks w m d c b with
        | Sum.inr r => (w, some r)
        | Sum.inl DataCounter1 => (storeFlash w d DataCounter1 b, none)).1 = lineFrame w := by
    intro m d c b
    cases flashChecks w m d c b <;> rfl
  unfold prepareOther
  simp only []
  split_ifs
  all_goals first
    | exact arm _ _ _ _
    | exact prepareEeprom_lineFrame w _
    | rfl

/-- The processing of a record changes the assembler's variables only. -/
theorem processLine_lineFrame (w : World) : lineFrame (processLine w).1 = lineFrame w := by
  by_cases h0 : w.IqrfPgmCodeLineBuffer.getD 3 0 = 0
  · obtain ⟨W1, hW1, hf1⟩ : ∃ W1 : World,
        W1 = { w with PrepareMemBlock := { w.PrepareMemBlock with
          Address := (((w.PrepareMemBlock.HiAddress
            + ((w.IqrfPgmCodeLineBuffer.getD 1 0 <<< 8) % 65536)
            + w.IqrfPgmCodeLineBuffer.getD 2 0) % 4294967296) / 2) % 65536 } }
        ∧ lineFrame W1 = lineFrame w := ⟨_, rfl, rfl⟩
    obtain ⟨W2, hW2, hf2⟩ : ∃ W2 : World,
        W2 = (if W1.PrepareMemBlock.DataOverflow ≠ 0 then iqrfPgmMoveOverflowedData W1 else W1)
        ∧ lineFrame W2 = lineFrame W1 := by
      refine ⟨_, rfl, ?_⟩
      split_ifs
      · rfl
      · rfl
    have e : processLine w =
        (if W1.PrepareMemBlock.Address ≥ SERIAL_EEPROM_MIN_ADR
            ∧ W1.PrepareMemBlock.Address ≤ SERIAL_EEPROM_MAX_ADR then prepareSerial W2
          else prepareOther W2) := by
      unfold processLine
      simp only []
      rw [if_pos h0, hW2, hW1]
    rw [e]
    split_ifs
    · exact (prepareSerial_lineFrame W2).trans (hf2.trans hf1)
    · exact (prepareOther_lineFrame W2).trans (hf2.trans hf1)
  · unfold processLine
    simp only []
    rw [if_neg h0]
    split_ifs
    · simp only [lineFrame]
    · rfl

theorem lineFrame_file (a b : World) (h : lineFrame a = lineFrame b) :
    a.CodeFile = b.CodeFile ∧ a.IqrfPgmCodeLineBuffer = b.IqrfPgmCodeLineBuffer
      ∧ a.IqrfControl = b.IqrfControl ∧ asmFrame a = asmFrame b := by
  simp only [lineFrame, Prod.mk.injEq] at h
  obtain ⟨h1, h2, h3, h4, h5, h6, h7, h8, h9⟩ := h
  unfold asmFrame
  rw [h4, h6, h7, h8, h9]
  exact ⟨h1, h3, rfl, rfl⟩

theorem asmFrame_of_fileFrame (a b : World) (h : fileFrame a = fileFrame b) :
    asmFrame a = asmFrame b ∧ a.PrepareMemBlock = b.PrepareMemBlock
      ∧ a.IqrfControl = b.IqrfControl := by
  simp only [fileFrame, Prod.mk.injEq] at h
  obtain ⟨h1, h2, h3, h4, h5, h6, h7⟩ := h
  unfold asmFrame
  rw [h1, h3, h5, h6, h7]
  exact ⟨rfl, h4, rfl⟩

/-- The first part of a pass, case by case. With a line pending nothing is
read. Otherwise a line is read, which shortens the file, or the end of the
file is found, or the line is in error; the assembler's variables change only
as the source says. -/
theorem fetchLine_cases (v : World)
    (hst : ¬ (v.IqrfControl.Status = IQRF_READ ∨ v.IqrfControl.Status = IQRF_WRITE)) :
    (v.PrepareMemBlock.DataInBufferReady ≠ 0 ∧ fetchLine v = some (v, none))
    ∨ (v.PrepareMemBlock.DataInBufferReady = 0 ∧ ∃ v1 o, fetchLine v = some (v1, o)
        ∧ asmFrame v1 = asmFrame v
        ∧ v1.CodeFile.length ≤ v.CodeFile.length
        ∧ ((o = some IQRF_PGM_ERROR ∧ v1.PrepareMemBlock = v.PrepareMemBlock)
          ∨ (o = some IQRF_PGM_FLASH_BLOCK_READY ∧ v.PrepareMemBlock.MemoryBlockNumber ≠ 0
              ∧ v1.PrepareMemBlock = v.PrepareMemBlock)
          ∨ (o = some IQRF_PGM_FLASH_BLOCK_READY ∧ v.PrepareMemBlock.MemoryBlockNumber = 0
              ∧ v.PrepareMemBlock.DataOverflow ≠ 0
              ∧ v1.PrepareMemBlock = (iqrfPgmMoveOverflowedData v).PrepareMemBlock)
          ∨ (o = some IQRF_PGM_SUCCESS ∧ v.PrepareMemBlock.MemoryBlockNumber = 0
              ∧ v.PrepareMemBlock.DataOverflow = 0
              ∧ v1.PrepareMemBlock = v.PrepareMemBlock)
          ∨ (o = none ∧ v1.CodeFile.length < v.CodeFile.length
              ∧ v1.PrepareMemBlock = { v.PrepareMemBlock with DataInBufferReady := 1 }
              ∧ ∃ bytes : List Nat, bytes.length ≤ 32
                ∧ v1.IqrfPgmCodeLineBuffer = memcpy v.IqrfPgmCodeLineBuffer 0 bytes))) := by
  by_cases hd : v.PrepareMemBlock.DataInBufferReady = 0
  · right
    refine ⟨hd, ?_⟩
    obtain ⟨ws, hws, hsus⟩ : ∃ ws : World,
        ws = { v with
               IqrfControl := { v.IqrfControl with SuspendFlag := true }
               IqrfSpiControl := { v.IqrfSpiControl with SpiStat := SPI_DISABLED } }
        ∧ iqrfSuspendDriver v = some ws :=
      ⟨_, rfl, by unfold iqrfSuspendDriver; rw [if_neg hst]⟩
    obtain ⟨w2, r, bytes, e, b1, b2, b3, b4, b5, b6⟩ := iqrfPgmReadHEXFileLine_total ws
    obtain ⟨c1, c2, c3⟩ := asmFrame_of_fileFrame _ _ b5
    have hpm : w2.PrepareMemBlock = v.PrepareMemBlock := by rw [c2, hws]
    have hfr : asmFrame (iqrfRunDriver w2) = asmFrame v := by
      have : asmFrame (iqrfRunDriver w2) = asmFrame w2 := rfl
      rw [this, c1, hws]
      rfl
    have hlen : w2.CodeFile.length ≤ v.CodeFile.length := by
      have : ws.CodeFile = v.CodeFile := by rw [hws]
      rw [← this]; exact b3
    unfold fetchLine
    rw [if_pos hd, hsus]
    simp only []
    rw [e]
    simp only []
    rcases b6 with hr | hr | hr
    · rw [hr, if_neg (by decide), if_neg (by decide)]
      refine ⟨_, _, rfl, hfr, hlen, Or.inr (Or.inr (Or.inr (Or.inr ⟨rfl, ?_, ?_, bytes, b1, ?_⟩)))⟩
      · have : ws.CodeFile = v.CodeFile := by rw [hws]
        rw [← this]
        exact b4 (by rw [hr]; decide)
      · show ({ (iqrfRunDriver w2).PrepareMemBlock with DataInBufferReady := 1 }
          : PREPARE_MEM_BLOCK) = _
        have : (iqrfRunDriver w2).PrepareMemBlock = w2.PrepareMemBlock := rfl
        rw [this, hpm]
      · show w2.IqrfPgmCodeLineBuffer = _
        rw [b2, hws]
    · rw [hr, if_pos rfl]
      exact ⟨_, _, rfl, hfr, hlen, Or.inl ⟨rfl, hpm⟩⟩
    · rw [hr, if_neg (by decide), if_pos rfl]
      have hpr : (iqrfRunDriver w2).PrepareMemBlock = v.PrepareMemBlock := hpm
      by_cases hm : v.PrepareMemBlock.MemoryBlockNumber ≠ 0
      · rw [if_pos (by rw [hpr]; exact hm)]
        exact ⟨_, _, rfl, hfr, hlen, Or.inr (Or.inl ⟨rfl, hm, hpm⟩)⟩
      · rw [if_neg (by rw [hpr]; exact hm)]
        by_cases ho : v.PrepareMemBlock.DataOverflow ≠ 0
        · rw [if_pos (by rw [hpr]; exact ho)]
          refine ⟨_, _, rfl, hfr, hlen, Or.inr (Or.inr (Or.inl ⟨rfl, ?_, ho, ?_⟩))⟩
          · exact not_not.mp hm
          · exact iqrfPgmMoveOverflowedData_congr _ _ hpr
        · rw [if_neg (by rw [hpr]; exact ho)]
          exact ⟨_, _, rfl, hfr, hlen,
            Or.inr (Or.inr (Or.inr (Or.inl ⟨rfl, not_not.mp hm, not_not.mp ho, hpm⟩)))⟩
  · left
    exact ⟨hd, fetchLine_pending v hd⟩

/-- The rule for the loop of `iqrfPgmPrepareMemBlock`: a property `I` kept by
every pass that does not return, and a property `Q` established by every pass
that returns, give `Q` for the result of the loop. -/
theorem prepareLoop_rule (I : World → Prop) (Q : World → Nat → Prop)
    (hfetch : ∀ v v1 r, I v → fetchLine v = some (v1, some r) → Q v1 r)
    (hret : ∀ v v1 v2 r, I v → fetchLine v = some (v1, none)
      → processLine v1 = (v2, some r) → Q v2 r)
    (hcont : ∀ v v1 v2, I v → fetchLine v = some (v1, none) → processLine v1 = (v2, none)
      → I { v2 with PrepareMemBlock := { v2.PrepareMemBlock with DataInBufferReady := 0 } }) :
    ∀ (fuel : Nat) (v v1 : World) (r : Nat), I v → prepareLoop fuel v = some (v1, r) → Q v1 r := by
  intro fuel
  induction fuel with
  | zero => intro v v1 r _ h; simp [prepareLoop] at h
  | succ f ih =>
    intro v v1 r hI h
    cases hf : fetchLine v with
    | none => rw [prepareLoop, hf] at h; simp at h
    | some p =>
      obtain ⟨u, o⟩ := p
      cases o with
      | some r1 =>
        rw [prepareLoop_fetch_return f v u r1 hf] at h
        simp only [Option.some.injEq, Prod.mk.injEq] at h
        rw [← h.1, ← h.2]
        exact hfetch v u r1 hI hf
      | none =>
        cases hp : processLine u with
        | mk u2 o2 =>
          cases o2 with
          | some r2 =>
            rw [prepareLoop_process_return f v u u2 r2 hf hp] at h
            simp only [Option.some.injEq, Prod.mk.injEq] at h
            rw [← h.1, ← h.2]
            exact hret v u u2 r2 hI hf hp
          | none =>
            rw [prepareLoop_continue f v u u2 hf hp] at h
            exact ih _ v1 r (hcont v u u2 hI hf hp) h

/-- The loop of `iqrfPgmPrepareMemBlock` returns: a pass that does not return
has shortened the file, the first pass apart. -/
theorem prepareLoop_total : ∀ (fuel : Nat) (v : World),
    ¬ (v.IqrfControl.Status = IQRF_READ ∨ v.IqrfControl.Status = IQRF_WRITE) →
    v.CodeFile.length + (if v.PrepareMemBlock.DataInBufferReady = 0 then 0 else 1) < fuel →
    ∃ v1 r, prepareLoop fuel v = some (v1, r) := by
  intro fuel
  induction fuel with
  | zero => intro v _ h; omega
  | succ f ih =>
    intro v hst hfuel
    have key : ∃ u o, fetchLine v = some (u, o) ∧ asmFrame u = asmFrame v
        ∧ (o = none → u.CodeFile.length
            + (if v.PrepareMemBlock.DataInBufferReady = 0 then 1 else 0) ≤ v.CodeFile.length) := by
      rcases fetchLine_cases v hst with ⟨hd, e⟩ | ⟨hd, u, o, e, hfr, hl, hc⟩
      · exact ⟨v, none, e, rfl, fun _ => by rw [if_neg hd]; omega⟩
      · refine ⟨u, o, e, hfr, fun ho => ?_⟩
        rw [if_pos hd]
        rcases hc with ⟨h, -⟩ | ⟨h, -⟩ | ⟨h, -⟩ | ⟨h, -⟩ | ⟨-, h, -⟩
        · rw [ho] at h; cases h
        · rw [ho] at h; cases h
        · rw [ho] at h; cases h
        · rw [ho] at h; cases h
        · omega
    obtain ⟨u, o, hf, hfr, hl⟩ := key
    cases o with
    | some r1 => exact ⟨u, r1, prepareLoop_fetch_return f v u r1 hf⟩
    | none =>
      cases hp : processLine u with
      | mk u2 o2 =>
        cases o2 with
        | some r2 => exact ⟨u2, r2, prepareLoop_process_return f v u u2 r2 hf hp⟩
        | none =>
          rw [prepareLoop_continue f v u u2 hf hp]
          have hlf := processLine_lineFrame u
          rw [hp] at hlf
          obtain ⟨g1, -, g3, g4⟩ := lineFrame_file _ _ hlf
          have hl1 := hl rfl
          apply ih
          · show ¬ (u2.IqrfControl.Status = IQRF_READ ∨ u2.IqrfControl.Status = IQRF_WRITE)
            have e1 : u2.IqrfControl.Status = u.IqrfControl.Status := by
              show (asmFrame u2).1 = (asmFrame u).1
              rw [g4]
            have e2 : u.IqrfControl.Status = v.IqrfControl.Status := by
              show (asmFrame u).1 = (asmFrame v).1
              rw [hfr]
            rw [e1, e2]
            exact hst
          · show u2.CodeFile.length + (if (0 : Nat) = 0 then 0 else 1) < f
            rw [if_pos rfl, g1]
            split_ifs at hl1 hfuel <;> omega

/-- The function `iqrfPgmPrepareMemBlock` returns, for every file and every
state of the assembler, unless an exchange with the module is in flight. -/
theorem iqrfPgmPrepareMemBlock_total (w : World)
    (hst : ¬ (w.IqrfControl.Status = IQRF_READ ∨ w.IqrfControl.Status = IQRF_WRITE)) :
    ∃ w1 r, iqrfPgmPrepareMemBlock w = some (w1, r) := by
  have e : iqrfPgmPrepareMemBlock w = prepareLoop (w.CodeFile.length + 2) (loopEntry w) := rfl
  rw [e]
  apply prepareLoop_total
  · have : (loopEntry w).IqrfControl = w.IqrfControl := by
      unfold loopEntry; simp only []; split_ifs <;> rfl
    rw [this]; exact hst
  · have : (loopEntry w).CodeFile = w.CodeFile := by
      unfold loopEntry; simp only []; split_ifs <;> rfl
    rw [this]
    split_ifs <;> omega

theorem fetchLine_asmFrame (v v1 : World) (o : Option Nat) (h : fetchLine v = some (v1, o)) :
    asmFrame v1 = asmFrame v := by
  by_cases hst : v.IqrfControl.Status = IQRF_READ ∨ v.IqrfControl.Status = IQRF_WRITE
  · by_cases hd : v.PrepareMemBlock.DataInBufferReady = 0
    · unfold fetchLine at h
      rw [if_pos hd] at h
      unfold iqrfSuspendDriver at h
      rw [if_pos hst] at h
      cases h
    · rw [fetchLine_pending v hd] at h
      simp only [Option.some.injEq, Prod.mk.injEq] at h
      rw [← h.1]
  · rcases fetchLine_cases v hst with ⟨-, e⟩ | ⟨-, u, o1, e, hfr, -⟩
    · rw [e] at h
      simp only [Option.some.injEq, Prod.mk.injEq] at h
      rw [← h.1]
    · rw [e] at h
      simp only [Option.some.injEq, Prod.mk.injEq] at h
      rw [← h.1]
      exact hfr

/-- The loop of `iqrfPgmPrepareMemBlock` leaves alone the library status, the
packet mailbox, the writer's variables, the clock and the bus. -/
theorem prepareLoop_asmFrame (c : Nat × T_IQRF_PACKET × WriteCodeStatics × Nat × List Event) :
    ∀ (fuel : Nat) (v v1 : World) (r : Nat), asmFrame v = c →
      prepareLoop fuel v = some (v1, r) → asmFrame v1 = c := by
  apply prepareLoop_rule (fun v => asmFrame v = c) (fun v _ => asmFrame v = c)
  · intro v v1 r hI hf
    exact (fetchLine_asmFrame v v1 _ hf).trans hI
  · intro v v1 v2 r hI hf hp
    have h1 := processLine_lineFrame v1
    rw [hp] at h1
    exact ((lineFrame_file _ _ h1).2.2.2.trans (fetchLine_asmFrame v v1 _ hf)).trans hI
  · intro v v1 v2 hI hf hp
    have h1 := processLine_lineFrame v1
    rw [hp] at h1
    exact ((lineFrame_file _ _ h1).2.2.2.trans (fetchLine_asmFrame v v1 _ hf)).trans hI

theorem loopEntry_frame (w : World) :
    lineFrame (loopEntry w) = lineFrame w
      ∧ (loopEntry w).PrepareMemBlock.MemoryBlockNumber = 0
      ∧ (loopEntry w).PrepareMemBlock.DataOverflow = w.PrepareMemBlock.DataOverflow
      ∧ (loopEntry w).PrepareMemBlock.DataInBufferReady = w.PrepareMemBlock.DataInBufferReady
      ∧ (loopEntry w).PrepareMemBlock.MemoryBlockProcessState
          = w.PrepareMemBlock.MemoryBlockProcessState := by
  unfold loopEntry
  by_cases h : w.PrepareMemBlock.DataOverflow = 0
  · simp only [if_pos h]
    refine ⟨?_, ?_, ?_, ?_, ?_⟩ <;> trivial
  · simp only [if_neg h]
    refine ⟨?_, ?_, ?_, ?_, ?_⟩ <;> trivial

theorem iqrfPgmPrepareMemBlock_eq (w : World) :
    iqrfPgmPrepareMemBlock w = prepareLoop (w.CodeFile.length + 2) (loopEntry w) := rfl

/-- The function `iqrfPgmPrepareMemBlock` leaves alone the library status,
the packet mailbox, the writer's variables, the clock and the bus. -/
theorem iqrfPgmPrepareMemBlock_asmFrame (w w1 : World) (r : Nat)
    (h : iqrfPgmPrepareMemBlock w = some (w1, r)) : asmFrame w1 = asmFrame w := by
  rw [iqrfPgmPrepareMemBlock_eq] at h
  exact prepareLoop_asmFrame (asmFrame w) _ (loopEntry w) w1 r
    (lineFrame_file _ _ (loopEntry_frame w).1).2.2.2 h

theorem cfgReadStep_asmFrame (v : World) (n : Nat) : asmFrame (cfgReadStep v n) = asmFrame v := by
  have h := (asmFrame_of_fileFrame _ _ (iqrfReadByteFromFile_frame v).2.2.1).1
  rw [← h]
  rfl

theorem cfgFold_asmFrame : ∀ (l : List Nat) (v : World),
    asmFrame (l.foldl cfgReadStep v) = asmFrame v := by
  intro l
  induction l with
  | nil => intro v; rfl
  | cons a t ih =>
    intro v
    rw [List.foldl_cons, ih, cfgReadStep_asmFrame]

/-- The function `iqrfPgmProcessCfgFile` leaves alone the library status, the
packet mailbox, the writer's variables, the clock and the bus. -/
theorem iqrfPgmProcessCfgFile_asmFrame (w w1 : World) (r : Nat)
    (h : iqrfPgmProcessCfgFile w = some (w1, r)) : asmFrame w1 = asmFrame w := by
  unfold iqrfPgmProcessCfgFile at h
  by_cases h0 : w.PrepareMemBlock.DataInBufferReady = 0
  · rw [if_pos h0] at h
    simp only [] at h
    unfold iqrfSuspendDriver at h
    split_ifs at h
    simp only [Option.some.injEq, Prod.mk.injEq] at h
    rw [← h.1]
    have e := (asmFrame_of_fileFrame _ _ (iqrfReadByteFromFile_frame
      (List.foldl cfgReadStep
        ({ w with
            PrepareMemBlock := { w.PrepareMemBlock with
              MemoryBlock := (((w.PrepareMemBlock.MemoryBlock.set 0
                (IQRF_CONFIG_MEM_L_ADR &&& 0x00FF)).set 1 (IQRF_CONFIG_MEM_L_ADR >>> 8)).set
                34 (IQRF_CONFIG_MEM_H_ADR &&& 0x00FF)).set 35 (IQRF_CONFIG_MEM_H_ADR >>> 8)
              MemoryBlockProcessState := 2 }
            IqrfControl := { w.IqrfControl with SuspendFlag := true }
            IqrfSpiControl := { w.IqrfSpiControl with SpiStat := SPI_DISABLED } } : World)
        (List.range 32))).2.2.1).1
    rw [cfgFold_asmFrame] at e
    exact e
  · rw [if_neg h0] at h
    split_ifs at h
    · simp only [Option.some.injEq, Prod.mk.injEq] at h
      rw [← h.1]
      rfl
    · simp only [Option.some.injEq, Prod.mk.injEq] at h
      rw [← h.1]
      rfl

/-! ## Sub-blocks of a ready image -/

/-- A call of the writer in the state `WRITE_HEX` with the sub-block counter
not 0 sends one packet and decrements the counter. -/
theorem writeHex_send (v v1 : World) (q : Nat)
    (hs : v.WriteCode.WriteCodeTaskSM = WriteCodeTask.WRITE_HEX) (hr : writeReady v = true)
    (hv : iqrfPgmWriteCodeFile v = some (v1, q))
    (hne : v.PrepareMemBlock.MemoryBlockProcessState ≠ 0) :
    v1.CodeFile = v.CodeFile
      ∧ v1.IqrfPgmCodeLineBuffer = v.IqrfPgmCodeLineBuffer
      ∧ v1.PrepareMemBlock =
          { v.PrepareMemBlock with MemoryBlockProcessState :=
              (v.PrepareMemBlock.MemoryBlockProcessState + 255) % 256 }
      ∧ v1.WriteCode.OperationResult = v.WriteCode.OperationResult
      ∧ v1.WriteCode.WriteCodeTaskSM = WriteCodeTask.WRITE_HEX
      ∧ sentPackets v1.trace = sentPackets v.trace ++
          [if v.WriteCode.OperationResult = IQRF_PGM_FLASH_BLOCK_READY then
             if v.PrepareMemBlock.MemoryBlockProcessState = 2 then
               (SPI_FLASH_PGM, readBytes v.PrepareMemBlock.MemoryBlock 0 34, 34)
             else (SPI_FLASH_PGM, readBytes v.PrepareMemBlock.MemoryBlock 34 34, 34)
           else
             (SPI_EEPROM_PGM,
               readBytes v.PrepareMemBlock.MemoryBlock 0
                 ((v.PrepareMemBlock.MemoryBlock.getD 1 0 + 2) % 256),
               (v.PrepareMemBlock.MemoryBlock.getD 1 0 + 2) % 256)] := by
  unfold iqrfPgmWriteCodeFile at hv
  rw [hs] at hv
  simp only [writeHex, hr, if_true, hne, if_false] at hv
  simp only [Option.some.injEq, Prod.mk.injEq] at hv
  obtain ⟨hv1, -⟩ := hv
  subst hv1
  refine ⟨?_, ?_, ?_, ?_, ?_, ?_⟩
  · split_ifs <;> rfl
  · split_ifs <;> rfl
  · split_ifs <;> rfl
  · split_ifs <;> rfl
  · split_ifs <;> exact hs
  · split_ifs <;>
      simp [iqrfSendPacket, sentPackets_append, sentPackets, deref]

/-- C34. Sub-block transmission: in the state `WRITE_HEX`, ready to send, the
writer asks the assembler for a new block only when the sub-block counter
`MemoryBlockProcessState` is 0; while the counter is not 0 each call sends
exactly one packet, leaves the file and the image alone and decrements the
counter. For a split flash page (`IQRF_PGM_FLASH_BLOCK_READY`, counter 2) the
packet is `SPI_FLASH_PGM` with image bytes 0..33, and the call after it
(counter 1) sends `SPI_FLASH_PGM` with bytes 34..67; a single flash or
serial block (counter 1) is sent as `SPI_FLASH_PGM` with bytes 34..67; an
internal-memory block as one `SPI_EEPROM_PGM` packet of length
`image[1] + 2` starting at offset 0. -/
theorem writeHex_sub_blocks (w w1 : World) (r : Nat)
    (hsm : w.WriteCode.WriteCodeTaskSM = WriteCodeTask.WRITE_HEX)
    (hready : writeReady w = true)
    (h : iqrfPgmWriteCodeFile w = some (w1, r)) :
    (w.PrepareMemBlock.MemoryBlockProcessState = 0 →
      ∃ w2 res, (if w.CodeFileInfo.FileType = IQRF_PGM_HEX_FILE_TYPE
            then iqrfPgmPrepareMemBlock w else iqrfPgmProcessCfgFile w) = some (w2, res)
        ∧ w1.PrepareMemBlock = w2.PrepareMemBlock
        ∧ w1.trace = w2.trace
        ∧ w1.WriteCode.OperationResult = res
        ∧ w1.WriteCode.WriteCodeTaskSM =
            (if res ≠ IQRF_PGM_FLASH_BLOCK_READY ∧ res ≠ IQRF_PGM_EEPROM_BLOCK_READY
             then WriteCodeTask.WAIT_PROG_END else WriteCodeTask.WRITE_HEX))
    ∧ (w.PrepareMemBlock.MemoryBlockProcessState ≠ 0 →
        w1.CodeFile = w.CodeFile
        ∧ w1.IqrfPgmCodeLineBuffer = w.IqrfPgmCodeLineBuffer
        ∧ w1.PrepareMemBlock =
            { w.PrepareMemBlock with MemoryBlockProcessState :=
                (w.PrepareMemBlock.MemoryBlockProcessState + 255) % 256 }
        ∧ w1.WriteCode.OperationResult = w.WriteCode.OperationResult
        ∧ w1.WriteCode.WriteCodeTaskSM = WriteCodeTask.WRITE_HEX
        ∧ sentPackets w1.trace = sentPackets w.trace ++
            [if w.WriteCode.OperationResult = IQRF_PGM_FLASH_BLOCK_READY then
               if w.PrepareMemBlock.MemoryBlockProcessState = 2 then
                 (SPI_FLASH_PGM, readBytes w.PrepareMemBlock.MemoryBlock 0 34, 34)
               else (SPI_FLASH_PGM, readBytes w.PrepareMemBlock.MemoryBlock 34 34, 34)
             else
               (SPI_EEPROM_PGM,
                 readBytes w.PrepareMemBlock.MemoryBlock 0
                   ((w.PrepareMemBlock.MemoryBlock.getD 1 0 + 2) % 256),
                 (w.PrepareMemBlock.MemoryBlock.getD 1 0 + 2) % 256)])
    ∧ (w.PrepareMemBlock.MemoryBlockProcessState = 2 →
        w.WriteCode.OperationResult = IQRF_PGM_FLASH_BLOCK_READY →
        w1.PrepareMemBlock.MemoryBlockProcessState = 1
        ∧ ∀ v v1 q, v.WriteCode.WriteCodeTaskSM = WriteCodeTask.WRITE_HEX → writeReady v = true →
            v.PrepareMemBlock = w1.PrepareMemBlock →
            v.WriteCode.OperationResult = w1.WriteCode.OperationResult →
            iqrfPgmWriteCodeFile v = some (v1, q) →
            v1.PrepareMemBlock.MemoryBlockProcessState = 0
            ∧ sentPackets v1.trace = sentPackets v.trace ++
                [(SPI_FLASH_PGM, readBytes w.PrepareMemBlock.MemoryBlock 34 34, 34)]) := by
  refine ⟨?_, writeHex_send w w1 r hsm hready h, ?_⟩
  · intro h0
    unfold iqrfPgmWriteCodeFile at h
    rw [hsm] at h
    simp only [writeHex, hready, if_true, h0] at h
    cases hres : (if w.CodeFileInfo.FileType = IQRF_PGM_HEX_FILE_TYPE
        then iqrfPgmPrepareMemBlock w else iqrfPgmProcessCfgFile w) with
    | none =>
      rw [hres] at h
      exact absurd h (by simp)
    | some p =>
      obtain ⟨w2, res⟩ := p
      rw [hres] at h
      simp only [] at h
      refine ⟨w2, res, rfl, ?_⟩
      by_cases hc : res ≠ IQRF_PGM_FLASH_BLOCK_READY ∧ res ≠ IQRF_PGM_EEPROM_BLOCK_READY
      · rw [if_pos hc] at h
        simp only [Option.some.injEq, Prod.mk.injEq] at h
        obtain ⟨h1, -⟩ := h
        subst h1
        rw [if_pos hc]
        exact ⟨rfl, rfl, rfl, rfl⟩
      · rw [if_neg hc] at h
        simp only [Option.some.injEq, Prod.mk.injEq] at h
        obtain ⟨h1, -⟩ := h
        subst h1
        rw [if_neg hc]
        refine ⟨rfl, rfl, rfl, ?_⟩
        show w2.WriteCode.WriteCodeTaskSM = WriteCodeTask.WRITE_HEX
        have hfr : asmFrame w2 = asmFrame w := by
          by_cases ht : w.CodeFileInfo.FileType = IQRF_PGM_HEX_FILE_TYPE
          · rw [if_pos ht] at hres
            exact iqrfPgmPrepareMemBlock_asmFrame w w2 res hres
          · rw [if_neg ht] at hres
            exact iqrfPgmProcessCfgFile_asmFrame w w2 res hres
        have e : w2.WriteCode = w.WriteCode := by
          show (asmFrame w2).2.2.1 = (asmFrame w).2.2.1
          rw [hfr]
        rw [e]
        exact hsm
  · intro h2 hop
    obtain ⟨-, -, hp, ho, -, -⟩ := writeHex_send w w1 r hsm hready h (by rw [h2]; decide)
    refine ⟨by rw [hp, h2], ?_⟩
    intro v v1 q hs hr hpv hov hv
    have hst : v.PrepareMemBlock.MemoryBlockProcessState = 1 := by rw [hpv, hp, h2]
    have hmb : v.PrepareMemBlock.MemoryBlock = w.PrepareMemBlock.MemoryBlock := by rw [hpv, hp]
    obtain ⟨-, -, hp2, -, -, hs2⟩ := writeHex_send v v1 q hs hr hv (by rw [hst]; decide)
    refine ⟨by rw [hp2, hst], ?_⟩
    rw [hs2, hov, ho, hop, if_pos rfl, if_neg (by rw [hst]; decide), hmb]

/-- Witness for `writeHex_sub_blocks`: a flash page is ready with the counter
at 2; the call sends its first half. -/
theorem writeHex_sub_blocks_witness :
    sentPackets
      ({ iqrfSendPacket
          { WriteCode := { WriteCodeTaskSM := WriteCodeTask.WRITE_HEX,
                           OperationResult := IQRF_PGM_FLASH_BLOCK_READY },
            IqrfSpiControl := { SpiStat := PROGRAMMING_MODE },
            PrepareMemBlock := { MemoryBlockProcessState := 2 },
            CodeFileInfo := { FileSize := 58 } }
          SPI_FLASH_PGM (BufPtr.memoryBlock 0) 34 with
         PrepareMemBlock := { MemoryBlockProcessState := 1 } } : World).trace
      = sentPackets ([] : List Event) ++ [(SPI_FLASH_PGM, List.replicate 34 0, 34)] := by
  have h := (writeHex_sub_blocks
    { WriteCode := { WriteCodeTaskSM := WriteCodeTask.WRITE_HEX,
                     OperationResult := IQRF_PGM_FLASH_BLOCK_READY },
      IqrfSpiControl := { SpiStat := PROGRAMMING_MODE },
      PrepareMemBlock := { MemoryBlockProcessState := 2 },
      CodeFileInfo := { FileSize := 58 } }
    ({ iqrfSendPacket
          { WriteCode := { WriteCodeTaskSM := WriteCodeTask.WRITE_HEX,
                           OperationResult := IQRF_PGM_FLASH_BLOCK_READY },
            IqrfSpiControl := { SpiStat := PROGRAMMING_MODE },
            PrepareMemBlock := { MemoryBlockProcessState := 2 },
            CodeFileInfo := { FileSize := 58 } }
          SPI_FLASH_PGM (BufPtr.memoryBlock 0) 34 with
         PrepareMemBlock := { MemoryBlockProcessState := 1 } } : World)
    0 rfl (by decide) (by decide)).2.1 (by decide)
  exact h.2.2.2.2.2

/-! ## The end of the file -/

theorem findStartOfLine_noline : ∀ (fuel : Nat) (w : World), NoLine w.CodeFile →
    w.CodeFile.length < fuel →
    ∃ w1, findStartOfLine fuel w = some (w1, 0) ∧ w1.CodeFile = []
      ∧ fileFrame w1 = fileFrame w
      ∧ w1.IqrfPgmCodeLineBuffer = w.IqrfPgmCodeLineBuffer := by
  intro fuel
  induction fuel with
  | zero => intro w _ h; omega
  | succ f ih =>
    intro w hno hlen
    cases hf : w.CodeFile with
    | nil =>
      simp only [findStartOfLine]
      rw [iqrfReadByteFromFile_nil w hf, if_neg (by simp)]
      exact ⟨w, rfl, hf, rfl, rfl⟩
    | cons b rest =>
      have hb := hno b (by rw [hf]; exact List.mem_cons_self _ _)
      simp only [findStartOfLine]
      rw [iqrfReadByteFromFile_cons w b rest hf, if_pos hb]
      obtain ⟨w1, e, a1, a2, a3⟩ := ih
        { w with
          CodeFile := rest
          CodeFileInfo := { w.CodeFileInfo with
            FileByteCnt := (w.CodeFileInfo.FileByteCnt + 1) % 65536 } }
        (fun x hx => hno x (by rw [hf]; exact List.mem_cons_of_mem _ hx))
        (by
          show rest.length < f
          rw [hf] at hlen
          simp only [List.length_cons] at hlen
          omega)
      exact ⟨w1, e, a1, a2, a3⟩

theorem iqrfPgmReadHEXFileLine_noline (w : World) (hno : NoLine w.CodeFile) :
    ∃ w1, iqrfPgmReadHEXFileLine w = some (w1, IQRF_PGM_END_OF_FILE) ∧ w1.CodeFile = []
      ∧ fileFrame w1 = fileFrame w
      ∧ w1.IqrfPgmCodeLineBuffer = w.IqrfPgmCodeLineBuffer := by
  obtain ⟨w1, e, a1, a2, a3⟩ := findStartOfLine_noline (w.CodeFile.length + 1) w hno (by omega)
  unfold iqrfPgmReadHEXFileLine
  rw [e]
  simp only [if_true]
  exact ⟨w1, rfl, a1, a2, a3⟩

/-- A pass that has to read a line and finds none: the end-of-file branch. -/
theorem fetchLine_noline (v : World)
    (hst : ¬ (v.IqrfControl.Status = IQRF_READ ∨ v.IqrfControl.Status = IQRF_WRITE))
    (hd : v.PrepareMemBlock.DataInBufferReady = 0) (hno : NoLine v.CodeFile) :
    ∃ v1, fetchLine v = some (v1,
        some (if v.PrepareMemBlock.MemoryBlockNumber ≠ 0 ∨ v.PrepareMemBlock.DataOverflow ≠ 0
          then IQRF_PGM_FLASH_BLOCK_READY else IQRF_PGM_SUCCESS))
      ∧ v1.CodeFile = []
      ∧ asmFrame v1 = asmFrame v
      ∧ v1.PrepareMemBlock =
          (if v.PrepareMemBlock.MemoryBlockNumber ≠ 0 then v.PrepareMemBlock
           else if v.PrepareMemBlock.DataOverflow ≠ 0
             then (iqrfPgmMoveOverflowedData v).PrepareMemBlock
           else v.PrepareMemBlock) := by
  obtain ⟨ws, hws, hsus⟩ : ∃ ws : World,
      ws = { v with
             IqrfControl := { v.IqrfControl with SuspendFlag := true }
             IqrfSpiControl := { v.IqrfSpiControl with SpiStat := SPI_DISABLED } }
      ∧ iqrfSuspendDriver v = some ws :=
    ⟨_, rfl, by unfold iqrfSuspendDriver; rw [if_neg hst]⟩
  obtain ⟨w2, e, b1, b2, b3⟩ := iqrfPgmReadHEXFileLine_noline ws (by rw [hws]; exact hno)
  obtain ⟨c1, c2, c3⟩ := asmFrame_of_fileFrame _ _ b2
  have hpm : w2.PrepareMemBlock = v.PrepareMemBlock := by rw [c2, hws]
  have hfr : asmFrame (iqrfRunDriver w2) = asmFrame v := by
    have : asmFrame (iqrfRunDriver w2) = asmFrame w2 := rfl
    rw [this, c1, hws]
    rfl
  have hpr : (iqrfRunDriver w2).PrepareMemBlock = v.PrepareMemBlock := hpm
  have hcf : (iqrfRunDriver w2).CodeFile = [] := b1
  unfold fetchLine
  rw [if_pos hd, hsus]
  simp only []
  rw [e]
  simp only []
  rw [if_neg (by decide), if_pos trivial]
  by_cases hm : v.PrepareMemBlock.MemoryBlockNumber ≠ 0
  · rw [if_pos (by rw [hpr]; exact hm), if_pos (Or.inl hm), if_pos hm]
    exact ⟨_, rfl, hcf, hfr, hpr⟩
  · rw [if_neg (by rw [hpr]; exact hm), if_neg hm]
    by_cases ho : v.PrepareMemBlock.DataOverflow ≠ 0
    · rw [if_pos (by rw [hpr]; exact ho), if_pos (Or.inr ho), if_pos ho]
      exact ⟨_, rfl, hcf, hfr, iqrfPgmMoveOverflowedData_congr _ _ hpr⟩
    · rw [if_neg (by rw [hpr]; exact ho), if_neg (by tauto), if_neg ho]
      exact ⟨_, rfl, hcf, hfr, hpr⟩

/-! ## A data record, branch by branch -/

theorem processLine_data (w : World) (h0 : w.IqrfPgmCodeLineBuffer.getD 3 0 = 0) :
    processLine w =
      (if inSerial (recordAddress w.PrepareMemBlock.HiAddress w.IqrfPgmCodeLineBuffer)
        then prepareSerial (recordEntry w) else prepareOther (recordEntry w)) := by
  unfold processLine
  simp only []
  rw [if_pos h0]
  rfl

theorem recordEntry_frame (w : World) :
    lineFrame (recordEntry w) = lineFrame w
      ∧ (recordEntry w).PrepareMemBlock.DataOverflow = 0
      ∧ (recordEntry w).PrepareMemBlock.Address
          = recordAddress w.PrepareMemBlock.HiAddress w.IqrfPgmCodeLineBuffer
      ∧ (recordEntry w).PrepareMemBlock.DataInBufferReady
          = w.PrepareMemBlock.DataInBufferReady := by
  unfold recordEntry
  simp only []
  by_cases h : w.PrepareMemBlock.DataOverflow ≠ 0
  · rw [if_pos h]
    exact ⟨rfl, rfl, rfl, rfl⟩
  · rw [if_neg h]
    exact ⟨rfl, not_not.mp h, rfl, rfl⟩

/-- The serial branch goes on to the next line only with no overflow. -/
theorem prepareSerial_none (w : World) (h : (prepareSerial w).2 = none) :
    (prepareSerial w).1.PrepareMemBlock.DataOverflow = 0 := by
  unfold prepareSerial at h ⊢
  simp only [] at h ⊢
  split_ifs at h ⊢ <;> simp_all

theorem storeFlash_overflow (w : World) (a b c : Nat) :
    (storeFlash w a b c).PrepareMemBlock.DataOverflow = w.PrepareMemBlock.DataOverflow := rfl

theorem prepareOther_overflow (w : World) :
    (prepareOther w).1.PrepareMemBlock.DataOverflow = w.PrepareMemBlock.DataOverflow := by
  have arm : ∀ m d c b : Nat,
      (match flashChecks w m d c b with
        | Sum.inr r => (w, some r)
        | Sum.inl DataCounter1 => (storeFlash w d DataCounter1 b, none)).1.PrepareMemBlock.DataOverflow
        = w.PrepareMemBlock.DataOverflow := by
    intro m d c b
    cases flashChecks w m d c b <;> rfl
  have ee : ∀ c : Nat, (prepareEeprom w c).1.PrepareMemBlock.DataOverflow
      = w.PrepareMemBlock.DataOverflow := by
    intro c
    unfold prepareEeprom
    simp only []
    split_ifs <;> rfl
  unfold prepareOther
  simp only []
  split_ifs
  all_goals first
    | exact arm _ _ _ _
    | exact ee _
    | rfl

/-- A pass that goes on to the next line leaves no overflow pending beside a
block begun. -/
theorem processLine_overflow_inv (u u2 : World) (h : processLine u = (u2, none))
    (hI : u.PrepareMemBlock.MemoryBlockNumber ≠ 0 → u.PrepareMemBlock.DataOverflow = 0) :
    u2.PrepareMemBlock.MemoryBlockNumber ≠ 0 → u2.PrepareMemBlock.DataOverflow = 0 := by
  by_cases h0 : u.IqrfPgmCodeLineBuffer.getD 3 0 = 0
  · intro _
    rw [processLine_data u h0] at h
    obtain ⟨-, hdo, -, -⟩ := recordEntry_frame u
    split_ifs at h
    · have h2 := prepareSerial_none (recordEntry u) (by rw [h])
      rw [h] at h2
      exact h2
    · have h2 := prepareOther_overflow (recordEntry u)
      rw [h] at h2
      exact h2.trans hdo
  · unfold processLine at h
    simp only [] at h
    rw [if_neg h0] at h
    split_ifs at h
    · simp only [Prod.mk.injEq, and_true] at h
      rw [← h]
      exact hI
    · simp only [Prod.mk.injEq, and_true] at h
      rw [← h]
      exact hI

/-! ## The passes of the loop inside a call -/

theorem asmFrame_status (a b : World) (h : asmFrame a = asmFrame b) :
    a.IqrfControl.Status = b.IqrfControl.Status := by
  show (asmFrame a).1 = (asmFrame b).1
  rw [h]

theorem loopPass_facts (v v2 : World)
    (hst : ¬ (v.IqrfControl.Status = IQRF_READ ∨ v.IqrfControl.Status = IQRF_WRITE))
    (h : loopPass v = some v2) :
    asmFrame v2 = asmFrame v
      ∧ v2.PrepareMemBlock.DataInBufferReady = 0
      ∧ v2.CodeFile.length + (if v.PrepareMemBlock.DataInBufferReady = 0 then 1 else 0)
          ≤ v.CodeFile.length
      ∧ ((v.PrepareMemBlock.MemoryBlockNumber ≠ 0 → v.PrepareMemBlock.DataOverflow = 0) →
          (v2.PrepareMemBlock.MemoryBlockNumber ≠ 0 → v2.PrepareMemBlock.DataOverflow = 0))
      ∧ ∀ fuel, prepareLoop (fuel + 1) v = prepareLoop fuel v2 := by
  unfold loopPass at h
  cases hf : fetchLine v with
  | none => rw [hf] at h; cases h
  | some p =>
    obtain ⟨u, o⟩ := p
    cases o with
    | some r => rw [hf] at h; cases h
    | none =>
      rw [hf] at h
      simp only [] at h
      cases hp : processLine u with
      | mk u2 o2 =>
        cases o2 with
        | some r => rw [hp] at h; cases h
        | none =>
          rw [hp] at h
          simp only [Option.some.injEq] at h
          have hlf := processLine_lineFrame u
          rw [hp] at hlf
          obtain ⟨g1, -, -, g4⟩ := lineFrame_file _ _ hlf
          have hfa := fetchLine_asmFrame v u none hf
          have hu : (u.PrepareMemBlock.MemoryBlockNumber = v.PrepareMemBlock.MemoryBlockNumber
              ∧ u.PrepareMemBlock.DataOverflow = v.PrepareMemBlock.DataOverflow)
              ∧ u.CodeFile.length + (if v.PrepareMemBlock.DataInBufferReady = 0 then 1 else 0)
                ≤ v.CodeFile.length := by
            rcases fetchLine_cases v hst with ⟨hd, e⟩ | ⟨hd, x, o, e, -, -, hc⟩
            · rw [e] at hf
              simp only [Option.some.injEq, Prod.mk.injEq, and_true] at hf
              rw [← hf, if_neg hd]
              exact ⟨⟨rfl, rfl⟩, by omega⟩
            · rw [e] at hf
              simp only [Option.some.injEq, Prod.mk.injEq] at hf
              obtain ⟨hx, ho⟩ := hf
              subst hx
              rw [if_pos hd]
              rcases hc with ⟨h1, -⟩ | ⟨h1, -⟩ | ⟨h1, -⟩ | ⟨h1, -⟩ | ⟨-, hl, hp1, -⟩
              · rw [ho] at h1; cases h1
              · rw [ho] at h1; cases h1
              · rw [ho] at h1; cases h1
              · rw [ho] at h1; cases h1
              · rw [hp1]
                exact ⟨⟨rfl, rfl⟩, by omega⟩
          rw [← h]
          refine ⟨g4.trans hfa, rfl, ?_, ?_, ?_⟩
          · show u2.CodeFile.length + _ ≤ _
            rw [g1]
            exact hu.2
          · intro hI
            exact processLine_overflow_inv u u2 hp (by rw [hu.1.1, hu.1.2]; exact hI)
          · intro fuel
            exact prepareLoop_continue fuel v u u2 hf hp

/-- The states at the heads of the passes of a call: the library status is
that of the call, no overflow is pending beside a block begun, every pass but
the first has shortened the file, and the call returns what the loop returns
from there. -/
theorem loopHead_facts (w : World)
    (hst : ¬ (w.IqrfControl.Status = IQRF_READ ∨ w.IqrfControl.Status = IQRF_WRITE)) :
    ∀ (n : Nat) (v : World), loopHead w n = some v →
      asmFrame v = asmFrame w
      ∧ (v.PrepareMemBlock.MemoryBlockNumber ≠ 0 → v.PrepareMemBlock.DataOverflow = 0)
      ∧ (0 < n → v.PrepareMemBlock.DataInBufferReady = 0)
      ∧ v.CodeFile.length + n
          ≤ w.CodeFile.length + (if v.PrepareMemBlock.DataInBufferReady = 0 then 1 else 0)
      ∧ iqrfPgmPrepareMemBlock w = prepareLoop (w.CodeFile.length + 2 - n) v := by
  intro n
  induction n with
  | zero =>
    intro v h
    simp only [loopHead, Option.some.injEq] at h
    obtain ⟨f1, f2, f3, f4, f5⟩ := loopEntry_frame w
    obtain ⟨g1, -, -, g4⟩ := lineFrame_file _ _ f1
    rw [← h]
    refine ⟨g4, fun hn => absurd f2 hn, fun hn => absurd hn (by omega), ?_, rfl⟩
    rw [g1]
    omega
  | succ k ih =>
    intro v h
    simp only [loopHead] at h
    cases hk : loopHead w k with
    | none => rw [hk] at h; cases h
    | some u =>
      rw [hk] at h
      simp only [Option.some_bind] at h
      obtain ⟨a1, a2, a3, a4, a5⟩ := ih u hk
      have hstu : ¬ (u.IqrfControl.Status = IQRF_READ ∨ u.IqrfControl.Status = IQRF_WRITE) := by
        rw [asmFrame_status _ _ a1]; exact hst
      obtain ⟨b1, b2, b3, b4, b5⟩ := loopPass_facts u v hstu h
      have hbound : v.CodeFile.length + (k + 1) ≤ w.CodeFile.length + 1 := by
        split_ifs at a4 b3 <;> omega
      refine ⟨b1.trans a1, b4 a2, fun _ => b2, ?_, ?_⟩
      · rw [if_pos b2]
        exact hbound
      · rw [a5]
        have e : w.CodeFile.length + 2 - k = (w.CodeFile.length + 2 - (k + 1)) + 1 := by omega
        rw [e]
        exact b5 _

/-- C32. Final flush at the end of the file. In a call of
`iqrfPgmPrepareMemBlock` (no exchange with the module in flight), let the
loop come to a pass that has to read a line when the file holds no further
line. With a block begun (`MemoryBlockNumber ≠ 0`) the call returns
`IQRF_PGM_FLASH_BLOCK_READY` with the assembler's variables as they are; with
an overflow pending it returns `IQRF_PGM_FLASH_BLOCK_READY` after
`iqrfPgmMoveOverflowedData`; in both cases the next call returns
`IQRF_PGM_SUCCESS`. With nothing pending the call itself returns
`IQRF_PGM_SUCCESS`. -/
theorem iqrfPgmPrepareMemBlock_final_flush (w v : World) (n : Nat)
    (hst : ¬ (w.IqrfControl.Status = IQRF_READ ∨ w.IqrfControl.Status = IQRF_WRITE))
    (hhead : loopHead w n = some v)
    (hd : v.PrepareMemBlock.DataInBufferReady = 0)
    (hno : NoLine v.CodeFile) :
    ∃ w1, iqrfPgmPrepareMemBlock w = some (w1,
        if v.PrepareMemBlock.MemoryBlockNumber ≠ 0 ∨ v.PrepareMemBlock.DataOverflow ≠ 0
          then IQRF_PGM_FLASH_BLOCK_READY else IQRF_PGM_SUCCESS)
      ∧ w1.PrepareMemBlock =
          (if v.PrepareMemBlock.MemoryBlockNumber ≠ 0 then v.PrepareMemBlock
           else if v.PrepareMemBlock.DataOverflow ≠ 0
             then (iqrfPgmMoveOverflowedData v).PrepareMemBlock
           else v.PrepareMemBlock)
      ∧ ∃ w2, iqrfPgmPrepareMemBlock w1 = some (w2, IQRF_PGM_SUCCESS) := by
  obtain ⟨a1, a2, -, a4, a5⟩ := loopHead_facts w hst n v hhead
  have hstv : ¬ (v.IqrfControl.Status = IQRF_READ ∨ v.IqrfControl.Status = IQRF_WRITE) := by
    rw [asmFrame_status _ _ a1]; exact hst
  obtain ⟨w1, e1, c1, c2, c3⟩ := fetchLine_noline v hstv hd hno
  have hfuel : w.CodeFile.length + 2 - n = (w.CodeFile.length + 1 - n) + 1 := by
    rw [if_pos hd] at a4
    omega
  refine ⟨w1, ?_, c3, ?_⟩
  · rw [a5, hfuel]
    exact prepareLoop_fetch_return _ v w1 _ e1
  · -- the next call: the file is at its end and nothing is pending
    have hd1 : w1.PrepareMemBlock.DataInBufferReady = 0 := by
      rw [c3]
      split_ifs
      · exact hd
      · exact hd
      · exact hd
    have ho1 : w1.PrepareMemBlock.DataOverflow = 0 := by
      rw [c3]
      by_cases hm : v.PrepareMemBlock.MemoryBlockNumber ≠ 0
      · rw [if_pos hm]
        exact a2 hm
      · rw [if_neg hm]
        by_cases ho : v.PrepareMemBlock.DataOverflow ≠ 0
        · rw [if_pos ho]
          rfl
        · rw [if_neg ho]
          exact not_not.mp ho
    obtain ⟨f1, f2, f3, f4, -⟩ := loopEntry_frame w1
    obtain ⟨g1, -, -, g4⟩ := lineFrame_file _ _ f1
    have hst1 : ¬ ((loopEntry w1).IqrfControl.Status = IQRF_READ
        ∨ (loopEntry w1).IqrfControl.Status = IQRF_WRITE) := by
      rw [asmFrame_status _ _ g4, asmFrame_status _ _ c2]; exact hstv
    obtain ⟨w2, e2, -, -, -⟩ := fetchLine_noline (loopEntry w1) hst1 (by rw [f4]; exact hd1)
      (by
        rw [g1, c1]
        intro b hb
        cases hb)
    rw [if_neg (by rw [f2, f3, ho1]; simp)] at e2
    exact ⟨w2, by
      rw [iqrfPgmPrepareMemBlock_eq]
      exact prepareLoop_fetch_return _ _ w2 _ e2⟩

/-- Witness for `iqrfPgmPrepareMemBlock_final_flush`: a call made at the end
of the file with an overflow pending. -/
theorem iqrfPgmPrepareMemBlock_final_flush_witness :
    ∃ w1, iqrfPgmPrepareMemBlock ({ PrepareMemBlock := { DataOverflow := 1 } } : World)
        = some (w1, IQRF_PGM_FLASH_BLOCK_READY)
      ∧ ∃ w2, iqrfPgmPrepareMemBlock w1 = some (w2, IQRF_PGM_SUCCESS) := by
  obtain ⟨w1, h1, -, h2⟩ := iqrfPgmPrepareMemBlock_final_flush
    ({ PrepareMemBlock := { DataOverflow := 1 } } : World)
    (loopEntry ({ PrepareMemBlock := { DataOverflow := 1 } } : World)) 0
    (by decide) rfl rfl (by intro b hb; cases hb)
  exact ⟨w1, h1, h2⟩

/-- C39. Parser termination. Whatever the bytes of the (finite) file and
whatever the state, `iqrfPgmReadHEXFileLine` and `iqrfPgmReadIQRFFileLine`
return, having stored at most 32 and at most 20 bytes, from the start of the
line buffer on; and the loop of `iqrfPgmPrepareMemBlock` returns for every
state of the assembler, so that the function returns. The loop suspends the
driver before it reads a line, which waits for an exchange in flight to be
finished by the interrupt routine: the loop is entered with no exchange in
flight. -/
theorem parsers_terminate (w : World)
    (hst : ¬ (w.IqrfControl.Status = IQRF_READ ∨ w.IqrfControl.Status = IQRF_WRITE)) :
    (∃ w1 r bytes, iqrfPgmReadHEXFileLine w = some (w1, r) ∧ bytes.length ≤ 32
        ∧ w1.IqrfPgmCodeLineBuffer = memcpy w.IqrfPgmCodeLineBuffer 0 bytes)
    ∧ (∃ w1 r bytes, iqrfPgmReadIQRFFileLine w = some (w1, r) ∧ bytes.length ≤ 20
        ∧ w1.IqrfPgmCodeLineBuffer = memcpy w.IqrfPgmCodeLineBuffer 0 bytes)
    ∧ (∀ fuel, w.CodeFile.length + 1 < fuel → ∃ w1 r, prepareLoop fuel w = some (w1, r))
    ∧ (∃ w1 r, iqrfPgmPrepareMemBlock w = some (w1, r)) := by
  refine ⟨?_, ?_, ?_, iqrfPgmPrepareMemBlock_total w hst⟩
  · obtain ⟨w1, r, bytes, e, b1, b2, -⟩ := iqrfPgmReadHEXFileLine_total w
    exact ⟨w1, r, bytes, e, b1, b2⟩
  · obtain ⟨w1, r, bytes, e, b1, b2, -⟩ := iqrfPgmReadIQRFFileLine_total w
    exact ⟨w1, r, bytes, e, b1, b2⟩
  · intro fuel hf
    apply prepareLoop_total fuel w hst
    split_ifs <;> omega

/-- Witness for `parsers_terminate`: the file `:zz` and a line feed. -/
theorem parsers_terminate_witness :
    ∃ w1 r, iqrfPgmPrepareMemBlock ({ CodeFile := [0x3A, 0x7A, 0x7A, 0x0A] } : World)
      = some (w1, r) :=
  (parsers_terminate ({ CodeFile := [0x3A, 0x7A, 0x7A, 0x0A] } : World) (by decide)).2.2.2

/-! ## Bounds of the transport buffers -/

theorem transportInv_of_vars (w w1 : World) (h : TransportInv w)
    (hv : transportVars w1 = transportVars w) (hm : w1.IqrfPacket.DataLength ≤ 64) :
    TransportInv w1 := by
  simp only [transportVars, Prod.mk.injEq] at hv
  obtain ⟨h1, h2, h3, h4⟩ := hv
  unfold TransportInv at h ⊢
  rw [h1, h2, h3, h4]
  exact ⟨hm, h.2⟩

theorem iqrfSendSpiByte_vars (w : World) (tx rx : Nat) :
    transportVars (iqrfSendSpiByte w tx rx).1 = transportVars w
      ∧ (iqrfSendSpiByte w tx rx).1.IqrfPacket = w.IqrfPacket := by
  unfold iqrfSendSpiByte iqrfDeselectTRmodule
  simp only []
  split_ifs <;> exact ⟨rfl, rfl⟩

theorem callRxHandler_vars (w : World) :
    transportVars (callRxHandler w) = transportVars w
      ∧ (callRxHandler w).IqrfPacket = w.IqrfPacket := by
  unfold callRxHandler
  simp only []
  cases w.IqrfControl.IqrfRxHandler
  all_goals first
    | exact ⟨rfl, rfl⟩
    | (simp only []; unfold iqrfTrInfoProcess; simp only []; split_ifs <;> exact ⟨rfl, rfl⟩)

theorem completeFrame_inv (w : World)
    (hlen : w.IqrfSpiControl.PacketLen = w.IqrfSpiControl.DLEN + 4)
    (hd : w.IqrfSpiControl.DLEN ≤ 64) (hm : w.IqrfPacket.DataLength ≤ 64) :
    TransportInv (completeFrame w) := by
  have hacc : ∀ u : World, u.IqrfSpiControl = w.IqrfSpiControl → u.IqrfPacket = w.IqrfPacket →
      TransportInv (frameAccepted u) := by
    intro u hu hp
    have h1 : (frameAccepted u).IqrfControl.Status = IQRF_READY := by
      unfold frameAccepted; rfl
    have h2 : (frameAccepted u).IqrfSpiControl = w.IqrfSpiControl := by
      unfold frameAccepted
      simp only []
      have := (callRxHandler_vars u).1
      split_ifs
      all_goals first
        | exact hu
        | (show (callRxHandler u).IqrfSpiControl = _
           unfold callRxHandler
           simp only []
           cases u.IqrfControl.IqrfRxHandler
           all_goals first
             | exact hu
             | (simp only []; unfold iqrfTrInfoProcess; simp only []; split_ifs <;> exact hu))
    have h3 : (frameAccepted u).IqrfPacket = w.IqrfPacket := by
      unfold frameAccepted
      simp only []
      split_ifs
      all_goals first
        | exact hp
        | exact (callRxHandler_vars u).2.trans hp
    unfold TransportInv
    rw [h2, h3]
    exact ⟨hm, Or.inr ⟨hlen, hd, fun hne => absurd h1 hne⟩⟩
  have hrej : ∀ u : World, u.IqrfSpiControl = w.IqrfSpiControl → u.IqrfPacket = w.IqrfPacket →
      TransportInv (frameRejected u) := by
    intro u hu hp
    unfold frameRejected
    simp only []
    split_ifs
    all_goals
      unfold TransportInv
      simp only [hu, hp]
      refine ⟨hm, Or.inr ⟨hlen, hd, fun hne => ?_⟩⟩
      omega
  unfold completeFrame
  simp only []
  split_ifs
  · exact hacc _ rfl rfl
  · exact hrej _ rfl rfl

theorem exchangeByte_inv (w : World) (rx : Nat) (h : TransportInv w)
    (hst : w.IqrfControl.Status ≠ IQRF_READY) : TransportInv (exchangeByte w rx) := by
  obtain ⟨hm, hcase⟩ := h
  rcases hcase with ⟨h1, -⟩ | ⟨hlen, hd, hcnt⟩
  · exact absurd h1 hst
  · have hc := hcnt hst
    obtain ⟨v1, v2⟩ := iqrfSendSpiByte_vars w
      (w.IqrfSpiControl.PacketTxBuffer.getD w.IqrfSpiControl.PacketCnt 0) rx
    simp only [transportVars, Prod.mk.injEq] at v1
    obtain ⟨e1, e2, e3, e4⟩ := v1
    have r1 : (receiveByte w rx).IqrfControl.Status = w.IqrfControl.Status := e1
    have r2 : (receiveByte w rx).IqrfSpiControl.DLEN = w.IqrfSpiControl.DLEN := e2
    have r3 : (receiveByte w rx).IqrfSpiControl.PacketLen = w.IqrfSpiControl.PacketLen := e3
    have r4 : (receiveByte w rx).IqrfSpiControl.PacketCnt
        = (w.IqrfSpiControl.PacketCnt + 1) % 256 := by
      show ((iqrfSendSpiByte w _ rx).1.IqrfSpiControl.PacketCnt + 1) % 256 = _
      rw [e4]
    have r5 : (receiveByte w rx).IqrfPacket = w.IqrfPacket := v2
    unfold exchangeByte
    simp only []
    by_cases hfull : (receiveByte w rx).IqrfSpiControl.PacketCnt
        = (receiveByte w rx).IqrfSpiControl.PacketLen
        ∨ (receiveByte w rx).IqrfSpiControl.PacketCnt = IQRF_PKT_SIZE
    · rw [if_pos hfull]
      exact completeFrame_inv _ (by rw [r3, r2]; exact hlen) (by rw [r2]; exact hd)
        (by rw [r5]; exact hm)
    · rw [if_neg hfull]
      unfold TransportInv
      rw [r1, r2, r3, r4, r5]
      rw [r3, r4] at hfull
      refine ⟨hm, Or.inr ⟨hlen, hd, fun _ => ?_⟩⟩
      have : (w.IqrfSpiControl.PacketCnt + 1) % 256 = w.IqrfSpiControl.PacketCnt + 1 :=
        Nat.mod_eq_of_lt (by omega)
      rw [this] at hfull ⊢
      omega

theorem startRead_inv (w : World) (hm : w.IqrfPacket.DataLength ≤ 64) :
    TransportInv (startRead w) := by
  have hd : (if w.IqrfSpiControl.SpiStat = 0x40 then 64 else w.IqrfSpiControl.SpiStat &&& 0x3F)
      ≤ 64 := by
    split_ifs
    · exact Nat.le_refl _
    · exact Nat.le_trans Nat.and_le_right (by decide)
  unfold TransportInv startRead
  simp only []
  refine ⟨hm, Or.inr ⟨Nat.mod_eq_of_lt (by omega), hd, fun _ => ?_⟩⟩
  rw [Nat.mod_eq_of_lt (by omega)]
  omega

theorem startWrite_inv (w : World) (hm : w.IqrfPacket.DataLength ≤ 64) :
    TransportInv (startWrite w) := by
  unfold TransportInv startWrite
  simp only []
  refine ⟨hm, Or.inr ⟨Nat.mod_eq_of_lt (by omega), hm, fun _ => ?_⟩⟩
  rw [Nat.mod_eq_of_lt (by omega)]
  omega

theorem statusPoll_inv (w : World) (rx : Nat) (h : TransportInv w) :
    TransportInv (statusPoll w rx) := by
  obtain ⟨v1, v2⟩ := iqrfSendSpiByte_vars w SPI_CHECK rx
  unfold statusPoll
  simp only []
  split_ifs
  · exact startRead_inv _ (by
      show (iqrfSendSpiByte w SPI_CHECK rx).1.IqrfPacket.DataLength ≤ 64
      rw [v2]; exact h.1)
  · exact startWrite_inv _ (by
      show (iqrfSendSpiByte w SPI_CHECK rx).1.IqrfPacket.DataLength ≤ 64
      rw [v2]; exact h.1)
  · exact transportInv_of_vars w _ h v1 (by
      show (iqrfSendSpiByte w SPI_CHECK rx).1.IqrfPacket.DataLength ≤ 64
      rw [v2]; exact h.1)

/-- The timer callback keeps the bounds of the transport, whatever the module
returns. -/
theorem iqrfDriver_inv (w : World) (rx : Nat) (h : TransportInv w) :
    TransportInv (iqrfDriver w rx) := by
  have hsd : TransportInv (iqrfSpiDriver w rx) := by
    unfold iqrfSpiDriver
    split_ifs with hs
    · exact exchangeByte_inv w rx h hs
    · exact statusPoll_inv w rx h
  unfold iqrfDriver
  simp only []
  split_ifs
  · exact h
  · exact transportInv_of_vars _ _ hsd rfl hsd.1
  · exact transportInv_of_vars _ _ hsd rfl hsd.1
  · exact transportInv_of_vars _ _ h rfl h.1

theorem reachable_inv (w : World) (h : Reachable w) : TransportInv w := by
  induction h with
  | start => exact ⟨by decide, Or.inl ⟨rfl, rfl, rfl⟩⟩
  | driver w rx _ ih => exact iqrfDriver_inv w rx ih
  | host w w1 _ hv hm ih => exact transportInv_of_vars w w1 ih hv hm

/-- C38, counterexample. At the program start, before the first exchange,
`PacketLen` and `DLEN` are both 0: `PacketLen = DLEN + 4` does not hold in
this reachable state. -/
theorem transport_bounds_counterexample :
    Reachable ({} : World)
      ∧ ({} : World).IqrfControl.Status = IQRF_READY
      ∧ ¬ (({} : World).IqrfSpiControl.PacketLen = ({} : World).IqrfSpiControl.DLEN + 4) :=
  ⟨Reachable.start, rfl, by decide⟩

/-- C38, amended. If every request placed in the mailbox has
`DataLength <= 64`, then in every reachable transport state in which the
library status is not `IQRF_READY` (an exchange is in flight),
`PacketLen = DLEN + 4 <= 68` and `PacketCnt < PacketLen`; with the status
`IQRF_READY` either the same equation holds or no exchange has been started
yet and both are 0. Consequently the accesses `PacketTxBuffer[PacketCnt]`,
`PacketRxBuffer[PacketCnt]`, `PacketTxBuffer[DLEN + 2]`,
`PacketRxBuffer[DLEN + 3]` of an exchange and the payload copy of
`DataLength` bytes to `PacketTxBuffer[2..]` stay below index 68. -/
theorem transport_bounds (w : World) (h : Reachable w) :
    (w.IqrfControl.Status ≠ IQRF_READY →
        w.IqrfSpiControl.PacketLen = w.IqrfSpiControl.DLEN + 4
        ∧ w.IqrfSpiControl.PacketLen ≤ 68
        ∧ w.IqrfSpiControl.PacketCnt < w.IqrfSpiControl.PacketLen
        ∧ w.IqrfSpiControl.PacketCnt < IQRF_PKT_SIZE
        ∧ w.IqrfSpiControl.DLEN + 2 < IQRF_PKT_SIZE
        ∧ w.IqrfSpiControl.DLEN + 3 < IQRF_PKT_SIZE)
    ∧ (w.IqrfControl.Status = IQRF_READY →
        (w.IqrfSpiControl.PacketLen = w.IqrfSpiControl.DLEN + 4
          ∧ w.IqrfSpiControl.PacketLen ≤ 68)
        ∨ (w.IqrfSpiControl.PacketLen = 0 ∧ w.IqrfSpiControl.DLEN = 0))
    ∧ 2 + w.IqrfPacket.DataLength ≤ IQRF_PKT_SIZE
    ∧ (startWrite w).IqrfSpiControl.DLEN + 3 < IQRF_PKT_SIZE := by
  obtain ⟨hm, hcase⟩ := reachable_inv w h
  unfold IQRF_PKT_SIZE
  refine ⟨fun hst => ?_, fun _ => ?_, by omega, ?_⟩
  · rcases hcase with ⟨h1, -⟩ | ⟨hlen, hd, hcnt⟩
    · exact absurd h1 hst
    · have := hcnt hst
      refine ⟨hlen, ?_, this, ?_, ?_, ?_⟩ <;> omega
  · rcases hcase with ⟨-, h2, h3⟩ | ⟨hlen, hd, -⟩
    · exact Or.inr ⟨h2, h3⟩
    · exact Or.inl ⟨hlen, by omega⟩
  · show w.IqrfPacket.DataLength + 3 < 68
    omega

/-- Witness for `transport_bounds`: the state after the first status poll of
a module that announces 3 bytes of data, a read of `3 + 4` bytes in flight. -/
theorem transport_bounds_witness :
    (iqrfDriver {} 0x43).IqrfControl.Status ≠ IQRF_READY
      ∧ (iqrfDriver {} 0x43).IqrfSpiControl.PacketLen = 7
      ∧ (iqrfDriver {} 0x43).IqrfSpiControl.PacketCnt
          < (iqrfDriver {} 0x43).IqrfSpiControl.PacketLen :=
  ⟨by decide, by decide,
    ((transport_bounds (iqrfDriver {} 0x43) (Reachable.driver {} 0x43 Reachable.start)).1
      (by decide)).2.2.1⟩

/-! ## Records the assembler does not check -/

/-- C36, the failing input. A file whose only record holds the two words
`11 22` and `33 44` for the word addresses 0x3A0F and 0x3A10 (byte address
0x741E), the last word of the first half of page 0x3A00 and the first word of
its second half. The record is accepted; it is copied in one piece to the
image offsets 32..35, so that the second word lies on the header of the
second half (offsets 34..35, which should hold `10 3A`) and the place of the
word 0x3A10 (offsets 36..37) keeps the erased pattern `FF 3F`. The same two
words in two records are stored as the layout says. -/
theorem iqrfPgmPrepareMemBlock_straddling_record :
    recordAddress 0 (dataRecord 0x741E [0x11, 0x22, 0x33, 0x44]) = 0x3A0F
    ∧ (iqrfPgmPrepareMemBlock
        { CodeFile := hexLine (fun _ => true) (dataRecord 0x741E [0x11, 0x22, 0x33, 0x44]) 0x0D
            ++ [0x0A] }).map
      (fun r => (r.2, readBytes r.1.PrepareMemBlock.MemoryBlock 32 6))
      = some (IQRF_PGM_FLASH_BLOCK_READY, [0x11, 0x22, 0x33, 0x44, 0xFF, 0x3F])
    ∧ (iqrfPgmPrepareMemBlock
        { CodeFile := hexLine (fun _ => true) (dataRecord 0x741E [0x11, 0x22]) 0x0D ++ [0x0A]
            ++ hexLine (fun _ => true) (dataRecord 0x7420 [0x33, 0x44]) 0x0D ++ [0x0A] }).map
      (fun r => (r.2, readBytes r.1.PrepareMemBlock.MemoryBlock 32 6))
      = some (IQRF_PGM_FLASH_BLOCK_READY, [0x11, 0x22, 0x10, 0x3A, 0x33, 0x44]) := by
  decide

/-- C35, the failing input. A file of two lines. The first is a record of type
5, which the assembler passes over, with the data `A1 .. A8`. The second,
`:08740000112251`, declares 8 data bytes for the flash word address 0x3A00
and holds 2 (its 7 bytes sum to 0, the reader accepts it). The assembler
copies 8 bytes from the line buffer: the 2 data bytes, the checksum `51` and
the bytes `A4 .. A8` the first line has left at the indices 7..11. A line
`:407400004C` that declares 64 data bytes is accepted as well, and is copied
from the indices 4..67 of the 32-byte line buffer (a read beyond the buffer
gives 0 here). -/
theorem iqrfPgmPrepareMemBlock_short_record :
    (iqrfPgmPrepareMemBlock
        { CodeFile :=
            hexLine (fun _ => true)
              (recordBytes 0 5 [0xA1, 0xA2, 0xA3, 0xA4, 0xA5, 0xA6, 0xA7, 0xA8]
                ++ [recordChecksum (recordBytes 0 5 [0xA1, 0xA2, 0xA3, 0xA4, 0xA5, 0xA6, 0xA7, 0xA8])])
              0x0D ++ [0x0A]
            ++ hexLine (fun _ => true) [0x08, 0x74, 0x00, 0x00, 0x11, 0x22, 0x51] 0x0D ++ [0x0A] }).map
      (fun r => (r.2, readBytes r.1.PrepareMemBlock.MemoryBlock 0 10))
      = some (IQRF_PGM_FLASH_BLOCK_READY,
          [0x00, 0x3A, 0x11, 0x22, 0x51, 0xA4, 0xA5, 0xA6, 0xA7, 0xA8])
    ∧ (iqrfPgmPrepareMemBlock
        { CodeFile := hexLine (fun _ => true) [0x40, 0x74, 0x00, 0x00, 0x4C] 0x0D ++ [0x0A]
          IqrfPgmCodeLineBuffer := List.replicate 32 0xEE }).map
      (fun r => (r.2, readBytes r.1.PrepareMemBlock.MemoryBlock 0 4,
        readBytes r.1.PrepareMemBlock.MemoryBlock 28 4))
      = some (IQRF_PGM_FLASH_BLOCK_READY, [0x00, 0x3A, 0x4C, 0xEE], [0xEE, 0xEE, 0x00, 0x00])
    ∧ flashDestinationIndex 0x3A00 + flashDataCounter 0x3A00 0x40 ≤ 68
    ∧ 4 + flashDataCounter 0x3A00 0x40 > SIZE_OF_CODE_LINE_BUFFER := by
  decide

/-- C31, counterexample. A file that selects the upper address word 0x0002
(`H = 0x20000`) and holds one data record of one word for the offset 0x7400.
The full word address is `(0x20000 + 0x7400) / 2 = 0x13A00`, outside every
memory area; the assembler keeps its low 16 bits, 0x3A00, and stores the word
in the first page of the main flash. -/
theorem processLine_addressing_counterexample :
    (0x20000 + 0x7400) / 2 = 0x13A00
    ∧ ¬ inSerial 0x13A00 ∧ ¬ inMainFlash 0x13A00 ∧ ¬ inLicencedFlash 0x13A00
    ∧ ¬ inEeprom 0x13A00
    ∧ recordAddress 0x20000 (dataRecord 0x7400 [0xAA, 0x3B]) = IQRF_MAIN_MEM_MIN_ADR
    ∧ (iqrfPgmPrepareMemBlock
        { CodeFile := hexLine (fun _ => true)
              (recordBytes 0 4 [0, 2] ++ [recordChecksum (recordBytes 0 4 [0, 2])]) 0x0D ++ [0x0A]
            ++ hexLine (fun _ => true) (dataRecord 0x7400 [0xAA, 0x3B]) 0x0D ++ [0x0A] }).map
      (fun r => (r.2, r.1.PrepareMemBlock.HiAddress, r.1.PrepareMemBlock.Address,
        readBytes r.1.PrepareMemBlock.MemoryBlock 0 4))
      = some (IQRF_PGM_FLASH_BLOCK_READY, 0x20000, 0x3A00, [0x00, 0x3A, 0xAA, 0x3B]) := by
  decide

theorem prepareSerial_address (w : World) :
    (prepareSerial w).1.PrepareMemBlock.Address = w.PrepareMemBlock.Address := by
  unfold prepareSerial
  simp only []
  split_ifs <;> rfl

theorem prepareOther_address (w : World) :
    (prepareOther w).1.PrepareMemBlock.Address = w.PrepareMemBlock.Address := by
  have arm : ∀ m d c b : Nat,
      (match flashChecks w m d c b with
        | Sum.inr r => (w, some r)
        | Sum.inl DataCounter1 => (storeFlash w d DataCounter1 b, none)).1.PrepareMemBlock.Address
        = w.PrepareMemBlock.Address := by
    intro m d c b
    cases flashChecks w m d c b <;> rfl
  have ee : ∀ c : Nat, (prepareEeprom w c).1.PrepareMemBlock.Address
      = w.PrepareMemBlock.Address := by
    intro c
    unfold prepareEeprom
    simp only []
    split_ifs <;> rfl
  unfold prepareOther
  simp only []
  split_ifs
  all_goals first
    | exact arm _ _ _ _
    | exact ee _
    | rfl

theorem prepareOther_outside (w : World)
    (h2 : ¬ inMainFlash w.PrepareMemBlock.Address)
    (h3 : ¬ inLicencedFlash w.PrepareMemBlock.Address)
    (h4 : ¬ inEeprom w.PrepareMemBlock.Address) : prepareOther w = (w, none) := by
  unfold inMainFlash at h2
  unfold inLicencedFlash at h3
  unfold inEeprom at h4
  unfold prepareOther
  simp only []
  rw [if_neg h2, if_neg h3, if_neg h4]

/-- C31, amended. An address record (type 4) with the data bytes `h1`, `h0`
sets the remembered component to `H = h1 * 2^24 + h0 * 2^16`. A data record
with the offset bytes `l1`, `l2` read after it is given the word address
`A = floor((H + o) / 2) mod 2^16`, `o = l1 * 256 + l2`: the field `Address`
is 16 bits wide and the bits above are lost. The record is handed to the
branch of the memory area in which `A` lies, and when `A` lies in none of the
areas the record is passed over. -/
theorem processLine_addressing (w : World) (h1 h0 l1 l2 : Nat)
    (hh1 : h1 < 256) (hh0 : h0 < 256) (hl1 : l1 < 256) :
    (w.IqrfPgmCodeLineBuffer.getD 3 0 = 4 → w.IqrfPgmCodeLineBuffer.getD 4 0 = h1 →
      w.IqrfPgmCodeLineBuffer.getD 5 0 = h0 →
      processLine w = ({ w with PrepareMemBlock := { w.PrepareMemBlock with
        HiAddress := h1 * 2 ^ 24 + h0 * 2 ^ 16 } }, none))
    ∧ (w.IqrfPgmCodeLineBuffer.getD 3 0 = 0 →
        w.PrepareMemBlock.HiAddress = h1 * 2 ^ 24 + h0 * 2 ^ 16 →
        w.IqrfPgmCodeLineBuffer.getD 1 0 = l1 → w.IqrfPgmCodeLineBuffer.getD 2 0 = l2 →
        recordAddress w.PrepareMemBlock.HiAddress w.IqrfPgmCodeLineBuffer
            = ((h1 * 2 ^ 24 + h0 * 2 ^ 16 + (l1 * 256 + l2)) / 2) % 2 ^ 16
        ∧ (processLine w).1.PrepareMemBlock.Address
            = ((h1 * 2 ^ 24 + h0 * 2 ^ 16 + (l1 * 256 + l2)) / 2) % 2 ^ 16
        ∧ processLine w =
            (if inSerial (((h1 * 2 ^ 24 + h0 * 2 ^ 16 + (l1 * 256 + l2)) / 2) % 2 ^ 16)
              then prepareSerial (recordEntry w) else prepareOther (recordEntry w))
        ∧ (¬ inSerial (((h1 * 2 ^ 24 + h0 * 2 ^ 16 + (l1 * 256 + l2)) / 2) % 2 ^ 16) →
            ¬ inMainFlash (((h1 * 2 ^ 24 + h0 * 2 ^ 16 + (l1 * 256 + l2)) / 2) % 2 ^ 16) →
            ¬ inLicencedFlash (((h1 * 2 ^ 24 + h0 * 2 ^ 16 + (l1 * 256 + l2)) / 2) % 2 ^ 16) →
            ¬ inEeprom (((h1 * 2 ^ 24 + h0 * 2 ^ 16 + (l1 * 256 + l2)) / 2) % 2 ^ 16) →
            processLine w = (recordEntry w, none))) := by
  constructor
  · intro ht e4 e5
    unfold processLine
    simp only []
    rw [if_neg (by rw [ht]; decide), if_pos ht, e4, e5, Nat.shiftLeft_eq, Nat.shiftLeft_eq]
    have e : (h1 * 2 ^ 24 % 4294967296 + h0 * 2 ^ 16 % 4294967296) % 4294967296
        = h1 * 2 ^ 24 + h0 * 2 ^ 16 := by omega
    rw [e]
  · intro ht hH e1 e2
    have hA : recordAddress w.PrepareMemBlock.HiAddress w.IqrfPgmCodeLineBuffer
        = ((h1 * 2 ^ 24 + h0 * 2 ^ 16 + (l1 * 256 + l2)) / 2) % 2 ^ 16 := by
      unfold recordAddress
      rw [hH, e1, e2, Nat.shiftLeft_eq]
      omega
    have hd := processLine_data w ht
    obtain ⟨-, -, fa, -⟩ := recordEntry_frame w
    rw [hA] at hd fa
    refine ⟨hA, ?_, hd, ?_⟩
    · rw [hd]
      split_ifs
      · rw [prepareSerial_address, fa]
      · rw [prepareOther_address, fa]
    · intro n1 n2 n3 n4
      rw [hd, if_neg n1]
      exact prepareOther_outside _ (by rw [fa]; exact n2) (by rw [fa]; exact n3)
        (by rw [fa]; exact n4)

/-- Witness for `processLine_addressing`: the address record `:020000040002F8`
in the line buffer. -/
theorem processLine_addressing_witness :
    processLine ({ IqrfPgmCodeLineBuffer := [2, 0, 0, 4, 0, 2, 0xF8] } : World)
      = ({ IqrfPgmCodeLineBuffer := [2, 0, 0, 4, 0, 2, 0xF8],
           PrepareMemBlock := { HiAddress := 0 * 2 ^ 24 + 2 * 2 ^ 16 } }, none) :=
  (processLine_addressing ({ IqrfPgmCodeLineBuffer := [2, 0, 0, 4, 0, 2, 0xF8] } : World)
    0 2 0 0 (by decide) (by decide) (by decide)).1 rfl rfl rfl

/-! ## The sub-block counter -/

theorem byte_split (x : Nat) (h : x < 65536) :
    (x &&& 0x00FF) + 256 * ((x >>> 8) % 256) = x := by
  have h1 : x &&& 0x00FF = x % 256 := Nat.and_pow_two_sub_one_eq_mod x 8
  rw [h1, Nat.shiftRight_eq_div_pow]
  omega

theorem not_flashPage_of_le (mb : List Nat) (h : imageHeader mb ≤ 0x2BFF) : ¬ flashPage mb := by
  unfold flashPage inLicencedFlash inMainFlash IQRF_LICENCED_MEM_MIN_ADR IQRF_MAIN_MEM_MIN_ADR
  omega

theorem blockBegun_counter (p : PREPARE_MEM_BLOCK) (h : BlockBegun p) :
    (p.MemoryBlockProcessState = 1 ∨ p.MemoryBlockProcessState = 2)
      ∧ (p.MemoryBlockProcessState = 2 ↔ flashPage p.MemoryBlock) := by
  rcases h with ⟨h1, -, h3⟩ | ⟨h1, h2, -⟩
  · refine ⟨Or.inl h1, ⟨fun h => ?_, fun h => ?_⟩⟩
    · rw [h1] at h; cases h
    · exact absurd h (not_flashPage_of_le _ (by omega))
  · exact ⟨Or.inr h1, ⟨fun _ => h2, fun _ => h1⟩⟩

/-- The relocation of a pending overflow begins the next block of the serial
memory. -/
theorem iqrfPgmMoveOverflowedData_begun (w : World)
    (hl : w.PrepareMemBlock.MemoryBlock.length = 68)
    (hh : imageHeader w.PrepareMemBlock.MemoryBlock ≤ 64) :
    (iqrfPgmMoveOverflowedData w).PrepareMemBlock.MemoryBlock.length = 68
      ∧ (iqrfPgmMoveOverflowedData w).PrepareMemBlock.DataOverflow = 0
      ∧ (iqrfPgmMoveOverflowedData w).PrepareMemBlock.MemoryBlockNumber ≠ 0
      ∧ BlockBegun (iqrfPgmMoveOverflowedData w).PrepareMemBlock := by
  have h34 := iqrfPgmMoveOverflowedData_image w hl 0 (by omega)
  have h35 := iqrfPgmMoveOverflowedData_image w hl 1 (by omega)
  unfold imageHeader at hh
  have hb1 : w.PrepareMemBlock.MemoryBlock.getD 1 0 = 0 := by omega
  have hb0 : w.PrepareMemBlock.MemoryBlock.getD 0 0 ≤ 64 := by omega
  obtain ⟨m2, hm2, hm2l⟩ : ∃ m2, m2 = memset (memcpy w.PrepareMemBlock.MemoryBlock 34
      (readBytes w.PrepareMemBlock.MemoryBlock 0 34)) 0 0 34 ∧ m2.length = 68 :=
    ⟨_, rfl, by rw [length_memset, length_memcpy, hl]⟩
  have g34 : m2.getD 34 0 = w.PrepareMemBlock.MemoryBlock.getD 0 0 := by
    rw [hm2, getD_memset, if_neg (by omega), getD_memcpy,
      if_pos ⟨by omega, by rw [length_readBytes]; omega, by omega⟩,
      getD_readBytes _ _ _ _ (by omega)]
  have g35 : m2.getD 35 0 = 0 := by
    rw [hm2, getD_memset, if_neg (by omega), getD_memcpy,
      if_pos ⟨by omega, by rw [length_readBytes]; omega, by omega⟩,
      getD_readBytes _ _ _ _ (by omega)]
    exact hb1
  have hMB : (((m2.getD 35 0) <<< 8) % 65536) ||| m2.getD 34 0
      = w.PrepareMemBlock.MemoryBlock.getD 0 0 := by
    rw [g35, g34]
    simp
  unfold iqrfPgmMoveOverflowedData
  simp only [← hm2, hMB]
  obtain ⟨b0, hb0def⟩ : ∃ b0, b0 = w.PrepareMemBlock.MemoryBlock.getD 0 0 := ⟨_, rfl⟩
  rw [← hb0def] at hb0 ⊢
  have e1 : (b0 + 1) % 65536 = b0 + 1 := Nat.mod_eq_of_lt (by omega)
  have e2 : (b0 + 16) % 65536 = b0 + 16 := Nat.mod_eq_of_lt (by omega)
  have hsplit := byte_split (b0 + 1) (by omega)
  have hhead : imageHeader ((m2.set 0 ((b0 + 1) &&& 0x00FF)).set 1 (((b0 + 1) >>> 8) % 256))
      = b0 + 1 := by
    unfold imageHeader
    rw [getD_set_ne _ _ _ _ _ (by omega), getD_set_self _ _ _ _ (by omega),
      getD_set_self _ _ _ _ (by rw [List.length_set]; omega)]
    exact hsplit
  rw [e1, e2]
  refine ⟨by rw [List.length_set, List.length_set]; exact hm2l, trivial, by show b0 + 16 ≠ 0; omega,
    Or.inl ⟨rfl, ?_, ?_⟩⟩
  · show imageHeader _ + 15 = b0 + 16
    rw [hhead]
  · show imageHeader _ ≤ 65
    rw [hhead]
    omega

theorem imageHeader_set (mb : List Nat) (i v : Nat) (h : 2 ≤ i) :
    imageHeader (mb.set i v) = imageHeader mb := by
  unfold imageHeader
  rw [getD_set_ne _ _ _ _ _ (by omega), getD_set_ne _ _ _ _ _ (by omega)]

theorem imageHeader_set01 (mb : List Nat) (a b : Nat) (h : 2 ≤ mb.length) :
    imageHeader ((mb.set 0 a).set 1 b) = a + 256 * b := by
  unfold imageHeader
  rw [getD_set_ne _ _ _ _ _ (by omega), getD_set_self _ _ _ _ (by omega),
    getD_set_self _ _ _ _ (by rw [List.length_set]; omega)]

theorem imageHeader_memcpy (src : List Nat) (mb : List Nat) (off : Nat) (h : 2 ≤ off) :
    imageHeader (memcpy mb off src) = imageHeader mb := by
  unfold imageHeader
  rw [getD_memcpy, if_neg (by omega), getD_memcpy, if_neg (by omega)]

theorem imageHeader_copySerial (line : List Nat) : ∀ (n Cnt d : Nat) (mb : List Nat),
    2 ≤ d → d ≤ 67 → imageHeader (copySerial line n Cnt d mb) = imageHeader mb := by
  intro n
  induction n with
  | zero => intro Cnt d mb _ _; rfl
  | succ n ih =>
    intro Cnt d mb h1 h2
    rw [copySerial_succ line n Cnt d mb h2,
      ih _ _ _ (by split_ifs <;> omega) (by split_ifs <;> omega), imageHeader_set _ _ _ h1]

theorem imageHeader_fold (line : List Nat) : ∀ (l : List Nat) (mb : List Nat),
    imageHeader (l.foldl (fun mb Cnt => mb.set (Cnt + 2) (line.getD (2 * Cnt + 4) 0)) mb)
      = imageHeader mb
    ∧ (l.foldl (fun mb Cnt => mb.set (Cnt + 2) (line.getD (2 * Cnt + 4) 0)) mb).length
      = mb.length := by
  intro l
  induction l with
  | nil => intro mb; exact ⟨rfl, rfl⟩
  | cons a t ih =>
    intro mb
    rw [List.foldl_cons]
    obtain ⟨h1, h2⟩ := ih (mb.set (a + 2) (line.getD (2 * a + 4) 0))
    rw [h1, h2, imageHeader_set _ _ _ (by omega), List.length_set]
    exact ⟨rfl, rfl⟩

/-- The state in which a data record is handed to its branch: no overflow is
pending, and a block found begun is a block begun. -/
theorem recordEntry_inv (u : World) (hI : AsmInv u.PrepareMemBlock) :
    (recordEntry u).PrepareMemBlock.MemoryBlock.length = 68
      ∧ (recordEntry u).PrepareMemBlock.DataOverflow = 0
      ∧ ((recordEntry u).PrepareMemBlock.MemoryBlockNumber ≠ 0 →
          BlockBegun (recordEntry u).PrepareMemBlock) := by
  obtain ⟨hl, hb, ho⟩ := hI
  unfold recordEntry
  simp only []
  by_cases h : u.PrepareMemBlock.DataOverflow ≠ 0
  · rw [if_pos h]
    obtain ⟨a1, a2, -, a4⟩ := iqrfPgmMoveOverflowedData_begun
      { u with PrepareMemBlock := { u.PrepareMemBlock with
        Address := recordAddress u.PrepareMemBlock.HiAddress u.IqrfPgmCodeLineBuffer } }
      hl (ho h)
    exact ⟨a1, a2, fun _ => a4⟩
  · rw [if_neg h]
    refine ⟨hl, not_not.mp h, fun hn => ?_⟩
    have hbb := (hb hn).2
    unfold BlockBegun at hbb ⊢
    exact hbb

theorem prepareSerial_eq (w : World) :
    prepareSerial w =
      (if (serialInit w).PrepareMemBlock.MemoryBlockNumber ≠ w.PrepareMemBlock.Address / 32 then
        (serialInit w, some IQRF_PGM_FLASH_BLOCK_READY)
      else
        if (w.PrepareMemBlock.Address % 32) + 36 + w.IqrfPgmCodeLineBuffer.getD 0 0 / 2 > 68 then
          ({ serialInit w with PrepareMemBlock := { (serialInit w).PrepareMemBlock with
              DataOverflow := 1
              MemoryBlock := copySerial w.IqrfPgmCodeLineBuffer
                (w.IqrfPgmCodeLineBuffer.getD 0 0 / 2) 0 ((w.PrepareMemBlock.Address % 32) + 36)
                (serialInit w).PrepareMemBlock.MemoryBlock
              DataInBufferReady := 0 } }, some IQRF_PGM_FLASH_BLOCK_READY)
        else if (serialInit w).PrepareMemBlock.DataOverflow ≠ 0 then
          ({ serialInit w with PrepareMemBlock := { (serialInit w).PrepareMemBlock with
              MemoryBlock := copySerial w.IqrfPgmCodeLineBuffer
                (w.IqrfPgmCodeLineBuffer.getD 0 0 / 2) 0 ((w.PrepareMemBlock.Address % 32) + 36)
                (serialInit w).PrepareMemBlock.MemoryBlock
              DataInBufferReady := 0 } }, some IQRF_PGM_FLASH_BLOCK_READY)
        else
          ({ serialInit w with PrepareMemBlock := { (serialInit w).PrepareMemBlock with
              MemoryBlock := copySerial w.IqrfPgmCodeLineBuffer
                (w.IqrfPgmCodeLineBuffer.getD 0 0 / 2) 0 ((w.PrepareMemBlock.Address % 32) + 36)
                (serialInit w).PrepareMemBlock.MemoryBlock } }, none)) := by
  have e : prepareSerial w =
      (let w1 := serialInit w
       if w1.PrepareMemBlock.MemoryBlockNumber ≠ w.PrepareMemBlock.Address / 32 then
         (w1, some IQRF_PGM_FLASH_BLOCK_READY)
       else
         let w2 : World :=
           if (w.PrepareMemBlock.Address % 32) + 36 + w.IqrfPgmCodeLineBuffer.getD 0 0 / 2 > 68
           then { w1 with PrepareMemBlock := { w1.PrepareMemBlock with DataOverflow := 1 } }
           else w1
         let w3 : World :=
           { w2 with PrepareMemBlock := { w2.PrepareMemBlock with
               MemoryBlock := copySerial w.IqrfPgmCodeLineBuffer
                 (w.IqrfPgmCodeLineBuffer.getD 0 0 / 2) 0 ((w.PrepareMemBlock.Address % 32) + 36)
                 w2.PrepareMemBlock.MemoryBlock } }
         if w3.PrepareMemBlock.DataOverflow ≠ 0 then
           ({ w3 with PrepareMemBlock := { w3.PrepareMemBlock with DataInBufferReady := 0 } },
             some IQRF_PGM_FLASH_BLOCK_READY)
         else (w3, none)) := rfl
  rw [e]
  simp only []
  by_cases h1 : (serialInit w).PrepareMemBlock.MemoryBlockNumber ≠ w.PrepareMemBlock.Address / 32
  · rw [if_pos h1, if_pos h1]
  · rw [if_neg h1, if_neg h1]
    by_cases h2 : (w.PrepareMemBlock.Address % 32) + 36
        + w.IqrfPgmCodeLineBuffer.getD 0 0 / 2 > 68
    · simp only [if_pos h2]
      rfl
    · simp only [if_neg h2]

/-- After the first statement of the serial branch a block is begun. -/
theorem serialInit_begun (w : World) (hS : inSerial w.PrepareMemBlock.Address)
    (hl : w.PrepareMemBlock.MemoryBlock.length = 68)
    (hdo : w.PrepareMemBlock.DataOverflow = 0)
    (hbb : w.PrepareMemBlock.MemoryBlockNumber ≠ 0 → BlockBegun w.PrepareMemBlock) :
    (serialInit w).PrepareMemBlock.MemoryBlock.length = 68
      ∧ (serialInit w).PrepareMemBlock.DataOverflow = 0
      ∧ (serialInit w).PrepareMemBlock.MemoryBlockNumber ≠ 0
      ∧ BlockBegun (serialInit w).PrepareMemBlock := by
  unfold inSerial SERIAL_EEPROM_MIN_ADR SERIAL_EEPROM_MAX_ADR at hS
  unfold serialInit
  by_cases hm : w.PrepareMemBlock.MemoryBlockNumber = 0
  · rw [if_pos hm]
    obtain ⟨A, hA⟩ : ∃ A, A = w.PrepareMemBlock.Address := ⟨_, rfl⟩
    rw [← hA] at hS
    simp only [← hA]
    have e1 : ((A - 0x200) / 32) % 65536 = (A - 0x200) / 32 := Nat.mod_eq_of_lt (by omega)
    have e2 : ((A - 0x200) / 32 + 1) % 65536 = (A - 0x200) / 32 + 1 :=
      Nat.mod_eq_of_lt (by omega)
    rw [e1, e2]
    have hhead : imageHeader (((((memset w.PrepareMemBlock.MemoryBlock 0 0 68).set 34
        (((A - 0x200) / 32) &&& 0x00FF)).set 35 ((((A - 0x200) / 32) >>> 8) % 256)).set 0
        ((((A - 0x200) / 32) + 1) &&& 0x00FF)).set 1
        (((((A - 0x200) / 32) + 1) >>> 8) % 256)) = (A - 0x200) / 32 + 1 := by
      rw [imageHeader_set01 _ _ _
        (by rw [List.length_set, List.length_set, length_memset, hl]; omega)]
      exact byte_split _ (by omega)
    refine ⟨?_, hdo, ?_, ?_⟩
    · rw [List.length_set, List.length_set, List.length_set, List.length_set, length_memset, hl]
    · omega
    · unfold BlockBegun
      simp only []
      rw [hhead]
      left
      refine ⟨trivial, ?_, ?_⟩ <;> omega
  · rw [if_neg hm]
    exact ⟨hl, hdo, hm, hbb hm⟩

/-- The serial branch keeps the invariant of the loop when it goes on to the
next line, and establishes the condition of return when it returns. -/
theorem prepareSerial_inv (w : World) (hS : inSerial w.PrepareMemBlock.Address)
    (hl : w.PrepareMemBlock.MemoryBlock.length = 68)
    (hdo : w.PrepareMemBlock.DataOverflow = 0)
    (hbb : w.PrepareMemBlock.MemoryBlockNumber ≠ 0 → BlockBegun w.PrepareMemBlock) :
    ((prepareSerial w).2 = none → AsmInv (prepareSerial w).1.PrepareMemBlock)
      ∧ (∀ r, (prepareSerial w).2 = some r → AsmPost (prepareSerial w).1.PrepareMemBlock r) := by
  obtain ⟨f1, f2, f3, f4⟩ := serialInit_begun w hS hl hdo hbb
  have e := prepareSerial_eq w
  unfold inSerial SERIAL_EEPROM_MIN_ADR SERIAL_EEPROM_MAX_ADR at hS
  obtain ⟨W1, hW1⟩ : ∃ W1, W1 = serialInit w := ⟨_, rfl⟩
  rw [← hW1] at f1 f2 f3 f4 e
  rw [e]
  by_cases hchg : W1.PrepareMemBlock.MemoryBlockNumber ≠ w.PrepareMemBlock.Address / 32
  · rw [if_pos hchg]
    exact ⟨(fun h => by cases h), fun r _ => ⟨f1, fun h => absurd f2 h,
      fun _ => blockBegun_counter _ f4⟩⟩
  · rw [if_neg hchg]
    have hmbn : W1.PrepareMemBlock.MemoryBlockNumber = w.PrepareMemBlock.Address / 32 :=
      not_not.mp hchg
    -- the block begun is a block of the serial memory
    have hser : W1.PrepareMemBlock.MemoryBlockProcessState = 1
        ∧ imageHeader W1.PrepareMemBlock.MemoryBlock + 15 = W1.PrepareMemBlock.MemoryBlockNumber
        ∧ imageHeader W1.PrepareMemBlock.MemoryBlock ≤ 64 := by
      rcases f4 with ⟨a1, a2, a3⟩ | ⟨-, -, a3⟩
      · exact ⟨a1, a2, by omega⟩
      · omega
    have hcopy : imageHeader (copySerial w.IqrfPgmCodeLineBuffer
        (w.IqrfPgmCodeLineBuffer.getD 0 0 / 2) 0 ((w.PrepareMemBlock.Address % 32) + 36)
        W1.PrepareMemBlock.MemoryBlock) = imageHeader W1.PrepareMemBlock.MemoryBlock :=
      imageHeader_copySerial _ _ _ _ _ (by omega) (by omega)
    have hclen : (copySerial w.IqrfPgmCodeLineBuffer
        (w.IqrfPgmCodeLineBuffer.getD 0 0 / 2) 0 ((w.PrepareMemBlock.Address % 32) + 36)
        W1.PrepareMemBlock.MemoryBlock).length = 68 := by
      rw [length_copySerial, f1]
    have hnf : ¬ flashPage (copySerial w.IqrfPgmCodeLineBuffer
        (w.IqrfPgmCodeLineBuffer.getD 0 0 / 2) 0 ((w.PrepareMemBlock.Address % 32) + 36)
        W1.PrepareMemBlock.MemoryBlock) := not_flashPage_of_le _ (by rw [hcopy]; omega)
    have hpost : ∀ r : Nat, AsmPost
        { W1.PrepareMemBlock with
          DataOverflow := 1
          MemoryBlock := copySerial w.IqrfPgmCodeLineBuffer
            (w.IqrfPgmCodeLineBuffer.getD 0 0 / 2) 0 ((w.PrepareMemBlock.Address % 32) + 36)
            W1.PrepareMemBlock.MemoryBlock
          DataInBufferReady := 0 } r := by
      intro r
      unfold AsmPost
      simp only []
      refine ⟨hclen, fun _ => by rw [hcopy]; exact hser.2.2, fun _ => ⟨Or.inl hser.1, ?_⟩⟩
      constructor
      · intro h
        rw [hser.1] at h
        cases h
      · intro h
        exact absurd h hnf
    by_cases hov : (w.PrepareMemBlock.Address % 32) + 36
        + w.IqrfPgmCodeLineBuffer.getD 0 0 / 2 > 68
    · rw [if_pos hov]
      exact ⟨(fun h => by cases h), fun r _ => hpost r⟩
    · rw [if_neg hov, if_neg (by rw [f2]; simp)]
      refine ⟨fun _ => ?_, fun r h => by cases h⟩
      unfold AsmInv BlockBegun
      simp only []
      rw [hcopy]
      exact ⟨hclen, fun _ => ⟨f2, Or.inl ⟨hser.1, hser.2.1, by omega⟩⟩, fun h => absurd f2 h⟩

theorem flashChecks_cases (w : World) (m d c b : Nat) :
    flashChecks w m d c b = Sum.inr IQRF_PGM_ERROR
      ∨ (flashChecks w m d c b = Sum.inr IQRF_PGM_FLASH_BLOCK_READY
          ∧ w.PrepareMemBlock.MemoryBlockNumber ≠ 0)
      ∨ ∃ dc, flashChecks w m d c b = Sum.inl dc := by
  unfold flashChecks
  simp only []
  generalize (if w.PrepareMemBlock.Address + c / 2 > m
    then ((m - w.PrepareMemBlock.Address) * 2) % 256 else c) = dc1
  by_cases h1 : d + dc1 > 68
  · rw [if_pos h1]
    exact Or.inl rfl
  · rw [if_neg h1]
    by_cases h2 : w.PrepareMemBlock.MemoryBlockNumber ≠ 0 ∧ w.PrepareMemBlock.MemoryBlockNumber ≠ b
    · rw [if_pos h2]
      exact Or.inr (Or.inl ⟨rfl, h2.1⟩)
    · rw [if_neg h2]
      exact Or.inr (Or.inr ⟨_, rfl⟩)

/-- The copy of a flash record leaves a flash page begun. -/
theorem storeFlash_inv (w : World) (d c b : Nat)
    (hl : w.PrepareMemBlock.MemoryBlock.length = 68)
    (hdo : w.PrepareMemBlock.DataOverflow = 0)
    (hd : 2 ≤ d) (hb : 352 ≤ b) (hb2 : b * 32 < 65536)
    (hf : inLicencedFlash (b * 32) ∨ inMainFlash (b * 32)) :
    AsmInv (storeFlash w d c b).PrepareMemBlock := by
  have e1 : (b * 32) % 65536 = b * 32 := Nat.mod_eq_of_lt hb2
  have hhead : imageHeader (memcpy
      ((((w.PrepareMemBlock.MemoryBlock.set 0 ((b * 32) &&& 0x00FF)).set 1
        (((b * 32) >>> 8) % 256)).set 34 (((b * 32 + 0x0010) % 65536) &&& 0x00FF)).set 35
        ((((b * 32 + 0x0010) % 65536) >>> 8) % 256)) d
      (readBytes w.IqrfPgmCodeLineBuffer 4 c)) = b * 32 := by
    rw [imageHeader_memcpy _ _ _ hd, imageHeader_set _ _ _ (by omega),
      imageHeader_set _ _ _ (by omega), imageHeader_set01 _ _ _ (by omega)]
    exact byte_split _ hb2
  unfold storeFlash AsmInv BlockBegun flashPage
  simp only []
  rw [e1, hhead]
  refine ⟨?_, fun _ => ⟨hdo, Or.inr ⟨trivial, hf, hb⟩⟩, fun h => absurd hdo h⟩
  rw [length_memcpy, List.length_set, List.length_set, List.length_set, List.length_set, hl]

theorem asmPost_of_begun (p : PREPARE_MEM_BLOCK) (r : Nat)
    (hl : p.MemoryBlock.length = 68) (hdo : p.DataOverflow = 0) (hbb : BlockBegun p) :
    AsmPost p r :=
  ⟨hl, fun h => absurd hdo h, fun _ => blockBegun_counter p hbb⟩

theorem asmPost_error (p : PREPARE_MEM_BLOCK)
    (hl : p.MemoryBlock.length = 68) (hdo : p.DataOverflow = 0) :
    AsmPost p IQRF_PGM_ERROR :=
  ⟨hl, fun h => absurd hdo h, fun h => by
    rcases h with h | h
    · exact absurd h (by decide)
    · exact absurd h (by decide)⟩

/-- The flash branches keep the invariant of the loop when they go on to the
next line, and establish the condition of return when they return. -/
theorem flashArm_inv (w : World) (m c : Nat)
    (hl : w.PrepareMemBlock.MemoryBlock.length = 68)
    (hdo : w.PrepareMemBlock.DataOverflow = 0)
    (hbb : w.PrepareMemBlock.MemoryBlockNumber ≠ 0 → BlockBegun w.PrepareMemBlock)
    (hA : inLicencedFlash w.PrepareMemBlock.Address ∨ inMainFlash w.PrepareMemBlock.Address) :
    ∀ d, 2 ≤ d →
    (((match flashChecks w m d c (w.PrepareMemBlock.Address / 32) with
        | Sum.inr r => (w, some r)
        | Sum.inl DataCounter1 =>
          (storeFlash w d DataCounter1 (w.PrepareMemBlock.Address / 32), none)).2 = none →
      AsmInv (match flashChecks w m d c (w.PrepareMemBlock.Address / 32) with
        | Sum.inr r => (w, some r)
        | Sum.inl DataCounter1 =>
          (storeFlash w d DataCounter1 (w.PrepareMemBlock.Address / 32), none)).1.PrepareMemBlock)
    ∧ (∀ r, (match flashChecks w m d c (w.PrepareMemBlock.Address / 32) with
        | Sum.inr r => (w, some r)
        | Sum.inl DataCounter1 =>
          (storeFlash w d DataCounter1 (w.PrepareMemBlock.Address / 32), none)).2 = some r →
      AsmPost (match flashChecks w m d c (w.PrepareMemBlock.Address / 32) with
        | Sum.inr r => (w, some r)
        | Sum.inl DataCounter1 =>
          (storeFlash w d DataCounter1 (w.PrepareMemBlock.Address / 32), none)).1.PrepareMemBlock
        r)) := by
  intro d hd
  have hrange : 352 ≤ w.PrepareMemBlock.Address / 32
      ∧ w.PrepareMemBlock.Address / 32 * 32 < 65536
      ∧ (inLicencedFlash (w.PrepareMemBlock.Address / 32 * 32)
          ∨ inMainFlash (w.PrepareMemBlock.Address / 32 * 32)) := by
    unfold inLicencedFlash inMainFlash IQRF_LICENCED_MEM_MIN_ADR IQRF_LICENCED_MEM_MAX_ADR
      IQRF_MAIN_MEM_MIN_ADR IQRF_MAIN_MEM_MAX_ADR at hA ⊢
    omega
  rcases flashChecks_cases w m d c (w.PrepareMemBlock.Address / 32) with h | ⟨h, hn⟩ | ⟨dc, h⟩
  · rw [h]
    exact ⟨(fun h => by cases h), fun r hr => by
      simp only [Option.some.injEq] at hr
      rw [← hr]
      exact asmPost_error _ hl hdo⟩
  · rw [h]
    exact ⟨(fun h => by cases h), fun r _ => asmPost_of_begun _ _ hl hdo (hbb hn)⟩
  · rw [h]
    exact ⟨(fun _ => storeFlash_inv w d dc _ hl hdo hd hrange.1 hrange.2.1 hrange.2.2),
      fun r hr => by cases hr⟩

/-- The branch of the internal EEPROM always returns: a block begun is handed
out, or the record makes a block of its own, with the counter at 1. -/
theorem prepareEeprom_inv (w : World) (c : Nat)
    (hl : w.PrepareMemBlock.MemoryBlock.length = 68)
    (hdo : w.PrepareMemBlock.DataOverflow = 0)
    (hbb : w.PrepareMemBlock.MemoryBlockNumber ≠ 0 → BlockBegun w.PrepareMemBlock) :
    ((prepareEeprom w c).2 = none → AsmInv (prepareEeprom w c).1.PrepareMemBlock)
      ∧ (∀ r, (prepareEeprom w c).2 = some r → AsmPost (prepareEeprom w c).1.PrepareMemBlock r) := by
  unfold prepareEeprom
  by_cases hm : w.PrepareMemBlock.MemoryBlockNumber ≠ 0
  · rw [if_pos hm]
    exact ⟨(fun h => by cases h), fun r _ => asmPost_of_begun _ _ hl hdo (hbb hm)⟩
  · rw [if_neg hm]
    simp only []
    have hb0 : w.PrepareMemBlock.Address &&& 0x00FF ≤ 255 := Nat.and_le_right
    have hg1 : ((w.PrepareMemBlock.MemoryBlock.set 0 (w.PrepareMemBlock.Address &&& 0x00FF)).set 1
        (c / 2)).getD 1 0 = c / 2 := getD_set_self _ _ _ _ (by rw [List.length_set]; omega)
    have hh1 : imageHeader ((w.PrepareMemBlock.MemoryBlock.set 0
        (w.PrepareMemBlock.Address &&& 0x00FF)).set 1 (c / 2))
        = (w.PrepareMemBlock.Address &&& 0x00FF) + 256 * (c / 2) :=
      imageHeader_set01 _ _ _ (by omega)
    rw [hg1]
    by_cases herr : w.PrepareMemBlock.Address + c / 2 > PIC16LF1938_EEPROM_MAX ∨ c / 2 > 32
    · rw [if_pos herr]
      refine ⟨(fun h => by cases h), fun r hr => ?_⟩
      simp only [Option.some.injEq] at hr
      rw [← hr]
      exact asmPost_error _ (by
        show (List.set (List.set _ _ _) _ _).length = 68
        rw [List.length_set, List.length_set, hl]) hdo
    · rw [if_neg herr]
      refine ⟨(fun h => by cases h), fun r _ => ?_⟩
      obtain ⟨f1, f2⟩ := imageHeader_fold w.IqrfPgmCodeLineBuffer (List.range (c / 2))
        ((w.PrepareMemBlock.MemoryBlock.set 0 (w.PrepareMemBlock.Address &&& 0x00FF)).set 1
          (c / 2))
      have hnf : ¬ flashPage (List.foldl
          (fun mb Cnt => mb.set (Cnt + 2) (w.IqrfPgmCodeLineBuffer.getD (2 * Cnt + 4) 0))
          ((w.PrepareMemBlock.MemoryBlock.set 0 (w.PrepareMemBlock.Address &&& 0x00FF)).set 1
            (c / 2)) (List.range (c / 2))) :=
        not_flashPage_of_le _ (by rw [f1, hh1]; omega)
      unfold AsmPost
      simp only []
      refine ⟨?_, fun h => absurd hdo h, fun _ => ⟨Or.inl trivial, ?_⟩⟩
      · rw [f2, List.length_set, List.length_set, hl]
      · constructor
        · intro h
          cases h
        · intro h
          exact absurd h hnf

/-- The branch of the flash areas and of the internal EEPROM. -/
theorem prepareOther_inv (w : World)
    (hl : w.PrepareMemBlock.MemoryBlock.length = 68)
    (hdo : w.PrepareMemBlock.DataOverflow = 0)
    (hbb : w.PrepareMemBlock.MemoryBlockNumber ≠ 0 → BlockBegun w.PrepareMemBlock) :
    ((prepareOther w).2 = none → AsmInv (prepareOther w).1.PrepareMemBlock)
      ∧ (∀ r, (prepareOther w).2 = some r → AsmPost (prepareOther w).1.PrepareMemBlock r) := by
  have hd : 2 ≤ (if ((w.PrepareMemBlock.Address % 32) * 2) % 256 < 32
      then ((w.PrepareMemBlock.Address % 32) * 2) % 256 + 2
      else ((w.PrepareMemBlock.Address % 32) * 2) % 256 + 4) := by
    split_ifs <;> omega
  unfold prepareOther
  simp only []
  by_cases hm : w.PrepareMemBlock.Address ≥ IQRF_MAIN_MEM_MIN_ADR
      ∧ w.PrepareMemBlock.Address ≤ IQRF_MAIN_MEM_MAX_ADR
  · rw [if_pos hm]
    exact flashArm_inv w IQRF_MAIN_MEM_MAX_ADR (w.IqrfPgmCodeLineBuffer.getD 0 0) hl hdo hbb
      (Or.inr hm) _ hd
  · rw [if_neg hm]
    by_cases hc : w.PrepareMemBlock.Address ≥ IQRF_LICENCED_MEM_MIN_ADR
        ∧ w.PrepareMemBlock.Address ≤ IQRF_LICENCED_MEM_MAX_ADR
    · rw [if_pos hc]
      exact flashArm_inv w IQRF_LICENCED_MEM_MAX_ADR (w.IqrfPgmCodeLineBuffer.getD 0 0) hl hdo hbb
        (Or.inl hc) _ hd
    · rw [if_neg hc]
      by_cases he : w.PrepareMemBlock.Address ≥ PIC16LF1938_EEPROM_MIN
          ∧ w.PrepareMemBlock.Address ≤ PIC16LF1938_EEPROM_MAX
      · rw [if_pos he]
        exact prepareEeprom_inv w _ hl hdo hbb
      · rw [if_neg he]
        exact ⟨(fun _ => ⟨hl, fun hn => ⟨hdo, hbb hn⟩, fun h => absurd hdo h⟩),
          fun r h => by cases h⟩

/-- The processing of a line keeps the invariant of the loop when the loop
goes on, and establishes the condition of return when the function returns. -/
theorem processLine_inv (u : World) (hI : AsmInv u.PrepareMemBlock) :
    ((processLine u).2 = none → AsmInv (processLine u).1.PrepareMemBlock)
      ∧ (∀ r, (processLine u).2 = some r → AsmPost (processLine u).1.PrepareMemBlock r) := by
  by_cases h0 : u.IqrfPgmCodeLineBuffer.getD 3 0 = 0
  · rw [processLine_data u h0]
    obtain ⟨a1, a2, a3⟩ := recordEntry_inv u hI
    obtain ⟨-, -, fa, -⟩ := recordEntry_frame u
    by_cases hs : inSerial (recordAddress u.PrepareMemBlock.HiAddress u.IqrfPgmCodeLineBuffer)
    · rw [if_pos hs]
      exact prepareSerial_inv _ (by rw [fa]; exact hs) a1 a2 a3
    · rw [if_neg hs]
      exact prepareOther_inv _ a1 a2 a3
  · have e : (processLine u).2 = none
        ∧ AsmInv (processLine u).1.PrepareMemBlock := by
      unfold processLine
      simp only []
      rw [if_neg h0]
      by_cases h4 : u.IqrfPgmCodeLineBuffer.getD 3 0 = 4
      · rw [if_pos h4]
        refine ⟨rfl, ?_⟩
        unfold AsmInv BlockBegun at hI ⊢
        exact hI
      · rw [if_neg h4]
        exact ⟨rfl, hI⟩
    refine ⟨fun _ => e.2, fun r hr => ?_⟩
    rw [e.1] at hr
    cases hr

theorem asmInv_pending (p : PREPARE_MEM_BLOCK) (n : Nat) (h : AsmInv p) :
    AsmInv { p with DataInBufferReady := n } := by
  unfold AsmInv BlockBegun at h ⊢
  exact h

/-- The first part of a pass keeps the invariant of the loop when the pass
goes on, and establishes the condition of return when the function returns. -/
theorem fetchLine_inv (v v1 : World) (o : Option Nat) (hI : AsmInv v.PrepareMemBlock)
    (h : fetchLine v = some (v1, o)) :
    (o = none → AsmInv v1.PrepareMemBlock) ∧ (∀ r, o = some r → AsmPost v1.PrepareMemBlock r) := by
  by_cases hd : v.PrepareMemBlock.DataInBufferReady = 0
  · by_cases hst : v.IqrfControl.Status = IQRF_READ ∨ v.IqrfControl.Status = IQRF_WRITE
    · unfold fetchLine at h
      rw [if_pos hd] at h
      unfold iqrfSuspendDriver at h
      rw [if_pos hst] at h
      cases h
    · rcases fetchLine_cases v hst with ⟨hd1, -⟩ | ⟨-, x, o1, e, -, -, hc⟩
      · exact absurd hd hd1
      · rw [e] at h
        simp only [Option.some.injEq, Prod.mk.injEq] at h
        obtain ⟨hx, ho⟩ := h
        subst hx
        subst ho
        obtain ⟨hl, hb, hov⟩ := hI
        rcases hc with ⟨h1, hp⟩ | ⟨h1, hn, hp⟩ | ⟨h1, hn, hdo, hp⟩ | ⟨h1, hn, hdo, hp⟩
          | ⟨h1, -, hp, -⟩
        · rw [h1, hp]
          refine ⟨(fun h => by cases h), fun r hr => ?_⟩
          simp only [Option.some.injEq] at hr
          rw [← hr]
          exact ⟨hl, hov, fun h => by
            rcases h with h | h
            · exact absurd h (by decide)
            · exact absurd h (by decide)⟩
        · rw [h1, hp]
          exact ⟨(fun h => by cases h),
            fun r _ => asmPost_of_begun _ _ hl (hb hn).1 (hb hn).2⟩
        · rw [h1, hp]
          obtain ⟨a1, a2, -, a4⟩ := iqrfPgmMoveOverflowedData_begun v hl (hov hdo)
          exact ⟨(fun h => by cases h), fun r _ => asmPost_of_begun _ _ a1 a2 a4⟩
        · rw [h1, hp]
          refine ⟨(fun h => by cases h), fun r hr => ?_⟩
          simp only [Option.some.injEq] at hr
          rw [← hr]
          exact ⟨hl, hov, fun h => by
            rcases h with h | h
            · exact absurd h (by decide)
            · exact absurd h (by decide)⟩
        · rw [h1, hp]
          exact ⟨(fun _ => asmInv_pending _ 1 ⟨hl, hb, hov⟩), fun r hr => by cases hr⟩
  · rw [fetchLine_pending v hd] at h
    simp only [Option.some.injEq, Prod.mk.injEq] at h
    rw [← h.1, ← h.2]
    exact ⟨(fun _ => hI), fun r hr => by cases hr⟩

/-- What `iqrfPgmPrepareMemBlock` returns with: a block handed out has the
sub-block counter at 1 or 2, at 2 exactly when it is a flash page. -/
theorem iqrfPgmPrepareMemBlock_post (w w1 : World) (r : Nat)
    (hl : w.PrepareMemBlock.MemoryBlock.length = 68)
    (hov : w.PrepareMemBlock.DataOverflow ≠ 0 → imageHeader w.PrepareMemBlock.MemoryBlock ≤ 64)
    (h : iqrfPgmPrepareMemBlock w = some (w1, r)) : AsmPost w1.PrepareMemBlock r := by
  rw [iqrfPgmPrepareMemBlock_eq] at h
  have hentry : AsmInv (loopEntry w).PrepareMemBlock := by
    unfold loopEntry
    by_cases hd : w.PrepareMemBlock.DataOverflow = 0
    · simp only [if_pos hd]
      exact ⟨(by decide : erasedMemoryBlock.length = 68), fun hn => absurd rfl hn,
        fun hn => absurd hd hn⟩
    · simp only [if_neg hd]
      exact ⟨hl, fun hn => absurd rfl hn, fun _ => hov hd⟩
  refine prepareLoop_rule (fun v => AsmInv v.PrepareMemBlock)
    (fun v r => AsmPost v.PrepareMemBlock r) ?_ ?_ ?_ _ (loopEntry w) w1 r hentry h
  · intro v v1 r hI hf
    exact (fetchLine_inv v v1 _ hI hf).2 r rfl
  · intro v v1 v2 r hI hf hp
    have h1 := (fetchLine_inv v v1 _ hI hf).1 rfl
    have h2 := (processLine_inv v1 h1).2 r (by rw [hp])
    rw [hp] at h2
    exact h2
  · intro v v1 v2 hI hf hp
    have h1 := (fetchLine_inv v v1 _ hI hf).1 rfl
    have h2 := (processLine_inv v1 h1).1 (by rw [hp])
    rw [hp] at h2
    exact asmInv_pending _ 0 h2

theorem cfgReadStep_pmb (v : World) (n : Nat) :
    (cfgReadStep v n).PrepareMemBlock.MemoryBlockProcessState
        = v.PrepareMemBlock.MemoryBlockProcessState
      ∧ imageHeader (cfgReadStep v n).PrepareMemBlock.MemoryBlock
        = imageHeader v.PrepareMemBlock.MemoryBlock
      ∧ (cfgReadStep v n).PrepareMemBlock.MemoryBlock.length
        = v.PrepareMemBlock.MemoryBlock.length := by
  have h := (asmFrame_of_fileFrame _ _ (iqrfReadByteFromFile_frame v).2.2.1).2.1
  unfold cfgReadStep
  simp only []
  rw [h, imageHeader_set _ _ _ (by split_ifs <;> omega),
    imageHeader_set _ _ _ (by split_ifs <;> omega), List.length_set, List.length_set]
  exact ⟨rfl, rfl, rfl⟩

theorem cfgFold_pmb : ∀ (l : List Nat) (v : World),
    (l.foldl cfgReadStep v).PrepareMemBlock.MemoryBlockProcessState
        = v.PrepareMemBlock.MemoryBlockProcessState
      ∧ imageHeader (l.foldl cfgReadStep v).PrepareMemBlock.MemoryBlock
        = imageHeader v.PrepareMemBlock.MemoryBlock
      ∧ (l.foldl cfgReadStep v).PrepareMemBlock.MemoryBlock.length
        = v.PrepareMemBlock.MemoryBlock.length := by
  intro l
  induction l with
  | nil => intro v; exact ⟨rfl, rfl, rfl⟩
  | cons a t ih =>
    intro v
    rw [List.foldl_cons]
    obtain ⟨a1, a2, a3⟩ := ih (cfgReadStep v a)
    obtain ⟨b1, b2, b3⟩ := cfgReadStep_pmb v a
    exact ⟨a1.trans b1, a2.trans b2, a3.trans b3⟩

/-- What `iqrfPgmProcessCfgFile` hands out: the configuration page with the
sub-block counter at 2, then the block of the internal EEPROM with the
counter at 1. -/
theorem iqrfPgmProcessCfgFile_post (w w1 : World) (r : Nat)
    (hl : w.PrepareMemBlock.MemoryBlock.length = 68)
    (hr : r = IQRF_PGM_FLASH_BLOCK_READY ∨ r = IQRF_PGM_EEPROM_BLOCK_READY)
    (h : iqrfPgmProcessCfgFile w = some (w1, r)) :
    (w1.PrepareMemBlock.MemoryBlockProcessState = 1 ∨ w1.PrepareMemBlock.MemoryBlockProcessState = 2)
      ∧ (w1.PrepareMemBlock.MemoryBlockProcessState = 2 ↔ flashPage w1.PrepareMemBlock.MemoryBlock)
      ∧ w1.PrepareMemBlock.MemoryBlock.length = 68 := by
  unfold iqrfPgmProcessCfgFile at h
  by_cases h0 : w.PrepareMemBlock.DataInBufferReady = 0
  · rw [if_pos h0] at h
    simp only [] at h
    unfold iqrfSuspendDriver at h
    split_ifs at h
    simp only [Option.some.injEq, Prod.mk.injEq] at h
    obtain ⟨W0, hW0⟩ : ∃ W0 : World, W0 =
        { w with
          PrepareMemBlock := { w.PrepareMemBlock with
            MemoryBlock := (((w.PrepareMemBlock.MemoryBlock.set 0
              (IQRF_CONFIG_MEM_L_ADR &&& 0x00FF)).set 1 (IQRF_CONFIG_MEM_L_ADR >>> 8)).set
              34 (IQRF_CONFIG_MEM_H_ADR &&& 0x00FF)).set 35 (IQRF_CONFIG_MEM_H_ADR >>> 8)
            MemoryBlockProcessState := 2 }
          IqrfControl := { w.IqrfControl with SuspendFlag := true }
          IqrfSpiControl := { w.IqrfSpiControl with SpiStat := SPI_DISABLED } } := ⟨_, rfl⟩
    have g1 : W0.PrepareMemBlock.MemoryBlockProcessState = 2 := by rw [hW0]
    have g2 : imageHeader W0.PrepareMemBlock.MemoryBlock = IQRF_CONFIG_MEM_L_ADR := by
      rw [hW0]
      show imageHeader ((((w.PrepareMemBlock.MemoryBlock.set 0
        (IQRF_CONFIG_MEM_L_ADR &&& 0x00FF)).set 1 (IQRF_CONFIG_MEM_L_ADR >>> 8)).set
        34 (IQRF_CONFIG_MEM_H_ADR &&& 0x00FF)).set 35 (IQRF_CONFIG_MEM_H_ADR >>> 8)) = _
      rw [imageHeader_set _ _ _ (by omega), imageHeader_set _ _ _ (by omega),
        imageHeader_set01 _ _ _ (by omega)]
      decide
    have g3 : W0.PrepareMemBlock.MemoryBlock.length = 68 := by
      rw [hW0]
      show (List.set (List.set (List.set (List.set _ _ _) _ _) _ _) _ _).length = 68
      rw [List.length_set, List.length_set, List.length_set, List.length_set, hl]
    rw [← hW0] at h
    obtain ⟨f1, f2, f3⟩ := cfgFold_pmb (List.range 32) W0
    have hp := (asmFrame_of_fileFrame _ _
      (iqrfReadByteFromFile_frame (List.foldl cfgReadStep W0 (List.range 32))).2.2.1).2.1
    rw [← h.1]
    show ((iqrfReadByteFromFile (List.foldl cfgReadStep W0 (List.range 32))).1.PrepareMemBlock.MemoryBlockProcessState = 1
        ∨ (iqrfReadByteFromFile (List.foldl cfgReadStep W0 (List.range 32))).1.PrepareMemBlock.MemoryBlockProcessState = 2)
      ∧ ((iqrfReadByteFromFile (List.foldl cfgReadStep W0 (List.range 32))).1.PrepareMemBlock.MemoryBlockProcessState = 2
        ↔ flashPage (iqrfReadByteFromFile (List.foldl cfgReadStep W0 (List.range 32))).1.PrepareMemBlock.MemoryBlock)
      ∧ (iqrfReadByteFromFile (List.foldl cfgReadStep W0 (List.range 32))).1.PrepareMemBlock.MemoryBlock.length = 68
    rw [hp, f1, f3, g1, g3]
    have hfl : flashPage (List.foldl cfgReadStep W0 (List.range 32)).PrepareMemBlock.MemoryBlock := by
      unfold flashPage
      rw [f2, g2]
      decide
    exact ⟨Or.inr rfl, ⟨fun _ => hfl, fun _ => rfl⟩, rfl⟩
  · rw [if_neg h0] at h
    by_cases h1 : w.PrepareMemBlock.DataInBufferReady = 1
    · rw [if_pos h1] at h
      simp only [Option.some.injEq, Prod.mk.injEq] at h
      rw [← h.1]
      have hh : imageHeader (((w.PrepareMemBlock.MemoryBlock.set 0 RFPGM_CFG_ADR).set 1 0x01).set 2
          (w.PrepareMemBlock.MemoryBlockNumber % 256)) = RFPGM_CFG_ADR + 256 * 0x01 := by
        rw [imageHeader_set _ _ _ (by omega), imageHeader_set01 _ _ _ (by omega)]
      have hnf : ¬ flashPage (((w.PrepareMemBlock.MemoryBlock.set 0 RFPGM_CFG_ADR).set 1 0x01).set 2
          (w.PrepareMemBlock.MemoryBlockNumber % 256)) :=
        not_flashPage_of_le _ (by rw [hh]; decide)
      refine ⟨Or.inl rfl, ⟨(fun h2 => by cases h2), fun h2 => absurd h2 hnf⟩, ?_⟩
      show (List.set (List.set (List.set _ _ _) _ _) _ _).length = 68
      rw [List.length_set, List.length_set, List.length_set, hl]
    · rw [if_neg h1] at h
      simp only [Option.some.injEq, Prod.mk.injEq] at h
      rcases hr with hr | hr
      · rw [hr] at h
        exact absurd h.2 (by decide)
      · rw [hr] at h
        exact absurd h.2 (by decide)

/-- C37. Sub-block counter invariant. Let the image have its 68 bytes. When
`iqrfPgmPrepareMemBlock` (entered with no overflow pending, or with the
overflow of a block of the serial memory, as it leaves one) or
`iqrfPgmProcessCfgFile` returns `IQRF_PGM_FLASH_BLOCK_READY` or
`IQRF_PGM_EEPROM_BLOCK_READY`, the sub-block counter
`MemoryBlockProcessState` is 1 or 2, and it is 2 exactly when the image
handed out is a flash page (its header is a word address of the licensed
area, in which the configuration page lies, or of the main area);
`iqrfPgmPrepareMemBlock` leaves the condition on a pending overflow true for
its next call. Hence the next call of the writer in the state `WRITE_HEX`,
ready to send, does not call the assembler: it sends one packet and
decrements the counter. -/
theorem sub_block_counter (w w1 : World) (r : Nat)
    (hl : w.PrepareMemBlock.MemoryBlock.length = 68)
    (hr : r = IQRF_PGM_FLASH_BLOCK_READY ∨ r = IQRF_PGM_EEPROM_BLOCK_READY) :
    ((w.PrepareMemBlock.DataOverflow ≠ 0 → imageHeader w.PrepareMemBlock.MemoryBlock ≤ 64) →
      iqrfPgmPrepareMemBlock w = some (w1, r) →
        (w1.PrepareMemBlock.MemoryBlockProcessState = 1
          ∨ w1.PrepareMemBlock.MemoryBlockProcessState = 2)
        ∧ (w1.PrepareMemBlock.MemoryBlockProcessState = 2
            ↔ flashPage w1.PrepareMemBlock.MemoryBlock)
        ∧ w1.PrepareMemBlock.MemoryBlock.length = 68
        ∧ (w1.PrepareMemBlock.DataOverflow ≠ 0 →
            imageHeader w1.PrepareMemBlock.MemoryBlock ≤ 64))
    ∧ (iqrfPgmProcessCfgFile w = some (w1, r) →
        (w1.PrepareMemBlock.MemoryBlockProcessState = 1
          ∨ w1.PrepareMemBlock.MemoryBlockProcessState = 2)
        ∧ (w1.PrepareMemBlock.MemoryBlockProcessState = 2
            ↔ flashPage w1.PrepareMemBlock.MemoryBlock)
        ∧ w1.PrepareMemBlock.MemoryBlock.length = 68)
    ∧ (w1.PrepareMemBlock.MemoryBlockProcessState = 1
        ∨ w1.PrepareMemBlock.MemoryBlockProcessState = 2 →
      ∀ v v1 q, v.PrepareMemBlock = w1.PrepareMemBlock →
        v.WriteCode.WriteCodeTaskSM = WriteCodeTask.WRITE_HEX → writeReady v = true →
        iqrfPgmWriteCodeFile v = some (v1, q) →
        v1.CodeFile = v.CodeFile
        ∧ v1.PrepareMemBlock.MemoryBlockProcessState + 1
            = w1.PrepareMemBlock.MemoryBlockProcessState
        ∧ ∃ p, sentPackets v1.trace = sentPackets v.trace ++ [p]) := by
  refine ⟨fun hov h => ?_, fun h => iqrfPgmProcessCfgFile_post w w1 r hl hr h, ?_⟩
  · obtain ⟨a1, a2, a3⟩ := iqrfPgmPrepareMemBlock_post w w1 r hl hov h
    exact ⟨(a3 hr).1, (a3 hr).2, a1, a2⟩
  · intro hc v v1 q hp hs hrd hv
    have hne : v.PrepareMemBlock.MemoryBlockProcessState ≠ 0 := by
      rw [hp]
      rcases hc with hc | hc <;> rw [hc] <;> decide
    obtain ⟨b1, -, b3, -, -, b6⟩ := writeHex_send v v1 q hs hrd hv hne
    refine ⟨b1, ?_, _, b6⟩
    rw [b3]
    show (v.PrepareMemBlock.MemoryBlockProcessState + 255) % 256 + 1 = _
    rw [hp]
    rcases hc with hc | hc <;> rw [hc]

/-- Witness for `sub_block_counter`: the first call of the configuration
assembler, on a file of one byte. -/
theorem sub_block_counter_witness :
    ∃ w1, iqrfPgmProcessCfgFile ({ CodeFile := [0xAB] } : World)
        = some (w1, IQRF_PGM_FLASH_BLOCK_READY)
      ∧ (w1.PrepareMemBlock.MemoryBlockProcessState = 1
          ∨ w1.PrepareMemBlock.MemoryBlockProcessState = 2)
      ∧ (w1.PrepareMemBlock.MemoryBlockProcessState = 2
          ↔ flashPage w1.PrepareMemBlock.MemoryBlock) := by
  obtain ⟨w1, h⟩ : ∃ w1, iqrfPgmProcessCfgFile ({ CodeFile := [0xAB] } : World)
      = some (w1, IQRF_PGM_FLASH_BLOCK_READY) := ⟨_, rfl⟩
  have h2 := (sub_block_counter ({ CodeFile := [0xAB] } : World) w1 IQRF_PGM_FLASH_BLOCK_READY
    (by decide) (Or.inl rfl)).2.1 h
  exact ⟨w1, h, h2.1, h2.2.1⟩

end IQRF
